import Mathlib


/-!
# GridFluidSim3D: a shallow embedding of `fluidsimulation.cpp`

The simulator's doubles and floats are modelled by exact rationals (`ℚ`), C++ `int`
indices by `Int`, container sizes by `Nat`.  An assertion failure, an out-of-range
access of a bounds-checked `Array3d`, or an out-of-range access of a `std::vector`
aborts the run; this is modelled by `none` in the `Option` monad.

The header `fluidsimulation.h` and the classes `Array3d` and `MACVelocityField` are
not part of the sources at hand.  What is needed of them is modelled from the
specification; each such definition says so in its doc comment.
-/

namespace GridFluidSim3D

/-! ## Data model -/

/-- Modelled from the spec: the cell classification constants `M_AIR`, `M_FLUID`,
`M_SOLID` of the absent header (section 3, "one of {AIR, FLUID, SOLID}"). -/
inductive Material where
  | M_AIR
  | M_FLUID
  | M_SOLID
  deriving DecidableEq, Repr

open Material

/-- The `GridIndex(i, j, k)` triple of the source. -/
structure GridIndex where
  i : Int
  j : Int
  k : Int
  deriving DecidableEq, Repr

/-- Stand-in for `glm::vec3` over exact arithmetic. -/
structure Vec3 where
  x : ℚ
  y : ℚ
  z : ℚ
  deriving DecidableEq

/-- Modelled from the spec: `Array3d<T>` of the absent header, "dense 3D array with
bounds-checked accessors and fill" (section 2).  The contents are a function of the
index; only in-range indices are ever read or written. -/
structure Array3d (α : Type) where
  width : Nat
  height : Nat
  depth : Nat
  grid : Int → Int → Int → α

namespace Array3d

variable {α : Type}

/-- Modelled from the spec: the bounds check of `Array3d`. -/
def isIndexInRange (g : Array3d α) (i j k : Int) : Bool :=
  decide (0 ≤ i ∧ i < g.width ∧ 0 ≤ j ∧ j < g.height ∧ 0 ≤ k ∧ k < g.depth)

/-- Modelled from the spec: the bounds-checked read `grid(i, j, k)`; an out-of-range
read is fatal (section 7). -/
def get (g : Array3d α) (i j k : Int) : Option α :=
  if g.isIndexInRange i j k then some (g.grid i j k) else none

/-- Modelled from the spec: the bounds-checked write `grid.set(i, j, k, v)`; an
out-of-range write is fatal. -/
def set (g : Array3d α) (i j k : Int) (v : α) : Option (Array3d α) :=
  if g.isIndexInRange i j k then
    some { g with grid := fun a b c => if a = i ∧ b = j ∧ c = k then v else g.grid a b c }
  else none

/-- Modelled from the spec: `grid.fill(v)` overwrites every cell with `v`. -/
def fill (g : Array3d α) (v : α) : Array3d α :=
  { g with grid := fun _ _ _ => v }

end Array3d

/-- A marker particle: world position and cached cell index (`MarkerParticle(p, i, j, k)`). -/
structure MarkerParticle where
  position : Vec3
  i : Int
  j : Int
  k : Int
  deriving DecidableEq

/-- Modelled from the spec: `MACVelocityField` of the absent class (sections 3, 4.1):
`U` of size `(W+1)·H·D`, `V` of size `W·(H+1)·D`, `W` of size `W·H·(D+1)`, each with
a parallel temp array. -/
structure MACVelocityField where
  u : Array3d ℚ
  v : Array3d ℚ
  w : Array3d ℚ
  tempU : Array3d ℚ
  tempV : Array3d ℚ
  tempW : Array3d ℚ

/-- Modelled from the spec: the `ImplicitFluidField` collaborator of the absent class
(section 6, "`is_inside(x,y,z) → bool`; iteration of seeded primitives"): the number of
points and cuboids added, and the inside test they induce. -/
structure ImplicitFluidField where
  numPoints : Nat
  numCuboids : Nat
  isInside : ℚ → ℚ → ℚ → Bool

/-- The `std::unordered_map<unsigned long long, int>` `_GridIndexToEigenVectorXdIndex`
as the list of its key-value pairs; a key occurs at most once when the list is built by
`hashInsert`. -/
abbrev HashTable := List (Nat × Int)

/-- The part of the `FluidSimulation` object the modelled member functions use. -/
structure FluidSimulation where
  _i_voxels : Nat
  _j_voxels : Nat
  _k_voxels : Nat
  _dx : ℚ
  _density : ℚ
  _CFLConditionNumber : ℚ
  _pressureSolveTolerance : ℚ
  _maxPressureSolveIterations : Nat
  _numAdvanceMarkerParticleThreads : Int
  _bodyForce : Vec3
  _MACVelocity : MACVelocityField
  _materialGrid : Array3d Material
  _pressureGrid : Array3d ℚ
  _layerGrid : Array3d Int
  _markerParticles : List MarkerParticle
  _fluidCellIndices : List GridIndex
  _minTimeStep : ℚ
  _maxTimeStep : ℚ
  _isSimulationRunning : Bool
  _isSimulationInitialized : Bool
  _isFluidInSimulation : Bool
  _isCurrentFrameFinished : Bool
  _currentFrame : Int
  _implicitFluidField : ImplicitFluidField
  _GridIndexToEigenVectorXdIndex : HashTable

/-! ## Loops -/

/-- The loop `for (int i = 0; i < n; i++) body`, threading the state through the
iterations; an aborting iteration aborts the loop. -/
def forRange {σ : Type} (n : Nat) (body : Int → σ → Option σ) (init : σ) : Option σ :=
  (List.range n).foldlM (fun s (i : Nat) => body (i : Int) s) init

/-! ## `_initializeSolidCells` -/

/-- Source lines 88-109: the three double loops that write `M_SOLID` on the six
boundary planes of the material grid. -/
def _initializeSolidCells (s : FluidSimulation) : Option FluidSimulation := do
  let g1 ← forRange s._j_voxels (fun j g =>
    forRange s._i_voxels (fun i g => do
      let g ← g.set i j 0 M_SOLID
      g.set i j ((s._k_voxels : Int) - 1) M_SOLID) g) s._materialGrid
  let g2 ← forRange s._k_voxels (fun k g =>
    forRange s._i_voxels (fun i g => do
      let g ← g.set i 0 k M_SOLID
      g.set i ((s._j_voxels : Int) - 1) k M_SOLID) g) g1
  let g3 ← forRange s._k_voxels (fun k g =>
    forRange s._j_voxels (fun j g => do
      let g ← g.set 0 j k M_SOLID
      g.set ((s._i_voxels : Int) - 1) j k M_SOLID) g) g2
  pure { s with _materialGrid := g3 }

/-- The triple loop `for k < depth, for j < height, for i < width` of the source, with
`i` innermost. -/
def forCells {σ : Type} (depth height width : Nat)
    (body : Int → Int → Int → σ → Option σ) (init : σ) : Option σ :=
  forRange depth (fun k s =>
    forRange height (fun j s =>
      forRange width (fun i s => body i j k s) s) s) init

/-- The loop `for (int idx = lo; idx <= hi; idx++) body`. -/
def forFromTo {σ : Type} (lo hi : Int) (body : Int → σ → Option σ) (init : σ) : Option σ :=
  forRange (hi - lo + 1).toNat (fun n s => body (lo + n) s) init

/-! ## Material queries -/

/-- Modelled from the spec: `_isCellAir` of the absent header, the bounds-checked read
of the material grid compared with `M_AIR`. -/
def _isCellAir (g : Array3d Material) (i j k : Int) : Option Bool := do
  let m ← g.get i j k
  pure (decide (m = M_AIR))

/-- Modelled from the spec: `_isCellFluid` of the absent header, the bounds-checked
read of the material grid compared with `M_FLUID`. -/
def _isCellFluid (g : Array3d Material) (i j k : Int) : Option Bool := do
  let m ← g.get i j k
  pure (decide (m = M_FLUID))

/-- Modelled from the spec: `_isCellSolid` of the absent header, the bounds-checked
read of the material grid compared with `M_SOLID`. -/
def _isCellSolid (g : Array3d Material) (i j k : Int) : Option Bool := do
  let m ← g.get i j k
  pure (decide (m = M_SOLID))

/-! ## `_updateFluidCells` -/

/-- Source lines 676-684: every `M_FLUID` cell is reset to `M_AIR`. -/
def clearFluidCells (g : Array3d Material) : Option (Array3d Material) :=
  forCells g.depth g.height g.width (fun i j k g => do
    if (← _isCellFluid g i j k) then g.set i j k M_AIR else pure g) g

/-- Source lines 686-691: every particle asserts that its cached cell is not solid
and marks it `M_FLUID`. -/
def markFluidCells (ps : List MarkerParticle) (g : Array3d Material) :
    Option (Array3d Material) :=
  ps.foldlM (fun g p => do
    if (← _isCellSolid g p.i p.j p.k) then none else g.set p.i p.j p.k M_FLUID) g

/-- Source lines 693-702: the fluid cell list is rebuilt by a sweep in `k`, `j`, `i`
order that appends every `M_FLUID` cell. -/
def collectFluidCells (g : Array3d Material) : Option (List GridIndex) :=
  forCells g.depth g.height g.width (fun i j k cells => do
    if (← _isCellFluid g i j k) then pure (cells ++ [GridIndex.mk i j k]) else pure cells) []

/-- Source lines 675-703. -/
def _updateFluidCells (s : FluidSimulation) : Option FluidSimulation := do
  let g1 ← clearFluidCells s._materialGrid
  let g2 ← markFluidCells s._markerParticles g1
  let cells ← collectFluidCells g2
  pure { s with _materialGrid := g2, _fluidCellIndices := cells }

/-! ## The staggered velocity field -/

namespace MACVelocityField

/-- Modelled from the spec: `isIndexInRangeU` of the absent class, the bounds check of
the `U` array. -/
def isIndexInRangeU (m : MACVelocityField) (i j k : Int) : Bool := m.u.isIndexInRange i j k

/-- Modelled from the spec: `isIndexInRangeV` of the absent class. -/
def isIndexInRangeV (m : MACVelocityField) (i j k : Int) : Bool := m.v.isIndexInRange i j k

/-- Modelled from the spec: `isIndexInRangeW` of the absent class. -/
def isIndexInRangeW (m : MACVelocityField) (i j k : Int) : Bool := m.w.isIndexInRange i j k

/-- Modelled from the spec: the read `U(i, j, k)` of the absent class, "with
zero-outside-range default" (section 4.1). -/
def U (m : MACVelocityField) (i j k : Int) : ℚ :=
  if m.u.isIndexInRange i j k then m.u.grid i j k else 0

/-- Modelled from the spec: the read `V(i, j, k)`, zero outside the range. -/
def V (m : MACVelocityField) (i j k : Int) : ℚ :=
  if m.v.isIndexInRange i j k then m.v.grid i j k else 0

/-- Modelled from the spec: the read `W(i, j, k)`, zero outside the range. -/
def W (m : MACVelocityField) (i j k : Int) : ℚ :=
  if m.w.isIndexInRange i j k then m.w.grid i j k else 0

/-- Modelled from the spec: the write `setU` of the absent class, a bounds-checked
write into the `U` array. -/
def setU (m : MACVelocityField) (i j k : Int) (val : ℚ) : Option MACVelocityField := do
  let a ← m.u.set i j k val
  pure { m with u := a }

/-- Modelled from the spec: the write `setV`. -/
def setV (m : MACVelocityField) (i j k : Int) (val : ℚ) : Option MACVelocityField := do
  let a ← m.v.set i j k val
  pure { m with v := a }

/-- Modelled from the spec: the write `setW`. -/
def setW (m : MACVelocityField) (i j k : Int) (val : ℚ) : Option MACVelocityField := do
  let a ← m.w.set i j k val
  pure { m with w := a }

/-- Modelled from the spec: the write `setTempU` into the temp array parallel to `U`. -/
def setTempU (m : MACVelocityField) (i j k : Int) (val : ℚ) : Option MACVelocityField := do
  let a ← m.tempU.set i j k val
  pure { m with tempU := a }

/-- Modelled from the spec: the write `setTempV`. -/
def setTempV (m : MACVelocityField) (i j k : Int) (val : ℚ) : Option MACVelocityField := do
  let a ← m.tempV.set i j k val
  pure { m with tempV := a }

/-- Modelled from the spec: the write `setTempW`. -/
def setTempW (m : MACVelocityField) (i j k : Int) (val : ℚ) : Option MACVelocityField := do
  let a ← m.tempW.set i j k val
  pure { m with tempW := a }

/-- Modelled from the spec: the write `addU` of the absent class, which adds `val` to
the stored `U` value by a bounds-checked read and write. -/
def addU (m : MACVelocityField) (i j k : Int) (val : ℚ) : Option MACVelocityField := do
  let old ← m.u.get i j k
  let a ← m.u.set i j k (old + val)
  pure { m with u := a }

/-- Modelled from the spec: the write `addV`. -/
def addV (m : MACVelocityField) (i j k : Int) (val : ℚ) : Option MACVelocityField := do
  let old ← m.v.get i j k
  let a ← m.v.set i j k (old + val)
  pure { m with v := a }

/-- Modelled from the spec: the write `addW`. -/
def addW (m : MACVelocityField) (i j k : Int) (val : ℚ) : Option MACVelocityField := do
  let old ← m.w.get i j k
  let a ← m.w.set i j k (old + val)
  pure { m with w := a }

/-- Modelled from the spec: `resetTemporaryVelocityField` of the absent class,
"`reset_temp` zeros temp" (section 4.1). -/
def resetTemporaryVelocityField (m : MACVelocityField) : MACVelocityField :=
  { m with tempU := m.tempU.fill 0, tempV := m.tempV.fill 0, tempW := m.tempW.fill 0 }

/-- Modelled from the spec: `commitTemporaryVelocityFieldValues` of the absent class,
"`commit_temp` swaps temp into live" (section 4.1). -/
def commitTemporaryVelocityFieldValues (m : MACVelocityField) : MACVelocityField :=
  { u := m.tempU, v := m.tempV, w := m.tempW, tempU := m.u, tempV := m.v, tempW := m.w }

end MACVelocityField

/-! ## Faces and the cells they border -/

/-- Modelled from the spec: `_isCellIndexInRange` of the absent header, the cell index
lies in the `W × H × D` grid. -/
def _isCellIndexInRange (s : FluidSimulation) (i j k : Int) : Bool :=
  decide (0 ≤ i ∧ i < s._i_voxels ∧ 0 ≤ j ∧ j < s._j_voxels ∧ 0 ≤ k ∧ k < s._k_voxels)

/-- The cell `(i, j, k)` exists in the grid and holds the value `v`. -/
def cellHolds {α : Type} [DecidableEq α] (g : Array3d α) (i j k : Int) (v : α) : Bool :=
  g.isIndexInRange i j k && decide (g.grid i j k = v)

/-- Modelled from the spec: `_isFaceBorderingMaterialU` of the absent header.  The
`U` face `(i, j, k)` is the x-face shared by the cells `(i-1, j, k)` and `(i, j, k)`
(section 3); it borders the material when one of these cells exists and holds it. -/
def _isFaceBorderingMaterialU (g : Array3d Material) (i j k : Int) (mat : Material) : Bool :=
  cellHolds g (i - 1) j k mat || cellHolds g i j k mat

/-- Modelled from the spec: `_isFaceBorderingMaterialV`, for the y-face shared by the
cells `(i, j-1, k)` and `(i, j, k)`. -/
def _isFaceBorderingMaterialV (g : Array3d Material) (i j k : Int) (mat : Material) : Bool :=
  cellHolds g i (j - 1) k mat || cellHolds g i j k mat

/-- Modelled from the spec: `_isFaceBorderingMaterialW`, for the z-face shared by the
cells `(i, j, k-1)` and `(i, j, k)`. -/
def _isFaceBorderingMaterialW (g : Array3d Material) (i j k : Int) (mat : Material) : Bool :=
  cellHolds g i j (k - 1) mat || cellHolds g i j k mat

/-- Modelled from the spec: `_isFaceBorderingLayerIndexU` of the absent header, the
`U` face borders a cell whose layer value is `layer`. -/
def _isFaceBorderingLayerIndexU (lg : Array3d Int) (i j k : Int) (layer : Int) : Bool :=
  cellHolds lg (i - 1) j k layer || cellHolds lg i j k layer

/-- Modelled from the spec: `_isFaceBorderingLayerIndexV`. -/
def _isFaceBorderingLayerIndexV (lg : Array3d Int) (i j k : Int) (layer : Int) : Bool :=
  cellHolds lg i (j - 1) k layer || cellHolds lg i j k layer

/-- Modelled from the spec: `_isFaceBorderingLayerIndexW`. -/
def _isFaceBorderingLayerIndexW (lg : Array3d Int) (i j k : Int) (layer : Int) : Bool :=
  cellHolds lg i j (k - 1) layer || cellHolds lg i j k layer

/-- The cell `(i, j, k)` exists in the layer grid and its layer value is at least
`1`. -/
def cellExtrapolated (lg : Array3d Int) (i j k : Int) : Bool :=
  lg.isIndexInRange i j k && decide (1 ≤ lg.grid i j k)

/-- Modelled from the spec: `_isFaceVelocityExtrapolatedU` of the absent header, the
`U` face "has been extrapolated" (section 4.6): it borders a cell of an extrapolation
layer, that is, of layer value at least `1`. -/
def _isFaceVelocityExtrapolatedU (lg : Array3d Int) (i j k : Int) : Bool :=
  cellExtrapolated lg (i - 1) j k || cellExtrapolated lg i j k

/-- Modelled from the spec: `_isFaceVelocityExtrapolatedV`. -/
def _isFaceVelocityExtrapolatedV (lg : Array3d Int) (i j k : Int) : Bool :=
  cellExtrapolated lg i (j - 1) k || cellExtrapolated lg i j k

/-- Modelled from the spec: `_isFaceVelocityExtrapolatedW`. -/
def _isFaceVelocityExtrapolatedW (lg : Array3d Int) (i j k : Int) : Bool :=
  cellExtrapolated lg i j (k - 1) || cellExtrapolated lg i j k

/-- Source lines 705-712: the six face neighbours of a cell, in the order of the
array `n[0..5]`. -/
def _getNeighbourGridIndices6 (i j k : Int) : List GridIndex :=
  [⟨i - 1, j, k⟩, ⟨i + 1, j, k⟩, ⟨i, j - 1, k⟩, ⟨i, j + 1, k⟩, ⟨i, j, k - 1⟩, ⟨i, j, k + 1⟩]

/-! ## Extrapolation layers -/

/-- Source lines 728-749: one sweep that marks with `layerIndex` every unreached
non-solid neighbour of a non-solid cell of layer `layerIndex - 1`. -/
def _updateExtrapolationLayer (s : FluidSimulation) (layerIndex : Int)
    (lg : Array3d Int) : Option (Array3d Int) :=
  forCells lg.depth lg.height lg.width (fun i j k lg => do
    if (← lg.get i j k) = layerIndex - 1 then
      if !(← _isCellSolid s._materialGrid i j k) then
        (_getNeighbourGridIndices6 i j k).foldlM (fun lg n => do
          if _isCellIndexInRange s n.i n.j n.k then
            if (← lg.get n.i n.j n.k) = -1 then
              if !(← _isCellSolid s._materialGrid n.i n.j n.k) then
                lg.set n.i n.j n.k layerIndex
              else pure lg
            else pure lg
          else pure lg) lg
      else pure lg
    else pure lg) lg

/-- Source lines 751-768: the layer grid is cleared to `-1`, the cells of the fluid
cell list get layer `0`, and the layers `1 … ⌈CFL⌉ + 2` are swept in turn; the
number of layers is returned. -/
def _updateExtrapolationLayers (s : FluidSimulation) : Option (FluidSimulation × Int) := do
  let lg := s._layerGrid.fill (-1)
  let lg ← s._fluidCellIndices.foldlM (fun lg idx => lg.set idx.i idx.j idx.k 0) lg
  let numLayers : Int := ⌈s._CFLConditionNumber⌉ + 2
  let lg ← forFromTo 1 numLayers (fun layer lg => _updateExtrapolationLayer s layer lg) lg
  pure ({ s with _layerGrid := lg }, numLayers)

/-! ## Velocity extrapolation -/

/-- Source lines 770-792: the mean of `U` over the face neighbours that are in range
for `U` and border a cell of layer `layerIdx - 1`; `0` when the sum is `0`. -/
def _getExtrapolatedVelocityForFaceU (m : MACVelocityField) (lg : Array3d Int)
    (i j k : Int) (layerIdx : Int) : ℚ :=
  let acc := (_getNeighbourGridIndices6 i j k).foldl (fun (acc : ℚ × ℚ) c =>
    if m.isIndexInRangeU c.i c.j c.k &&
        _isFaceBorderingLayerIndexU lg c.i c.j c.k (layerIdx - 1) then
      (acc.1 + m.U c.i c.j c.k, acc.2 + 1)
    else acc) (0, 0)
  if acc.1 = 0 then 0 else acc.1 / acc.2

/-- Source lines 794-816: the `V` variant. -/
def _getExtrapolatedVelocityForFaceV (m : MACVelocityField) (lg : Array3d Int)
    (i j k : Int) (layerIdx : Int) : ℚ :=
  let acc := (_getNeighbourGridIndices6 i j k).foldl (fun (acc : ℚ × ℚ) c =>
    if m.isIndexInRangeV c.i c.j c.k &&
        _isFaceBorderingLayerIndexV lg c.i c.j c.k (layerIdx - 1) then
      (acc.1 + m.V c.i c.j c.k, acc.2 + 1)
    else acc) (0, 0)
  if acc.1 = 0 then 0 else acc.1 / acc.2

/-- Source lines 818-840: the `W` variant. -/
def _getExtrapolatedVelocityForFaceW (m : MACVelocityField) (lg : Array3d Int)
    (i j k : Int) (layerIdx : Int) : ℚ :=
  let acc := (_getNeighbourGridIndices6 i j k).foldl (fun (acc : ℚ × ℚ) c =>
    if m.isIndexInRangeW c.i c.j c.k &&
        _isFaceBorderingLayerIndexW lg c.i c.j c.k (layerIdx - 1) then
      (acc.1 + m.W c.i c.j c.k, acc.2 + 1)
    else acc) (0, 0)
  if acc.1 = 0 then 0 else acc.1 / acc.2

/-- Source lines 842-885: the temp field is reset, every face that borders layer
`idx`, does not border layer `idx - 1` and does not border a solid cell gets its
extrapolated value in the temp field, and the temp field is committed. -/
def _extrapolateVelocitiesForLayerIndex (s : FluidSimulation) (idx : Int) :
    Option FluidSimulation := do
  let m := s._MACVelocity.resetTemporaryVelocityField
  let m ← forCells s._k_voxels s._j_voxels (s._i_voxels + 1) (fun i j k m =>
    if _isFaceBorderingLayerIndexU s._layerGrid i j k idx &&
        !_isFaceBorderingLayerIndexU s._layerGrid i j k (idx - 1) &&
        !_isFaceBorderingMaterialU s._materialGrid i j k M_SOLID then
      m.setTempU i j k (_getExtrapolatedVelocityForFaceU m s._layerGrid i j k idx)
    else pure m) m
  let m ← forCells s._k_voxels (s._j_voxels + 1) s._i_voxels (fun i j k m =>
    if _isFaceBorderingLayerIndexV s._layerGrid i j k idx &&
        !_isFaceBorderingLayerIndexV s._layerGrid i j k (idx - 1) &&
        !_isFaceBorderingMaterialV s._materialGrid i j k M_SOLID then
      m.setTempV i j k (_getExtrapolatedVelocityForFaceV m s._layerGrid i j k idx)
    else pure m) m
  let m ← forCells (s._k_voxels + 1) s._j_voxels s._i_voxels (fun i j k m =>
    if _isFaceBorderingLayerIndexW s._layerGrid i j k idx &&
        !_isFaceBorderingLayerIndexW s._layerGrid i j k (idx - 1) &&
        !_isFaceBorderingMaterialW s._materialGrid i j k M_SOLID then
      m.setTempW i j k (_getExtrapolatedVelocityForFaceW m s._layerGrid i j k idx)
    else pure m) m
  pure { s with _MACVelocity := m.commitTemporaryVelocityFieldValues }

/-- Source lines 887-917: every face that does not border a fluid cell is set to
`0`. -/
def _resetExtrapolatedFluidVelocities (s : FluidSimulation) : Option FluidSimulation := do
  let m := s._MACVelocity
  let m ← forCells s._k_voxels s._j_voxels (s._i_voxels + 1) (fun i j k m =>
    if !_isFaceBorderingMaterialU s._materialGrid i j k M_FLUID then m.setU i j k 0
    else pure m) m
  let m ← forCells s._k_voxels (s._j_voxels + 1) s._i_voxels (fun i j k m =>
    if !_isFaceBorderingMaterialV s._materialGrid i j k M_FLUID then m.setV i j k 0
    else pure m) m
  let m ← forCells (s._k_voxels + 1) s._j_voxels s._i_voxels (fun i j k m =>
    if !_isFaceBorderingMaterialW s._materialGrid i j k M_FLUID then m.setW i j k 0
    else pure m) m
  pure { s with _MACVelocity := m }

/-- Source lines 919-926. -/
def _extrapolateFluidVelocities (s : FluidSimulation) : Option FluidSimulation := do
  let s ← _resetExtrapolatedFluidVelocities s
  let (s, numLayers) ← _updateExtrapolationLayers s
  forFromTo 1 numLayers (fun i s => _extrapolateVelocitiesForLayerIndex s i) s

/-! ## Pressure projection -/

/-- The short-circuit conjunction `a && b` of two conditions whose evaluation may
abort: `b` is evaluated only when `a` holds. -/
def andAlso (a b : Option Bool) : Option Bool := do
  if (← a) then b else pure false

/-- Modelled from the spec: `VectorCoefficients` of the absent header, one double per
cell held in the `Array3d` member `vector`, zero after construction. -/
structure VectorCoefficients where
  vector : Array3d ℚ

/-- Modelled from the spec: the constructor `VectorCoefficients(i, j, k)`. -/
def VectorCoefficients.new (W H D : Nat) : VectorCoefficients :=
  ⟨⟨W, H, D, fun _ _ _ => 0⟩⟩

/-- Source lines 1466-1482: the value `unext` written for the `U` face `(i, j, k)`,
whose straddling cells are `(i-1, j, k)` and `(i, j, k)`. -/
def pressureCorrectedU (s : FluidSimulation) (m : MACVelocityField) (dt : ℚ)
    (i j k : Int) : Option ℚ := do
  let usolid : ℚ := 0
  let scale := dt / (s._density * s._dx)
  let invscale := 1 / scale
  let ci := i - 1
  let cj := j
  let ck := k
  let p ← (do
    if (← andAlso ((_isCellSolid s._materialGrid ci cj ck).map not)
        ((_isCellSolid s._materialGrid (ci + 1) cj ck).map not)) then
      let p0 ← s._pressureGrid.get ci cj ck
      let p1 ← s._pressureGrid.get (ci + 1) cj ck
      pure (p0, p1)
    else if (← _isCellSolid s._materialGrid ci cj ck) then
      let p1 ← s._pressureGrid.get (ci + 1) cj ck
      pure (p1 - invscale * (m.U i j k - usolid), p1)
    else
      let p0 ← s._pressureGrid.get ci cj ck
      pure (p0, p0 + invscale * (m.U i j k - usolid)))
  pure (m.U i j k - scale * (p.2 - p.1))

/-- Source lines 1493-1511: the value `vnext` written for the `V` face `(i, j, k)`,
whose straddling cells are `(i, j-1, k)` and `(i, j, k)`. -/
def pressureCorrectedV (s : FluidSimulation) (m : MACVelocityField) (dt : ℚ)
    (i j k : Int) : Option ℚ := do
  let usolid : ℚ := 0
  let scale := dt / (s._density * s._dx)
  let invscale := 1 / scale
  let ci := i
  let cj := j - 1
  let ck := k
  let p ← (do
    if (← andAlso ((_isCellSolid s._materialGrid ci cj ck).map not)
        ((_isCellSolid s._materialGrid ci (cj + 1) ck).map not)) then
      let p0 ← s._pressureGrid.get ci cj ck
      let p1 ← s._pressureGrid.get ci (cj + 1) ck
      pure (p0, p1)
    else if (← _isCellSolid s._materialGrid ci cj ck) then
      let p1 ← s._pressureGrid.get ci (cj + 1) ck
      pure (p1 - invscale * (m.V i j k - usolid), p1)
    else
      let p0 ← s._pressureGrid.get ci cj ck
      pure (p0, p0 + invscale * (m.V i j k - usolid)))
  pure (m.V i j k - scale * (p.2 - p.1))

/-- Source lines 1522-1540: the value `wnext` written for the `W` face `(i, j, k)`,
whose straddling cells are `(i, j, k-1)` and `(i, j, k)`. -/
def pressureCorrectedW (s : FluidSimulation) (m : MACVelocityField) (dt : ℚ)
    (i j k : Int) : Option ℚ := do
  let usolid : ℚ := 0
  let scale := dt / (s._density * s._dx)
  let invscale := 1 / scale
  let ci := i
  let cj := j
  let ck := k - 1
  let p ← (do
    if (← andAlso ((_isCellSolid s._materialGrid ci cj ck).map not)
        ((_isCellSolid s._materialGrid ci cj (ck + 1)).map not)) then
      let p0 ← s._pressureGrid.get ci cj ck
      let p1 ← s._pressureGrid.get ci cj (ck + 1)
      pure (p0, p1)
    else if (← _isCellSolid s._materialGrid ci cj ck) then
      let p1 ← s._pressureGrid.get ci cj (ck + 1)
      pure (p1 - invscale * (m.W i j k - usolid), p1)
    else
      let p0 ← s._pressureGrid.get ci cj ck
      pure (p0, p0 + invscale * (m.W i j k - usolid)))
  pure (m.W i j k - scale * (p.2 - p.1))

/-- Source lines 1455-1548: the temp field is reset, every face bordering a fluid
cell gets its pressure-corrected value in the temp field, and the temp field is
committed. -/
def _applyPressureToVelocityField (s : FluidSimulation) (dt : ℚ) : Option FluidSimulation := do
  let m := s._MACVelocity.resetTemporaryVelocityField
  let m ← forCells s._k_voxels s._j_voxels (s._i_voxels + 1) (fun i j k m =>
    if _isFaceBorderingMaterialU s._materialGrid i j k M_FLUID then do
      let unext ← pressureCorrectedU s m dt i j k
      m.setTempU i j k unext
    else pure m) m
  let m ← forCells s._k_voxels (s._j_voxels + 1) s._i_voxels (fun i j k m =>
    if _isFaceBorderingMaterialV s._materialGrid i j k M_FLUID then do
      let vnext ← pressureCorrectedV s m dt i j k
      m.setTempV i j k vnext
    else pure m) m
  let m ← forCells (s._k_voxels + 1) s._j_voxels s._i_voxels (fun i j k m =>
    if _isFaceBorderingMaterialW s._materialGrid i j k M_FLUID then do
      let wnext ← pressureCorrectedW s m dt i j k
      m.setTempW i j k wnext
    else pure m) m
  pure { s with _MACVelocity := m.commitTemporaryVelocityFieldValues }

/-- Source lines 977-979: the divergence term of the fluid cell `(i, j, k)`, before
the solid boundary fix. -/
def rawNegativeDivergence (s : FluidSimulation) (i j k : Int) : ℚ :=
  let scale := 1 / s._dx;
  -scale * (s._MACVelocity.U (i + 1) j k - s._MACVelocity.U i j k +
            s._MACVelocity.V i (j + 1) k - s._MACVelocity.V i j k +
            s._MACVelocity.W i j (k + 1) - s._MACVelocity.W i j k)

/-- One of the six conditional updates of source lines 993-1018: when the cell
`(ni, nj, nk)` is solid, `delta` is added to the entry of `(i, j, k)`. -/
def solidFix (s : FluidSimulation) (i j k ni nj nk : Int) (delta : ℚ)
    (b : VectorCoefficients) : Option VectorCoefficients := do
  if (← _isCellSolid s._materialGrid ni nj nk) then
    let old ← b.vector.get i j k
    let value := old + delta
    let a ← b.vector.set i j k value
    pure ⟨a⟩
  else pure b

/-- Source lines 969-1024: the negative divergence of every cell of the fluid cell
list is stored in `b`, corrected at solid neighbours (solids are stationary), and the
largest magnitude is returned. -/
def _calculateNegativeDivergenceVector (s : FluidSimulation) (b : VectorCoefficients) :
    Option (VectorCoefficients × ℚ) := do
  let scale := 1 / s._dx
  let b ← s._fluidCellIndices.foldlM (fun (b : VectorCoefficients) idx => do
    let a ← b.vector.set idx.i idx.j idx.k (rawNegativeDivergence s idx.i idx.j idx.k)
    pure (VectorCoefficients.mk a)) b
  let usolid : ℚ := 0
  s._fluidCellIndices.foldlM (fun (acc : VectorCoefficients × ℚ) idx => do
    let i := idx.i
    let j := idx.j
    let k := idx.k
    let b := acc.1
    let b ← solidFix s i j k (i - 1) j k (-(scale * (s._MACVelocity.U i j k - usolid))) b
    let b ← solidFix s i j k (i + 1) j k (scale * (s._MACVelocity.U (i + 1) j k - usolid)) b
    let b ← solidFix s i j k i (j - 1) k (-(scale * (s._MACVelocity.V i j k - usolid))) b
    let b ← solidFix s i j k i (j + 1) k (scale * (s._MACVelocity.V i (j + 1) k - usolid)) b
    let b ← solidFix s i j k i j (k - 1) (-(scale * (s._MACVelocity.W i j k - usolid))) b
    let b ← solidFix s i j k i j (k + 1) (scale * (s._MACVelocity.W i j (k + 1) - usolid)) b
    let v ← b.vector.get i j k
    let maxDivergence := max acc.2 (abs v)
    pure (b, maxDivergence)) (b, 0)

/-- Source lines 1196-1206: the number of the six neighbours that are not solid. -/
def _getNumFluidOrAirCellNeighbours (g : Array3d Material) (i j k : Int) : Option Nat := do
  let mut n := 0
  if !(← _isCellSolid g (i - 1) j k) then n := n + 1
  if !(← _isCellSolid g (i + 1) j k) then n := n + 1
  if !(← _isCellSolid g i (j - 1) k) then n := n + 1
  if !(← _isCellSolid g i (j + 1) k) then n := n + 1
  if !(← _isCellSolid g i j (k - 1)) then n := n + 1
  if !(← _isCellSolid g i j (k + 1)) then n := n + 1
  pure n

/-! ## Geometry and particle advance -/

/-- Componentwise sum of two vectors (`glm::vec3 + glm::vec3`). -/
def Vec3.add (a b : Vec3) : Vec3 := ⟨a.x + b.x, a.y + b.y, a.z + b.z⟩

/-- Scalar multiple of a vector (`float * glm::vec3`). -/
def Vec3.scale (c : ℚ) (a : Vec3) : Vec3 := ⟨c * a.x, c * a.y, c * a.z⟩

/-- Source lines 661-666: `positionToGridIndex`, the componentwise floor of
`p * (1 / dx)`. -/
def positionToGridIndex (dx : ℚ) (p : Vec3) : GridIndex :=
  let invdx := 1 / dx
  ⟨⌊p.x * invdx⌋, ⌊p.y * invdx⌋, ⌊p.z * invdx⌋⟩

/-- Modelled from the spec: `_isPositionInGrid` of the absent header; a position is
in the domain when each coordinate lies in `[0, n·dx)` for the voxel count `n` of its
axis (sections 3 and 4.10). -/
def _isPositionInGrid (s : FluidSimulation) (x y z : ℚ) : Bool :=
  decide (0 ≤ x ∧ 0 ≤ y ∧ 0 ≤ z ∧
    x < s._dx * s._i_voxels ∧ y < s._dx * s._j_voxels ∧ z < s._dx * s._k_voxels)

/-- Code whose outcome is left arbitrary.  For the particle advance: the trilinear
sampler of the absent `MACVelocityField` class, and the solid collision routine
(source lines 436-510, which normalises with a square root); the latter returns the
collision point and normal, or aborts on one of its assertions.  For the substep: the
semi-Lagrangian advection stage (source lines 537-614), which samples the absent
class and writes nothing but the velocity field, given here by the velocity field it
leaves; and the pressure solve stage (source lines 1356-1378), whose preconditioner
takes square roots and which writes nothing but the pressure grid and the cell-index
hash table, given here by the pressure grid and the hash table it leaves. -/
structure Collaborators where
  evaluateVelocityAtPosition : MACVelocityField → Vec3 → Vec3
  _calculateSolidCellCollision : FluidSimulation → Vec3 → Vec3 → Option (Vec3 × Vec3)
  _advectVelocityField : FluidSimulation → ℚ → Option MACVelocityField
  _updatePressureGrid : FluidSimulation → ℚ → Option (Array3d ℚ × HashTable)

/-- Source lines 204-212: one classical Runge-Kutta step from `p0` with initial slope
`v0`, sampling the velocity field `vel`. -/
def _RK4 (vel : Vec3 → Vec3) (p0 v0 : Vec3) (dt : ℚ) : Vec3 :=
  let k1 := v0
  let k2 := vel (p0.add (Vec3.scale (0.5 * dt) k1))
  let k3 := vel (p0.add (Vec3.scale (0.5 * dt) k2))
  let k4 := vel (p0.add (Vec3.scale dt k3))
  p0.add (Vec3.scale (dt / 6)
    (((k1.add (Vec3.scale 2 k2)).add (Vec3.scale 2 k3)).add k4))

/-- Source lines 1387-1420: the body of the loop of `_advanceRangeOfMarkerParticles`
for the particle at position `idx` of the particle vector `ps`. -/
def advanceMarkerParticle (env : Collaborators) (s : FluidSimulation) (dt : ℚ)
    (idx : Int) (ps : List MarkerParticle) : Option (List MarkerParticle) := do
  let mp ← (if 0 ≤ idx then ps[idx.toNat]? else none)
  let vi := env.evaluateVelocityAtPosition s._MACVelocity mp.position
  let p := _RK4 (env.evaluateVelocityAtPosition s._MACVelocity) mp.position vi dt
  if !(_isPositionInGrid s p.x p.y p.z) then pure ps
  else do
    let c := positionToGridIndex s._dx p
    let p ← (if (← _isCellSolid s._materialGrid c.i c.j c.k) then do
        let cn ← env._calculateSolidCellCollision s mp.position p
        pure (cn.1.add (Vec3.scale (0.001 * s._dx) cn.2))
      else pure p)
    let c := positionToGridIndex s._dx p
    if !(← _isCellSolid s._materialGrid c.i c.j c.k) then
      pure (ps.set idx.toNat { position := p, i := c.i, j := c.j, k := c.k })
    else pure ps

/-- Source lines 1380-1423. -/
def _advanceRangeOfMarkerParticles (env : Collaborators) (s : FluidSimulation)
    (startIdx endIdx : Int) (dt : ℚ) : Option FluidSimulation := do
  if ¬ (startIdx ≤ endIdx) then none
  else do
    let ps ← forFromTo startIdx endIdx (advanceMarkerParticle env s dt) s._markerParticles
    pure { s with _markerParticles := ps }

/-- The particle invariant of section 3: the cached index is the floor of
`position / dx` and names a cell of the material grid `g` that is not solid. -/
def ParticleInvariant (dx : ℚ) (g : Array3d Material) (p : MarkerParticle) : Prop :=
  p.i = ⌊p.position.x / dx⌋ ∧ p.j = ⌊p.position.y / dx⌋ ∧ p.k = ⌊p.position.z / dx⌋ ∧
    ∃ m, g.get p.i p.j p.k = some m ∧ m ≠ M_SOLID

/-! ## Body forces, the particle workers and the substep -/

/-- Source lines 928-967: for each axis with a non-zero body force, `force · dt` is
added to every face that borders a fluid cell or has been extrapolated. -/
def _applyBodyForcesToVelocityField (s : FluidSimulation) (dt : ℚ) :
    Option FluidSimulation := do
  let m := s._MACVelocity
  let m ← (if |s._bodyForce.x| > 0 then
      forCells s._k_voxels s._j_voxels (s._i_voxels + 1) (fun i j k m =>
        if _isFaceBorderingMaterialU s._materialGrid i j k M_FLUID ||
            _isFaceVelocityExtrapolatedU s._layerGrid i j k then
          m.addU i j k (s._bodyForce.x * dt)
        else pure m) m
    else pure m)
  let m ← (if |s._bodyForce.y| > 0 then
      forCells s._k_voxels (s._j_voxels + 1) s._i_voxels (fun i j k m =>
        if _isFaceBorderingMaterialV s._materialGrid i j k M_FLUID ||
            _isFaceVelocityExtrapolatedV s._layerGrid i j k then
          m.addV i j k (s._bodyForce.y * dt)
        else pure m) m
    else pure m)
  let m ← (if |s._bodyForce.z| > 0 then
      forCells (s._k_voxels + 1) s._j_voxels s._i_voxels (fun i j k m =>
        if _isFaceBorderingMaterialW s._materialGrid i j k M_FLUID ||
            _isFaceVelocityExtrapolatedW s._layerGrid i j k then
          m.addW i j k (s._bodyForce.z * dt)
        else pure m) m
    else pure m)
  pure { s with _MACVelocity := m }

/-- Source lines 1428-1439: the start and end indices of the contiguous particle
ranges of the workers; `size / numThreads` is the truncating integer division, and
a worker count of `0` makes that division undefined. -/
def particleRanges (size numThreads : Int) : Option (List Int × List Int) := do
  if numThreads = 0 then none
  else
    let chunksize := Int.tdiv size numThreads
    forRange numThreads.toNat (fun i (acc : List Int × List Int) => do
      let startIdx ← (if i = 0 then pure 0 else do
        let e ← acc.2[(i - 1).toNat]?
        pure (e + 1))
      let endIdx := if i = numThreads - 1 then size - 1 else startIdx + chunksize - 1
      pure (acc.1 ++ [startIdx], acc.2 ++ [endIdx])) ([], [])

/-- Source lines 1425-1453.  The workers mutate disjoint ranges of the particle
vector and read state that no worker writes; they are run one after the other, in
the order they are started. -/
def _advanceMarkerParticles (env : Collaborators) (s : FluidSimulation) (dt : ℚ) :
    Option FluidSimulation := do
  let size : Int := s._markerParticles.length
  let numThreads := s._numAdvanceMarkerParticleThreads
  let ranges ← particleRanges size numThreads
  forRange numThreads.toNat (fun i s => do
    let startIdx ← ranges.1[i.toNat]?
    let endIdx ← ranges.2[i.toNat]?
    _advanceRangeOfMarkerParticles env s startIdx endIdx dt) s

/-- Source lines 1550-1643, without the timers and the console output: the seven
stages of a substep in order. -/
def _stepFluid (env : Collaborators) (s : FluidSimulation) (dt : ℚ) :
    Option FluidSimulation := do
  let s ← _updateFluidCells s
  let s ← _extrapolateFluidVelocities s
  let s ← _applyBodyForcesToVelocityField s dt
  let m ← env._advectVelocityField s dt
  let s := { s with _MACVelocity := m }
  let p ← env._updatePressureGrid s dt
  let s := { s with _pressureGrid := p.1, _GridIndexToEigenVectorXdIndex := p.2 }
  let s ← _applyPressureToVelocityField s dt
  _advanceMarkerParticles env s dt

/-! ## Auxiliary notions used in the proofs -/

/-- The cells of a `depth × height × width` sweep in the order the triple loop visits
them. -/
def cellList (depth height width : Nat) : List GridIndex :=
  (List.range depth).flatMap fun (k : Nat) =>
    (List.range height).flatMap fun (j : Nat) =>
      (List.range width).map fun (i : Nat) => GridIndex.mk (i : Int) (j : Int) (k : Int)

/-- The grid `g` is `g0` with exactly the cells satisfying `P` overwritten by `v`. -/
def Painted {α : Type} (g0 g : Array3d α) (v : α) (P : Int → Int → Int → Prop) : Prop :=
  g.width = g0.width ∧ g.height = g0.height ∧ g.depth = g0.depth ∧
    ∀ x y z, (P x y z → g.grid x y z = v) ∧ (¬ P x y z → g.grid x y z = g0.grid x y z)

/-- The layer grid `lg` is consistent with the material grid `mat` and the fluid
cell list `cells`, with every layer value at most `bound`. -/
def LayerInv (mat : Array3d Material) (cells : List GridIndex) (bound : Int)
    (lg : Array3d Int) : Prop :=
  lg.width = mat.width ∧ lg.height = mat.height ∧ lg.depth = mat.depth ∧
  ∀ x y z, lg.isIndexInRange x y z = true →
    -1 ≤ lg.grid x y z ∧ lg.grid x y z ≤ bound ∧
    (lg.grid x y z = 0 ↔ GridIndex.mk x y z ∈ cells) ∧
    (mat.grid x y z = M_SOLID → lg.grid x y z = -1) ∧
    (0 < lg.grid x y z → ∃ n ∈ _getNeighbourGridIndices6 x y z,
      lg.isIndexInRange n.i n.j n.k = true ∧ lg.grid n.i n.j n.k = lg.grid x y z - 1)

/-- The array `g` has the dimensions `w × h × d`. -/
def HasDims {α : Type} (g : Array3d α) (w h d : Nat) : Prop :=
  g.width = w ∧ g.height = h ∧ g.depth = d

/-- The grids of the state have the dimensions the constructor gives them (source
lines 13-22 and section 3): `W × H × D` for the cell grids, and one more face than
cells along its own axis for each velocity component and its temp array. -/
def WellFormed (s : FluidSimulation) : Prop :=
  HasDims s._materialGrid s._i_voxels s._j_voxels s._k_voxels ∧
  HasDims s._layerGrid s._i_voxels s._j_voxels s._k_voxels ∧
  HasDims s._pressureGrid s._i_voxels s._j_voxels s._k_voxels ∧
  HasDims s._MACVelocity.u (s._i_voxels + 1) s._j_voxels s._k_voxels ∧
  HasDims s._MACVelocity.v s._i_voxels (s._j_voxels + 1) s._k_voxels ∧
  HasDims s._MACVelocity.w s._i_voxels s._j_voxels (s._k_voxels + 1) ∧
  HasDims s._MACVelocity.tempU (s._i_voxels + 1) s._j_voxels s._k_voxels ∧
  HasDims s._MACVelocity.tempV s._i_voxels (s._j_voxels + 1) s._k_voxels ∧
  HasDims s._MACVelocity.tempW s._i_voxels s._j_voxels (s._k_voxels + 1)

/-- The stationary-solid correction of one neighbour: `delta` when the neighbour
cell is solid, nothing otherwise (source lines 993-1018). -/
def solidTerm (g : Array3d Material) (ni nj nk : Int) (delta : ℚ) : ℚ :=
  if g.grid ni nj nk = M_SOLID then delta else 0

/-- The entry that `_calculateNegativeDivergenceVector` leaves for the fluid cell
`(i, j, k)`: the divergence term followed by the six solid corrections. -/
def negativeDivergenceAt (s : FluidSimulation) (i j k : Int) : ℚ :=
  rawNegativeDivergence s i j k
    + solidTerm s._materialGrid (i - 1) j k (-(1 / s._dx * (s._MACVelocity.U i j k - 0)))
    + solidTerm s._materialGrid (i + 1) j k (1 / s._dx * (s._MACVelocity.U (i + 1) j k - 0))
    + solidTerm s._materialGrid i (j - 1) k (-(1 / s._dx * (s._MACVelocity.V i j k - 0)))
    + solidTerm s._materialGrid i (j + 1) k (1 / s._dx * (s._MACVelocity.V i (j + 1) k - 0))
    + solidTerm s._materialGrid i j (k - 1) (-(1 / s._dx * (s._MACVelocity.W i j k - 0)))
    + solidTerm s._materialGrid i j (k + 1) (1 / s._dx * (s._MACVelocity.W i j (k + 1) - 0))

/-- No fluid cell lies on the boundary of the grid: the six neighbours of every
`M_FLUID` cell exist (the outermost shell is solid, section 3). -/
def FluidInterior (g : Array3d Material) : Prop :=
  ∀ x y z, cellHolds g x y z M_FLUID = true →
    ∀ n ∈ _getNeighbourGridIndices6 x y z, g.isIndexInRange n.i n.j n.k = true

/-- The coefficient vector `b` with `delta` added to the entry of `(i, j, k)`. -/
def VectorCoefficients.addAt (b : VectorCoefficients) (i j k : Int) (delta : ℚ) :
    VectorCoefficients :=
  ⟨⟨b.vector.width, b.vector.height, b.vector.depth,
    fun x y z => if x = i ∧ y = j ∧ z = k then b.vector.grid i j k + delta
      else b.vector.grid x y z⟩⟩

/-- The product `(A·p)(c)` at the cell `c = (i, j, k)` for the pressure grid `p` of
the state and the matrix `A` with diagonal `σ · (number of non-solid 6-neighbours)`
and entry `-σ` for each fluid 6-neighbour, `σ = dt / (density · dx²)` (the scale of
source line 1027). -/
def pressureMatrixTimes (s : FluidSimulation) (dt : ℚ) (i j k : Int) : ℚ :=
  let sigma := dt / (s._density * s._dx * s._dx)
  sigma * ((_getNeighbourGridIndices6 i j k).countP
      (fun n => decide (s._materialGrid.grid n.i n.j n.k ≠ M_SOLID)) : ℚ)
    * s._pressureGrid.grid i j k
  + ((_getNeighbourGridIndices6 i j k).map (fun n =>
      if s._materialGrid.grid n.i n.j n.k = M_FLUID
      then -sigma * s._pressureGrid.grid n.i n.j n.k else 0)).sum

/-- The velocity through the face towards the cell `(ni, nj, nk)` that enters the
divergence: the stationary solid velocity `0` when that cell is solid, the face
velocity `u` otherwise. -/
def faceFlux (g : Array3d Material) (ni nj nk : Int) (u : ℚ) : ℚ :=
  if g.grid ni nj nk = M_SOLID then 0 else u

/-! ## Concrete states for evaluation -/

/-- Collaborators with constant answers, for evaluating the particle advance and the
substep on concrete states: the sampled velocity is `v` everywhere, every collision
is answered by the point `c` with normal `n`, the advection stage leaves the velocity
field as it is and the pressure stage leaves the zero pressure grid and the hash table
as it is. -/
def constantCollaborators (v c n : Vec3) : Collaborators :=
  { evaluateVelocityAtPosition := fun _ _ => v
    _calculateSolidCellCollision := fun _ _ _ => some (c, n)
    _advectVelocityField := fun s _ => some s._MACVelocity
    _updatePressureGrid := fun s _ =>
      some (s._pressureGrid.fill 0, s._GridIndexToEigenVectorXdIndex) }

/-- The grids of a freshly constructed `MACVelocityField(W, H, D, dx)`, all zero. -/
def MACVelocityField.zero (W H D : Nat) : MACVelocityField :=
  { u := ⟨W + 1, H, D, fun _ _ _ => 0⟩
    v := ⟨W, H + 1, D, fun _ _ _ => 0⟩
    w := ⟨W, H, D + 1, fun _ _ _ => 0⟩
    tempU := ⟨W + 1, H, D, fun _ _ _ => 0⟩
    tempV := ⟨W, H + 1, D, fun _ _ _ => 0⟩
    tempW := ⟨W, H, D + 1, fun _ _ _ => 0⟩ }

/-- The constructor `FluidSimulation(x_voxels, y_voxels, z_voxels, cell_size)` (source
lines 13-22) with the tunable defaults of section 6, followed by a choice of material
grid contents and marker particles. -/
def mkSimulation (W H D : Nat) (dx : ℚ) (mat : Int → Int → Int → Material)
    (ps : List MarkerParticle) : FluidSimulation :=
  { _i_voxels := W
    _j_voxels := H
    _k_voxels := D
    _dx := dx
    _density := 20
    _CFLConditionNumber := 5
    _pressureSolveTolerance := 1 / 1000000
    _maxPressureSolveIterations := 200
    _numAdvanceMarkerParticleThreads := 1
    _bodyForce := ⟨0, 0, 0⟩
    _MACVelocity := MACVelocityField.zero W H D
    _materialGrid := ⟨W, H, D, mat⟩
    _pressureGrid := ⟨W, H, D, fun _ _ _ => 0⟩
    _layerGrid := ⟨W, H, D, fun _ _ _ => -1⟩
    _markerParticles := ps
    _fluidCellIndices := []
    _minTimeStep := 1 / 1200
    _maxTimeStep := 1 / 15
    _isSimulationRunning := false
    _isSimulationInitialized := false
    _isFluidInSimulation := false
    _isCurrentFrameFinished := false
    _currentFrame := 0
    _implicitFluidField := ⟨0, 0, fun _ _ _ => false⟩
    _GridIndexToEigenVectorXdIndex := [] }

/-- The material of the sample grid: the centre cell `(1, 1, 1)` is fluid, every
other cell holds `surround`. -/
def centreFluid (surround : Material) (i j k : Int) : Material :=
  if i = 1 ∧ j = 1 ∧ k = 1 then M_FLUID else surround

/-- A freshly constructed 3×3×3 simulation with `dx = 1` whose centre cell is fluid
and listed in the fluid cell list, with the given particles. -/
def centreFluidState (surround : Material) (ps : List MarkerParticle) : FluidSimulation :=
  { mkSimulation 3 3 3 1 (centreFluid surround) ps with _fluidCellIndices := [⟨1, 1, 1⟩] }

/-- The material of the sample channel: a 4×3×3 grid whose outermost shell is solid
and whose two interior cells `(1, 1, 1)` and `(2, 1, 1)` are air. -/
def channelMaterial (i j k : Int) : Material :=
  if 1 ≤ i ∧ i ≤ 2 ∧ j = 1 ∧ k = 1 then M_AIR else M_SOLID

/-- A running 4×3×3 simulation with `dx = 1`, a solid shell, and one marker particle
in the interior cell `(1, 1, 1)`, close to the face it shares with the interior cell
`(2, 1, 1)`; every other member is as the constructor leaves it. -/
def channelState : FluidSimulation :=
  { mkSimulation 4 3 3 1 channelMaterial [⟨⟨199 / 100, 3 / 2, 3 / 2⟩, 1, 1, 1⟩] with
    _isSimulationRunning := true
    _isSimulationInitialized := true
    _isFluidInSimulation := true }

/-- Collaborators for the sample channel: the sampled velocity is one cell per
second along `x`. -/
def channelCollaborators : Collaborators :=
  constantCollaborators ⟨1, 0, 0⟩ ⟨3 / 2, 3 / 2, 3 / 2⟩ ⟨0, 0, 0⟩

/-! ## The pressure system -/

/-- Modelled from the spec: `Array3d::add(i, j, k, v)` of the absent class, which adds
`v` to the stored value by a bounds-checked read and write. -/
def Array3d.add (g : Array3d ℚ) (i j k : Int) (v : ℚ) : Option (Array3d ℚ) := do
  let old ← g.get i j k
  g.set i j k (old + v)

/-- Modelled from the spec: `MatrixCoefficients` of the absent header, the four
coefficient grids `diag`, `plusi`, `plusj`, `plusk` the source reads and writes
(section 4.7), zero after construction. -/
structure MatrixCoefficients where
  diag : Array3d ℚ
  plusi : Array3d ℚ
  plusj : Array3d ℚ
  plusk : Array3d ℚ

/-- Modelled from the spec: the constructor `MatrixCoefficients(i, j, k)`. -/
def MatrixCoefficients.new (W H D : Nat) : MatrixCoefficients :=
  ⟨⟨W, H, D, fun _ _ _ => 0⟩, ⟨W, H, D, fun _ _ _ => 0⟩, ⟨W, H, D, fun _ _ _ => 0⟩,
    ⟨W, H, D, fun _ _ _ => 0⟩⟩

/-- Source lines 1034-1041 (and 1043-1059 for the other axes): the update for the
neighbour `(ni, nj, nk)` on the positive side of the cell `(i, j, k)`; `setPlus` writes
the off-diagonal grid of the axis. -/
def matrixAxisUpdate (g : Array3d Material) (scale : ℚ) (i j k ni nj nk : Int)
    (setPlus : MatrixCoefficients → Array3d ℚ → MatrixCoefficients)
    (plus : MatrixCoefficients → Array3d ℚ) (A : MatrixCoefficients) :
    Option MatrixCoefficients := do
  if (← _isCellFluid g ni nj nk) then
    let d ← A.diag.add i j k scale
    let d ← d.add ni nj nk scale
    let p ← (plus A).set i j k (-scale)
    pure (setPlus { A with diag := d } p)
  else if (← _isCellAir g ni nj nk) then
    let d ← A.diag.add i j k scale
    pure { A with diag := d }
  else pure A

/-- Source lines 1026-1063. -/
def _calculateMatrixCoefficients (s : FluidSimulation) (A : MatrixCoefficients) (dt : ℚ) :
    Option MatrixCoefficients :=
  let scale := dt / (s._density * s._dx * s._dx)
  s._fluidCellIndices.foldlM (fun (A : MatrixCoefficients) idx => do
    let i := idx.i
    let j := idx.j
    let k := idx.k
    let A ← matrixAxisUpdate s._materialGrid scale i j k (i + 1) j k
      (fun A p => { A with plusi := p }) (fun A => A.plusi) A
    let A ← matrixAxisUpdate s._materialGrid scale i j k i (j + 1) k
      (fun A p => { A with plusj := p }) (fun A => A.plusj) A
    matrixAxisUpdate s._materialGrid scale i j k i j (k + 1)
      (fun A p => { A with plusk := p }) (fun A => A.plusk) A) A

/-- The three off-diagonal coefficients stored at the cell `(i, j, k)`, by
bounds-checked reads. -/
def MatrixCoefficients.plusAt (A : MatrixCoefficients) (i j k : Int) : Option (ℚ × ℚ × ℚ) := do
  let a ← A.plusi.get i j k
  let b ← A.plusj.get i j k
  let c ← A.plusk.get i j k
  pure (a, b, c)

/-- The reads `A.plusi(i - 1, j, k)`, `A.plusj(i, j - 1, k)`, `A.plusk(i, j, k - 1)`. -/
def MatrixCoefficients.minusSide (A : MatrixCoefficients) (i j k : Int) :
    Option (ℚ × ℚ × ℚ) := do
  let a ← A.plusi.get (i - 1) j k
  let b ← A.plusj.get i (j - 1) k
  let c ← A.plusk.get i j (k - 1)
  pure (a, b, c)

/-- The reads `v.vector(i - 1, j, k)`, `v.vector(i, j - 1, k)`, `v.vector(i, j, k - 1)`. -/
def VectorCoefficients.minusSide (v : VectorCoefficients) (i j k : Int) :
    Option (ℚ × ℚ × ℚ) := do
  let a ← v.vector.get (i - 1) j k
  let b ← v.vector.get i (j - 1) k
  let c ← v.vector.get i j (k - 1)
  pure (a, b, c)

/-- The reads `v.vector(i + 1, j, k)`, `v.vector(i, j + 1, k)`, `v.vector(i, j, k + 1)`. -/
def VectorCoefficients.plusSide (v : VectorCoefficients) (i j k : Int) :
    Option (ℚ × ℚ × ℚ) := do
  let a ← v.vector.get (i + 1) j k
  let b ← v.vector.get i (j + 1) k
  let c ← v.vector.get i j (k + 1)
  pure (a, b, c)

/-- Source lines 1074-1088: the value `e` of a cell with diagonal coefficient `diag`,
from the coefficients `am` and preconditioner values `pm` read on its negative sides
and the coefficients `ai`, `aj`, `ak` stored at the cells `(i - 1, j, k)`,
`(i, j - 1, k)`, `(i, j, k - 1)`. -/
def preconditionerPivot (tau sigma diag : ℚ) (am pm ai aj ak : ℚ × ℚ × ℚ) : ℚ :=
  let v1 := am.1 * pm.1
  let v2 := am.2.1 * pm.2.1
  let v3 := am.2.2 * pm.2.2
  let v4 := pm.1 * pm.1
  let v5 := pm.2.1 * pm.2.1
  let v6 := pm.2.2 * pm.2.2
  let e := diag - v1 * v1 - v2 * v2 - v3 * v3 -
    tau * (am.1 * (ai.2.1 + ai.2.2) * v4 +
           am.2.1 * (aj.1 + aj.2.2) * v5 +
           am.2.2 * (ak.1 + ak.2.1) * v6)
  if e < sigma * diag then diag else e

/-- Source lines 1065-1094.  The square root of the C library is the parameter `sqrt`;
the literal `10e-9` of line 1090 is `1/100000000`. -/
def _calculatePreconditionerVector (sqrt : ℚ → ℚ) (s : FluidSimulation)
    (p : VectorCoefficients) (A : MatrixCoefficients) : Option VectorCoefficients :=
  let tau : ℚ := 97 / 100
  let sigma : ℚ := 1 / 4
  s._fluidCellIndices.foldlM (fun (p : VectorCoefficients) idx => do
    let i := idx.i
    let j := idx.j
    let k := idx.k
    let am ← A.minusSide i j k
    let pm ← p.minusSide i j k
    let diag ← A.diag.get i j k
    let ai ← A.plusAt (i - 1) j k
    let aj ← A.plusAt i (j - 1) k
    let ak ← A.plusAt i j (k - 1)
    let e := preconditionerPivot tau sigma diag am pm ai aj ak
    if |e| > 1 / 100000000 then
      let a ← p.vector.set i j k (1 / sqrt e)
      pure ⟨a⟩
    else pure p) p

/-- Source lines 1096-1108; `ev(idx) = v.vector(i, j, k)` for every listed cell. -/
def _VectorCoefficientsToEigenVectorXd (v : VectorCoefficients) :
    List GridIndex → Option (List ℚ)
  | [] => some []
  | c :: indices => do
    let x ← v.vector.get c.i c.j c.k
    let ev ← _VectorCoefficientsToEigenVectorXd v indices
    pure (x :: ev)

/-- The conversion `(unsigned long long)x` of an `int`. -/
def toUInt64 (x : Int) : Nat := (x % 18446744073709551616).toNat

/-- Source lines 1118-1122, in `unsigned long long` arithmetic, which wraps modulo
`2^64` at every operation. -/
def _calculateGridIndexHash (s : FluidSimulation) (index : GridIndex) : Nat :=
  (toUInt64 index.i + (toUInt64 s._i_voxels *
    ((toUInt64 index.j + (toUInt64 s._k_voxels * toUInt64 index.k) % 18446744073709551616)
      % 18446744073709551616)) % 18446744073709551616) % 18446744073709551616

/-- The lookup `find(h)` of the hash table: the value stored under the key, if any. -/
def hashFind (t : HashTable) (key : Nat) : Option Int :=
  (t.find? (fun kv => decide (kv.1 = key))).map (fun kv => kv.2)

/-- The call `insert(keyvalue)` of `std::unordered_map`: a key that is already present
keeps its value. -/
def hashInsert (t : HashTable) (key : Nat) (v : Int) : HashTable :=
  if (hashFind t key).isSome then t else t ++ [(key, v)]

/-- Source lines 1127-1131: the table after the insertions for the list positions
`0, 1, …` in order, starting from the cleared table. -/
def fluidCellHashTable (s : FluidSimulation) : HashTable :=
  s._fluidCellIndices.enum.foldl
    (fun t ic => hashInsert t (_calculateGridIndexHash s ic.2) (ic.1 : Int)) []

/-- Source lines 1124-1132. -/
def _updateFluidGridIndexToEigenVectorXdIndexHashTable (s : FluidSimulation) :
    FluidSimulation :=
  { s with _GridIndexToEigenVectorXdIndex := fluidCellHashTable s }

/-- Source lines 1134-1136; an index outside the vector aborts. -/
def _VectorIndexToGridIndex (s : FluidSimulation) (i : Int) : Option GridIndex :=
  if 0 ≤ i then s._fluidCellIndices[i.toNat]? else none

/-- Source lines 1138-1150. -/
def _GridIndexToVectorIndex (s : FluidSimulation) (i j k : Int) : Int :=
  match hashFind s._GridIndexToEigenVectorXdIndex (_calculateGridIndexHash s ⟨i, j, k⟩) with
  | none => -1
  | some v => v

/-- Source lines 1110-1116. -/
def _EigenVectorXdToVectorCoefficients (s : FluidSimulation) (v : List ℚ)
    (vc : VectorCoefficients) : Option VectorCoefficients :=
  forRange v.length (fun idx vc => do
    let index ← _VectorIndexToGridIndex s idx
    let x ← (if 0 ≤ idx then v[idx.toNat]? else none)
    let a ← vc.vector.set index.i index.j index.k x
    pure ⟨a⟩) vc

/-- Source lines 1152-1194. -/
def _applyPreconditioner (s : FluidSimulation) (residualVector : List ℚ)
    (p : VectorCoefficients) (A : MatrixCoefficients) : Option (List ℚ) := do
  let r := VectorCoefficients.new s._i_voxels s._j_voxels s._k_voxels
  let r ← _EigenVectorXdToVectorCoefficients s residualVector r
  let q := VectorCoefficients.new s._i_voxels s._j_voxels s._k_voxels
  let q ← s._fluidCellIndices.foldlM (fun (q : VectorCoefficients) g => do
    let i := g.i
    let j := g.j
    let k := g.k
    let rc ← r.vector.get i j k
    let am ← A.minusSide i j k
    let pm ← p.minusSide i j k
    let qm ← q.minusSide i j k
    let t := rc - am.1 * pm.1 * qm.1 - am.2.1 * pm.2.1 * qm.2.1 - am.2.2 * pm.2.2 * qm.2.2
    let t := t * (← p.vector.get i j k)
    let a ← q.vector.set i j k t
    pure ⟨a⟩) q
  let z := VectorCoefficients.new s._i_voxels s._j_voxels s._k_voxels
  let z ← s._fluidCellIndices.reverse.foldlM (fun (z : VectorCoefficients) g => do
    let i := g.i
    let j := g.j
    let k := g.k
    let precon ← p.vector.get i j k
    let qc ← q.vector.get i j k
    let ac ← A.plusAt i j k
    let zp ← z.plusSide i j k
    let t := qc - ac.1 * precon * zp.1 - ac.2.1 * precon * zp.2.1 - ac.2.2 * precon * zp.2.2
    let t := t * precon
    let a ← z.vector.set i j k t
    pure ⟨a⟩) z
  _VectorCoefficientsToEigenVectorXd z s._fluidCellIndices

/-- An `Eigen::SparseMatrix<double>` of `size × size` as the list of the triplets
`(row, column, value)` it was set from; the entries of equal position add up. -/
structure SparseMatrix where
  size : Nat
  triplets : List (Int × Int × ℚ)

/-- The entry `m(r, c)`. -/
def SparseMatrix.coeff (m : SparseMatrix) (r c : Int) : ℚ :=
  ((m.triplets.filter (fun t => decide (t.1 = r ∧ t.2.1 = c))).map (fun t => t.2.2)).sum

/-- The call `m.setFromTriplets`, which sums the values of equal position; a triplet
outside the matrix aborts. -/
def setFromTriplets (size : Nat) (ts : List (Int × Int × ℚ)) : Option SparseMatrix :=
  if ts.all (fun t => decide (0 ≤ t.1 ∧ t.1 < size ∧ 0 ≤ t.2.1 ∧ t.2.1 < size)) then
    some ⟨size, ts⟩
  else none

/-- The product `m * v` of a sparse matrix and a vector. -/
def SparseMatrix.mulVec (m : SparseMatrix) (v : List ℚ) : List ℚ :=
  (List.range m.size).map fun (r : Nat) =>
    ((List.range m.size).map fun (c : Nat) => m.coeff r c * v.getD c 0).sum

/-- Source lines 1227-1231 (and the five that follow): the triplet of the neighbour
`(ni, nj, nk)` of the cell of `row`, with the coefficient stored at `(ci, cj, ck)`.
The source passes `(col, row, coef)` to a constructor whose parameters are
`(row, column, value)`. -/
def neighbourTriplet (s : FluidSimulation) (plus : Array3d ℚ) (row : Int)
    (ni nj nk ci cj ck : Int) (ts : List (Int × Int × ℚ)) :
    Option (List (Int × Int × ℚ)) := do
  if (← _isCellFluid s._materialGrid ni nj nk) then
    let col := _GridIndexToVectorIndex s ni nj nk
    let coef ← plus.get ci cj ck
    pure (ts ++ [(col, row, coef)])
  else pure ts

/-- Source lines 1208-1265. -/
def _MatrixCoefficientsToEigenSparseMatrix (s : FluidSimulation) (A : MatrixCoefficients)
    (dt : ℚ) : Option SparseMatrix := do
  let size := s._fluidCellIndices.length
  let scale := dt / (s._density * s._dx * s._dx)
  let matrixValues ← s._fluidCellIndices.enum.foldlM
    (fun (ts : List (Int × Int × ℚ)) ig => do
      let i := ig.2.i
      let j := ig.2.j
      let k := ig.2.k
      let row : Int := ig.1
      let col : Int := ig.1
      let diag := (← _getNumFluidOrAirCellNeighbours s._materialGrid i j k) * scale
      let ts := ts ++ [(col, row, diag)]
      let ts ← neighbourTriplet s A.plusi row (i - 1) j k (i - 1) j k ts
      let ts ← neighbourTriplet s A.plusi row (i + 1) j k i j k ts
      let ts ← neighbourTriplet s A.plusj row i (j - 1) k i (j - 1) k ts
      let ts ← neighbourTriplet s A.plusj row i (j + 1) k i j k ts
      let ts ← neighbourTriplet s A.plusk row i j (k - 1) i j (k - 1) ts
      neighbourTriplet s A.plusk row i j (k + 1) i j k ts) []
  setFromTriplets size matrixValues

/-- The coefficient `v.maxCoeff()` of an Eigen vector: the largest coefficient, with
its sign; the call asserts that the vector is not empty. -/
def maxCoeff : List ℚ → Option ℚ
  | [] => none
  | x :: xs => some (xs.foldl max x)

/-- The inner product `a.dot(b)`. -/
def dot (a b : List ℚ) : ℚ := (List.zipWith (fun x y => x * y) a b).sum

/-- The vector `a + c * b`. -/
def axpy (a : List ℚ) (c : ℚ) (b : List ℚ) : List ℚ :=
  List.zipWith (fun x y => x + c * y) a b

/-- Source lines 1325-1348: the loop of `_solvePressureSystem` with `n` iterations left
before `iterationNumber` reaches `_maxPressureSolveIterations`.  Quotients are those
of `ℚ`. -/
def pcgLoop (s : FluidSimulation) (A : MatrixCoefficients) (precon : VectorCoefficients)
    (aMatrix : SparseMatrix) (tol : ℚ) :
    Nat → List ℚ → List ℚ → List ℚ → ℚ → Option (List ℚ)
  | 0, pressureVector, _, _, _ => some pressureVector
  | n + 1, pressureVector, residualVector, searchVector, sigma => do
    let auxillaryVector := aMatrix.mulVec searchVector
    let alpha := sigma / dot auxillaryVector searchVector
    let pressureVector := axpy pressureVector alpha searchVector
    let residualVector := axpy residualVector (-alpha) auxillaryVector
    if |(← maxCoeff residualVector)| < tol then pure pressureVector
    else do
      let auxillaryVector ← _applyPreconditioner s residualVector precon A
      let sigmaNew := dot auxillaryVector residualVector
      let beta := sigmaNew / sigma
      let searchVector := axpy auxillaryVector beta searchVector
      pcgLoop s A precon aMatrix tol n pressureVector residualVector searchVector sigmaNew

/-- Source lines 1298-1354, without the console output. -/
def _solvePressureSystem (s : FluidSimulation) (A : MatrixCoefficients)
    (b : VectorCoefficients) (precon : VectorCoefficients) (dt : ℚ) : Option (List ℚ) := do
  let size := s._fluidCellIndices.length
  let tol := s._pressureSolveTolerance
  let pressureVector : List ℚ := List.replicate size 0
  let bVector ← _VectorCoefficientsToEigenVectorXd b s._fluidCellIndices
  let residualVector := bVector
  if |(← maxCoeff residualVector)| < tol then pure pressureVector
  else do
    let aMatrix ← _MatrixCoefficientsToEigenSparseMatrix s A dt
    let _preconVector ← _VectorCoefficientsToEigenVectorXd precon s._fluidCellIndices
    let auxillaryVector ← _applyPreconditioner s residualVector precon A
    let searchVector := auxillaryVector
    let sigma := dot auxillaryVector residualVector
    pcgLoop s A precon aMatrix tol s._maxPressureSolveIterations pressureVector
      residualVector searchVector sigma

/-- Source lines 1356-1378.  The square root of the C library is the parameter
`sqrt`. -/
def _updatePressureGrid (sqrt : ℚ → ℚ) (s : FluidSimulation) (dt : ℚ) :
    Option FluidSimulation := do
  let s := { s with _pressureGrid := s._pressureGrid.fill 0 }
  let b := VectorCoefficients.new s._i_voxels s._j_voxels s._k_voxels
  let bm ← _calculateNegativeDivergenceVector s b
  if bm.2 < s._pressureSolveTolerance then pure s
  else do
    let A := MatrixCoefficients.new s._i_voxels s._j_voxels s._k_voxels
    let precon := VectorCoefficients.new s._i_voxels s._j_voxels s._k_voxels
    let A ← _calculateMatrixCoefficients s A dt
    let precon ← _calculatePreconditionerVector sqrt s precon A
    let s := _updateFluidGridIndexToEigenVectorXdIndexHashTable s
    let pressures ← _solvePressureSystem s A bm.1 precon dt
    forRange s._fluidCellIndices.length (fun idx s => do
      let index ← _VectorIndexToGridIndex s idx
      let p ← (if 0 ≤ idx then pressures[idx.toNat]? else none)
      let g ← s._pressureGrid.set index.i index.j index.k p
      pure { s with _pressureGrid := g }) s

/-- The material of the sample duct: a 5×3×3 grid whose outermost shell is solid and
whose interior cells `(1, 1, 1)` and `(2, 1, 1)` are fluid and `(3, 1, 1)` is air. -/
def ductMaterial (i j k : Int) : Material :=
  if j = 1 ∧ k = 1 ∧ (i = 1 ∨ i = 2) then M_FLUID
  else if j = 1 ∧ k = 1 ∧ i = 3 then M_AIR else M_SOLID

/-- The `U` faces of the sample duct: the face `(3, 1, 1)` between the fluid cell
`(2, 1, 1)` and the air cell `(3, 1, 1)` carries the velocity `1`, every other face `0`. -/
def ductVelocity : MACVelocityField :=
  { MACVelocityField.zero 5 3 3 with
    u := ⟨6, 3, 3, fun i j k => if i = 3 ∧ j = 1 ∧ k = 1 then 1 else 0⟩ }

/-- The sample duct: a freshly constructed 5×3×3 simulation with `dx = 1`, one particle
in each of the fluid cells, which are listed in the fluid cell list, and fluid
leaving the cell `(2, 1, 1)` towards the air cell. -/
def ductState : FluidSimulation :=
  { mkSimulation 5 3 3 1 ductMaterial
      [⟨⟨3 / 2, 3 / 2, 3 / 2⟩, 1, 1, 1⟩, ⟨⟨5 / 2, 3 / 2, 3 / 2⟩, 2, 1, 1⟩] with
    _fluidCellIndices := [⟨1, 1, 1⟩, ⟨2, 1, 1⟩]
    _MACVelocity := ductVelocity }

/-! ## Time stepping -/

/-- Source lines 214-222 over exact arithmetic: the narrowing to `float` of `fmaxf` and
`fminf` is left out here, `_calculateNextTimeStepFloat` has it.  `maxu` is the value of
`_MACVelocity.evaluateMaximumVelocityMagnitude()` of the absent class.  For `maxu = 0`
the IEEE quotient is `+∞` when `_CFLConditionNumber*_dx` is positive, which `fmaxf` keeps
and `fminf` cuts to `_maxTimeStep`; otherwise it is `-∞` or not a number, from which
`fmaxf` makes `_minTimeStep`. -/
def _calculateNextTimeStep (s : FluidSimulation) (maxu : ℚ) : ℚ :=
  if maxu = 0 then
    if 0 < s._CFLConditionNumber * s._dx then s._maxTimeStep
    else min s._maxTimeStep s._minTimeStep
  else
    let timeStep := s._CFLConditionNumber * s._dx / maxu
    let timeStep := max s._minTimeStep timeStep
    let timeStep := min s._maxTimeStep timeStep
    timeStep

/-- The spec's `clamp(x, lo, hi)` (section 4.2): `x` cut to the interval `[lo, hi]`. -/
def clamp (x lo hi : ℚ) : ℚ :=
  if x < lo then lo else if hi < x then hi else x

/-- The outcome of a loop that is run with a bound on the number of its iterations. -/
inductive Run (α : Type) where
  | finished (a : α)
  | aborted
  | unfinished

/-- Source lines 1653-1661: the loop of `update`, run for at most `fuel` iterations.
`maxu` stands for `evaluateMaximumVelocityMagnitude` of the absent class.  Besides the
state the loop carries `timeleft` and, for reference, the list of the pairs
(`timestep` returned by `_calculateNextTimeStep`, duration passed to `_stepFluid`) of
the iterations so far; its length is `numsteps`. -/
def updateLoop (env : Collaborators) (maxu : MACVelocityField → ℚ) :
    Nat → FluidSimulation → ℚ → List (ℚ × ℚ) → Run (FluidSimulation × List (ℚ × ℚ))
  | 0, s, timeleft, steps =>
    if timeleft > 0 then Run.unfinished else Run.finished (s, steps)
  | fuel + 1, s, timeleft, steps =>
    if timeleft > 0 then
      let computed := _calculateNextTimeStep s (maxu s._MACVelocity)
      let timestep := if timeleft - computed < 0 then timeleft else computed
      let timeleft := timeleft - timestep
      match _stepFluid env s timestep with
      | none => Run.aborted
      | some s => updateLoop env maxu fuel s timeleft (steps ++ [(computed, timestep)])
    else Run.finished (s, steps)

/-- Source lines 1645-1666, with the loop run for at most `fuel` iterations. -/
def update (env : Collaborators) (maxu : MACVelocityField → ℚ) (fuel : Nat)
    (s : FluidSimulation) (dt : ℚ) : Run (FluidSimulation × List (ℚ × ℚ)) :=
  if !s._isSimulationRunning || !s._isSimulationInitialized || !s._isFluidInSimulation then
    Run.finished (s, [])
  else
    let s := { s with _isCurrentFrameFinished := false }
    match updateLoop env maxu fuel s dt [] with
    | Run.finished r =>
      Run.finished ({ r.1 with _currentFrame := r.1._currentFrame + 1,
                               _isCurrentFrameFinished := true }, r.2)
    | Run.aborted => Run.aborted
    | Run.unfinished => Run.unfinished

/-! ## Grid geometry, seeding and initialisation -/

/-- Source lines 653-659 (and 641-647): the centre of the cell `(i, j, k)`; the index
is asserted to be in range. -/
def gridIndexToCellCenter (s : FluidSimulation) (i j k : Int) : Option Vec3 :=
  if _isCellIndexInRange s i j k then
    some ⟨i * s._dx + 0.5 * s._dx, j * s._dx + 0.5 * s._dx, k * s._dx + 0.5 * s._dx⟩
  else none

/-- Source lines 616-639: the corner of the cell `g` with the smallest coordinates; the
index is asserted to be in range. -/
def gridIndexToPosition (s : FluidSimulation) (g : GridIndex) : Option Vec3 :=
  if _isCellIndexInRange s g.i g.j g.k then some ⟨g.i * s._dx, g.j * s._dx, g.k * s._dx⟩
  else none

/-- Source lines 134-143: the eight points at the offsets `(±q, ±q, ±q)` from the
centre `c`, in the order of the array `points`. -/
def seedPoints (c : Vec3) (q : ℚ) : List Vec3 :=
  [⟨c.x - q, c.y - q, c.z - q⟩, ⟨c.x + q, c.y - q, c.z - q⟩,
   ⟨c.x + q, c.y - q, c.z + q⟩, ⟨c.x - q, c.y - q, c.z + q⟩,
   ⟨c.x - q, c.y + q, c.z - q⟩, ⟨c.x + q, c.y + q, c.z - q⟩,
   ⟨c.x + q, c.y + q, c.z + q⟩, ⟨c.x - q, c.y + q, c.z + q⟩]

/-- Source lines 129-156.  `_randomFloat` is not among the sources at hand:
`rnd n lo hi` is the value its `n`-th call within this run of the function returns for
the bounds `lo`, `hi`; the literal `10e-6` of line 145 is `1/100000`. -/
def _addMarkerParticlesToCell (rnd : Nat → ℚ → ℚ → ℚ) (s : FluidSimulation)
    (i j k : Int) : Option FluidSimulation := do
  let q := 0.25 * s._dx
  let c ← gridIndexToCellCenter s i j k
  let points := seedPoints c q
  let eps : ℚ := 1 / 100000
  let jitter := 0.25 * s._dx - eps
  let added := points.enum.map (fun (ip : Nat × Vec3) =>
    let jit : Vec3 := ⟨rnd (3 * ip.1) (-jitter) jitter, rnd (3 * ip.1 + 1) (-jitter) jitter,
      rnd (3 * ip.1 + 2) (-jitter) jitter⟩
    MarkerParticle.mk (ip.2.add jit) i j k)
  pure { s with _markerParticles := s._markerParticles ++ added }

/-- Source lines 158-179.  `rnd c` gives the values `_randomFloat` returns while the
cell `c` is seeded. -/
def _initializeFluidMaterial (rnd : GridIndex → Nat → ℚ → ℚ → ℚ) (s : FluidSimulation) :
    Option FluidSimulation := do
  let isFluid := decide (s._implicitFluidField.numPoints > 0) ||
    decide (s._implicitFluidField.numCuboids > 0)
  let s := { s with _isFluidInSimulation := isFluid }
  if !s._isFluidInSimulation then pure s
  else
    forCells s._materialGrid.depth s._materialGrid.height s._materialGrid.width
      (fun i j k s => do
        let c ← gridIndexToCellCenter s i j k
        if s._implicitFluidField.isInside c.x c.y c.z then
          if (← _isCellAir s._materialGrid i j k) then
            let g ← s._materialGrid.set i j k M_FLUID
            _addMarkerParticlesToCell (rnd ⟨i, j, k⟩) { s with _materialGrid := g } i j k
          else pure s
        else pure s) s

/-- Source lines 181-185. -/
def _initializeSimulation (rnd : GridIndex → Nat → ℚ → ℚ → ℚ) (s : FluidSimulation) :
    Option FluidSimulation := do
  let s ← _initializeSolidCells s
  let s ← _initializeFluidMaterial rnd s
  pure { s with _isSimulationInitialized := true }

/-- Source lines 28-33. -/
def run (rnd : GridIndex → Nat → ℚ → ℚ → ℚ) (s : FluidSimulation) :
    Option FluidSimulation := do
  let s ← (if !s._isSimulationInitialized then _initializeSimulation rnd s else pure s)
  pure { s with _isSimulationRunning := true }

/-- Source lines 77-79: the loop of `getMarkerParticles(skip)` from the index `i` on,
run for at most `fuel` iterations. -/
def getMarkerParticlesLoop (ps : List MarkerParticle) (skip : Int) :
    Nat → Int → List Vec3 → Run (List Vec3)
  | 0, i, particles =>
    if i < (ps.length : Int) then Run.unfinished else Run.finished particles
  | fuel + 1, i, particles =>
    if i < (ps.length : Int) then
      match (if 0 ≤ i then ps[i.toNat]? else none) with
      | none => Run.aborted
      | some p => getMarkerParticlesLoop ps skip fuel (i + skip) (particles ++ [p.position])
    else Run.finished particles

/-- Source lines 74-82, with the loop run for at most `fuel` iterations; the state is
only read. -/
def getMarkerParticles (fuel : Nat) (s : FluidSimulation) (skip : Int) : Run (List Vec3) :=
  getMarkerParticlesLoop s._markerParticles skip fuel 0 []

/-- The order of the sweep `for k, for j, for i`: `a` comes strictly before `b` in the
lexicographic order of `(k, j, i)`, `k` most significant. -/
def sweepBefore (a b : GridIndex) : Prop :=
  a.k < b.k ∨ (a.k = b.k ∧ (a.j < b.j ∨ (a.j = b.j ∧ a.i < b.i)))

/-- The cell `c` is one that `_initializeFluidMaterial` seeds: it holds `M_AIR` and its
centre is inside the implicit fluid field. -/
def turnsFluid (s : FluidSimulation) (c : GridIndex) : Bool :=
  decide (s._materialGrid.grid c.i c.j c.k = M_AIR) &&
    s._implicitFluidField.isInside (c.i * s._dx + 0.5 * s._dx) (c.j * s._dx + 0.5 * s._dx)
      (c.k * s._dx + 0.5 * s._dx)

/-- A freshly constructed 3×3×3 simulation of air cells with `dx = 1` to which one
implicit fluid point was added whose field contains exactly the points of the centre
cell. -/
def seededState : FluidSimulation :=
  { mkSimulation 3 3 3 1 (fun _ _ _ => M_AIR) [] with
    _implicitFluidField := ⟨1, 0, fun x y z =>
      decide (1 < x ∧ x < 2 ∧ 1 < y ∧ y < 2 ∧ 1 < z ∧ z < 2)⟩ }

/-- Source lines 84-86: `getMarkerParticles()` is `getMarkerParticles(1)`. -/
def getMarkerParticlesAll (fuel : Nat) (s : FluidSimulation) : Run (List Vec3) :=
  getMarkerParticles fuel s 1

/-- The material of the sample inlet: a 4×3×3 grid whose outermost shell is solid and
whose interior cells are the air cell `(1, 1, 1)` and the fluid cell `(2, 1, 1)`. -/
def inletMaterial (i j k : Int) : Material :=
  if j = 1 ∧ k = 1 ∧ i = 1 then M_AIR
  else if j = 1 ∧ k = 1 ∧ i = 2 then M_FLUID else M_SOLID

/-- The sample inlet: a freshly constructed 4×3×3 simulation with `dx = 1` whose only
fluid cell `(2, 1, 1)` holds one particle and is listed in the fluid cell list; its
only non-solid neighbour is the air cell on its negative `x` side. -/
def inletState : FluidSimulation :=
  { mkSimulation 4 3 3 1 inletMaterial [⟨⟨5 / 2, 3 / 2, 3 / 2⟩, 2, 1, 1⟩] with
    _fluidCellIndices := [⟨2, 1, 1⟩] }

/-- The material of the sample slab: a 3×7×4 grid whose outermost shell is solid, whose
interior cells `(1, 5, 1)` and `(1, 1, 2)` are fluid and whose other interior cells
are air. -/
def slabMaterial (i j k : Int) : Material :=
  if i = 1 ∧ ((j = 5 ∧ k = 1) ∨ (j = 1 ∧ k = 2)) then M_FLUID
  else if i = 1 ∧ 1 ≤ j ∧ j ≤ 5 ∧ 1 ≤ k ∧ k ≤ 2 then M_AIR else M_SOLID

/-- The sample slab: a freshly constructed 3×7×4 simulation with `dx = 1`, one particle
in each of its two fluid cells, which are listed in the fluid cell list in the order
of the sweep. -/
def slabState : FluidSimulation :=
  { mkSimulation 3 7 4 1 slabMaterial
      [⟨⟨3 / 2, 11 / 2, 3 / 2⟩, 1, 5, 1⟩, ⟨⟨3 / 2, 3 / 2, 5 / 2⟩, 1, 1, 2⟩] with
    _fluidCellIndices := [⟨1, 5, 1⟩, ⟨1, 1, 2⟩] }

/-- The body of the loop of source lines 1069-1093 for the listed cell `idx`. -/
def preconditionerStep (sqrt : ℚ → ℚ) (A : MatrixCoefficients) (p : VectorCoefficients)
    (idx : GridIndex) : Option VectorCoefficients := do
  let am ← A.minusSide idx.i idx.j idx.k
  let pm ← p.minusSide idx.i idx.j idx.k
  let diag ← A.diag.get idx.i idx.j idx.k
  let ai ← A.plusAt (idx.i - 1) idx.j idx.k
  let aj ← A.plusAt idx.i (idx.j - 1) idx.k
  let ak ← A.plusAt idx.i idx.j (idx.k - 1)
  let e := preconditionerPivot (97 / 100) (1 / 4) diag am pm ai aj ak
  if |e| > 1 / 100000000 then
    let a ← p.vector.set idx.i idx.j idx.k (1 / sqrt e)
    pure ⟨a⟩
  else pure p

/-- The value `e` of source lines 1074-1088 (after the replacement of line 1086) for
the cell `c`, from the coefficient grids `A` and the preconditioner values `p` held
when the cell is processed. -/
def pivotAt (A : MatrixCoefficients) (p : VectorCoefficients) (c : GridIndex) : ℚ :=
  preconditionerPivot (97 / 100) (1 / 4) (A.diag.grid c.i c.j c.k)
    (A.plusi.grid (c.i - 1) c.j c.k, A.plusj.grid c.i (c.j - 1) c.k,
      A.plusk.grid c.i c.j (c.k - 1))
    (p.vector.grid (c.i - 1) c.j c.k, p.vector.grid c.i (c.j - 1) c.k,
      p.vector.grid c.i c.j (c.k - 1))
    (A.plusi.grid (c.i - 1) c.j c.k, A.plusj.grid (c.i - 1) c.j c.k,
      A.plusk.grid (c.i - 1) c.j c.k)
    (A.plusi.grid c.i (c.j - 1) c.k, A.plusj.grid c.i (c.j - 1) c.k,
      A.plusk.grid c.i (c.j - 1) c.k)
    (A.plusi.grid c.i c.j (c.k - 1), A.plusj.grid c.i c.j (c.k - 1),
      A.plusk.grid c.i c.j (c.k - 1))

/-- The four coefficient grids have the dimensions `W × H × D`. -/
def MatrixCoefficients.HasDims (A : MatrixCoefficients) (W H D : Nat) : Prop :=
  GridFluidSim3D.HasDims A.diag W H D ∧ GridFluidSim3D.HasDims A.plusi W H D ∧
    GridFluidSim3D.HasDims A.plusj W H D ∧ GridFluidSim3D.HasDims A.plusk W H D

/-- The cell and its three neighbours on the negative sides are cells of a
`W × H × D` grid. -/
def NegativeSidesInRange (W H D : Nat) (c : GridIndex) : Prop :=
  1 ≤ c.i ∧ c.i < W ∧ 1 ≤ c.j ∧ c.j < H ∧ 1 ≤ c.k ∧ c.k < D

/-- Zero coefficients on a 3×3×3 grid except the diagonal of the centre cell, which
is `5e-9`. -/
def tinyDiagonal : MatrixCoefficients :=
  { MatrixCoefficients.new 3 3 3 with
    diag := ⟨3, 3, 3, fun i j k => if i = 1 ∧ j = 1 ∧ k = 1 then 1 / 200000000 else 0⟩ }

/-- A grid with `W = 2^20`, `H = 1`, `D = 2^30` cells (`2^50` cells in all), all air. -/
def longGridState : FluidSimulation :=
  mkSimulation 1048576 1 1073741824 1 (fun _ _ _ => M_AIR) []

/-- The loop of source lines 1325-1348 once more, returning together with the pressure
vector the residual vector the loop tracks and the number of times the loop body was
entered; `it` is that number at entry. -/
def pcgLoopTracked (s : FluidSimulation) (A : MatrixCoefficients) (precon : VectorCoefficients)
    (aMatrix : SparseMatrix) (tol : ℚ) :
    Nat → Nat → List ℚ → List ℚ → List ℚ → ℚ → Option (List ℚ × List ℚ × Nat)
  | 0, it, pressureVector, residualVector, _, _ => some (pressureVector, residualVector, it)
  | n + 1, it, pressureVector, residualVector, searchVector, sigma => do
    let auxillaryVector := aMatrix.mulVec searchVector
    let alpha := sigma / dot auxillaryVector searchVector
    let pressureVector := axpy pressureVector alpha searchVector
    let residualVector := axpy residualVector (-alpha) auxillaryVector
    if |(← maxCoeff residualVector)| < tol then pure (pressureVector, residualVector, it + 1)
    else do
      let auxillaryVector ← _applyPreconditioner s residualVector precon A
      let sigmaNew := dot auxillaryVector residualVector
      let beta := sigmaNew / sigma
      let searchVector := axpy auxillaryVector beta searchVector
      pcgLoopTracked s A precon aMatrix tol n (it + 1) pressureVector residualVector
        searchVector sigmaNew

/-- The vector `b - x`, entry by entry. -/
def vsub (b x : List ℚ) : List ℚ := List.zipWith (fun u v => u - v) b x

/-- Source lines 512-535: the returned flag together with the point left in `*p1`.
The sampler of the velocity field and the solid collision routine are those of
`env`. -/
def _integrateVelocity (env : Collaborators) (s : FluidSimulation) (p0 v0 : Vec3) (dt : ℚ) :
    Option (Bool × Vec3) := do
  let p1 := _RK4 (env.evaluateVelocityAtPosition s._MACVelocity) p0 v0 dt
  let n := positionToGridIndex s._dx p1
  if (← _isCellSolid s._materialGrid n.i n.j n.k) then
    let cn ← env._calculateSolidCellCollision s p0 p1
    let p1 := cn.1.add (Vec3.scale (0.01 * s._dx) cn.2)
    let n := positionToGridIndex s._dx p1
    if (← _isCellSolid s._materialGrid n.i n.j n.k) then pure (false, p0)
    else pure (false, p1)
  else pure (true, p1)

/-- The cell of the position `p` is a cell of the material grid. -/
def InGridCell (s : FluidSimulation) (p : Vec3) : Prop :=
  s._materialGrid.isIndexInRange (positionToGridIndex s._dx p).i
    (positionToGridIndex s._dx p).j (positionToGridIndex s._dx p).k = true

/-- The cell of the position `p` is a cell of the material grid and is not solid. -/
def InNonSolidCell (s : FluidSimulation) (p : Vec3) : Prop :=
  ∃ m, s._materialGrid.get (positionToGridIndex s._dx p).i
    (positionToGridIndex s._dx p).j (positionToGridIndex s._dx p).k = some m ∧ m ≠ M_SOLID

/-! ## The slices of the particle mesher (`isotropicparticlemesher.cpp`) -/

/-- Modelled from the spec: the scalar field of the absent class
`ImplicitSurfaceScalarField`, of which only the grid dimensions given to the
constructor, and reported by `getGridDimensions`, matter here. -/
structure ImplicitSurfaceScalarField where
  width : Int
  height : Int
  depth : Int

/-- Modelled from the spec: the read `materialGrid(i, j, k)` of the absent class
`FluidMaterialGrid` at subdivision level `subd`, the material of the cell that holds
the sub-cell `(i, j, k)`; an out-of-range read of the material grid is fatal
(section 7). -/
def subdividedMaterial (g : Array3d Material) (subd : Int) (i j k : Int) : Option Material :=
  if 0 ≤ i ∧ i < g.width * subd ∧ 0 ≤ j ∧ j < g.height * subd ∧ 0 ≤ k ∧ k < g.depth * subd
  then some (g.grid (i / subd) (j / subd) (k / subd))
  else none

/-- Modelled from the spec: the members of `IsotropicParticleMesher` (absent header)
that the slicing reads: the grid dimensions, the subdivision factor `s ≥ 1` of
section 6 and the number of slices. -/
structure IsotropicParticleMesher where
  _isize : Int
  _jsize : Int
  _ksize : Int
  _subdivisionLevel : Int
  _numPolygonizationSlices : Int

namespace IsotropicParticleMesher

/-- Mesher source lines 34-37. -/
def setSubdivisionLevel (m : IsotropicParticleMesher) (n : Int) :
    Option IsotropicParticleMesher :=
  if n ≥ 1 then some { m with _subdivisionLevel := n } else none

/-- Mesher source lines 39-47. -/
def setNumPolygonizationSlices (m : IsotropicParticleMesher) (n : Int) :
    Option IsotropicParticleMesher :=
  if n ≥ 1 then
    let n := if n > m._isize then m._isize else n
    some { m with _numPolygonizationSlices := n }
  else none

/-- Mesher source lines 156-161, without the cell size. -/
def _getSubdividedGridDimensions (m : IsotropicParticleMesher) : Int × Int × Int :=
  (m._isize * m._subdivisionLevel, m._jsize * m._subdivisionLevel,
    m._ksize * m._subdivisionLevel)

/-- Mesher source line 100: `ceil((double)width / (double)_numPolygonizationSlices)`. -/
def sliceWidth (m : IsotropicParticleMesher) : Int :=
  ⌈((m._getSubdividedGridDimensions.1 : Int) : ℚ) / ((m._numPolygonizationSlices : Int) : ℚ)⌉

/-- Mesher source line 101: `ceil((double)width / (double)sliceWidth)`. -/
def numSlices (m : IsotropicParticleMesher) : Int :=
  ⌈((m._getSubdividedGridDimensions.1 : Int) : ℚ) / ((m.sliceWidth : Int) : ℚ)⌉

/-- Mesher source lines 94-123, as the list of the pairs `(startidx, endidx)` handed to
`_polygonizeSlice`, in order; with a single slice the whole grid is polygonized at
once and no pair is handed over. -/
def _polygonizeSlices (m : IsotropicParticleMesher) : List (Int × Int) :=
  let width := m._getSubdividedGridDimensions.1
  if m.numSlices = 1 then []
  else
    (List.range m.numSlices.toNat).map fun (i : Nat) =>
      let startidx := (i : Int) * m.sliceWidth
      let endidx := startidx + m.sliceWidth - 1
      (startidx, if endidx < width then endidx else width - 1)

/-- Mesher source lines 221-239 (`endidx` is not read). -/
def _getSliceMaterialGrid (m : IsotropicParticleMesher) (startidx : Int)
    (materialGrid sliceMaterialGrid : Array3d Material) : Option (Array3d Material) :=
  forCells sliceMaterialGrid.depth sliceMaterialGrid.height sliceMaterialGrid.width
    (fun i j k sl => do
      let mat ← subdividedMaterial materialGrid m._subdivisionLevel (startidx + i) j k
      sl.set i j k mat) sliceMaterialGrid

/-- Mesher source lines 166-180, as far as the material grid of the slice: a grid one
smaller than the field along each axis, filled by `_getSliceMaterialGrid`. -/
def _computeSliceScalarField (m : IsotropicParticleMesher) (startidx : Int)
    (materialGrid : Array3d Material) (field : ImplicitSurfaceScalarField) :
    Option (Array3d Material) :=
  _getSliceMaterialGrid m startidx materialGrid
    ⟨(field.width - 1).toNat, (field.height - 1).toNat, (field.depth - 1).toNat,
      fun _ _ _ => M_AIR⟩

/-- Mesher source lines 134-145: the width in cells of the grid of the slice. -/
def sliceGridWidth (m : IsotropicParticleMesher) (startidx endidx : Int) : Int :=
  let width := m._getSubdividedGridDimensions.1
  let isStartSlice := decide (startidx = 0)
  let isEndSlice := decide (endidx = width - 1)
  let isMiddleSlice := !isStartSlice && !isEndSlice
  let gridWidth := endidx - startidx + 1
  if isStartSlice || isEndSlice then gridWidth + 1
  else if isMiddleSlice then gridWidth + 2
  else gridWidth

/-- Mesher source lines 125-150, as far as the material grid of the slice that
`_computeSliceScalarField` builds for the field of the slice. -/
def _polygonizeSlice (m : IsotropicParticleMesher) (startidx endidx : Int)
    (materialGrid : Array3d Material) : Option (Array3d Material) :=
  let gridHeight := m._getSubdividedGridDimensions.2.1
  let gridDepth := m._getSubdividedGridDimensions.2.2
  _computeSliceScalarField m startidx materialGrid
    ⟨m.sliceGridWidth startidx endidx + 1, gridHeight + 1, gridDepth + 1⟩

end IsotropicParticleMesher

/-- The number of the six neighbours of the cell that are not solid. -/
def nonSolidCount (g : Array3d Material) (c : GridIndex) : Nat :=
  ((_getNeighbourGridIndices6 c.i c.j c.k).filter
    (fun n => !decide (g.grid n.i n.j n.k = M_SOLID))).length

/-- The triplets that the loop body of `_MatrixCoefficientsToEigenSparseMatrix` appends
for the cell `c` of position `row` when every off-diagonal coefficient it reads is
`-scale`: the diagonal, then one entry per fluid neighbour. -/
def rowTriplets (s : FluidSimulation) (scale : ℚ) (row : Int) (c : GridIndex) :
    List (Int × Int × ℚ) :=
  (row, row, (nonSolidCount s._materialGrid c : ℚ) * scale) ::
    (_getNeighbourGridIndices6 c.i c.j c.k).flatMap (fun n =>
      if s._materialGrid.grid n.i n.j n.k = M_FLUID then
        [(_GridIndexToVectorIndex s n.i n.j n.k, row, -scale)]
      else [])

/-- The body of the loop of source lines 1217-1259 for the cell `ig.2` of position
`ig.1`. -/
def assembleRow (s : FluidSimulation) (A : MatrixCoefficients) (scale : ℚ)
    (ts : List (Int × Int × ℚ)) (ig : Nat × GridIndex) : Option (List (Int × Int × ℚ)) := do
  let i := ig.2.i
  let j := ig.2.j
  let k := ig.2.k
  let row : Int := ig.1
  let col : Int := ig.1
  let diag := (← _getNumFluidOrAirCellNeighbours s._materialGrid i j k) * scale
  let ts := ts ++ [(col, row, diag)]
  let ts ← neighbourTriplet s A.plusi row (i - 1) j k (i - 1) j k ts
  let ts ← neighbourTriplet s A.plusi row (i + 1) j k i j k ts
  let ts ← neighbourTriplet s A.plusj row i (j - 1) k i (j - 1) k ts
  let ts ← neighbourTriplet s A.plusj row i (j + 1) k i j k ts
  let ts ← neighbourTriplet s A.plusk row i j (k - 1) i j (k - 1) ts
  neighbourTriplet s A.plusk row i j (k + 1) i j k ts

/-- The state is ready for the assembly of the pressure system: the material grid has
the dimensions `W × H × D`, no fluid cell lies on its boundary, the fluid cell list
holds exactly the fluid cells, each once, and `_GridIndexToVectorIndex` returns the
position of every listed cell. -/
def SystemReady (s : FluidSimulation) (W H D : Nat) : Prop :=
  HasDims s._materialGrid W H D ∧ FluidInterior s._materialGrid ∧
  (∀ c : GridIndex, c ∈ s._fluidCellIndices ↔
    s._materialGrid.get c.i c.j c.k = some M_FLUID) ∧
  s._fluidCellIndices.Nodup ∧
  ∀ (p : Nat) (c : GridIndex), s._fluidCellIndices[p]? = some c →
    _GridIndexToVectorIndex s c.i c.j c.k = p
/-- The off-diagonal coefficients of a state whose matrix coefficients were computed
from zero: `-scale` where the cell is listed and its positive neighbour is fluid. -/
def PlusCoefficients (s : FluidSimulation) (A : MatrixCoefficients) (scale : ℚ) : Prop :=
  (∀ x y z, A.plusi.grid x y z =
    if GridIndex.mk x y z ∈ s._fluidCellIndices ∧ s._materialGrid.grid (x + 1) y z = M_FLUID
    then -scale else 0) ∧
  (∀ x y z, A.plusj.grid x y z =
    if GridIndex.mk x y z ∈ s._fluidCellIndices ∧ s._materialGrid.grid x (y + 1) z = M_FLUID
    then -scale else 0) ∧
  (∀ x y z, A.plusk.grid x y z =
    if GridIndex.mk x y z ∈ s._fluidCellIndices ∧ s._materialGrid.grid x y (z + 1) = M_FLUID
    then -scale else 0)

/-- The sample duct after the rebuild of the index hash table. -/
def ductSystem : FluidSimulation :=
  _updateFluidGridIndexToEigenVectorXdIndexHashTable ductState

/-- There is a 6-connected path of `n` steps from a cell of `cells` to `c`, every cell
of which after the first is in range and not solid. -/
def PathOfLength (mat : Array3d Material) (cells : List GridIndex) : Nat → GridIndex → Prop
  | 0, c => c ∈ cells
  | n + 1, c => mat.isIndexInRange c.i c.j c.k = true ∧ mat.grid c.i c.j c.k ≠ M_SOLID ∧
      ∃ m ∈ _getNeighbourGridIndices6 c.i c.j c.k, PathOfLength mat cells n m

/-- The breadth-first distance of `c` from `cells` is `n`: a path of `n` steps exists
and no shorter one. -/
def AtDistance (mat : Array3d Material) (cells : List GridIndex) (n : Nat)
    (c : GridIndex) : Prop :=
  PathOfLength mat cells n c ∧ ∀ d, d < n → ¬ PathOfLength mat cells d c

/-- The layer grid `lg1` is `lg` with `l` written at exactly the unreached, in-range,
non-solid cells that satisfy `S`. -/
def MarkedWith (mat : Array3d Material) (lg lg1 : Array3d Int) (l : Int)
    (S : GridIndex → Prop) : Prop :=
  lg1.width = lg.width ∧ lg1.height = lg.height ∧ lg1.depth = lg.depth ∧
  ∀ x y z,
    (lg1.grid x y z = l ∧ (lg.grid x y z = -1 ∧ lg.isIndexInRange x y z = true ∧
      mat.grid x y z ≠ M_SOLID ∧ S ⟨x, y, z⟩)) ∨
    (lg1.grid x y z = lg.grid x y z ∧ ¬ (lg.grid x y z = -1 ∧
      lg.isIndexInRange x y z = true ∧ mat.grid x y z ≠ M_SOLID ∧ S ⟨x, y, z⟩))

/-- After the passes for the layers `1 … l` the layer grid holds the breadth-first
distance of every cell whose distance is at most `l`, and `-1` elsewhere. -/
def LayersUpTo (mat : Array3d Material) (cells : List GridIndex) (l : Nat)
    (lg : Array3d Int) : Prop :=
  lg.width = mat.width ∧ lg.height = mat.height ∧ lg.depth = mat.depth ∧
  ∀ x y z, lg.isIndexInRange x y z = true →
    (lg.grid x y z = -1 ∨ ∃ n : Nat, n ≤ l ∧ lg.grid x y z = n) ∧
    ∀ n : Nat, n ≤ l → (lg.grid x y z = n ↔ AtDistance mat cells n ⟨x, y, z⟩)

/-! ## The walk towards the solid cell -/

/-- Componentwise difference of two vectors (`glm::vec3 - glm::vec3`). -/
def Vec3.sub (a b : Vec3) : Vec3 := ⟨a.x - b.x, a.y - b.y, a.z - b.z⟩

/-- Modelled from the spec: `_isCellNeighbours` of the absent header, the two cells are
26-neighbours (section 4.5): their indices differ by at most one along every axis. -/
def _isCellNeighbours (i1 j1 k1 i2 j2 k2 : Int) : Bool :=
  decide (|i1 - i2| ≤ 1 ∧ |j1 - j2| ≤ 1 ∧ |k1 - k2| ≤ 1)

/-- The variables of the loop of source lines 460-476: the two points, the cell
`(fi, fj, fk)`, the cell `(si, sj, sk)` and the step counter. -/
structure WalkState where
  p0 : Vec3
  p1 : Vec3
  f : GridIndex
  s : GridIndex
  numSteps : Int

/-- Source lines 460-476: the loop that steps back from `p1` by `dx - 10e-6` along
`vnorm` until the two cells are neighbours.  The assertion `numSteps < 100` bounds the
number of passes, so `fuel = 100` is never used up. -/
def walkingLoop (s : FluidSimulation) (vnorm : Vec3) : Nat → WalkState → Option WalkState
  | 0, _ => none
  | fuel + 1, w =>
    if _isCellNeighbours w.f.i w.f.j w.f.k w.s.i w.s.j w.s.k then some w
    else do
      let p0 := w.p1.sub (Vec3.scale (s._dx - 1 / 100000) vnorm)
      let n := positionToGridIndex s._dx p0
      let solid ← _isCellSolid s._materialGrid n.i n.j n.k
      let w1 : WalkState :=
        if solid then { w with p0 := p0, p1 := p0, s := n } else { w with p0 := p0, f := n }
      let numSteps := w.numSteps + 1
      if ¬ (numSteps < 100) then none
      else if w1.f = w1.s then none
      else walkingLoop s vnorm fuel { w1 with numSteps := numSteps }

/-- Source lines 449-476 of `_calculateSolidCellCollision`: the cells of the two points,
the two assertions, the direction and the walking loop; the result holds the points and
cells with which `_findFaceCollision` is called.  `normalize` is `glm::normalize`. -/
def walkToNeighbours (normalize : Vec3 → Vec3) (s : FluidSimulation) (p0 p1 : Vec3) :
    Option WalkState := do
  let f := positionToGridIndex s._dx p0
  let c := positionToGridIndex s._dx p1
  if (← _isCellSolid s._materialGrid f.i f.j f.k) then none
  else if !(← _isCellSolid s._materialGrid c.i c.j c.k) then none
  else walkingLoop s (normalize (p1.sub p0)) 100 ⟨p0, p1, f, c, 1⟩

/-- The material of the sample pocket: the cell `(1, 1, 1)` is air, every other cell is
solid. -/
def pocketMaterial (i j k : Int) : Material :=
  if i = 1 ∧ j = 1 ∧ k = 1 then M_AIR else M_SOLID

/-- A 5×3×3 simulation with `dx = 1` whose only non-solid cell is `(1, 1, 1)`. -/
def pocketState : FluidSimulation := mkSimulation 5 3 3 1 pocketMaterial []

/-! ## Collisions with the faces of solid cells -/

/-- The inner product `glm::dot`. -/
def Vec3.dot (a b : Vec3) : ℚ := a.x * b.x + a.y * b.y + a.z * b.z

/-- Modelled from the spec: `CellFace` of the absent header, as the source uses it: the
normal and the coordinates of the two corners `minp`, `maxp` handed to the
constructor `CellFace(normal, minp, maxp)`. -/
structure CellFace where
  normal : Vec3
  minx : ℚ
  miny : ℚ
  minz : ℚ
  maxx : ℚ
  maxy : ℚ
  maxz : ℚ

/-- Source lines 224-241; the literal `10e-6` is `1/100000`. -/
def _isPointOnCellFace (p : Vec3) (f : CellFace) : Bool :=
  if |(|f.normal.x| - 1)| < 1 / 100000 then
    decide (|p.x - f.minx| < 1 / 100000 ∧
      p.y ≥ f.miny ∧ p.y < f.maxy ∧ p.z ≥ f.minz ∧ p.z < f.maxz)
  else if |(|f.normal.y| - 1)| < 1 / 100000 then
    decide (|p.y - f.miny| < 1 / 100000 ∧
      p.x ≥ f.minx ∧ p.x < f.maxx ∧ p.z ≥ f.minz ∧ p.z < f.maxz)
  else if |(|f.normal.z| - 1)| < 1 / 100000 then
    decide (|p.z - f.minz| < 1 / 100000 ∧
      p.x ≥ f.minx ∧ p.x < f.maxx ∧ p.y ≥ f.miny ∧ p.y < f.maxy)
  else false

/-- Source lines 243-264; the literal `10e-4` is `1/1000`.  A normal along none of the
axes leaves `trans` without a value, which is treated as an abort. -/
def _getCellFace (s : FluidSimulation) (i j k : Int) (normal : Vec3) : Option CellFace := do
  if !(_isCellIndexInRange s i j k) then none
  else do
    let trans ← (if |(|normal.x| - 1)| < 1 / 1000 then
        some (Vec3.scale (0.5 * s._dx) ⟨0, 1, 1⟩)
      else if |(|normal.y| - 1)| < 1 / 1000 then some (Vec3.scale (0.5 * s._dx) ⟨1, 0, 1⟩)
      else if |(|normal.z| - 1)| < 1 / 1000 then some (Vec3.scale (0.5 * s._dx) ⟨1, 1, 0⟩)
      else none)
    let c ← gridIndexToCellCenter s i j k
    let minp := (c.add (Vec3.scale (0.5 * s._dx) normal)).sub trans
    let maxp := (c.add (Vec3.scale (0.5 * s._dx) normal)).add trans
    pure ⟨normal, minp.x, minp.y, minp.z, maxp.x, maxp.y, maxp.z⟩

/-- Source lines 714-726: the 26 neighbours of a cell in the order of the array
`n[0..25]`. -/
def _getNeighbourGridIndices26 (i j k : Int) : List GridIndex :=
  ([k - 1, k, k + 1].flatMap fun nk =>
    [j - 1, j, j + 1].flatMap fun nj =>
      [i - 1, i, i + 1].map fun ni => GridIndex.mk ni nj nk).filter
    (fun n => !decide (n.i = i ∧ n.j = j ∧ n.k = k))

/-- The six normals of source lines 280-282. -/
def faceNormals : List Vec3 :=
  [⟨-1, 0, 0⟩, ⟨1, 0, 0⟩, ⟨0, -1, 0⟩, ⟨0, 1, 0⟩, ⟨0, 0, -1⟩, ⟨0, 0, 1⟩]

/-- Source lines 274-296. -/
def _getNeighbourSolidCellFaces (s : FluidSimulation) (i j k : Int) :
    Option (List CellFace) := do
  if !(_isCellIndexInRange s i j k) then none
  else
    (_getNeighbourGridIndices26 i j k).foldlM (fun (faces : List CellFace) c => do
      if _isCellIndexInRange s c.i c.j c.k then
        if (← _isCellSolid s._materialGrid c.i c.j c.k) then
          faceNormals.foldlM (fun (faces : List CellFace) normal => do
            let f ← _getCellFace s c.i c.j c.k normal
            pure (faces ++ [f])) faces
        else pure faces
      else pure faces) []

/-- Source lines 298-318: whether the line meets the face, and the point written to
`*intersect`, which is `p0` when the first test returns; the literal `10e-30` is
`1/10^29`. -/
def _getVectorFaceIntersection (p0 vnorm : Vec3) (f : CellFace) : Bool × Vec3 :=
  let dot := vnorm.dot f.normal
  if |dot| < 1 / 100000000000000000000000000000 then (false, p0)
  else
    let planep : Vec3 := ⟨f.minx, f.miny, f.minz⟩
    let d := (planep.sub p0).dot f.normal / dot
    let intersect := p0.add (Vec3.scale d vnorm)
    (_isPointOnCellFace intersect f, intersect)

/-- Source lines 366-381. -/
def _getSolidCellFaceCollisionCandidates (s : FluidSimulation) (i j k : Int) (dir : Vec3) :
    Option (List CellFace) := do
  let allfaces ← _getNeighbourSolidCellFaces s i j k
  pure (allfaces.filter (fun f => decide (f.normal.dot dir < 0)))

/-- The body of the loop of source lines 393-411; the accumulator is `none` while
`mindistsq` is infinite, else the smallest squared distance with its intersection and
face. -/
def closerCollision (p0 vnorm : Vec3) (best : Option (ℚ × Vec3 × CellFace)) (f : CellFace) :
    Option (ℚ × Vec3 × CellFace) :=
  let r := _getVectorFaceIntersection p0 vnorm f
  if !r.1 then best
  else
    let trans := r.2.sub p0
    let distsq := trans.dot trans
    match best with
    | none => some (distsq, r.2, f)
    | some b => if distsq < b.1 then some (distsq, r.2, f) else some b

/-- Source lines 383-434: `none` inside when no collision is found, else the face and
the intersection.  `normalize` is `glm::normalize`. -/
def _findFaceCollision (normalize : Vec3 → Vec3) (s : FluidSimulation) (p0 p1 : Vec3) :
    Option (Option (CellFace × Vec3)) := do
  let c := positionToGridIndex s._dx p0
  let vnorm := normalize (p1.sub p0)
  let faces ← _getSolidCellFaceCollisionCandidates s c.i c.j c.k vnorm
  pure ((faces.foldl (closerCollision p0 vnorm) none).map (fun b => (b.2.2, b.2.1)))

/-- Squared distance between two points. -/
def distsq (p q : Vec3) : ℚ := (q.sub p).dot (q.sub p)

/-- The cell `n` is one of the 26 neighbours of the cell `c`. -/
def IsNeighbour26 (c n : GridIndex) : Prop :=
  n ≠ c ∧ c.i - 1 ≤ n.i ∧ n.i ≤ c.i + 1 ∧ c.j - 1 ≤ n.j ∧ n.j ≤ c.j + 1 ∧
    c.k - 1 ≤ n.k ∧ n.k ≤ c.k + 1

/-- The face `f` is one of the six faces of an in-range solid 26-neighbour of the
cell `c`. -/
def IsNeighbourSolidFace (s : FluidSimulation) (c : GridIndex) (f : CellFace) : Prop :=
  ∃ n : GridIndex, IsNeighbour26 c n ∧ _isCellIndexInRange s n.i n.j n.k = true ∧
    s._materialGrid.get n.i n.j n.k = some M_SOLID ∧
    ∃ normal ∈ faceNormals, _getCellFace s n.i n.j n.k normal = some f

/-- The line through `p0` with direction `d` crosses the plane of the face `f` at the
point `q`, and `q` lies on the face. -/
def LineMeetsFace (p0 d : Vec3) (f : CellFace) (q : Vec3) : Prop :=
  (∃ t : ℚ, q = p0.add (Vec3.scale t d)) ∧
  (q.sub ⟨f.minx, f.miny, f.minz⟩).dot f.normal = 0 ∧ _isPointOnCellFace q f = true

/-- What the accumulator of the loop of `_findFaceCollision` holds after the faces
`L`: nothing when no face of `L` is met, else a face of `L` that is met, with the
intersection and its squared distance, which no intersection with a face of `L`
undercuts. -/
def ClosestOf (p0 vnorm : Vec3) (L : List CellFace) :
    Option (ℚ × Vec3 × CellFace) → Prop
  | none => ∀ f ∈ L, (_getVectorFaceIntersection p0 vnorm f).1 = false
  | some b => b.2.2 ∈ L ∧ _getVectorFaceIntersection p0 vnorm b.2.2 = (true, b.2.1) ∧
      b.1 = distsq p0 b.2.1 ∧
      ∀ f ∈ L, (_getVectorFaceIntersection p0 vnorm f).1 = true →
        b.1 ≤ distsq p0 (_getVectorFaceIntersection p0 vnorm f).2

/-- The intersections that `_findFaceCollision` takes into account: `f` is a face of an
in-range solid 26-neighbour of the cell of `p0`, its normal has a negative inner
product with the direction `d`, the normalised direction `vnorm` is not within
`10e-30` of the plane of the face, and the line through `p0` with direction `d` meets
the face at `q`. -/
def CollidesAt (s : FluidSimulation) (p0 d vnorm : Vec3) (f : CellFace) (q : Vec3) : Prop :=
  IsNeighbourSolidFace s (positionToGridIndex s._dx p0) f ∧ f.normal.dot d < 0 ∧
    1 / 100000000000000000000000000000 ≤ |vnorm.dot f.normal| ∧ LineMeetsFace p0 d f q

/-- The material of the sample grid for collisions: the cell `(0, 1, 1)` is solid,
every other cell holds air. -/
def grazingMaterial (i j k : Int) : Material :=
  if i = 0 ∧ j = 1 ∧ k = 1 then M_SOLID else M_AIR

/-- A 3×4×3 simulation with `dx = 1` whose only solid cell is `(0, 1, 1)`. -/
def grazingState : FluidSimulation := mkSimulation 3 4 3 1 grazingMaterial []

/-- A direction of length one, `(2t, 1 - t², 0) / (1 + t²)` for `t = 10⁻³⁰`: it runs
along the `y` axis and leans away from the plane `x = 0` by about `2 · 10⁻³⁰`. -/
def grazingDirection : Vec3 :=
  ⟨2 * 10 ^ 30 / (10 ^ 60 + 1), (10 ^ 60 - 1) / (10 ^ 60 + 1), 0⟩

/-- The point `(0, 1.5, 1.5) + 0.7 · grazingDirection`, about
`(1.4 · 10⁻³⁰, 2.2, 1.5)`, a point of the cell `(0, 2, 1)`. -/
def grazingStart : Vec3 :=
  ⟨7 * 10 ^ 30 / (5 * (10 ^ 60 + 1)), 3 / 2 + 7 * (10 ^ 60 - 1) / (10 * (10 ^ 60 + 1)), 3 / 2⟩

/-- The point one unit from `grazingStart` along `grazingDirection`. -/
def grazingEnd : Vec3 := grazingStart.add grazingDirection

/-- The face of the cell `(0, 1, 1)` with normal `(-1, 0, 0)`, on the plane `x = 0`. -/
def grazingFace : CellFace := ⟨⟨-1, 0, 0⟩, 0, 1, 1, 0, 2, 2⟩

/-- A square root on the rationals for running the model: the quotient of the integer
square roots of the numerator and the denominator.  It is the exact square root of
every square of a rational, and positive on positive arguments. -/
def ratSqrt (x : ℚ) : ℚ := (Nat.sqrt x.num.toNat : ℚ) / (Nat.sqrt x.den : ℚ)

/-- The coefficients of the pressure system of the sample duct for the scale
`dt/(ρ·dx²) = 4`: the fluid cell `(1, 1, 1)` has one non-solid neighbour, the fluid cell
`(2, 1, 1)`, which has two, and the two cells are coupled by `-4`. -/
def ductCoefficients : MatrixCoefficients :=
  { diag := ⟨5, 3, 3, fun i j k =>
      if i = 1 ∧ j = 1 ∧ k = 1 then 4 else if i = 2 ∧ j = 1 ∧ k = 1 then 8 else 0⟩
    plusi := ⟨5, 3, 3, fun i j k => if i = 1 ∧ j = 1 ∧ k = 1 then -4 else 0⟩
    plusj := ⟨5, 3, 3, fun _ _ _ => 0⟩
    plusk := ⟨5, 3, 3, fun _ _ _ => 0⟩ }

/-- Source lines 842-885 once more, with `commitTemporaryVelocityFieldValues` of the
absent class `MACVelocityField` as the parameter `commit`. -/
def extrapolateVelocitiesForLayerIndexWith (commit : MACVelocityField → MACVelocityField)
    (s : FluidSimulation) (idx : Int) : Option FluidSimulation := do
  let m := s._MACVelocity.resetTemporaryVelocityField
  let m ← forCells s._k_voxels s._j_voxels (s._i_voxels + 1) (fun i j k m =>
    if _isFaceBorderingLayerIndexU s._layerGrid i j k idx &&
        !_isFaceBorderingLayerIndexU s._layerGrid i j k (idx - 1) &&
        !_isFaceBorderingMaterialU s._materialGrid i j k M_SOLID then
      m.setTempU i j k (_getExtrapolatedVelocityForFaceU m s._layerGrid i j k idx)
    else pure m) m
  let m ← forCells s._k_voxels (s._j_voxels + 1) s._i_voxels (fun i j k m =>
    if _isFaceBorderingLayerIndexV s._layerGrid i j k idx &&
        !_isFaceBorderingLayerIndexV s._layerGrid i j k (idx - 1) &&
        !_isFaceBorderingMaterialV s._materialGrid i j k M_SOLID then
      m.setTempV i j k (_getExtrapolatedVelocityForFaceV m s._layerGrid i j k idx)
    else pure m) m
  let m ← forCells (s._k_voxels + 1) s._j_voxels s._i_voxels (fun i j k m =>
    if _isFaceBorderingLayerIndexW s._layerGrid i j k idx &&
        !_isFaceBorderingLayerIndexW s._layerGrid i j k (idx - 1) &&
        !_isFaceBorderingMaterialW s._materialGrid i j k M_SOLID then
      m.setTempW i j k (_getExtrapolatedVelocityForFaceW m s._layerGrid i j k idx)
    else pure m) m
  pure { s with _MACVelocity := commit m }

/-- Source lines 919-926 once more, with the commit of every layer as the parameter
`commit`. -/
def extrapolateFluidVelocitiesWith (commit : MACVelocityField → MACVelocityField)
    (s : FluidSimulation) : Option FluidSimulation := do
  let s ← _resetExtrapolatedFluidVelocities s
  let (s, numLayers) ← _updateExtrapolationLayers s
  forFromTo 1 numLayers (fun i s => extrapolateVelocitiesForLayerIndexWith commit s i) s

/-- What is assumed of a commit of the temp arrays: the six arrays keep their
dimensions, and every live value after the commit is either the value staged in the
temp array or the live value before the commit.  This holds of a commit that replaces
the live arrays by the temp arrays, and of one that copies only the faces written since
the reset. -/
def CommitsFaceByFace (commit : MACVelocityField → MACVelocityField) : Prop :=
  ∀ (m : MACVelocityField) (W H D : Nat),
    HasDims m.u (W + 1) H D → HasDims m.v W (H + 1) D → HasDims m.w W H (D + 1) →
    HasDims m.tempU (W + 1) H D → HasDims m.tempV W (H + 1) D →
    HasDims m.tempW W H (D + 1) →
    (HasDims (commit m).u (W + 1) H D ∧ HasDims (commit m).v W (H + 1) D ∧
      HasDims (commit m).w W H (D + 1) ∧ HasDims (commit m).tempU (W + 1) H D ∧
      HasDims (commit m).tempV W (H + 1) D ∧ HasDims (commit m).tempW W H (D + 1)) ∧
    ∀ i j k : Int,
      ((commit m).u.grid i j k = m.tempU.grid i j k ∨
        (commit m).u.grid i j k = m.u.grid i j k) ∧
      ((commit m).v.grid i j k = m.tempV.grid i j k ∨
        (commit m).v.grid i j k = m.v.grid i j k) ∧
      ((commit m).w.grid i j k = m.tempW.grid i j k ∨
        (commit m).w.grid i j k = m.w.grid i j k)

/-- The sample flow: a 3×3×3 grid with `dx = 1` whose centre cell is fluid and listed
and whose other cells are solid, with the velocity `1` on every face. -/
def shellFlowState : FluidSimulation :=
  { centreFluidState M_SOLID [] with
    _MACVelocity :=
      { MACVelocityField.zero 3 3 3 with
        u := ⟨4, 3, 3, fun _ _ _ => 1⟩
        v := ⟨3, 4, 3, fun _ _ _ => 1⟩
        w := ⟨3, 3, 4, fun _ _ _ => 1⟩ } }

/-! ## Time stepping in single precision -/

/-- Source lines 214-222 with the narrowing of `fmaxf` and `fminf`, whose parameters are
`float`: `toFloat` is the conversion from `double` to `float` of the C implementation,
which both calls apply to each of their two arguments; the result of either call is a
`float`, which converts back to `double` exactly.  For `maxu = 0` the quotient is as in
`_calculateNextTimeStep`: `+∞` passes `fmaxf` and is cut to `(float)_maxTimeStep`,
and otherwise `fmaxf` returns `(float)_minTimeStep`. -/
def _calculateNextTimeStepFloat (toFloat : ℚ → ℚ) (s : FluidSimulation) (maxu : ℚ) : ℚ :=
  if maxu = 0 then
    if 0 < s._CFLConditionNumber * s._dx then toFloat s._maxTimeStep
    else min (toFloat s._maxTimeStep) (toFloat (toFloat s._minTimeStep))
  else
    let timeStep := s._CFLConditionNumber * s._dx / maxu
    let timeStep := max (toFloat s._minTimeStep) (toFloat timeStep)
    let timeStep := min (toFloat s._maxTimeStep) (toFloat timeStep)
    timeStep

theorem hasDims_mk {α : Type} (w h d : Nat) (f : Int → Int → Int → α) :
    HasDims (Array3d.mk w h d f) w h d :=
  ⟨rfl, rfl, rfl⟩

theorem mkSimulation_wellFormed (W H D : Nat) (dx : ℚ) (mat : Int → Int → Int → Material)
    (ps : List MarkerParticle) : WellFormed (mkSimulation W H D dx mat ps) :=
  ⟨hasDims_mk W H D mat, hasDims_mk W H D _, hasDims_mk W H D _,
    hasDims_mk (W + 1) H D _, hasDims_mk W (H + 1) D _, hasDims_mk W H (D + 1) _,
    hasDims_mk (W + 1) H D _, hasDims_mk W (H + 1) D _, hasDims_mk W H (D + 1) _⟩

/-! ## Loop reasoning -/

theorem forRange_succ {σ : Type} (n : Nat) (body : Int → σ → Option σ) (init : σ) :
    forRange (n + 1) body init = (forRange n body init).bind (body (n : Int)) := by
  unfold forRange
  rw [List.range_succ, List.foldlM_append]
  cases h : List.foldlM (fun s (i : Nat) => body (i : Int) s) init (List.range n) <;> simp [h]

/-- Invariant rule for `forRange`: an invariant that every iteration re-establishes
holds after the loop, and the loop does not abort. -/
theorem forRange_inv {σ : Type} (n : Nat) (body : Int → σ → Option σ) (init : σ)
    (I : Nat → σ → Prop) (h0 : I 0 init)
    (hstep : ∀ m s, m < n → I m s → ∃ s', body (m : Int) s = some s' ∧ I (m + 1) s') :
    ∃ s', forRange n body init = some s' ∧ I n s' := by
  induction n with
  | zero => exact ⟨init, rfl, h0⟩
  | succ n ih =>
    obtain ⟨s1, h1, hI1⟩ := ih (fun m s hm hI => hstep m s (Nat.lt_succ_of_lt hm) hI)
    obtain ⟨s2, h2, hI2⟩ := hstep n s1 (Nat.lt_succ_self n) hI1
    exact ⟨s2, by rw [forRange_succ, h1]; exact h2, hI2⟩

theorem foldlM_option_append {σ α : Type} (f : σ → α → Option σ) (l : List α) (a : α)
    (init : σ) : (l ++ [a]).foldlM f init = (l.foldlM f init).bind (fun s => f s a) := by
  rw [List.foldlM_append]
  cases h : l.foldlM f init <;> simp

/-- Invariant rule for a fold over a list in the `Option` monad; the invariant is
indexed by the prefix already processed. -/
theorem foldlM_inv {σ α : Type} (f : σ → α → Option σ) (l : List α) (init : σ)
    (I : List α → σ → Prop) (h0 : I [] init)
    (hstep : ∀ pre a post s, l = pre ++ a :: post → I pre s →
      ∃ s', f s a = some s' ∧ I (pre ++ [a]) s') :
    ∃ s', l.foldlM f init = some s' ∧ I l s' := by
  induction l using List.reverseRecOn with
  | nil => exact ⟨init, rfl, h0⟩
  | append_singleton l a ih =>
    obtain ⟨s1, h1, hI1⟩ := ih (fun pre a' post s hl hI =>
      hstep pre a' (post ++ [a]) s (by rw [hl]; simp) hI)
    obtain ⟨s2, h2, hI2⟩ := hstep l a [] s1 rfl hI1
    exact ⟨s2, by rw [foldlM_option_append, h1]; exact h2, hI2⟩

theorem foldlM_option_flatMap {σ α β : Type} (f : σ → β → Option σ) (g : α → List β)
    (l : List α) (init : σ) :
    (l.flatMap g).foldlM f init = l.foldlM (fun s a => (g a).foldlM f s) init := by
  induction l generalizing init with
  | nil => rfl
  | cons a l ih =>
    rw [List.flatMap_cons, List.foldlM_append, List.foldlM_cons]
    cases h : (g a).foldlM f init with
    | none => rfl
    | some s1 => exact ih s1

theorem foldlM_option_map {σ α β : Type} (f : σ → β → Option σ) (g : α → β)
    (l : List α) (init : σ) :
    (l.map g).foldlM f init = l.foldlM (fun s a => f s (g a)) init := by
  induction l generalizing init with
  | nil => rfl
  | cons a l ih =>
    rw [List.map_cons, List.foldlM_cons, List.foldlM_cons]
    cases h : f init (g a) with
    | none => rfl
    | some s1 => exact ih s1

/-- The triple loop is a fold over the list of cells it visits. -/
theorem forCells_eq_foldlM {σ : Type} (depth height width : Nat)
    (body : Int → Int → Int → σ → Option σ) (init : σ) :
    forCells depth height width body init =
      (cellList depth height width).foldlM (fun s c => body c.i c.j c.k s) init := by
  unfold forCells cellList forRange
  rw [foldlM_option_flatMap]
  congr 1
  funext s k
  rw [foldlM_option_flatMap]
  beta_reduce
  congr 1
  funext s j
  rw [foldlM_option_map]

theorem mem_cellList (depth height width : Nat) (c : GridIndex) :
    c ∈ cellList depth height width ↔
      0 ≤ c.i ∧ c.i < width ∧ 0 ≤ c.j ∧ c.j < height ∧ 0 ≤ c.k ∧ c.k < depth := by
  unfold cellList
  simp only [List.mem_flatMap, List.mem_range, List.mem_map]
  constructor
  · rintro ⟨k, hk, j, hj, i, hi, rfl⟩
    simp only
    omega
  · rintro ⟨h1, h2, h3, h4, h5, h6⟩
    refine ⟨c.k.toNat, by omega, c.j.toNat, by omega, c.i.toNat, by omega, ?_⟩
    cases c with
    | mk i j k =>
      simp only at h1 h2 h3 h4 h5 h6
      simp only [GridIndex.mk.injEq]
      omega

/-! ## Painting cells with one value -/

theorem Painted.refl {α : Type} (g0 : Array3d α) (v : α) :
    Painted g0 g0 v (fun _ _ _ => False) :=
  ⟨rfl, rfl, rfl, fun _ _ _ => ⟨fun h => h.elim, fun _ => rfl⟩⟩

theorem Painted.congr {α : Type} {g0 g : Array3d α} {v : α} {P Q : Int → Int → Int → Prop}
    (h : Painted g0 g v P) (hPQ : ∀ x y z, P x y z ↔ Q x y z) : Painted g0 g v Q := by
  obtain ⟨h1, h2, h3, h4⟩ := h
  refine ⟨h1, h2, h3, fun x y z => ⟨fun hq => (h4 x y z).1 ((hPQ x y z).2 hq), fun hq => ?_⟩⟩
  exact (h4 x y z).2 (fun hp => hq ((hPQ x y z).1 hp))

theorem Painted.trans {α : Type} {g0 g1 g2 : Array3d α} {v : α}
    {P Q : Int → Int → Int → Prop}
    (h1 : Painted g0 g1 v P) (h2 : Painted g1 g2 v Q) :
    Painted g0 g2 v (fun x y z => P x y z ∨ Q x y z) := by
  obtain ⟨a1, a2, a3, a4⟩ := h1
  obtain ⟨b1, b2, b3, b4⟩ := h2
  refine ⟨b1.trans a1, b2.trans a2, b3.trans a3, fun x y z => ⟨fun h => ?_, fun h => ?_⟩⟩
  · by_cases hq : Q x y z
    · exact (b4 x y z).1 hq
    · rw [(b4 x y z).2 hq]
      exact (a4 x y z).1 (h.resolve_right hq)
  · rw [(b4 x y z).2 (fun hq => h (Or.inr hq))]
    exact (a4 x y z).2 (fun hp => h (Or.inl hp))

theorem Painted.set {α : Type} {g0 g : Array3d α} {v : α} {P : Int → Int → Int → Prop}
    (h : Painted g0 g v P) (i j k : Int) (hin : g0.isIndexInRange i j k = true) :
    ∃ g', g.set i j k v = some g' ∧
      Painted g0 g' v (fun x y z => P x y z ∨ (x = i ∧ y = j ∧ z = k)) := by
  obtain ⟨h1, h2, h3, h4⟩ := h
  have hin' : g.isIndexInRange i j k = true := by
    simpa [Array3d.isIndexInRange, h1, h2, h3] using hin
  have hs : g.set i j k v = some { g with
      grid := fun a b c => if a = i ∧ b = j ∧ c = k then v else g.grid a b c } := by
    simp [Array3d.set, hin']
  refine ⟨_, hs, h1, h2, h3, fun x y z => ⟨fun hp => ?_, fun hp => ?_⟩⟩
  · by_cases hc : x = i ∧ y = j ∧ z = k
    · exact if_pos hc
    · exact (if_neg hc).trans ((h4 x y z).1 (hp.resolve_right hc))
  · have hc : ¬ (x = i ∧ y = j ∧ z = k) := fun hc => hp (Or.inr hc)
    exact (if_neg hc).trans ((h4 x y z).2 (fun hq => hp (Or.inl hq)))

/-- A double loop whose body paints the two cells `(x1, y1, z1) a b` and
`(x2, y2, z2) a b`. -/
theorem paint_two_loop {α : Type} (n m : Nat) (g0 : Array3d α) (v : α)
    (x1 y1 z1 x2 y2 z2 : Int → Int → Int)
    (hin : ∀ a b : Nat, a < n → b < m →
      g0.isIndexInRange (x1 a b) (y1 a b) (z1 a b) = true ∧
      g0.isIndexInRange (x2 a b) (y2 a b) (z2 a b) = true) :
    ∃ g, forRange n (fun a g => forRange m (fun b g =>
          (g.set (x1 a b) (y1 a b) (z1 a b) v).bind
            (fun g => g.set (x2 a b) (y2 a b) (z2 a b) v)) g) g0 = some g ∧
      Painted g0 g v (fun x y z => ∃ a b : Nat, a < n ∧ b < m ∧
        ((x = x1 a b ∧ y = y1 a b ∧ z = z1 a b) ∨ (x = x2 a b ∧ y = y2 a b ∧ z = z2 a b))) := by
  apply forRange_inv n _ g0 (fun n' g => Painted g0 g v (fun x y z => ∃ a b : Nat,
      a < n' ∧ b < m ∧
      ((x = x1 a b ∧ y = y1 a b ∧ z = z1 a b) ∨ (x = x2 a b ∧ y = y2 a b ∧ z = z2 a b))))
  · exact (Painted.refl g0 v).congr (fun x y z => by simp)
  · intro a g ha hI
    have key := forRange_inv m (fun b g =>
          (g.set (x1 a b) (y1 a b) (z1 a b) v).bind
            (fun g => g.set (x2 a b) (y2 a b) (z2 a b) v)) g
      (fun m' g => Painted g0 g v (fun x y z =>
        (∃ a' b : Nat, a' < a ∧ b < m ∧
          ((x = x1 a' b ∧ y = y1 a' b ∧ z = z1 a' b) ∨
            (x = x2 a' b ∧ y = y2 a' b ∧ z = z2 a' b))) ∨
        (∃ b : Nat, b < m' ∧
          ((x = x1 a b ∧ y = y1 a b ∧ z = z1 a b) ∨
            (x = x2 a b ∧ y = y2 a b ∧ z = z2 a b)))))
      (hI.congr (fun x y z => by simp)) ?_
    · obtain ⟨g', hg', hP⟩ := key
      refine ⟨g', hg', hP.congr (fun x y z => ⟨?_, ?_⟩)⟩
      · rintro (⟨a', b, ha', hb, h⟩ | ⟨b, hb, h⟩)
        · exact ⟨a', b, Nat.lt_succ_of_lt ha', hb, h⟩
        · exact ⟨a, b, Nat.lt_succ_self a, hb, h⟩
      · rintro ⟨a', b, ha', hb, h⟩
        rcases Nat.lt_succ_iff_lt_or_eq.1 ha' with h' | h'
        · exact Or.inl ⟨a', b, h', hb, h⟩
        · subst h'; exact Or.inr ⟨b, hb, h⟩
    · intro b g1 hb hI1
      obtain ⟨hi1, hi2⟩ := hin a b ha hb
      obtain ⟨g2, hg2, hP2⟩ := hI1.set _ _ _ hi1
      obtain ⟨g3, hg3, hP3⟩ := hP2.set _ _ _ hi2
      refine ⟨g3, by show Option.bind _ _ = _; rw [hg2]; exact hg3,
        hP3.congr (fun x y z => ⟨?_, ?_⟩)⟩
      · rintro ((h | h) | h)
        · rcases h with h | ⟨b', hb', h⟩
          · exact Or.inl h
          · exact Or.inr ⟨b', Nat.lt_succ_of_lt hb', h⟩
        · exact Or.inr ⟨b, Nat.lt_succ_self b, Or.inl h⟩
        · exact Or.inr ⟨b, Nat.lt_succ_self b, Or.inr h⟩
      · rintro (h | ⟨b', hb', h⟩)
        · exact Or.inl (Or.inl (Or.inl h))
        · rcases Nat.lt_succ_iff_lt_or_eq.1 hb' with h' | h'
          · exact Or.inl (Or.inl (Or.inr ⟨b', h', h⟩))
          · subst h'
            rcases h with h | h
            · exact Or.inl (Or.inr h)
            · exact Or.inr h

/-! ## The three phases of `_updateFluidCells` -/

theorem get_of_inRange {α : Type} (g : Array3d α) (i j k : Int)
    (h : g.isIndexInRange i j k = true) : g.get i j k = some (g.grid i j k) := by
  simp [Array3d.get, h]

theorem inRange_of_dims {α β : Type} {g : Array3d α} {g' : Array3d β}
    (hw : g'.width = g.width) (hh : g'.height = g.height) (hd : g'.depth = g.depth)
    (i j k : Int) : g'.isIndexInRange i j k = g.isIndexInRange i j k := by
  simp [Array3d.isIndexInRange, hw, hh, hd]

theorem inRange_of_mem_cellList {α : Type} (g : Array3d α) (c : GridIndex)
    (h : c ∈ cellList g.depth g.height g.width) : g.isIndexInRange c.i c.j c.k = true := by
  rw [mem_cellList] at h
  simp only [Array3d.isIndexInRange, decide_eq_true_eq]
  omega

theorem mem_cellList_of_inRange {α : Type} (g : Array3d α) (x y z : Int)
    (h : g.isIndexInRange x y z = true) :
    GridIndex.mk x y z ∈ cellList g.depth g.height g.width := by
  rw [mem_cellList]
  simp only [Array3d.isIndexInRange, decide_eq_true_eq] at h
  simp only
  omega

/-- The first sweep of `_updateFluidCells` completes and turns exactly the in-range
`M_FLUID` cells into `M_AIR`. -/
theorem clearFluidCells_spec (g : Array3d Material) :
    ∃ g1, clearFluidCells g = some g1 ∧
      g1.width = g.width ∧ g1.height = g.height ∧ g1.depth = g.depth ∧
      ∀ x y z, g1.grid x y z =
        if g.isIndexInRange x y z = true ∧ g.grid x y z = M_FLUID then M_AIR
        else g.grid x y z := by
  unfold clearFluidCells
  rw [forCells_eq_foldlM]
  obtain ⟨g1, hg1, hw, hh, hd, hI⟩ := foldlM_inv
    (fun (g : Array3d Material) (c : GridIndex) => do
      if (← _isCellFluid g c.i c.j c.k) then g.set c.i c.j c.k M_AIR else pure g)
    (cellList g.depth g.height g.width) g
    (fun pre g' => g'.width = g.width ∧ g'.height = g.height ∧ g'.depth = g.depth ∧
      ∀ x y z, g'.grid x y z =
        if GridIndex.mk x y z ∈ pre ∧ g.grid x y z = M_FLUID then M_AIR else g.grid x y z)
    ⟨rfl, rfl, rfl, fun x y z => by simp⟩
    (by
      rintro pre ⟨i, j, k⟩ post g' hl ⟨hw, hh, hd, hI⟩
      have hmem : GridIndex.mk i j k ∈ cellList g.depth g.height g.width := by
        rw [hl]; simp
      have hin : g'.isIndexInRange i j k = true := by
        rw [inRange_of_dims hw hh hd]
        exact inRange_of_mem_cellList g _ hmem
      have hI0 := hI i j k
      by_cases hf : g'.grid i j k = M_FLUID
      · refine ⟨{ g' with grid := fun a b c =>
            if a = i ∧ b = j ∧ c = k then M_AIR else g'.grid a b c }, ?_, hw, hh, hd, ?_⟩
        · simp [_isCellFluid, Array3d.set, get_of_inRange g' i j k hin, hf, hin]
        · intro x y z
          have hgf : g.grid i j k = M_FLUID := by
            by_contra hne
            rw [hf] at hI0
            simp [hne] at hI0
            exact hne hI0.symm
          by_cases hc : x = i ∧ y = j ∧ z = k
          · obtain ⟨rfl, rfl, rfl⟩ := hc
            simp [hgf]
          · have hne : GridIndex.mk x y z ≠ GridIndex.mk i j k := by
              intro h; injection h with h1 h2 h3; exact hc ⟨h1, h2, h3⟩
            simp only [hc, if_false, hI x y z, List.mem_append, List.mem_singleton, hne,
              or_false]
      · refine ⟨g', ?_, hw, hh, hd, ?_⟩
        · simp [_isCellFluid, get_of_inRange g' i j k hin, hf]
        · intro x y z
          by_cases hc : x = i ∧ y = j ∧ z = k
          · obtain ⟨rfl, rfl, rfl⟩ := hc
            rw [hI0]
            by_cases hgf : g.grid x y z = M_FLUID
            · have : GridIndex.mk x y z ∈ pre := by
                by_contra hnm
                apply hf
                rw [hI0]
                simp [hnm, hgf]
              simp [this, hgf]
            · simp [hgf]
          · have hne : GridIndex.mk x y z ≠ GridIndex.mk i j k := by
              intro h; injection h with h1 h2 h3; exact hc ⟨h1, h2, h3⟩
            simp only [hI x y z, List.mem_append, List.mem_singleton, hne, or_false])
  refine ⟨g1, hg1, hw, hh, hd, fun x y z => ?_⟩
  rw [hI x y z]
  by_cases hin : g.isIndexInRange x y z = true
  · simp [hin, mem_cellList_of_inRange g x y z hin]
  · have : GridIndex.mk x y z ∉ cellList g.depth g.height g.width := fun h =>
      hin (inRange_of_mem_cellList g _ h)
    simp [hin, this]

/-- The particle sweep of `_updateFluidCells` completes when every particle caches an
in-range cell that is not solid, and paints exactly the cached cells `M_FLUID`. -/
theorem markFluidCells_spec (ps : List MarkerParticle) (g : Array3d Material)
    (h : ∀ p ∈ ps, g.isIndexInRange p.i p.j p.k = true ∧ g.grid p.i p.j p.k ≠ M_SOLID) :
    ∃ g2, markFluidCells ps g = some g2 ∧
      Painted g g2 M_FLUID (fun x y z => ∃ p ∈ ps, p.i = x ∧ p.j = y ∧ p.k = z) := by
  unfold markFluidCells
  apply foldlM_inv _ ps g
    (fun pre g' => Painted g g' M_FLUID (fun x y z => ∃ p ∈ pre, p.i = x ∧ p.j = y ∧ p.k = z))
  · exact (Painted.refl g M_FLUID).congr (fun x y z => by simp)
  · intro pre p post g' hl hP
    obtain ⟨hin, hns⟩ := h p (by rw [hl]; simp)
    have hin' : g'.isIndexInRange p.i p.j p.k = true := by
      rw [inRange_of_dims hP.1 hP.2.1 hP.2.2.1]; exact hin
    have hns' : g'.grid p.i p.j p.k ≠ M_SOLID := by
      by_cases hq : ∃ q ∈ pre, q.i = p.i ∧ q.j = p.j ∧ q.k = p.k
      · rw [(hP.2.2.2 _ _ _).1 hq]; decide
      · rw [(hP.2.2.2 _ _ _).2 hq]; exact hns
    obtain ⟨g2, hg2, hP2⟩ := hP.set p.i p.j p.k hin
    refine ⟨g2, ?_, hP2.congr (fun x y z => ⟨?_, ?_⟩)⟩
    · simp [_isCellSolid, get_of_inRange g' _ _ _ hin', hns', hg2]
    · rintro (⟨q, hq, h⟩ | ⟨h1, h2, h3⟩)
      · exact ⟨q, List.mem_append_left _ hq, h⟩
      · exact ⟨p, by simp, h1.symm, h2.symm, h3.symm⟩
    · rintro ⟨q, hq, h⟩
      rcases List.mem_append.1 hq with hq | hq
      · exact Or.inl ⟨q, hq, h⟩
      · rw [List.mem_singleton.1 hq] at h
        exact Or.inr ⟨h.1.symm, h.2.1.symm, h.2.2.symm⟩

/-- The last sweep of `_updateFluidCells` completes and returns the visited cells
that are `M_FLUID`, in visiting order. -/
theorem collectFluidCells_spec (g : Array3d Material) :
    collectFluidCells g = some ((cellList g.depth g.height g.width).filter
      (fun c => decide (g.grid c.i c.j c.k = M_FLUID))) := by
  unfold collectFluidCells
  rw [forCells_eq_foldlM]
  obtain ⟨l, hl, hI⟩ := foldlM_inv
    (fun (cells : List GridIndex) (c : GridIndex) => do
      if (← _isCellFluid g c.i c.j c.k) then pure (cells ++ [GridIndex.mk c.i c.j c.k])
      else pure cells)
    (cellList g.depth g.height g.width) []
    (fun pre cells => cells = pre.filter (fun c => decide (g.grid c.i c.j c.k = M_FLUID)))
    rfl
    (by
      rintro pre c post cells hl rfl
      have hin : g.isIndexInRange c.i c.j c.k = true :=
        inRange_of_mem_cellList g c (by rw [hl]; simp)
      by_cases hf : g.grid c.i c.j c.k = M_FLUID
      · exact ⟨_, by simp [_isCellFluid, get_of_inRange g _ _ _ hin, hf]; rfl,
          by simp [List.filter_append, hf]⟩
      · exact ⟨_, by simp [_isCellFluid, get_of_inRange g _ _ _ hin, hf]; rfl,
          by simp [List.filter_append, hf]⟩)
  rw [hl, hI]

/-- Cached cell of a particle is in range and not solid, phrased with the
bounds-checked read. -/
theorem cached_cell_ok {g : Array3d Material} {p : MarkerParticle}
    (h : ∃ m, g.get p.i p.j p.k = some m ∧ m ≠ M_SOLID) :
    g.isIndexInRange p.i p.j p.k = true ∧ g.grid p.i p.j p.k ≠ M_SOLID := by
  obtain ⟨m, hm, hne⟩ := h
  unfold Array3d.get at hm
  by_cases hin : g.isIndexInRange p.i p.j p.k = true
  · rw [if_pos hin] at hm
    injection hm with hm
    exact ⟨hin, hm ▸ hne⟩
  · rw [if_neg hin] at hm
    cases hm

/-- What one run of `_updateFluidCells` computes. -/
theorem updateFluidCells_run (s : FluidSimulation)
    (hp : ∀ p ∈ s._markerParticles,
      ∃ m, s._materialGrid.get p.i p.j p.k = some m ∧ m ≠ M_SOLID) :
    ∃ g2, _updateFluidCells s = some { s with
        _materialGrid := g2
        _fluidCellIndices := (cellList g2.depth g2.height g2.width).filter
          (fun c => decide (g2.grid c.i c.j c.k = M_FLUID)) } ∧
      g2.width = s._materialGrid.width ∧ g2.height = s._materialGrid.height ∧
      g2.depth = s._materialGrid.depth ∧
      ∀ x y z,
        ((∃ p ∈ s._markerParticles, p.i = x ∧ p.j = y ∧ p.k = z) →
          g2.grid x y z = M_FLUID) ∧
        ((¬ ∃ p ∈ s._markerParticles, p.i = x ∧ p.j = y ∧ p.k = z) →
          g2.grid x y z =
            if s._materialGrid.isIndexInRange x y z = true ∧
                s._materialGrid.grid x y z = M_FLUID
            then M_AIR else s._materialGrid.grid x y z) := by
  obtain ⟨g1, hg1, hw1, hh1, hd1, hc1⟩ := clearFluidCells_spec s._materialGrid
  have hp1 : ∀ p ∈ s._markerParticles,
      g1.isIndexInRange p.i p.j p.k = true ∧ g1.grid p.i p.j p.k ≠ M_SOLID := by
    intro p hmem
    obtain ⟨hin, hns⟩ := cached_cell_ok (hp p hmem)
    refine ⟨by rw [inRange_of_dims hw1 hh1 hd1]; exact hin, ?_⟩
    rw [hc1]
    split_ifs
    · decide
    · exact hns
  obtain ⟨g2, hg2, hw2, hh2, hd2, hc2⟩ := markFluidCells_spec s._markerParticles g1 hp1
  refine ⟨g2, ?_, hw2.trans hw1, hh2.trans hh1, hd2.trans hd1, fun x y z => ⟨?_, ?_⟩⟩
  · unfold _updateFluidCells
    simp only [Option.bind_eq_bind]
    rw [hg1, Option.some_bind, hg2, Option.some_bind, collectFluidCells_spec g2]
    rfl
  · exact (hc2 x y z).1
  · intro hn
    rw [(hc2 x y z).2 hn, hc1]

/-! ## C2: classification by `_updateFluidCells` -/

/-- C2: for every material grid and every particle list whose cached cells are in
range and not `M_SOLID`, `_updateFluidCells` completes; afterwards an (in-range) cell
is `M_FLUID` iff it is not `M_SOLID` and some particle caches it, it is `M_AIR` iff it
is not `M_SOLID` and no particle caches it, and it is `M_SOLID` iff it was `M_SOLID`
before the call. -/
theorem updateFluidCells_classification (s : FluidSimulation)
    (hp : ∀ p ∈ s._markerParticles,
      ∃ m, s._materialGrid.get p.i p.j p.k = some m ∧ m ≠ M_SOLID) :
    ∃ s', _updateFluidCells s = some s' ∧
      ∀ i j k : Int, s._materialGrid.isIndexInRange i j k = true →
        ∃ m m', s._materialGrid.get i j k = some m ∧
          s'._materialGrid.get i j k = some m' ∧
          (m' = M_FLUID ↔
            (m' ≠ M_SOLID ∧ ∃ p ∈ s._markerParticles, p.i = i ∧ p.j = j ∧ p.k = k)) ∧
          (m' = M_AIR ↔
            (m' ≠ M_SOLID ∧ ¬ ∃ p ∈ s._markerParticles, p.i = i ∧ p.j = j ∧ p.k = k)) ∧
          (m' = M_SOLID ↔ m = M_SOLID) := by
  obtain ⟨g2, hrun, hw, hh, hd, hc⟩ := updateFluidCells_run s hp
  refine ⟨_, hrun, fun i j k hin => ?_⟩
  have hin2 : g2.isIndexInRange i j k = true := by
    rw [inRange_of_dims hw hh hd]; exact hin
  refine ⟨s._materialGrid.grid i j k, g2.grid i j k, get_of_inRange _ _ _ _ hin,
    get_of_inRange _ _ _ _ hin2, ?_⟩
  by_cases hq : ∃ p ∈ s._markerParticles, p.i = i ∧ p.j = j ∧ p.k = k
  · have hf := (hc i j k).1 hq
    obtain ⟨p, hmem, h1, h2, h3⟩ := hq
    have hns := (cached_cell_ok (hp p hmem)).2
    rw [h1, h2, h3] at hns
    rw [hf]
    refine ⟨?_, ?_, ?_⟩
    · exact ⟨fun _ => ⟨by decide, p, hmem, h1, h2, h3⟩, fun _ => rfl⟩
    · exact ⟨fun h => (by cases h), fun h => (h.2 ⟨p, hmem, h1, h2, h3⟩).elim⟩
    · exact ⟨fun h => (by cases h), fun h => (hns h).elim⟩
  · have hf := (hc i j k).2 hq
    rw [hf]
    cases hm : s._materialGrid.grid i j k <;> simp [hin, hq]

/-- Witness for C2: a 3×3×3 grid with a solid cell at the origin, a stale fluid cell
and one particle caching the centre cell. -/
theorem updateFluidCells_classification_witness :
    ∃ s', _updateFluidCells (mkSimulation 3 3 3 1
        (fun i j k => if i = 0 ∧ j = 0 ∧ k = 0 then M_SOLID
          else if i = 2 ∧ j = 2 ∧ k = 2 then M_FLUID else M_AIR)
        [⟨⟨3 / 2, 3 / 2, 3 / 2⟩, 1, 1, 1⟩]) = some s' ∧
      ∀ i j k : Int, (mkSimulation 3 3 3 1
        (fun i j k => if i = 0 ∧ j = 0 ∧ k = 0 then M_SOLID
          else if i = 2 ∧ j = 2 ∧ k = 2 then M_FLUID else M_AIR)
        [⟨⟨3 / 2, 3 / 2, 3 / 2⟩, 1, 1, 1⟩])._materialGrid.isIndexInRange i j k = true →
        ∃ m m', (mkSimulation 3 3 3 1
            (fun i j k => if i = 0 ∧ j = 0 ∧ k = 0 then M_SOLID
              else if i = 2 ∧ j = 2 ∧ k = 2 then M_FLUID else M_AIR)
            [⟨⟨3 / 2, 3 / 2, 3 / 2⟩, 1, 1, 1⟩])._materialGrid.get i j k = some m ∧
          s'._materialGrid.get i j k = some m' ∧
          (m' = M_FLUID ↔
            (m' ≠ M_SOLID ∧ ∃ p ∈ (mkSimulation 3 3 3 1
              (fun i j k => if i = 0 ∧ j = 0 ∧ k = 0 then M_SOLID
                else if i = 2 ∧ j = 2 ∧ k = 2 then M_FLUID else M_AIR)
              [⟨⟨3 / 2, 3 / 2, 3 / 2⟩, 1, 1, 1⟩])._markerParticles,
                p.i = i ∧ p.j = j ∧ p.k = k)) ∧
          (m' = M_AIR ↔
            (m' ≠ M_SOLID ∧ ¬ ∃ p ∈ (mkSimulation 3 3 3 1
              (fun i j k => if i = 0 ∧ j = 0 ∧ k = 0 then M_SOLID
                else if i = 2 ∧ j = 2 ∧ k = 2 then M_FLUID else M_AIR)
              [⟨⟨3 / 2, 3 / 2, 3 / 2⟩, 1, 1, 1⟩])._markerParticles,
                p.i = i ∧ p.j = j ∧ p.k = k)) ∧
          (m' = M_SOLID ↔ m = M_SOLID) :=
  updateFluidCells_classification _ (by
    intro p hmem
    simp only [mkSimulation, List.mem_singleton] at hmem
    subst hmem
    exact ⟨M_AIR, by decide, by decide⟩)

/-! ## C9: `_updateFluidCells` is idempotent -/

theorem Array3d.ext_of {α : Type} {g g' : Array3d α} (hw : g'.width = g.width)
    (hh : g'.height = g.height) (hd : g'.depth = g.depth)
    (hg : ∀ x y z, g'.grid x y z = g.grid x y z) : g' = g := by
  cases g; cases g'
  simp only at hw hh hd hg
  subst hw hh hd
  congr
  funext x y z
  exact hg x y z

/-- C9: for every state whose particles cache in-range cells that are not `M_SOLID`,
`_updateFluidCells` completes, a second run on the result completes as well, and the
second run leaves the material grid and the ordered fluid cell list exactly as the
first run produced them. -/
theorem updateFluidCells_idempotent (s : FluidSimulation)
    (hp : ∀ p ∈ s._markerParticles,
      ∃ m, s._materialGrid.get p.i p.j p.k = some m ∧ m ≠ M_SOLID) :
    ∃ s1, _updateFluidCells s = some s1 ∧
      ∃ s2, _updateFluidCells s1 = some s2 ∧
        s2._materialGrid = s1._materialGrid ∧
        s2._fluidCellIndices = s1._fluidCellIndices := by
  obtain ⟨g2, hrun, hw, hh, hd, hc⟩ := updateFluidCells_run s hp
  refine ⟨_, hrun, ?_⟩
  have hp1 : ∀ p ∈ s._markerParticles,
      ∃ m, g2.get p.i p.j p.k = some m ∧ m ≠ M_SOLID := by
    intro p hmem
    have hin := (cached_cell_ok (hp p hmem)).1
    rw [← inRange_of_dims hw hh hd] at hin
    refine ⟨M_FLUID, ?_, by decide⟩
    rw [get_of_inRange _ _ _ _ hin, (hc p.i p.j p.k).1 ⟨p, hmem, rfl, rfl, rfl⟩]
  obtain ⟨g3, hrun3, hw3, hh3, hd3, hc3⟩ := updateFluidCells_run
    { s with
        _materialGrid := g2
        _fluidCellIndices := (cellList g2.depth g2.height g2.width).filter
          (fun c => decide (g2.grid c.i c.j c.k = M_FLUID)) } hp1
  have hg : g3 = g2 := by
    apply Array3d.ext_of hw3 hh3 hd3
    intro x y z
    by_cases hq : ∃ p ∈ s._markerParticles, p.i = x ∧ p.j = y ∧ p.k = z
    · rw [(hc3 x y z).1 hq, (hc x y z).1 hq]
    · rw [(hc3 x y z).2 hq]
      have h2 := (hc x y z).2 hq
      have hnf : ¬ (g2.isIndexInRange x y z = true ∧ g2.grid x y z = M_FLUID) := by
        rintro ⟨hin, hf⟩
        rw [inRange_of_dims hw hh hd] at hin
        rw [h2] at hf
        by_cases hm : s._materialGrid.grid x y z = M_FLUID
        · simp [hin, hm] at hf
        · simp [hm] at hf
      exact if_neg hnf
  refine ⟨_, hrun3, ?_, ?_⟩
  · exact hg
  · simp only [hg]

/-- Witness for C9: the state used for C2. -/
theorem updateFluidCells_idempotent_witness :
    ∃ s1, _updateFluidCells (mkSimulation 3 3 3 1
        (fun i j k => if i = 0 ∧ j = 0 ∧ k = 0 then M_SOLID
          else if i = 2 ∧ j = 2 ∧ k = 2 then M_FLUID else M_AIR)
        [⟨⟨3 / 2, 3 / 2, 3 / 2⟩, 1, 1, 1⟩]) = some s1 ∧
      ∃ s2, _updateFluidCells s1 = some s2 ∧
        s2._materialGrid = s1._materialGrid ∧
        s2._fluidCellIndices = s1._fluidCellIndices :=
  updateFluidCells_idempotent _ (by
    intro p hmem
    simp only [mkSimulation, List.mem_singleton] at hmem
    subst hmem
    exact ⟨M_AIR, by decide, by decide⟩)

/-! ## C10: `_initializeSolidCells` -/

/-- C10: for every grid with `W, H, D ≥ 1` (whose material grid has the simulation's
dimensions), `_initializeSolidCells` runs to completion, and afterwards every cell
with `i ∈ {0, W-1}` or `j ∈ {0, H-1}` or `k ∈ {0, D-1}` is `M_SOLID` while every
other cell keeps the material it had before the call. -/
theorem initializeSolidCells_shell (s : FluidSimulation)
    (hw : s._materialGrid.width = s._i_voxels) (hh : s._materialGrid.height = s._j_voxels)
    (hd : s._materialGrid.depth = s._k_voxels)
    (hW : 1 ≤ s._i_voxels) (hH : 1 ≤ s._j_voxels) (hD : 1 ≤ s._k_voxels) :
    ∃ s', _initializeSolidCells s = some s' ∧
      s'._materialGrid.width = s._i_voxels ∧ s'._materialGrid.height = s._j_voxels ∧
      s'._materialGrid.depth = s._k_voxels ∧
      ∀ i j k : Int, s._materialGrid.isIndexInRange i j k = true →
        s'._materialGrid.get i j k =
          if i = 0 ∨ i = (s._i_voxels : Int) - 1 ∨ j = 0 ∨ j = (s._j_voxels : Int) - 1 ∨
              k = 0 ∨ k = (s._k_voxels : Int) - 1
          then some M_SOLID else s._materialGrid.get i j k := by
  obtain ⟨g1, hg1, hP1⟩ := paint_two_loop s._j_voxels s._i_voxels s._materialGrid M_SOLID
    (fun _ i => i) (fun j _ => j) (fun _ _ => 0)
    (fun _ i => i) (fun j _ => j) (fun _ _ => (s._k_voxels : Int) - 1)
    (fun a b ha hb => by
      simp only [Array3d.isIndexInRange, hw, hh, hd, decide_eq_true_eq]
      omega)
  obtain ⟨g2, hg2, hP2⟩ := paint_two_loop s._k_voxels s._i_voxels g1 M_SOLID
    (fun _ i => i) (fun _ _ => 0) (fun k _ => k)
    (fun _ i => i) (fun _ _ => (s._j_voxels : Int) - 1) (fun k _ => k)
    (fun a b ha hb => by
      simp only [Array3d.isIndexInRange, hP1.1, hP1.2.1, hP1.2.2.1, hw, hh, hd,
        decide_eq_true_eq]
      omega)
  have hP12 := hP1.trans hP2
  obtain ⟨g3, hg3, hP3⟩ := paint_two_loop s._k_voxels s._j_voxels g2 M_SOLID
    (fun _ _ => 0) (fun _ j => j) (fun k _ => k)
    (fun _ _ => (s._i_voxels : Int) - 1) (fun _ j => j) (fun k _ => k)
    (fun a b ha hb => by
      simp only [Array3d.isIndexInRange, hP12.1, hP12.2.1, hP12.2.2.1, hw, hh, hd,
        decide_eq_true_eq]
      omega)
  have hP := hP12.trans hP3
  refine ⟨{ s with _materialGrid := g3 }, ?_, ?_, ?_, ?_, ?_⟩
  · unfold _initializeSolidCells
    simp only [Option.bind_eq_bind]
    rw [hg1, Option.some_bind, hg2, Option.some_bind, hg3]
    rfl
  · exact hP.1.trans hw
  · exact hP.2.1.trans hh
  · exact hP.2.2.1.trans hd
  · intro i j k hin
    have hin3 : g3.isIndexInRange i j k = true := by
      simpa [Array3d.isIndexInRange, hP.1, hP.2.1, hP.2.2.1] using hin
    have hr : 0 ≤ i ∧ i < s._i_voxels ∧ 0 ≤ j ∧ j < s._j_voxels ∧ 0 ≤ k ∧ k < s._k_voxels := by
      simpa [Array3d.isIndexInRange, hw, hh, hd] using hin
    obtain ⟨hi0, hi1, hj0, hj1, hk0, hk1⟩ := hr
    simp only [Array3d.get, hin3, hin, if_true]
    by_cases hc : i = 0 ∨ i = (s._i_voxels : Int) - 1 ∨ j = 0 ∨ j = (s._j_voxels : Int) - 1 ∨
              k = 0 ∨ k = (s._k_voxels : Int) - 1
    · rw [if_pos hc]
      congr 1
      apply (hP.2.2.2 i j k).1
      rcases hc with h | h | h | h | h | h
      · exact Or.inr ⟨k.toNat, j.toNat, by omega, by omega, Or.inl ⟨h, by omega, by omega⟩⟩
      · exact Or.inr ⟨k.toNat, j.toNat, by omega, by omega, Or.inr ⟨h, by omega, by omega⟩⟩
      · exact Or.inl (Or.inr ⟨k.toNat, i.toNat, by omega, by omega,
          Or.inl ⟨by omega, h, by omega⟩⟩)
      · exact Or.inl (Or.inr ⟨k.toNat, i.toNat, by omega, by omega,
          Or.inr ⟨by omega, h, by omega⟩⟩)
      · exact Or.inl (Or.inl ⟨j.toNat, i.toNat, by omega, by omega,
          Or.inl ⟨by omega, by omega, h⟩⟩)
      · exact Or.inl (Or.inl ⟨j.toNat, i.toNat, by omega, by omega,
          Or.inr ⟨by omega, by omega, h⟩⟩)
    · rw [if_neg hc]
      congr 1
      apply (hP.2.2.2 i j k).2
      rintro ((⟨a, b, ha, hb, h⟩ | ⟨a, b, ha, hb, h⟩) | ⟨a, b, ha, hb, h⟩) <;>
        rcases h with ⟨h1, h2, h3⟩ | ⟨h1, h2, h3⟩ <;>
        exact hc (by omega)

/-- Witness for C10 on the freshly constructed 3×3×3 all-air grid. -/
theorem initializeSolidCells_shell_witness :
    ∃ s', _initializeSolidCells (mkSimulation 3 3 3 1 (fun _ _ _ => M_AIR) []) = some s' ∧
      s'._materialGrid.width = 3 ∧ s'._materialGrid.height = 3 ∧
      s'._materialGrid.depth = 3 ∧
      ∀ i j k : Int,
        (mkSimulation 3 3 3 1 (fun _ _ _ => M_AIR) [])._materialGrid.isIndexInRange i j k
            = true →
        s'._materialGrid.get i j k =
          if i = 0 ∨ i = ((3 : Nat) : Int) - 1 ∨ j = 0 ∨ j = ((3 : Nat) : Int) - 1 ∨
              k = 0 ∨ k = ((3 : Nat) : Int) - 1
          then some M_SOLID
          else (mkSimulation 3 3 3 1 (fun _ _ _ => M_AIR) [])._materialGrid.get i j k :=
  initializeSolidCells_shell (mkSimulation 3 3 3 1 (fun _ _ _ => M_AIR) [])
    rfl rfl rfl (by decide) (by decide) (by decide)


/-! ## C1: the particle advance preserves the particle invariant -/

theorem isCellSolid_false {g : Array3d Material} {i j k : Int}
    (h : _isCellSolid g i j k = some false) : ∃ m, g.get i j k = some m ∧ m ≠ M_SOLID := by
  unfold _isCellSolid at h
  cases hm : g.get i j k with
  | none => rw [hm] at h; cases h
  | some m =>
    rw [hm] at h
    refine ⟨m, rfl, fun hs => ?_⟩
    subst hs
    simp at h

theorem advanceMarkerParticle_cases (env : Collaborators) (s : FluidSimulation) (dt : ℚ)
    (idx : Int) (ps ps' : List MarkerParticle)
    (h : advanceMarkerParticle env s dt idx ps = some ps') :
    ps' = ps ∨ ∃ q, ParticleInvariant s._dx s._materialGrid q ∧ 0 ≤ idx ∧
      ps' = ps.set idx.toNat q := by
  unfold advanceMarkerParticle at h
  simp only [Option.bind_eq_bind, Option.bind_eq_some] at h
  obtain ⟨mp, hmp, h⟩ := h
  have hidx : 0 ≤ idx := by
    by_contra hneg
    rw [if_neg hneg] at hmp
    cases hmp
  split_ifs at h with hpos
  · left
    simpa using h.symm
  · simp only [Option.bind_eq_some] at h
    obtain ⟨b1, -, p, -, b, hb, h⟩ := h
    cases b with
    | true =>
      left
      simpa using h.symm
    | false =>
      right
      simp only [Bool.not_false, if_true] at h
      refine ⟨_, ?_, hidx, (Option.some.inj h).symm⟩
      refine ⟨?_, ?_, ?_, isCellSolid_false hb⟩ <;>
        simp [positionToGridIndex, div_eq_mul_inv]

theorem forRange_partial {σ : Type} (n : Nat) (body : Int → σ → Option σ) (init : σ)
    (I : Nat → σ → Prop) (h0 : I 0 init)
    (hstep : ∀ m s s', m < n → I m s → body (m : Int) s = some s' → I (m + 1) s') :
    ∀ s', forRange n body init = some s' → I n s' := by
  induction n with
  | zero =>
    intro s' h
    have : init = s' := by simpa [forRange] using h
    exact this ▸ h0
  | succ n ih =>
    intro s' h
    rw [forRange_succ] at h
    cases h1 : forRange n body init with
    | none => rw [h1] at h; cases h
    | some s1 =>
      rw [h1] at h
      exact hstep n s1 s' (Nat.lt_succ_self n)
        (ih (fun m s s' hm => hstep m s s' (Nat.lt_succ_of_lt hm)) s1 h1) h

theorem isCellSolid_of_inRange (g : Array3d Material) (i j k : Int)
    (h : g.isIndexInRange i j k = true) :
    _isCellSolid g i j k = some (decide (g.grid i j k = M_SOLID)) := by
  simp [_isCellSolid, get_of_inRange g i j k h]

theorem positionToGridIndex_inRange (s : FluidSimulation) (p : Vec3)
    (hdx : 0 < s._dx) (hw : s._materialGrid.width = s._i_voxels)
    (hh : s._materialGrid.height = s._j_voxels) (hd : s._materialGrid.depth = s._k_voxels)
    (h : _isPositionInGrid s p.x p.y p.z = true) :
    s._materialGrid.isIndexInRange (positionToGridIndex s._dx p).i
      (positionToGridIndex s._dx p).j (positionToGridIndex s._dx p).k = true := by
  simp only [_isPositionInGrid, decide_eq_true_eq] at h
  obtain ⟨hx, hy, hz, hx', hy', hz'⟩ := h
  have hinv : 0 < 1 / s._dx := by positivity
  have key : ∀ (x : ℚ) (n : Nat), 0 ≤ x → x < s._dx * n →
      0 ≤ ⌊x * (1 / s._dx)⌋ ∧ ⌊x * (1 / s._dx)⌋ < (n : Int) := by
    intro x n h0 h1
    refine ⟨Int.floor_nonneg.2 (by positivity), Int.floor_lt.2 ?_⟩
    rw [mul_one_div, div_lt_iff₀ hdx]
    push_cast
    linarith
  have kx := key p.x _ hx hx'
  have ky := key p.y _ hy hy'
  have kz := key p.z _ hz hz'
  simp only [Array3d.isIndexInRange, positionToGridIndex, hw, hh, hd, decide_eq_true_eq]
  exact ⟨kx.1, kx.2, ky.1, ky.2, kz.1, kz.2⟩

theorem advanceMarkerParticle_total (env : Collaborators) (s : FluidSimulation) (dt : ℚ)
    (idx : Int) (ps : List MarkerParticle)
    (hdx : 0 < s._dx) (hw : s._materialGrid.width = s._i_voxels)
    (hh : s._materialGrid.height = s._j_voxels) (hd : s._materialGrid.depth = s._k_voxels)
    (hcoll : ∀ p0 p1, ∃ cn, env._calculateSolidCellCollision s p0 p1 = some cn ∧
      s._materialGrid.isIndexInRange
        (positionToGridIndex s._dx (cn.1.add (Vec3.scale (0.001 * s._dx) cn.2))).i
        (positionToGridIndex s._dx (cn.1.add (Vec3.scale (0.001 * s._dx) cn.2))).j
        (positionToGridIndex s._dx (cn.1.add (Vec3.scale (0.001 * s._dx) cn.2))).k = true)
    (h0 : 0 ≤ idx) (h1 : idx < ps.length) :
    ∃ ps', advanceMarkerParticle env s dt idx ps = some ps' := by
  have hlt : idx.toNat < ps.length := by omega
  unfold advanceMarkerParticle
  rw [if_pos h0, List.getElem?_eq_getElem hlt]
  simp only [Option.bind_eq_bind, Option.some_bind]
  split_ifs with hpos
  · exact ⟨_, rfl⟩
  · have hin := hpos
    simp only [Bool.not_eq_true', Bool.not_eq_false] at hin
    rw [isCellSolid_of_inRange _ _ _ _ (positionToGridIndex_inRange s _ hdx hw hh hd hin)]
    simp only [Option.some_bind]
    split_ifs with hsolid
    · obtain ⟨cn, hcn, hcin⟩ := hcoll ps[idx.toNat].position
        (_RK4 (env.evaluateVelocityAtPosition s._MACVelocity) ps[idx.toNat].position
          (env.evaluateVelocityAtPosition s._MACVelocity ps[idx.toNat].position) dt)
      rw [hcn]
      simp only [Option.some_bind, Option.pure_def]
      rw [isCellSolid_of_inRange _ _ _ _ hcin]
      simp only [Option.some_bind]
      split_ifs <;> exact ⟨_, rfl⟩
    · simp only [Option.pure_def, Option.some_bind]
      rw [isCellSolid_of_inRange _ _ _ _ (positionToGridIndex_inRange s _ hdx hw hh hd hin)]
      simp only [Option.some_bind]
      split_ifs <;> exact ⟨_, rfl⟩


/-- C1: `_advanceRangeOfMarkerParticles` preserves the particle invariant.  For every
particle list, range, `dt`, velocity sampler and collision routine: if every particle
satisfies the invariant before the call, then whenever the call returns, the material
grid is untouched, every particle satisfies the invariant again and the particles
outside `[startIdx, endIdx]` are unchanged.  The call does return when the range
indexes existing particles, `dx > 0`, the material grid has the simulation's
dimensions and the collision routine answers with a point whose nudged position lies
in the grid. -/
theorem advanceRange_preserves_invariant (env : Collaborators) (s : FluidSimulation)
    (startIdx endIdx : Int) (dt : ℚ)
    (hinv : ∀ p ∈ s._markerParticles, ParticleInvariant s._dx s._materialGrid p) :
    (∀ s', _advanceRangeOfMarkerParticles env s startIdx endIdx dt = some s' →
      s'._materialGrid = s._materialGrid ∧ s'._dx = s._dx ∧
      s'._markerParticles.length = s._markerParticles.length ∧
      (∀ p ∈ s'._markerParticles, ParticleInvariant s'._dx s'._materialGrid p) ∧
      ∀ n : Nat, ((n : Int) < startIdx ∨ endIdx < (n : Int)) →
        s'._markerParticles[n]? = s._markerParticles[n]?) ∧
    (0 ≤ startIdx → startIdx ≤ endIdx → endIdx < s._markerParticles.length →
      0 < s._dx → s._materialGrid.width = s._i_voxels →
      s._materialGrid.height = s._j_voxels → s._materialGrid.depth = s._k_voxels →
      (∀ p0 p1, ∃ cn, env._calculateSolidCellCollision s p0 p1 = some cn ∧
        s._materialGrid.isIndexInRange
          (positionToGridIndex s._dx (cn.1.add (Vec3.scale (0.001 * s._dx) cn.2))).i
          (positionToGridIndex s._dx (cn.1.add (Vec3.scale (0.001 * s._dx) cn.2))).j
          (positionToGridIndex s._dx (cn.1.add (Vec3.scale (0.001 * s._dx) cn.2))).k
            = true) →
      ∃ s', _advanceRangeOfMarkerParticles env s startIdx endIdx dt = some s') := by
  constructor
  · intro s' h
    unfold _advanceRangeOfMarkerParticles at h
    split_ifs at h with hle
    simp only [Option.bind_eq_bind, Option.bind_eq_some] at h
    obtain ⟨ps, hps, h⟩ := h
    have hs' : s' = { s with _markerParticles := ps } := (Option.some.inj h).symm
    subst hs'
    have hle' : startIdx ≤ endIdx := hle
    have key := forRange_partial (endIdx - startIdx + 1).toNat
      (fun n ps => advanceMarkerParticle env s dt (startIdx + n) ps) s._markerParticles
      (fun n ps => ps.length = s._markerParticles.length ∧
        (∀ p ∈ ps, ParticleInvariant s._dx s._materialGrid p) ∧
        ∀ m : Nat, ((m : Int) < startIdx ∨ startIdx + (n : Int) ≤ (m : Int)) →
          ps[m]? = s._markerParticles[m]?)
      ⟨rfl, hinv, fun _ _ => rfl⟩
      (by
        rintro n ps1 ps2 - ⟨hlen, hI, hframe⟩ hstep
        rcases advanceMarkerParticle_cases env s dt _ ps1 ps2 hstep with rfl | ⟨q, hq, h0, rfl⟩
        · refine ⟨hlen, hI, fun m hm => hframe m ?_⟩
          push_cast at hm
          omega
        · refine ⟨by rw [List.length_set]; exact hlen, ?_, fun m hm => ?_⟩
          · intro p hp
            rcases List.mem_or_eq_of_mem_set hp with h | h
            · exact hI p h
            · exact h ▸ hq
          · have hne : (startIdx + (n : Int)).toNat ≠ m := by
              push_cast at hm
              omega
            rw [List.getElem?_set_ne hne]
            apply hframe
            push_cast at hm
            omega)
      ps hps
    obtain ⟨hlen, hI, hframe⟩ := key
    refine ⟨rfl, rfl, hlen, hI, fun n hn => hframe n ?_⟩
    rcases hn with hn | hn
    · exact Or.inl hn
    · right
      have : ((endIdx - startIdx + 1).toNat : Int) = endIdx - startIdx + 1 :=
        Int.toNat_of_nonneg (by omega)
      omega
  · intro h0 hle hlt hdx hw hh hd hcoll
    obtain ⟨ps, hps, -⟩ := forRange_inv (endIdx - startIdx + 1).toNat
      (fun n ps => advanceMarkerParticle env s dt (startIdx + n) ps) s._markerParticles
      (fun _ ps => ps.length = s._markerParticles.length) rfl
      (by
        intro n ps1 hn hlen
        have hn' : (n : Int) < endIdx - startIdx + 1 := by
          have : ((endIdx - startIdx + 1).toNat : Int) = endIdx - startIdx + 1 :=
            Int.toNat_of_nonneg (by omega)
          omega
        obtain ⟨ps2, h2⟩ := advanceMarkerParticle_total env s dt (startIdx + n) ps1
          hdx hw hh hd hcoll (by omega) (by rw [hlen]; omega)
        refine ⟨ps2, h2, ?_⟩
        rcases advanceMarkerParticle_cases env s dt _ ps1 ps2 h2 with rfl | ⟨q, -, -, rfl⟩
        · exact hlen
        · rw [List.length_set]; exact hlen)
    refine ⟨{ s with _markerParticles := ps }, ?_⟩
    unfold _advanceRangeOfMarkerParticles
    rw [if_neg (not_not.2 hle)]
    unfold forFromTo
    simp only [Option.bind_eq_bind]
    rw [hps]
    rfl

/-- Witness for C1: one particle in the centre cell of a 3×3×3 grid whose other
cells are air, advanced through the range `[0, 0]`. -/
theorem advanceRange_preserves_invariant_witness :
    ∃ s', _advanceRangeOfMarkerParticles
        (constantCollaborators ⟨1, 0, 0⟩ ⟨3 / 2, 3 / 2, 3 / 2⟩ ⟨0, 0, 0⟩)
        (mkSimulation 3 3 3 1 (fun _ _ _ => M_AIR) [⟨⟨3 / 2, 3 / 2, 3 / 2⟩, 1, 1, 1⟩])
        0 0 (1 / 10) = some s' ∧
      ∀ p ∈ s'._markerParticles, ParticleInvariant s'._dx s'._materialGrid p := by
  have hinv : ∀ p ∈ (mkSimulation 3 3 3 1 (fun _ _ _ => M_AIR)
      [⟨⟨3 / 2, 3 / 2, 3 / 2⟩, 1, 1, 1⟩])._markerParticles,
      ParticleInvariant (mkSimulation 3 3 3 1 (fun _ _ _ => M_AIR)
        [⟨⟨3 / 2, 3 / 2, 3 / 2⟩, 1, 1, 1⟩])._dx
        (mkSimulation 3 3 3 1 (fun _ _ _ => M_AIR)
        [⟨⟨3 / 2, 3 / 2, 3 / 2⟩, 1, 1, 1⟩])._materialGrid p := by
    intro p hmem
    simp only [mkSimulation, List.mem_singleton] at hmem
    subst hmem
    have hfl : ⌊(3 / 2 : ℚ) / 1⌋ = 1 := by
      rw [Int.floor_eq_iff]; norm_num
    exact ⟨hfl.symm, hfl.symm, hfl.symm, M_AIR, by decide, by decide⟩
  have h := advanceRange_preserves_invariant
    (constantCollaborators ⟨1, 0, 0⟩ ⟨3 / 2, 3 / 2, 3 / 2⟩ ⟨0, 0, 0⟩)
    (mkSimulation 3 3 3 1 (fun _ _ _ => M_AIR) [⟨⟨3 / 2, 3 / 2, 3 / 2⟩, 1, 1, 1⟩])
    0 0 (1 / 10) hinv
  obtain ⟨s', hs'⟩ := h.2 (le_refl 0) (le_refl 0) (by simp [mkSimulation])
    (by simp [mkSimulation]) rfl rfl rfl (by
      intro p0 p1
      refine ⟨(⟨3 / 2, 3 / 2, 3 / 2⟩, ⟨0, 0, 0⟩), rfl, ?_⟩
      have hfl : ⌊((3 / 2 : ℚ) + 0.001 * 1 * 0) * (1 / 1)⌋ = 1 := by
        rw [Int.floor_eq_iff]; norm_num
      simp only [mkSimulation, positionToGridIndex, Vec3.add, Vec3.scale, hfl]
      decide)
  exact ⟨s', hs', (h.1 s' hs').2.2.2.1⟩


/-! ## C7: the extrapolation layers -/

theorem LayerInv.mono {mat : Array3d Material} {cells : List GridIndex} {b b' : Int}
    {lg : Array3d Int} (h : LayerInv mat cells b lg) (hb : b ≤ b') :
    LayerInv mat cells b' lg := by
  obtain ⟨h1, h2, h3, h4⟩ := h
  refine ⟨h1, h2, h3, fun x y z hin => ?_⟩
  obtain ⟨a1, a2, a3, a4, a5⟩ := h4 x y z hin
  exact ⟨a1, le_trans a2 hb, a3, a4, a5⟩

theorem neighbours6_symm {c n : GridIndex}
    (h : n ∈ _getNeighbourGridIndices6 c.i c.j c.k) :
    c ∈ _getNeighbourGridIndices6 n.i n.j n.k := by
  cases c with
  | mk ci cj ck =>
    cases n with
    | mk ni nj nk =>
      simp only [_getNeighbourGridIndices6, List.mem_cons, GridIndex.mk.injEq,
        List.mem_singleton, List.not_mem_nil, or_false] at h ⊢
      rcases h with h | h | h | h | h | h <;>
        (obtain ⟨hi, hj, hk⟩ := h; subst hi hj hk; simp)

/-- Marking an unreached non-solid cell `n` next to a cell `c` of layer `l - 1` with
layer `l` keeps the layer grid consistent. -/
theorem LayerInv.mark {mat : Array3d Material} {cells : List GridIndex} {b : Int}
    {lg : Array3d Int} (h : LayerInv mat cells b lg) (l : Int) (hl1 : 1 ≤ l) (hlb : l ≤ b)
    (c n : GridIndex) (hn : n ∈ _getNeighbourGridIndices6 c.i c.j c.k)
    (hcin : lg.isIndexInRange c.i c.j c.k = true) (hc : lg.grid c.i c.j c.k = l - 1)
    (hnin : lg.isIndexInRange n.i n.j n.k = true) (hnv : lg.grid n.i n.j n.k = -1)
    (hns : mat.grid n.i n.j n.k ≠ M_SOLID) :
    ∃ lg', lg.set n.i n.j n.k l = some lg' ∧ LayerInv mat cells b lg' ∧
      ∀ x y z, lg.grid x y z ≠ -1 → lg'.grid x y z = lg.grid x y z := by
  obtain ⟨h1, h2, h3, h4⟩ := h
  have hs : lg.set n.i n.j n.k l = some { lg with
      grid := fun a b c => if a = n.i ∧ b = n.j ∧ c = n.k then l else lg.grid a b c } := by
    simp [Array3d.set, hnin]
  have hkeep : ∀ x y z, lg.grid x y z ≠ -1 →
      (if x = n.i ∧ y = n.j ∧ z = n.k then l else lg.grid x y z) = lg.grid x y z := by
    intro x y z hne
    have : ¬ (x = n.i ∧ y = n.j ∧ z = n.k) := by
      rintro ⟨rfl, rfl, rfl⟩
      exact hne hnv
    exact if_neg this
  refine ⟨_, hs, ⟨h1, h2, h3, fun x y z hin => ?_⟩, hkeep⟩
  have hin' : lg.isIndexInRange x y z = true := hin
  obtain ⟨a1, a2, a3, a4, a5⟩ := h4 x y z hin'
  by_cases hx : x = n.i ∧ y = n.j ∧ z = n.k
  · obtain ⟨rfl, rfl, rfl⟩ := hx
    simp only [and_self, if_true]
    refine ⟨by omega, hlb, ?_, fun hsol => (hns hsol).elim, fun _ => ?_⟩
    · constructor
      · intro h0; omega
      · intro hmem
        have := a3.2 hmem
        omega
    · refine ⟨c, neighbours6_symm hn, hcin, ?_⟩
      have hcne : lg.grid c.i c.j c.k ≠ -1 := by omega
      show (if c.i = n.i ∧ c.j = n.j ∧ c.k = n.k then l else lg.grid c.i c.j c.k) = l - 1
      rw [hkeep _ _ _ hcne, hc]
  · simp only [hx, if_false]
    refine ⟨a1, a2, a3, a4, fun hpos => ?_⟩
    obtain ⟨m, hm, hmin, hmv⟩ := a5 hpos
    refine ⟨m, hm, hmin, ?_⟩
    have hmne : lg.grid m.i m.j m.k ≠ -1 := by omega
    show (if m.i = n.i ∧ m.j = n.j ∧ m.k = n.k then l else lg.grid m.i m.j m.k) = _
    rw [hkeep _ _ _ hmne, hmv]


/-- The loop over the six neighbours of a cell `c` of layer `l - 1`. -/
theorem markNeighbours_spec (s : FluidSimulation) (l b : Int) (lg : Array3d Int)
    (hw : s._materialGrid.width = s._i_voxels) (hh : s._materialGrid.height = s._j_voxels)
    (hd : s._materialGrid.depth = s._k_voxels)
    (h : LayerInv s._materialGrid s._fluidCellIndices b lg) (hl1 : 1 ≤ l) (hlb : l ≤ b)
    (c : GridIndex) (hcin : lg.isIndexInRange c.i c.j c.k = true)
    (hc : lg.grid c.i c.j c.k = l - 1) :
    ∃ lg', (_getNeighbourGridIndices6 c.i c.j c.k).foldlM (fun lg n => do
          if _isCellIndexInRange s n.i n.j n.k then
            if (← lg.get n.i n.j n.k) = -1 then
              if !(← _isCellSolid s._materialGrid n.i n.j n.k) then
                lg.set n.i n.j n.k l
              else pure lg
            else pure lg
          else pure lg) lg = some lg' ∧
      LayerInv s._materialGrid s._fluidCellIndices b lg' ∧
      ∀ x y z, lg.grid x y z ≠ -1 → lg'.grid x y z = lg.grid x y z := by
  apply foldlM_inv _ _ lg (fun _ lg' => LayerInv s._materialGrid s._fluidCellIndices b lg' ∧
      ∀ x y z, lg.grid x y z ≠ -1 → lg'.grid x y z = lg.grid x y z)
  · exact ⟨h, fun _ _ _ _ => rfl⟩
  · intro pre n post lg1 hlist ⟨hI, hkeep⟩
    have hn : n ∈ _getNeighbourGridIndices6 c.i c.j c.k := by rw [hlist]; simp
    by_cases hr : _isCellIndexInRange s n.i n.j n.k = true
    · have hnin : lg1.isIndexInRange n.i n.j n.k = true := by
        simp only [_isCellIndexInRange, decide_eq_true_eq] at hr
        simp only [Array3d.isIndexInRange, hI.1, hI.2.1, hI.2.2.1, hw, hh, hd,
          decide_eq_true_eq]
        exact hr
      have hmin : s._materialGrid.isIndexInRange n.i n.j n.k = true := by
        rw [← inRange_of_dims hI.1 hI.2.1 hI.2.2.1]; exact hnin
      simp only [hr, if_true, get_of_inRange _ _ _ _ hnin, Option.bind_eq_bind,
        Option.some_bind, isCellSolid_of_inRange _ _ _ _ hmin]
      by_cases hv : lg1.grid n.i n.j n.k = -1
      · by_cases hsol : s._materialGrid.grid n.i n.j n.k = M_SOLID
        · exact ⟨lg1, by simp [hv, hsol], hI, hkeep⟩
        · have hcin1 : lg1.isIndexInRange c.i c.j c.k = true := by
            rw [inRange_of_dims (hI.1.trans h.1.symm) (hI.2.1.trans h.2.1.symm)
              (hI.2.2.1.trans h.2.2.1.symm)]
            exact hcin
          have hc1 : lg1.grid c.i c.j c.k = l - 1 := by
            rw [hkeep _ _ _ (by omega), hc]
          obtain ⟨lg2, hset, hI2, hkeep2⟩ := hI.mark l hl1 hlb c n hn hcin1 hc1 hnin hv hsol
          refine ⟨lg2, by simp [hv, hsol, hset], hI2, fun x y z hne => ?_⟩
          rw [hkeep2 x y z (by rw [hkeep x y z hne]; exact hne), hkeep x y z hne]
      · exact ⟨lg1, by simp [hv], hI, hkeep⟩
    · exact ⟨lg1, by simp [hr], hI, hkeep⟩

/-- One sweep of `_updateExtrapolationLayer` completes and keeps the layer grid
consistent. -/
theorem updateExtrapolationLayer_spec (s : FluidSimulation) (l b : Int) (lg : Array3d Int)
    (hw : s._materialGrid.width = s._i_voxels) (hh : s._materialGrid.height = s._j_voxels)
    (hd : s._materialGrid.depth = s._k_voxels)
    (h : LayerInv s._materialGrid s._fluidCellIndices b lg) (hl1 : 1 ≤ l) (hlb : l ≤ b) :
    ∃ lg', _updateExtrapolationLayer s l lg = some lg' ∧
      LayerInv s._materialGrid s._fluidCellIndices b lg' := by
  unfold _updateExtrapolationLayer
  rw [forCells_eq_foldlM]
  apply foldlM_inv _ _ lg (fun _ lg' => LayerInv s._materialGrid s._fluidCellIndices b lg')
  · exact h
  · intro pre c post lg1 hlist hI
    have hcl : c ∈ cellList lg.depth lg.height lg.width := by rw [hlist]; simp
    have hcin : lg1.isIndexInRange c.i c.j c.k = true := by
      rw [inRange_of_dims (hI.1.trans h.1.symm) (hI.2.1.trans h.2.1.symm)
        (hI.2.2.1.trans h.2.2.1.symm)]
      exact inRange_of_mem_cellList lg c hcl
    have hmin : s._materialGrid.isIndexInRange c.i c.j c.k = true := by
      rw [← inRange_of_dims hI.1 hI.2.1 hI.2.2.1]; exact hcin
    simp only [get_of_inRange _ _ _ _ hcin, Option.bind_eq_bind, Option.some_bind,
      isCellSolid_of_inRange _ _ _ _ hmin]
    by_cases hv : lg1.grid c.i c.j c.k = l - 1
    · by_cases hsol : s._materialGrid.grid c.i c.j c.k = M_SOLID
      · exact ⟨lg1, by simp [hv, hsol], hI⟩
      · obtain ⟨lg2, hrun, hI2, -⟩ := markNeighbours_spec s l b lg1 hw hh hd hI hl1 hlb c hcin hv
        refine ⟨lg2, ?_, hI2⟩
        simp only [hv, if_true, hsol, decide_False, Bool.not_false]
        simpa only [Option.bind_eq_bind] using hrun
    · exact ⟨lg1, by simp [hv], hI⟩


/-- Clearing the layer grid and writing `0` at the cells of the fluid cell list
completes and yields a consistent layer grid with bound `0`. -/
theorem initLayers_spec (s : FluidSimulation)
    (hlw : s._layerGrid.width = s._materialGrid.width)
    (hlh : s._layerGrid.height = s._materialGrid.height)
    (hld : s._layerGrid.depth = s._materialGrid.depth)
    (hcells : ∀ c ∈ s._fluidCellIndices, s._materialGrid.get c.i c.j c.k = some M_FLUID) :
    ∃ lg, s._fluidCellIndices.foldlM (fun lg idx => lg.set idx.i idx.j idx.k 0)
        (s._layerGrid.fill (-1)) = some lg ∧
      LayerInv s._materialGrid s._fluidCellIndices 0 lg := by
  have hin : ∀ c ∈ s._fluidCellIndices,
      s._materialGrid.isIndexInRange c.i c.j c.k = true ∧
        s._materialGrid.grid c.i c.j c.k = M_FLUID := by
    intro c hc
    have h := hcells c hc
    unfold Array3d.get at h
    by_cases hr : s._materialGrid.isIndexInRange c.i c.j c.k = true
    · rw [if_pos hr] at h
      exact ⟨hr, Option.some.inj h⟩
    · rw [if_neg hr] at h
      cases h
  obtain ⟨lg, hrun, hP⟩ := foldlM_inv
    (fun (lg : Array3d Int) (idx : GridIndex) => lg.set idx.i idx.j idx.k 0)
    s._fluidCellIndices (s._layerGrid.fill (-1))
    (fun pre lg => Painted (s._layerGrid.fill (-1)) lg 0
      (fun x y z => GridIndex.mk x y z ∈ pre))
    ((Painted.refl _ 0).congr (fun x y z => by simp))
    (by
      intro pre c post lg1 hlist hP
      have hc : c ∈ s._fluidCellIndices := by rw [hlist]; simp
      have hr : (s._layerGrid.fill (-1)).isIndexInRange c.i c.j c.k = true := by
        rw [← (hin c hc).1]
        exact inRange_of_dims hlw hlh hld _ _ _
      obtain ⟨lg2, hset, hP2⟩ := hP.set c.i c.j c.k hr
      refine ⟨lg2, hset, hP2.congr (fun x y z => ?_)⟩
      simp only [List.mem_append, List.mem_singleton]
      constructor
      · rintro (h | ⟨rfl, rfl, rfl⟩)
        · exact Or.inl h
        · exact Or.inr rfl
      · rintro (h | h)
        · exact Or.inl h
        · right
          subst h
          exact ⟨rfl, rfl, rfl⟩)
  refine ⟨lg, hrun, hP.1.trans hlw, hP.2.1.trans hlh, hP.2.2.1.trans hld, fun x y z _ => ?_⟩
  by_cases hm : GridIndex.mk x y z ∈ s._fluidCellIndices
  · have hv := (hP.2.2.2 x y z).1 hm
    rw [hv]
    refine ⟨by omega, le_refl 0, ⟨fun _ => hm, fun _ => rfl⟩, fun hsol => ?_, fun h => ?_⟩
    · have := (hin _ hm).2
      simp only at this
      rw [this] at hsol
      cases hsol
    · omega
  · have hv := (hP.2.2.2 x y z).2 hm
    rw [hv]
    simp only [Array3d.fill]
    refine ⟨le_refl _, by omega, ⟨fun h => by omega, fun h => (hm h).elim⟩, fun _ => ?_,
      fun h => by omega⟩
    trivial

/-- What `_updateExtrapolationLayers` computes: it only replaces the layer grid, by
one that is consistent with the material grid and the fluid cell list. -/
theorem updateExtrapolationLayers_run (s : FluidSimulation)
    (hw : s._materialGrid.width = s._i_voxels) (hh : s._materialGrid.height = s._j_voxels)
    (hd : s._materialGrid.depth = s._k_voxels)
    (hlw : s._layerGrid.width = s._materialGrid.width)
    (hlh : s._layerGrid.height = s._materialGrid.height)
    (hld : s._layerGrid.depth = s._materialGrid.depth)
    (hcells : ∀ c ∈ s._fluidCellIndices, s._materialGrid.get c.i c.j c.k = some M_FLUID) :
    ∃ lg, _updateExtrapolationLayers s =
        some ({ s with _layerGrid := lg }, ⌈s._CFLConditionNumber⌉ + 2) ∧
      LayerInv s._materialGrid s._fluidCellIndices
        (max (⌈s._CFLConditionNumber⌉ + 2) 0) lg := by
  obtain ⟨lg0, hrun0, hI0⟩ := initLayers_spec s hlw hlh hld hcells
  obtain ⟨lg, hrun, hI⟩ := forRange_inv (⌈s._CFLConditionNumber⌉ + 2 - 1 + 1).toNat
    (fun n lg => _updateExtrapolationLayer s (1 + n) lg) lg0
    (fun n lg => LayerInv s._materialGrid s._fluidCellIndices (n : Int) lg)
    (by simpa using hI0)
    (by
      intro n lg1 _ hI1
      have hI1' : LayerInv s._materialGrid s._fluidCellIndices ((n : Int) + 1) lg1 :=
        hI1.mono (by omega)
      obtain ⟨lg2, h2, hI2⟩ := updateExtrapolationLayer_spec s (1 + n) ((n : Int) + 1) lg1
        hw hh hd hI1' (by omega) (by omega)
      exact ⟨lg2, h2, by push_cast; exact hI2⟩)
  refine ⟨lg, ?_, hI.mono ?_⟩
  · unfold _updateExtrapolationLayers forFromTo
    simp only [Option.bind_eq_bind]
    rw [hrun0, Option.some_bind, hrun]
    rfl
  · rcases le_total 0 (⌈s._CFLConditionNumber⌉ + 2) with h | h
    · rw [max_eq_left h, Int.toNat_of_nonneg (by omega)]; omega
    · rw [max_eq_right h]
      have : (⌈s._CFLConditionNumber⌉ + 2 - 1 + 1).toNat = 0 := by
        apply Int.toNat_eq_zero.2; omega
      rw [this]; rfl

/-- C7: after `_updateExtrapolationLayers`, with `L = ⌈CFL⌉ + 2` the returned value,
every layer value lies between `-1` and `L` (and is `-1` or `0` if `L` is negative);
a cell has value `0` iff it is in the fluid cell list; every `M_SOLID` cell has value
`-1`; and every cell with value `l > 0` has an in-range 6-connected neighbour with
value `l - 1`.  The grids have the simulation's dimensions and the fluid cell list
holds `M_FLUID` cells, as `_updateFluidCells` leaves them. -/
theorem updateExtrapolationLayers_spec (s : FluidSimulation)
    (hw : s._materialGrid.width = s._i_voxels) (hh : s._materialGrid.height = s._j_voxels)
    (hd : s._materialGrid.depth = s._k_voxels)
    (hlw : s._layerGrid.width = s._materialGrid.width)
    (hlh : s._layerGrid.height = s._materialGrid.height)
    (hld : s._layerGrid.depth = s._materialGrid.depth)
    (hcells : ∀ c ∈ s._fluidCellIndices, s._materialGrid.get c.i c.j c.k = some M_FLUID) :
    ∃ s' L, _updateExtrapolationLayers s = some (s', L) ∧
      L = ⌈s._CFLConditionNumber⌉ + 2 ∧
      ∀ i j k : Int, s._materialGrid.isIndexInRange i j k = true →
        ∃ v, s'._layerGrid.get i j k = some v ∧
          -1 ≤ v ∧ v ≤ max L 0 ∧
          (v = 0 ↔ GridIndex.mk i j k ∈ s._fluidCellIndices) ∧
          (s._materialGrid.get i j k = some M_SOLID → v = -1) ∧
          (0 < v → ∃ n ∈ _getNeighbourGridIndices6 i j k,
            s'._layerGrid.get n.i n.j n.k = some (v - 1)) := by
  obtain ⟨lg, hrun, hI⟩ := updateExtrapolationLayers_run s hw hh hd hlw hlh hld hcells
  refine ⟨{ s with _layerGrid := lg }, ⌈s._CFLConditionNumber⌉ + 2, hrun, rfl, ?_⟩
  intro i j k hin
  have hin' : lg.isIndexInRange i j k = true := by
    rw [inRange_of_dims hI.1 hI.2.1 hI.2.2.1]; exact hin
  obtain ⟨a1, a2, a3, a4, a5⟩ := hI.2.2.2 i j k hin'
  refine ⟨lg.grid i j k, get_of_inRange _ _ _ _ hin', a1, a2, a3, ?_, ?_⟩
  · intro hsol
    rw [get_of_inRange _ _ _ _ hin] at hsol
    exact a4 (Option.some.inj hsol)
  · intro hpos
    obtain ⟨n, hn, hnin, hnv⟩ := a5 hpos
    exact ⟨n, hn, by rw [get_of_inRange _ _ _ _ hnin, hnv]⟩

/-- Witness for C7: a 3×3×3 grid whose centre cell is fluid and listed. -/
theorem updateExtrapolationLayers_spec_witness :
    ∃ s' L, _updateExtrapolationLayers
        { mkSimulation 3 3 3 1
            (fun i j k => if i = 1 ∧ j = 1 ∧ k = 1 then M_FLUID else M_AIR) [] with
          _fluidCellIndices := [⟨1, 1, 1⟩] } = some (s', L) ∧
      L = ⌈(5 : ℚ)⌉ + 2 ∧
      ∀ i j k : Int, (Array3d.mk 3 3 3
          (fun i j k => if i = 1 ∧ j = 1 ∧ k = 1 then M_FLUID else M_AIR)).isIndexInRange
            i j k = true →
        ∃ v, s'._layerGrid.get i j k = some v ∧
          -1 ≤ v ∧ v ≤ max L 0 ∧
          (v = 0 ↔ GridIndex.mk i j k ∈ [(⟨1, 1, 1⟩ : GridIndex)]) ∧
          ((Array3d.mk 3 3 3
            (fun i j k => if i = 1 ∧ j = 1 ∧ k = 1 then M_FLUID else M_AIR)).get i j k
              = some M_SOLID → v = -1) ∧
          (0 < v → ∃ n ∈ _getNeighbourGridIndices6 i j k,
            s'._layerGrid.get n.i n.j n.k = some (v - 1)) :=
  updateExtrapolationLayers_spec
    { mkSimulation 3 3 3 1
        (fun i j k => if i = 1 ∧ j = 1 ∧ k = 1 then M_FLUID else M_AIR) [] with
      _fluidCellIndices := [⟨1, 1, 1⟩] }
    rfl rfl rfl rfl rfl rfl (by
      intro c hc
      simp only [mkSimulation, List.mem_singleton] at hc
      subst hc
      decide)


/-! ## Sweeps that write one array of a state -/

/-- A sweep over the index range of one array of the state, reached through `get`
and `put`, that writes `val` wherever `cond` holds: the sweep completes and the array
holds `val` exactly at the swept indices satisfying `cond`; nothing else changes. -/
theorem lens_sweep {σ : Type} (get : σ → Array3d ℚ) (put : σ → Array3d ℚ → σ)
    (setX : σ → Int → Int → Int → ℚ → Option σ)
    (hgp : ∀ m g, get (put m g) = g)
    (hpg : ∀ m, put m (get m) = m)
    (hpp : ∀ m g g', put (put m g) g' = put m g')
    (hset : ∀ m i j k v, setX m i j k v = ((get m).set i j k v).map (put m))
    (d h w : Nat) (m0 : σ)
    (hw : (get m0).width = w) (hh : (get m0).height = h) (hd : (get m0).depth = d)
    (cond : Int → Int → Int → Bool) (val : Int → Int → Int → Option ℚ)
    (body : Int → Int → Int → σ → Option σ)
    (hbody : ∀ i j k g, body i j k (put m0 g) =
      if cond i j k = true then (val i j k).bind (setX (put m0 g) i j k)
      else some (put m0 g))
    (hval : ∀ i j k, (get m0).isIndexInRange i j k = true → cond i j k = true →
      ∃ v, val i j k = some v) :
    ∃ g, forCells d h w body m0 = some (put m0 g) ∧
      g.width = w ∧ g.height = h ∧ g.depth = d ∧
      ∀ x y z,
        (((get m0).isIndexInRange x y z = true ∧ cond x y z = true) →
          val x y z = some (g.grid x y z)) ∧
        (¬ ((get m0).isIndexInRange x y z = true ∧ cond x y z = true) →
          g.grid x y z = (get m0).grid x y z) := by
  rw [forCells_eq_foldlM]
  obtain ⟨m, hrun, g, rfl, gw, gh, gd, hg⟩ := foldlM_inv
    (fun (m : σ) (c : GridIndex) => body c.i c.j c.k m) (cellList d h w) m0
    (fun pre m => ∃ g, m = put m0 g ∧ g.width = w ∧ g.height = h ∧ g.depth = d ∧
      ∀ x y z,
        ((GridIndex.mk x y z ∈ pre ∧ cond x y z = true) → val x y z = some (g.grid x y z)) ∧
        (¬ (GridIndex.mk x y z ∈ pre ∧ cond x y z = true) →
          g.grid x y z = (get m0).grid x y z))
    ⟨get m0, (hpg m0).symm, hw, hh, hd, fun x y z => ⟨fun h => by simp at h, fun _ => rfl⟩⟩
    (by
      rintro pre ⟨i, j, k⟩ post m hl ⟨g, rfl, gw, gh, gd, hg⟩
      have hmem : GridIndex.mk i j k ∈ cellList d h w := by rw [hl]; simp
      have hin0 : (get m0).isIndexInRange i j k = true := by
        have := (mem_cellList d h w _).1 hmem
        simp only [Array3d.isIndexInRange, hw, hh, hd, decide_eq_true_eq]
        simp only at this
        omega
      have hin : g.isIndexInRange i j k = true := by
        rw [← hin0]
        simp [Array3d.isIndexInRange, gw, gh, gd, hw, hh, hd]
      show ∃ s', body i j k (put m0 g) = some s' ∧ _
      rw [hbody]
      by_cases hc : cond i j k = true
      · obtain ⟨v, hv⟩ := hval i j k hin0 hc
        rw [if_pos hc, hv, Option.some_bind, hset, hgp]
        refine ⟨put m0 { g with grid := fun a b c =>
            if a = i ∧ b = j ∧ c = k then v else g.grid a b c }, ?_, _, rfl, gw, gh, gd, ?_⟩
        · simp [Array3d.set, hin, hpp]
        · intro x y z
          by_cases hx : x = i ∧ y = j ∧ z = k
          · obtain ⟨rfl, rfl, rfl⟩ := hx
            constructor
            · intro _
              simp [hv]
            · intro hn
              exact (hn ⟨by simp, hc⟩).elim
          · have hne : GridIndex.mk x y z ≠ GridIndex.mk i j k := by
              intro h; injection h with h1 h2 h3; exact hx ⟨h1, h2, h3⟩
            simp only [hx, if_false, List.mem_append, List.mem_singleton, hne, or_false]
            exact hg x y z
      · rw [if_neg hc]
        refine ⟨_, rfl, g, rfl, gw, gh, gd, fun x y z => ?_⟩
        by_cases hx : x = i ∧ y = j ∧ z = k
        · obtain ⟨rfl, rfl, rfl⟩ := hx
          constructor
          · intro h
            exact (hc h.2).elim
          · intro _
            exact (hg x y z).2 (fun h => hc h.2)
        · have hne : GridIndex.mk x y z ≠ GridIndex.mk i j k := by
            intro h; injection h with h1 h2 h3; exact hx ⟨h1, h2, h3⟩
          simp only [List.mem_append, List.mem_singleton, hne, or_false]
          exact hg x y z)
  refine ⟨g, hrun, gw, gh, gd, fun x y z => ?_⟩
  have hiff : GridIndex.mk x y z ∈ cellList d h w ↔ (get m0).isIndexInRange x y z = true := by
    rw [mem_cellList]
    simp only [Array3d.isIndexInRange, hw, hh, hd, decide_eq_true_eq]
  rw [← hiff]
  exact hg x y z


theorem setU_eq (m : MACVelocityField) (i j k : Int) (v : ℚ) :
    m.setU i j k v = (m.u.set i j k v).map (fun a => { m with u := a }) := by
  unfold MACVelocityField.setU
  cases m.u.set i j k v <;> rfl

theorem setV_eq (m : MACVelocityField) (i j k : Int) (v : ℚ) :
    m.setV i j k v = (m.v.set i j k v).map (fun a => { m with v := a }) := by
  unfold MACVelocityField.setV
  cases m.v.set i j k v <;> rfl

theorem setW_eq (m : MACVelocityField) (i j k : Int) (v : ℚ) :
    m.setW i j k v = (m.w.set i j k v).map (fun a => { m with w := a }) := by
  unfold MACVelocityField.setW
  cases m.w.set i j k v <;> rfl

theorem setTempU_eq (m : MACVelocityField) (i j k : Int) (v : ℚ) :
    m.setTempU i j k v = (m.tempU.set i j k v).map (fun a => { m with tempU := a }) := by
  unfold MACVelocityField.setTempU
  cases m.tempU.set i j k v <;> rfl

theorem setTempV_eq (m : MACVelocityField) (i j k : Int) (v : ℚ) :
    m.setTempV i j k v = (m.tempV.set i j k v).map (fun a => { m with tempV := a }) := by
  unfold MACVelocityField.setTempV
  cases m.tempV.set i j k v <;> rfl

theorem setTempW_eq (m : MACVelocityField) (i j k : Int) (v : ℚ) :
    m.setTempW i j k v = (m.tempW.set i j k v).map (fun a => { m with tempW := a }) := by
  unfold MACVelocityField.setTempW
  cases m.tempW.set i j k v <;> rfl

/-- The three sweeps of `_resetExtrapolatedFluidVelocities` complete; afterwards
every in-range face that borders no fluid cell holds `0` and every other face holds
its old value. -/
theorem resetExtrapolatedFluidVelocities_spec (s : FluidSimulation) (hwf : WellFormed s) :
    ∃ u v w, _resetExtrapolatedFluidVelocities s =
        some { s with _MACVelocity := { s._MACVelocity with u := u, v := v, w := w } } ∧
      HasDims u (s._i_voxels + 1) s._j_voxels s._k_voxels ∧
      HasDims v s._i_voxels (s._j_voxels + 1) s._k_voxels ∧
      HasDims w s._i_voxels s._j_voxels (s._k_voxels + 1) ∧
      (∀ x y z, u.isIndexInRange x y z = true →
        _isFaceBorderingMaterialU s._materialGrid x y z M_FLUID = false → u.grid x y z = 0) ∧
      (∀ x y z, v.isIndexInRange x y z = true →
        _isFaceBorderingMaterialV s._materialGrid x y z M_FLUID = false → v.grid x y z = 0) ∧
      (∀ x y z, w.isIndexInRange x y z = true →
        _isFaceBorderingMaterialW s._materialGrid x y z M_FLUID = false → w.grid x y z = 0) := by
  obtain ⟨-, -, -, ⟨hu1, hu2, hu3⟩, ⟨hv1, hv2, hv3⟩, ⟨hw1, hw2, hw3⟩, -, -, -⟩ := hwf
  obtain ⟨u, hrunu, u1, u2, u3, hu⟩ := lens_sweep (fun m => m.u)
    (fun (m : MACVelocityField) a => { m with u := a }) MACVelocityField.setU
    (fun _ _ => rfl) (fun _ => rfl) (fun _ _ _ => rfl) setU_eq
    s._k_voxels s._j_voxels (s._i_voxels + 1) s._MACVelocity hu1 hu2 hu3
    (fun i j k => !_isFaceBorderingMaterialU s._materialGrid i j k M_FLUID)
    (fun _ _ _ => some 0)
    (fun i j k m =>
      if !_isFaceBorderingMaterialU s._materialGrid i j k M_FLUID then m.setU i j k 0
      else pure m)
    (fun i j k g => rfl) (fun _ _ _ _ _ => ⟨0, rfl⟩)
  obtain ⟨v, hrunv, v1, v2, v3, hv⟩ := lens_sweep (fun m => m.v)
    (fun (m : MACVelocityField) a => { m with v := a }) MACVelocityField.setV
    (fun _ _ => rfl) (fun _ => rfl) (fun _ _ _ => rfl) setV_eq
    s._k_voxels (s._j_voxels + 1) s._i_voxels { s._MACVelocity with u := u } hv1 hv2 hv3
    (fun i j k => !_isFaceBorderingMaterialV s._materialGrid i j k M_FLUID)
    (fun _ _ _ => some 0)
    (fun i j k m =>
      if !_isFaceBorderingMaterialV s._materialGrid i j k M_FLUID then m.setV i j k 0
      else pure m)
    (fun i j k g => rfl) (fun _ _ _ _ _ => ⟨0, rfl⟩)
  obtain ⟨w, hrunw, w1, w2, w3, hw⟩ := lens_sweep (fun m => m.w)
    (fun (m : MACVelocityField) a => { m with w := a }) MACVelocityField.setW
    (fun _ _ => rfl) (fun _ => rfl) (fun _ _ _ => rfl) setW_eq
    (s._k_voxels + 1) s._j_voxels s._i_voxels { s._MACVelocity with u := u, v := v }
    hw1 hw2 hw3
    (fun i j k => !_isFaceBorderingMaterialW s._materialGrid i j k M_FLUID)
    (fun _ _ _ => some 0)
    (fun i j k m =>
      if !_isFaceBorderingMaterialW s._materialGrid i j k M_FLUID then m.setW i j k 0
      else pure m)
    (fun i j k g => rfl) (fun _ _ _ _ _ => ⟨0, rfl⟩)
  refine ⟨u, v, w, ?_, ⟨u1, u2, u3⟩, ⟨v1, v2, v3⟩, ⟨w1, w2, w3⟩, ?_, ?_, ?_⟩
  · unfold _resetExtrapolatedFluidVelocities
    simp only [Option.bind_eq_bind]
    rw [hrunu, Option.some_bind, hrunv, Option.some_bind, hrunw]
    rfl
  · intro x y z hin hb
    have hin0 : s._MACVelocity.u.isIndexInRange x y z = true := by
      rw [← hin]; simp [Array3d.isIndexInRange, u1, u2, u3, hu1, hu2, hu3]
    have := (hu x y z).1 ⟨hin0, by simp [hb]⟩
    exact (Option.some.inj this).symm
  · intro x y z hin hb
    have hin0 : s._MACVelocity.v.isIndexInRange x y z = true := by
      rw [← hin]; simp [Array3d.isIndexInRange, v1, v2, v3, hv1, hv2, hv3]
    have := (hv x y z).1 ⟨hin0, by simp [hb]⟩
    exact (Option.some.inj this).symm
  · intro x y z hin hb
    have hin0 : s._MACVelocity.w.isIndexInRange x y z = true := by
      rw [← hin]; simp [Array3d.isIndexInRange, w1, w2, w3, hw1, hw2, hw3]
    have := (hw x y z).1 ⟨hin0, by simp [hb]⟩
    exact (Option.some.inj this).symm


/-- One call of `_extrapolateVelocitiesForLayerIndex` completes; the committed field
consists of the temp arrays, which hold `0` at every face that does not border a cell
of layer `idx`. -/
theorem extrapolateVelocitiesForLayerIndex_spec (s : FluidSimulation) (idx : Int)
    (hwf : WellFormed s) :
    ∃ tu tv tw, _extrapolateVelocitiesForLayerIndex s idx =
        some { s with _MACVelocity :=
          { u := tu, v := tv, w := tw, tempU := s._MACVelocity.u,
            tempV := s._MACVelocity.v, tempW := s._MACVelocity.w } } ∧
      HasDims tu (s._i_voxels + 1) s._j_voxels s._k_voxels ∧
      HasDims tv s._i_voxels (s._j_voxels + 1) s._k_voxels ∧
      HasDims tw s._i_voxels s._j_voxels (s._k_voxels + 1) ∧
      (∀ x y z, _isFaceBorderingLayerIndexU s._layerGrid x y z idx = false →
        tu.grid x y z = 0) ∧
      (∀ x y z, _isFaceBorderingLayerIndexV s._layerGrid x y z idx = false →
        tv.grid x y z = 0) ∧
      (∀ x y z, _isFaceBorderingLayerIndexW s._layerGrid x y z idx = false →
        tw.grid x y z = 0) := by
  obtain ⟨-, -, -, -, -, -, ⟨hu1, hu2, hu3⟩, ⟨hv1, hv2, hv3⟩, ⟨hw1, hw2, hw3⟩⟩ := hwf
  obtain ⟨tu, hrunu, u1, u2, u3, hu⟩ := lens_sweep (fun m => m.tempU)
    (fun (m : MACVelocityField) a => { m with tempU := a }) MACVelocityField.setTempU
    (fun _ _ => rfl) (fun _ => rfl) (fun _ _ _ => rfl) setTempU_eq
    s._k_voxels s._j_voxels (s._i_voxels + 1)
    s._MACVelocity.resetTemporaryVelocityField hu1 hu2 hu3
    (fun i j k => _isFaceBorderingLayerIndexU s._layerGrid i j k idx &&
        !_isFaceBorderingLayerIndexU s._layerGrid i j k (idx - 1) &&
        !_isFaceBorderingMaterialU s._materialGrid i j k M_SOLID)
    (fun i j k => some (_getExtrapolatedVelocityForFaceU
      s._MACVelocity.resetTemporaryVelocityField s._layerGrid i j k idx))
    (fun i j k m =>
      if _isFaceBorderingLayerIndexU s._layerGrid i j k idx &&
          !_isFaceBorderingLayerIndexU s._layerGrid i j k (idx - 1) &&
          !_isFaceBorderingMaterialU s._materialGrid i j k M_SOLID then
        m.setTempU i j k (_getExtrapolatedVelocityForFaceU m s._layerGrid i j k idx)
      else pure m)
    (fun i j k g => rfl) (fun _ _ _ _ _ => ⟨_, rfl⟩)
  obtain ⟨tv, hrunv, v1, v2, v3, hv⟩ := lens_sweep (fun m => m.tempV)
    (fun (m : MACVelocityField) a => { m with tempV := a }) MACVelocityField.setTempV
    (fun _ _ => rfl) (fun _ => rfl) (fun _ _ _ => rfl) setTempV_eq
    s._k_voxels (s._j_voxels + 1) s._i_voxels
    { s._MACVelocity.resetTemporaryVelocityField with tempU := tu } hv1 hv2 hv3
    (fun i j k => _isFaceBorderingLayerIndexV s._layerGrid i j k idx &&
        !_isFaceBorderingLayerIndexV s._layerGrid i j k (idx - 1) &&
        !_isFaceBorderingMaterialV s._materialGrid i j k M_SOLID)
    (fun i j k => some (_getExtrapolatedVelocityForFaceV
      s._MACVelocity.resetTemporaryVelocityField s._layerGrid i j k idx))
    (fun i j k m =>
      if _isFaceBorderingLayerIndexV s._layerGrid i j k idx &&
          !_isFaceBorderingLayerIndexV s._layerGrid i j k (idx - 1) &&
          !_isFaceBorderingMaterialV s._materialGrid i j k M_SOLID then
        m.setTempV i j k (_getExtrapolatedVelocityForFaceV m s._layerGrid i j k idx)
      else pure m)
    (fun i j k g => rfl) (fun _ _ _ _ _ => ⟨_, rfl⟩)
  obtain ⟨tw, hrunw, w1, w2, w3, hw⟩ := lens_sweep (fun m => m.tempW)
    (fun (m : MACVelocityField) a => { m with tempW := a }) MACVelocityField.setTempW
    (fun _ _ => rfl) (fun _ => rfl) (fun _ _ _ => rfl) setTempW_eq
    (s._k_voxels + 1) s._j_voxels s._i_voxels
    { s._MACVelocity.resetTemporaryVelocityField with tempU := tu, tempV := tv }
    hw1 hw2 hw3
    (fun i j k => _isFaceBorderingLayerIndexW s._layerGrid i j k idx &&
        !_isFaceBorderingLayerIndexW s._layerGrid i j k (idx - 1) &&
        !_isFaceBorderingMaterialW s._materialGrid i j k M_SOLID)
    (fun i j k => some (_getExtrapolatedVelocityForFaceW
      s._MACVelocity.resetTemporaryVelocityField s._layerGrid i j k idx))
    (fun i j k m =>
      if _isFaceBorderingLayerIndexW s._layerGrid i j k idx &&
          !_isFaceBorderingLayerIndexW s._layerGrid i j k (idx - 1) &&
          !_isFaceBorderingMaterialW s._materialGrid i j k M_SOLID then
        m.setTempW i j k (_getExtrapolatedVelocityForFaceW m s._layerGrid i j k idx)
      else pure m)
    (fun i j k g => rfl) (fun _ _ _ _ _ => ⟨_, rfl⟩)
  refine ⟨tu, tv, tw, ?_, ⟨u1, u2, u3⟩, ⟨v1, v2, v3⟩, ⟨w1, w2, w3⟩, ?_, ?_, ?_⟩
  · unfold _extrapolateVelocitiesForLayerIndex
    simp only [Option.bind_eq_bind]
    rw [hrunu, Option.some_bind, hrunv, Option.some_bind, hrunw]
    rfl
  · intro x y z hb
    exact (hu x y z).2 (fun h => by simp [hb] at h)
  · intro x y z hb
    exact (hv x y z).2 (fun h => by simp [hb] at h)
  · intro x y z hb
    exact (hw x y z).2 (fun h => by simp [hb] at h)


/-! ## C8: faces outside the fluid and outside the extrapolated layers -/

/-- What `_extrapolateFluidVelocities` computes on a well-formed state: the run
completes, the state stays well formed, the material grid is untouched, and the faces
outside the fluid and outside the extrapolated layers hold `0`. -/
theorem extrapolateFluidVelocities_run (s : FluidSimulation) (hwf : WellFormed s)
    (hcells : ∀ c ∈ s._fluidCellIndices, s._materialGrid.get c.i c.j c.k = some M_FLUID) :
    ∃ s', _extrapolateFluidVelocities s = some s' ∧ WellFormed s' ∧
      s'._materialGrid = s._materialGrid ∧
      ∀ i j k : Int,
        (_isFaceBorderingMaterialU s'._materialGrid i j k M_FLUID = false →
          (∀ l : Int, 1 ≤ l → l ≤ ⌈s._CFLConditionNumber⌉ + 2 →
            _isFaceBorderingLayerIndexU s'._layerGrid i j k l = false) →
          s'._MACVelocity.U i j k = 0) ∧
        (_isFaceBorderingMaterialV s'._materialGrid i j k M_FLUID = false →
          (∀ l : Int, 1 ≤ l → l ≤ ⌈s._CFLConditionNumber⌉ + 2 →
            _isFaceBorderingLayerIndexV s'._layerGrid i j k l = false) →
          s'._MACVelocity.V i j k = 0) ∧
        (_isFaceBorderingMaterialW s'._materialGrid i j k M_FLUID = false →
          (∀ l : Int, 1 ≤ l → l ≤ ⌈s._CFLConditionNumber⌉ + 2 →
            _isFaceBorderingLayerIndexW s'._layerGrid i j k l = false) →
          s'._MACVelocity.W i j k = 0) := by
  obtain ⟨u, v, w, hreset, hdu, hdv, hdw, hzu, hzv, hzw⟩ :=
    resetExtrapolatedFluidVelocities_spec s hwf
  obtain ⟨hm, hl, hp, _, _, _, htu, htv, htw⟩ := hwf
  obtain ⟨lg, hlayers, hI⟩ := updateExtrapolationLayers_run
    { s with _MACVelocity := { s._MACVelocity with u := u, v := v, w := w } }
    hm.1 hm.2.1 hm.2.2 (hl.1.trans hm.1.symm) (hl.2.1.trans hm.2.1.symm)
    (hl.2.2.trans hm.2.2.symm) hcells
  obtain ⟨s', hloop, hwf', hmat, hlg, hz⟩ := forRange_inv
    (⌈s._CFLConditionNumber⌉ + 2 - 1 + 1).toNat
    (fun n st => _extrapolateVelocitiesForLayerIndex st (1 + n))
    { s with _MACVelocity := { s._MACVelocity with u := u, v := v, w := w }
             _layerGrid := lg }
    (fun _ st => WellFormed st ∧ st._materialGrid = s._materialGrid ∧ st._layerGrid = lg ∧
      ∀ i j k : Int,
        (st._MACVelocity.u.isIndexInRange i j k = true →
          _isFaceBorderingMaterialU s._materialGrid i j k M_FLUID = false →
          (∀ l : Int, 1 ≤ l → l ≤ ⌈s._CFLConditionNumber⌉ + 2 →
            _isFaceBorderingLayerIndexU lg i j k l = false) →
          st._MACVelocity.u.grid i j k = 0) ∧
        (st._MACVelocity.v.isIndexInRange i j k = true →
          _isFaceBorderingMaterialV s._materialGrid i j k M_FLUID = false →
          (∀ l : Int, 1 ≤ l → l ≤ ⌈s._CFLConditionNumber⌉ + 2 →
            _isFaceBorderingLayerIndexV lg i j k l = false) →
          st._MACVelocity.v.grid i j k = 0) ∧
        (st._MACVelocity.w.isIndexInRange i j k = true →
          _isFaceBorderingMaterialW s._materialGrid i j k M_FLUID = false →
          (∀ l : Int, 1 ≤ l → l ≤ ⌈s._CFLConditionNumber⌉ + 2 →
            _isFaceBorderingLayerIndexW lg i j k l = false) →
          st._MACVelocity.w.grid i j k = 0))
    ⟨⟨hm, ⟨hI.1.trans hm.1, hI.2.1.trans hm.2.1, hI.2.2.1.trans hm.2.2⟩, hp, hdu, hdv, hdw,
        htu, htv, htw⟩, rfl, rfl,
      fun i j k => ⟨fun hin hb _ => hzu i j k hin hb, fun hin hb _ => hzv i j k hin hb,
        fun hin hb _ => hzw i j k hin hb⟩⟩
    (by
      rintro n st hn ⟨hwfst, hmatst, hlgst, -⟩
      obtain ⟨tu, tv, tw, hrun, du, dv, dw, zu, zv, zw⟩ :=
        extrapolateVelocitiesForLayerIndex_spec st (1 + n) hwfst
      have hidx : (1 : Int) + n ≤ ⌈s._CFLConditionNumber⌉ + 2 := by omega
      obtain ⟨h1, h2, h3, h4, h5, h6, h7, h8, h9⟩ := hwfst
      refine ⟨_, hrun, ⟨h1, h2, h3, du, dv, dw, h4, h5, h6⟩, hmatst, hlgst, fun i j k => ?_⟩
      refine ⟨fun _ _ hlay => zu i j k ?_, fun _ _ hlay => zv i j k ?_,
        fun _ _ hlay => zw i j k ?_⟩
      · rw [hlgst]; exact hlay _ (by omega) hidx
      · rw [hlgst]; exact hlay _ (by omega) hidx
      · rw [hlgst]; exact hlay _ (by omega) hidx)
  refine ⟨s', ?_, hwf', hmat, fun i j k => ?_⟩
  · unfold _extrapolateFluidVelocities forFromTo
    simp only [Option.bind_eq_bind]
    rw [hreset, Option.some_bind, hlayers, Option.some_bind]
    exact hloop
  · rw [hmat, hlg]
    obtain ⟨zu, zv, zw⟩ := hz i j k
    refine ⟨fun hb hlay => ?_, fun hb hlay => ?_, fun hb hlay => ?_⟩
    · unfold MACVelocityField.U
      split_ifs with hin
      · exact zu hin hb hlay
      · rfl
    · unfold MACVelocityField.V
      split_ifs with hin
      · exact zv hin hb hlay
      · rfl
    · unfold MACVelocityField.W
      split_ifs with hin
      · exact zw hin hb hlay
      · rfl

/-! ## C4: solid faces after the pressure projection -/

theorem solid_face_cancel_left (sc u p : ℚ) (h : sc ≠ 0) :
    u - sc * (p - (p - 1 / sc * (u - 0))) = 0 := by
  have hc : sc * (1 / sc) = 1 := mul_one_div_cancel h
  linear_combination (-u) * hc

theorem solid_face_cancel_right (sc u p : ℚ) (h : sc ≠ 0) :
    u - sc * (p + 1 / sc * (u - 0) - p) = 0 := by
  have hc : sc * (1 / sc) = 1 := mul_one_div_cancel h
  linear_combination (-u) * hc

/-- The value written for a `U` face whose two straddling cells exist: `0` next to a
solid cell, the pressure-gradient update otherwise. -/
theorem pressureCorrectedU_spec (s : FluidSimulation) (m : MACVelocityField) (dt : ℚ)
    (i j k : Int) (hscale : dt / (s._density * s._dx) ≠ 0)
    (hm0 : s._materialGrid.isIndexInRange (i - 1) j k = true)
    (hm1 : s._materialGrid.isIndexInRange i j k = true)
    (hp0 : s._pressureGrid.isIndexInRange (i - 1) j k = true)
    (hp1 : s._pressureGrid.isIndexInRange i j k = true) :
    pressureCorrectedU s m dt i j k = some (
      if s._materialGrid.grid (i - 1) j k = M_SOLID ∨ s._materialGrid.grid i j k = M_SOLID
      then 0
      else m.U i j k - dt / (s._density * s._dx) *
        (s._pressureGrid.grid i j k - s._pressureGrid.grid (i - 1) j k)) := by
  have e : i - 1 + 1 = i := by ring
  unfold pressureCorrectedU andAlso
  simp only [e, isCellSolid_of_inRange _ _ _ _ hm0, isCellSolid_of_inRange _ _ _ _ hm1,
    get_of_inRange _ _ _ _ hp0, get_of_inRange _ _ _ _ hp1, Option.map_some',
    Option.bind_eq_bind, Option.some_bind, Option.pure_def]
  by_cases h0 : s._materialGrid.grid (i - 1) j k = M_SOLID
  · simp only [h0, decide_True, Bool.not_true, Bool.false_eq_true, if_false, if_true,
      Option.some_bind, true_or]
    congr 1
    exact solid_face_cancel_left _ _ _ hscale
  · by_cases h1 : s._materialGrid.grid i j k = M_SOLID
    · simp only [h0, h1, decide_False, decide_True, Bool.not_false, Bool.not_true, if_true,
        Bool.false_eq_true, if_false, Option.some_bind, or_true]
      congr 1
      exact solid_face_cancel_right _ _ _ hscale
    · simp only [h0, h1, decide_False, Bool.not_false, if_true, Option.some_bind,
        or_self, if_false]

/-- The value written for a `V` face whose two straddling cells exist: `0` next to a
solid cell, the pressure-gradient update otherwise. -/
theorem pressureCorrectedV_spec (s : FluidSimulation) (m : MACVelocityField) (dt : ℚ)
    (i j k : Int) (hscale : dt / (s._density * s._dx) ≠ 0)
    (hm0 : s._materialGrid.isIndexInRange i (j - 1) k = true)
    (hm1 : s._materialGrid.isIndexInRange i j k = true)
    (hp0 : s._pressureGrid.isIndexInRange i (j - 1) k = true)
    (hp1 : s._pressureGrid.isIndexInRange i j k = true) :
    pressureCorrectedV s m dt i j k = some (
      if s._materialGrid.grid i (j - 1) k = M_SOLID ∨ s._materialGrid.grid i j k = M_SOLID
      then 0
      else m.V i j k - dt / (s._density * s._dx) *
        (s._pressureGrid.grid i j k - s._pressureGrid.grid i (j - 1) k)) := by
  have e : j - 1 + 1 = j := by ring
  unfold pressureCorrectedV andAlso
  simp only [e, isCellSolid_of_inRange _ _ _ _ hm0, isCellSolid_of_inRange _ _ _ _ hm1,
    get_of_inRange _ _ _ _ hp0, get_of_inRange _ _ _ _ hp1, Option.map_some',
    Option.bind_eq_bind, Option.some_bind, Option.pure_def]
  by_cases h0 : s._materialGrid.grid i (j - 1) k = M_SOLID
  · simp only [h0, decide_True, Bool.not_true, Bool.false_eq_true, if_false, if_true,
      Option.some_bind, true_or]
    congr 1
    exact solid_face_cancel_left _ _ _ hscale
  · by_cases h1 : s._materialGrid.grid i j k = M_SOLID
    · simp only [h0, h1, decide_False, decide_True, Bool.not_false, Bool.not_true, if_true,
        Bool.false_eq_true, if_false, Option.some_bind, or_true]
      congr 1
      exact solid_face_cancel_right _ _ _ hscale
    · simp only [h0, h1, decide_False, Bool.not_false, if_true, Option.some_bind,
        or_self, if_false]

/-- The value written for a `W` face whose two straddling cells exist: `0` next to a
solid cell, the pressure-gradient update otherwise. -/
theorem pressureCorrectedW_spec (s : FluidSimulation) (m : MACVelocityField) (dt : ℚ)
    (i j k : Int) (hscale : dt / (s._density * s._dx) ≠ 0)
    (hm0 : s._materialGrid.isIndexInRange i j (k - 1) = true)
    (hm1 : s._materialGrid.isIndexInRange i j k = true)
    (hp0 : s._pressureGrid.isIndexInRange i j (k - 1) = true)
    (hp1 : s._pressureGrid.isIndexInRange i j k = true) :
    pressureCorrectedW s m dt i j k = some (
      if s._materialGrid.grid i j (k - 1) = M_SOLID ∨ s._materialGrid.grid i j k = M_SOLID
      then 0
      else m.W i j k - dt / (s._density * s._dx) *
        (s._pressureGrid.grid i j k - s._pressureGrid.grid i j (k - 1))) := by
  have e : k - 1 + 1 = k := by ring
  unfold pressureCorrectedW andAlso
  simp only [e, isCellSolid_of_inRange _ _ _ _ hm0, isCellSolid_of_inRange _ _ _ _ hm1,
    get_of_inRange _ _ _ _ hp0, get_of_inRange _ _ _ _ hp1, Option.map_some',
    Option.bind_eq_bind, Option.some_bind, Option.pure_def]
  by_cases h0 : s._materialGrid.grid i j (k - 1) = M_SOLID
  · simp only [h0, decide_True, Bool.not_true, Bool.false_eq_true, if_false, if_true,
      Option.some_bind, true_or]
    congr 1
    exact solid_face_cancel_left _ _ _ hscale
  · by_cases h1 : s._materialGrid.grid i j k = M_SOLID
    · simp only [h0, h1, decide_False, decide_True, Bool.not_false, Bool.not_true, if_true,
        Bool.false_eq_true, if_false, Option.some_bind, or_true]
      congr 1
      exact solid_face_cancel_right _ _ _ hscale
    · simp only [h0, h1, decide_False, Bool.not_false, if_true, Option.some_bind,
        or_self, if_false]

theorem cellHolds_inRange {α : Type} [DecidableEq α] {g : Array3d α} {x y z : Int} {v : α}
    (h : cellHolds g x y z v = true) : g.isIndexInRange x y z = true := by
  unfold cellHolds at h
  simp only [Bool.and_eq_true] at h
  exact h.1

theorem faceU_cells_inRange {g : Array3d Material} (hint : FluidInterior g) {i j k : Int}
    (h : _isFaceBorderingMaterialU g i j k M_FLUID = true) :
    g.isIndexInRange (i - 1) j k = true ∧ g.isIndexInRange i j k = true := by
  unfold _isFaceBorderingMaterialU at h
  rw [Bool.or_eq_true] at h
  rcases h with h | h
  · refine ⟨cellHolds_inRange h, ?_⟩
    have := hint _ _ _ h ⟨i - 1 + 1, j, k⟩ (by simp [_getNeighbourGridIndices6])
    simpa using this
  · exact ⟨hint _ _ _ h ⟨i - 1, j, k⟩ (by simp [_getNeighbourGridIndices6]),
      cellHolds_inRange h⟩

theorem faceV_cells_inRange {g : Array3d Material} (hint : FluidInterior g) {i j k : Int}
    (h : _isFaceBorderingMaterialV g i j k M_FLUID = true) :
    g.isIndexInRange i (j - 1) k = true ∧ g.isIndexInRange i j k = true := by
  unfold _isFaceBorderingMaterialV at h
  rw [Bool.or_eq_true] at h
  rcases h with h | h
  · refine ⟨cellHolds_inRange h, ?_⟩
    have := hint _ _ _ h ⟨i, j - 1 + 1, k⟩ (by simp [_getNeighbourGridIndices6])
    simpa using this
  · exact ⟨hint _ _ _ h ⟨i, j - 1, k⟩ (by simp [_getNeighbourGridIndices6]),
      cellHolds_inRange h⟩

theorem faceW_cells_inRange {g : Array3d Material} (hint : FluidInterior g) {i j k : Int}
    (h : _isFaceBorderingMaterialW g i j k M_FLUID = true) :
    g.isIndexInRange i j (k - 1) = true ∧ g.isIndexInRange i j k = true := by
  unfold _isFaceBorderingMaterialW at h
  rw [Bool.or_eq_true] at h
  rcases h with h | h
  · refine ⟨cellHolds_inRange h, ?_⟩
    have := hint _ _ _ h ⟨i, j, k - 1 + 1⟩ (by simp [_getNeighbourGridIndices6])
    simpa using this
  · exact ⟨hint _ _ _ h ⟨i, j, k - 1⟩ (by simp [_getNeighbourGridIndices6]),
      cellHolds_inRange h⟩


/-- What `_applyPressureToVelocityField` computes: the run completes, the committed
field consists of the temp arrays, and the temp arrays hold the pressure-corrected
value at every in-range face bordering a fluid cell. -/
theorem applyPressureToVelocityField_run (s : FluidSimulation) (dt : ℚ)
    (hwf : WellFormed s) (hscale : dt / (s._density * s._dx) ≠ 0)
    (hint : FluidInterior s._materialGrid) :
    ∃ tu tv tw, _applyPressureToVelocityField s dt =
        some { s with _MACVelocity :=
          { u := tu, v := tv, w := tw, tempU := s._MACVelocity.u,
            tempV := s._MACVelocity.v, tempW := s._MACVelocity.w } } ∧
      HasDims tu (s._i_voxels + 1) s._j_voxels s._k_voxels ∧
      HasDims tv s._i_voxels (s._j_voxels + 1) s._k_voxels ∧
      HasDims tw s._i_voxels s._j_voxels (s._k_voxels + 1) ∧
      (∀ x y z, s._MACVelocity.u.isIndexInRange x y z = true →
        _isFaceBorderingMaterialU s._materialGrid x y z M_FLUID = true →
        tu.grid x y z =
          if s._materialGrid.grid (x - 1) y z = M_SOLID ∨ s._materialGrid.grid x y z = M_SOLID
          then 0
          else s._MACVelocity.U x y z - dt / (s._density * s._dx) *
            (s._pressureGrid.grid x y z - s._pressureGrid.grid (x - 1) y z)) ∧
      (∀ x y z, s._MACVelocity.v.isIndexInRange x y z = true →
        _isFaceBorderingMaterialV s._materialGrid x y z M_FLUID = true →
        tv.grid x y z =
          if s._materialGrid.grid x (y - 1) z = M_SOLID ∨ s._materialGrid.grid x y z = M_SOLID
          then 0
          else s._MACVelocity.V x y z - dt / (s._density * s._dx) *
            (s._pressureGrid.grid x y z - s._pressureGrid.grid x (y - 1) z)) ∧
      (∀ x y z, s._MACVelocity.w.isIndexInRange x y z = true →
        _isFaceBorderingMaterialW s._materialGrid x y z M_FLUID = true →
        tw.grid x y z =
          if s._materialGrid.grid x y (z - 1) = M_SOLID ∨ s._materialGrid.grid x y z = M_SOLID
          then 0
          else s._MACVelocity.W x y z - dt / (s._density * s._dx) *
            (s._pressureGrid.grid x y z - s._pressureGrid.grid x y (z - 1))) := by
  obtain ⟨⟨hm1, hm2, hm3⟩, -, ⟨hp1, hp2, hp3⟩, ⟨hu1, hu2, hu3⟩, ⟨hv1, hv2, hv3⟩,
    ⟨hw1, hw2, hw3⟩, ⟨htu1, htu2, htu3⟩, ⟨htv1, htv2, htv3⟩, ⟨htw1, htw2, htw3⟩⟩ := hwf
  have hpin : ∀ x y z, s._materialGrid.isIndexInRange x y z = true →
      s._pressureGrid.isIndexInRange x y z = true := by
    intro x y z h
    rw [← h]
    simp [Array3d.isIndexInRange, hm1, hm2, hm3, hp1, hp2, hp3]
  have hUval : ∀ x y z, _isFaceBorderingMaterialU s._materialGrid x y z M_FLUID = true →
      pressureCorrectedU s s._MACVelocity.resetTemporaryVelocityField dt x y z = some (
        if s._materialGrid.grid (x - 1) y z = M_SOLID ∨ s._materialGrid.grid x y z = M_SOLID
        then 0
        else s._MACVelocity.U x y z - dt / (s._density * s._dx) *
          (s._pressureGrid.grid x y z - s._pressureGrid.grid (x - 1) y z)) := by
    intro x y z hb
    obtain ⟨c0, c1⟩ := faceU_cells_inRange hint hb
    exact pressureCorrectedU_spec s _ dt x y z hscale c0 c1 (hpin _ _ _ c0) (hpin _ _ _ c1)
  have hVval : ∀ x y z, _isFaceBorderingMaterialV s._materialGrid x y z M_FLUID = true →
      pressureCorrectedV s s._MACVelocity.resetTemporaryVelocityField dt x y z = some (
        if s._materialGrid.grid x (y - 1) z = M_SOLID ∨ s._materialGrid.grid x y z = M_SOLID
        then 0
        else s._MACVelocity.V x y z - dt / (s._density * s._dx) *
          (s._pressureGrid.grid x y z - s._pressureGrid.grid x (y - 1) z)) := by
    intro x y z hb
    obtain ⟨c0, c1⟩ := faceV_cells_inRange hint hb
    exact pressureCorrectedV_spec s _ dt x y z hscale c0 c1 (hpin _ _ _ c0) (hpin _ _ _ c1)
  have hWval : ∀ x y z, _isFaceBorderingMaterialW s._materialGrid x y z M_FLUID = true →
      pressureCorrectedW s s._MACVelocity.resetTemporaryVelocityField dt x y z = some (
        if s._materialGrid.grid x y (z - 1) = M_SOLID ∨ s._materialGrid.grid x y z = M_SOLID
        then 0
        else s._MACVelocity.W x y z - dt / (s._density * s._dx) *
          (s._pressureGrid.grid x y z - s._pressureGrid.grid x y (z - 1))) := by
    intro x y z hb
    obtain ⟨c0, c1⟩ := faceW_cells_inRange hint hb
    exact pressureCorrectedW_spec s _ dt x y z hscale c0 c1 (hpin _ _ _ c0) (hpin _ _ _ c1)
  obtain ⟨tu, hrunu, u1, u2, u3, hu⟩ := lens_sweep (fun m => m.tempU)
    (fun (m : MACVelocityField) a => { m with tempU := a }) MACVelocityField.setTempU
    (fun _ _ => rfl) (fun _ => rfl) (fun _ _ _ => rfl) setTempU_eq
    s._k_voxels s._j_voxels (s._i_voxels + 1)
    s._MACVelocity.resetTemporaryVelocityField htu1 htu2 htu3
    (fun i j k => _isFaceBorderingMaterialU s._materialGrid i j k M_FLUID)
    (fun i j k => pressureCorrectedU s s._MACVelocity.resetTemporaryVelocityField dt i j k)
    (fun i j k m =>
      if _isFaceBorderingMaterialU s._materialGrid i j k M_FLUID then do
        let unext ← pressureCorrectedU s m dt i j k
        m.setTempU i j k unext
      else pure m)
    (fun i j k g => rfl) (fun i j k _ hb => ⟨_, hUval i j k hb⟩)
  obtain ⟨tv, hrunv, v1, v2, v3, hv⟩ := lens_sweep (fun m => m.tempV)
    (fun (m : MACVelocityField) a => { m with tempV := a }) MACVelocityField.setTempV
    (fun _ _ => rfl) (fun _ => rfl) (fun _ _ _ => rfl) setTempV_eq
    s._k_voxels (s._j_voxels + 1) s._i_voxels
    { s._MACVelocity.resetTemporaryVelocityField with tempU := tu } htv1 htv2 htv3
    (fun i j k => _isFaceBorderingMaterialV s._materialGrid i j k M_FLUID)
    (fun i j k => pressureCorrectedV s s._MACVelocity.resetTemporaryVelocityField dt i j k)
    (fun i j k m =>
      if _isFaceBorderingMaterialV s._materialGrid i j k M_FLUID then do
        let vnext ← pressureCorrectedV s m dt i j k
        m.setTempV i j k vnext
      else pure m)
    (fun i j k g => rfl) (fun i j k _ hb => ⟨_, hVval i j k hb⟩)
  obtain ⟨tw, hrunw, w1, w2, w3, hw⟩ := lens_sweep (fun m => m.tempW)
    (fun (m : MACVelocityField) a => { m with tempW := a }) MACVelocityField.setTempW
    (fun _ _ => rfl) (fun _ => rfl) (fun _ _ _ => rfl) setTempW_eq
    (s._k_voxels + 1) s._j_voxels s._i_voxels
    { s._MACVelocity.resetTemporaryVelocityField with tempU := tu, tempV := tv }
    htw1 htw2 htw3
    (fun i j k => _isFaceBorderingMaterialW s._materialGrid i j k M_FLUID)
    (fun i j k => pressureCorrectedW s s._MACVelocity.resetTemporaryVelocityField dt i j k)
    (fun i j k m =>
      if _isFaceBorderingMaterialW s._materialGrid i j k M_FLUID then do
        let wnext ← pressureCorrectedW s m dt i j k
        m.setTempW i j k wnext
      else pure m)
    (fun i j k g => rfl) (fun i j k _ hb => ⟨_, hWval i j k hb⟩)
  refine ⟨tu, tv, tw, ?_, ⟨u1, u2, u3⟩, ⟨v1, v2, v3⟩, ⟨w1, w2, w3⟩, ?_, ?_, ?_⟩
  · unfold _applyPressureToVelocityField
    simp only [Option.bind_eq_bind] at hrunu hrunv hrunw ⊢
    rw [hrunu, Option.some_bind, hrunv, Option.some_bind, hrunw]
    rfl
  · intro x y z hin hb
    have hin' : (s._MACVelocity.resetTemporaryVelocityField).tempU.isIndexInRange x y z
        = true := by
      rw [← hin]
      simp [Array3d.isIndexInRange, MACVelocityField.resetTemporaryVelocityField,
        Array3d.fill, htu1, htu2, htu3, hu1, hu2, hu3]
    have := (hu x y z).1 ⟨hin', hb⟩
    rw [hUval x y z hb] at this
    exact (Option.some.inj this).symm
  · intro x y z hin hb
    have hin' : (s._MACVelocity.resetTemporaryVelocityField).tempV.isIndexInRange x y z
        = true := by
      rw [← hin]
      simp [Array3d.isIndexInRange, MACVelocityField.resetTemporaryVelocityField,
        Array3d.fill, htv1, htv2, htv3, hv1, hv2, hv3]
    have := (hv x y z).1 ⟨hin', hb⟩
    rw [hVval x y z hb] at this
    exact (Option.some.inj this).symm
  · intro x y z hin hb
    have hin' : (s._MACVelocity.resetTemporaryVelocityField).tempW.isIndexInRange x y z
        = true := by
      rw [← hin]
      simp [Array3d.isIndexInRange, MACVelocityField.resetTemporaryVelocityField,
        Array3d.fill, htw1, htw2, htw3, hw1, hw2, hw3]
    have := (hw x y z).1 ⟨hin', hb⟩
    rw [hWval x y z hb] at this
    exact (Option.some.inj this).symm


theorem get_eq_some {α : Type} {g : Array3d α} {i j k : Int} {v : α}
    (h : g.get i j k = some v) : g.isIndexInRange i j k = true ∧ g.grid i j k = v := by
  unfold Array3d.get at h
  by_cases hr : g.isIndexInRange i j k = true
  · rw [if_pos hr] at h
    exact ⟨hr, Option.some.inj h⟩
  · rw [if_neg hr] at h
    cases h

theorem cellHolds_of_get {α : Type} [DecidableEq α] {g : Array3d α} {i j k : Int} {v : α}
    (h : g.get i j k = some v) : cellHolds g i j k v = true := by
  obtain ⟨h1, h2⟩ := get_eq_some h
  simp [cellHolds, h1, h2]

/-- C4: for every velocity field and pressure grid, with `dt`, density and `dx`
positive (on a state whose grids have the simulation's dimensions and whose fluid
cells are not on the grid boundary), `_applyPressureToVelocityField` completes and
the value it writes for every `U`, `V` or `W` face that lies between an `M_FLUID`
cell and an `M_SOLID` cell is exactly `0`, whichever side the solid cell is on. -/
theorem applyPressure_solid_faces_zero (s : FluidSimulation) (dt : ℚ)
    (hwf : WellFormed s) (hdt : 0 < dt) (hrho : 0 < s._density) (hdx : 0 < s._dx)
    (hint : FluidInterior s._materialGrid) :
    ∃ s', _applyPressureToVelocityField s dt = some s' ∧
      ∀ i j k : Int,
        (((s._materialGrid.get (i - 1) j k = some M_FLUID ∧
              s._materialGrid.get i j k = some M_SOLID) ∨
            (s._materialGrid.get (i - 1) j k = some M_SOLID ∧
              s._materialGrid.get i j k = some M_FLUID)) →
          s'._MACVelocity.U i j k = 0) ∧
        (((s._materialGrid.get i (j - 1) k = some M_FLUID ∧
              s._materialGrid.get i j k = some M_SOLID) ∨
            (s._materialGrid.get i (j - 1) k = some M_SOLID ∧
              s._materialGrid.get i j k = some M_FLUID)) →
          s'._MACVelocity.V i j k = 0) ∧
        (((s._materialGrid.get i j (k - 1) = some M_FLUID ∧
              s._materialGrid.get i j k = some M_SOLID) ∨
            (s._materialGrid.get i j (k - 1) = some M_SOLID ∧
              s._materialGrid.get i j k = some M_FLUID)) →
          s'._MACVelocity.W i j k = 0) := by
  have hscale : dt / (s._density * s._dx) ≠ 0 := by positivity
  obtain ⟨tu, tv, tw, hrun, -, -, -, hu, hv, hw⟩ :=
    applyPressureToVelocityField_run s dt hwf hscale hint
  obtain ⟨⟨hm1, hm2, hm3⟩, -, -, ⟨hu1, hu2, hu3⟩, ⟨hv1, hv2, hv3⟩, ⟨hw1, hw2, hw3⟩, -, -, -⟩ :=
    hwf
  refine ⟨_, hrun, fun i j k => ⟨fun h => ?_, fun h => ?_, fun h => ?_⟩⟩
  · show (if tu.isIndexInRange i j k then tu.grid i j k else 0) = 0
    split_ifs
    · have hsol : s._materialGrid.grid (i - 1) j k = M_SOLID ∨
          s._materialGrid.grid i j k = M_SOLID := by
        rcases h with ⟨_, h⟩ | ⟨h, _⟩
        · exact Or.inr (get_eq_some h).2
        · exact Or.inl (get_eq_some h).2
      have hb : _isFaceBorderingMaterialU s._materialGrid i j k M_FLUID = true := by
        unfold _isFaceBorderingMaterialU
        rcases h with ⟨h, _⟩ | ⟨_, h⟩
        · rw [cellHolds_of_get h]; rfl
        · rw [cellHolds_of_get h]; simp
      have hin : s._MACVelocity.u.isIndexInRange i j k = true := by
        have c0 : s._materialGrid.isIndexInRange (i - 1) j k = true := by
          rcases h with ⟨h, _⟩ | ⟨h, _⟩ <;> exact (get_eq_some h).1
        have c1 : s._materialGrid.isIndexInRange i j k = true := by
          rcases h with ⟨_, h⟩ | ⟨_, h⟩ <;> exact (get_eq_some h).1
        simp only [Array3d.isIndexInRange, hm1, hm2, hm3, hu1, hu2, hu3,
          decide_eq_true_eq] at c0 c1 ⊢
        push_cast
        omega
      rw [hu i j k hin hb, if_pos hsol]
    · rfl
  · show (if tv.isIndexInRange i j k then tv.grid i j k else 0) = 0
    split_ifs
    · have hsol : s._materialGrid.grid i (j - 1) k = M_SOLID ∨
          s._materialGrid.grid i j k = M_SOLID := by
        rcases h with ⟨_, h⟩ | ⟨h, _⟩
        · exact Or.inr (get_eq_some h).2
        · exact Or.inl (get_eq_some h).2
      have hb : _isFaceBorderingMaterialV s._materialGrid i j k M_FLUID = true := by
        unfold _isFaceBorderingMaterialV
        rcases h with ⟨h, _⟩ | ⟨_, h⟩
        · rw [cellHolds_of_get h]; rfl
        · rw [cellHolds_of_get h]; simp
      have hin : s._MACVelocity.v.isIndexInRange i j k = true := by
        have c0 : s._materialGrid.isIndexInRange i (j - 1) k = true := by
          rcases h with ⟨h, _⟩ | ⟨h, _⟩ <;> exact (get_eq_some h).1
        have c1 : s._materialGrid.isIndexInRange i j k = true := by
          rcases h with ⟨_, h⟩ | ⟨_, h⟩ <;> exact (get_eq_some h).1
        simp only [Array3d.isIndexInRange, hm1, hm2, hm3, hv1, hv2, hv3,
          decide_eq_true_eq] at c0 c1 ⊢
        push_cast
        omega
      rw [hv i j k hin hb, if_pos hsol]
    · rfl
  · show (if tw.isIndexInRange i j k then tw.grid i j k else 0) = 0
    split_ifs
    · have hsol : s._materialGrid.grid i j (k - 1) = M_SOLID ∨
          s._materialGrid.grid i j k = M_SOLID := by
        rcases h with ⟨_, h⟩ | ⟨h, _⟩
        · exact Or.inr (get_eq_some h).2
        · exact Or.inl (get_eq_some h).2
      have hb : _isFaceBorderingMaterialW s._materialGrid i j k M_FLUID = true := by
        unfold _isFaceBorderingMaterialW
        rcases h with ⟨h, _⟩ | ⟨_, h⟩
        · rw [cellHolds_of_get h]; rfl
        · rw [cellHolds_of_get h]; simp
      have hin : s._MACVelocity.w.isIndexInRange i j k = true := by
        have c0 : s._materialGrid.isIndexInRange i j (k - 1) = true := by
          rcases h with ⟨h, _⟩ | ⟨h, _⟩ <;> exact (get_eq_some h).1
        have c1 : s._materialGrid.isIndexInRange i j k = true := by
          rcases h with ⟨_, h⟩ | ⟨_, h⟩ <;> exact (get_eq_some h).1
        simp only [Array3d.isIndexInRange, hm1, hm2, hm3, hw1, hw2, hw3,
          decide_eq_true_eq] at c0 c1 ⊢
        push_cast
        omega
      rw [hw i j k hin hb, if_pos hsol]
    · rfl


/-! ## C3: the projection removes the divergence up to the residual -/

theorem solidFix_spec (s : FluidSimulation) (i j k ni nj nk : Int) (delta : ℚ)
    (b : VectorCoefficients)
    (hn : s._materialGrid.isIndexInRange ni nj nk = true)
    (hb : b.vector.isIndexInRange i j k = true) :
    solidFix s i j k ni nj nk delta b =
      some (b.addAt i j k (solidTerm s._materialGrid ni nj nk delta)) := by
  unfold solidFix solidTerm VectorCoefficients.addAt
  simp only [isCellSolid_of_inRange _ _ _ _ hn, get_of_inRange _ _ _ _ hb,
    Option.bind_eq_bind, Option.some_bind, Array3d.set, hb, if_true, Option.pure_def]
  by_cases hs : s._materialGrid.grid ni nj nk = M_SOLID
  · simp [hs]
  · simp only [hs, decide_False, Bool.false_eq_true, if_false, add_zero]
    congr 1
    cases b with
    | mk v =>
      congr 1
      cases v with
      | mk w h d g =>
        simp only [Array3d.mk.injEq, true_and]
        funext x y z
        by_cases hx : x = i ∧ y = j ∧ z = k
        · obtain ⟨rfl, rfl, rfl⟩ := hx
          simp
        · simp [hx]

theorem addAt_inRange (b : VectorCoefficients) (i j k : Int) (delta : ℚ) (x y z : Int) :
    (b.addAt i j k delta).vector.isIndexInRange x y z = b.vector.isIndexInRange x y z := rfl

theorem addAt_addAt (b : VectorCoefficients) (i j k : Int) (d1 d2 : ℚ) :
    (b.addAt i j k d1).addAt i j k d2 = b.addAt i j k (d1 + d2) := by
  simp only [VectorCoefficients.addAt, VectorCoefficients.mk.injEq, Array3d.mk.injEq,
    true_and]
  funext x y z
  by_cases hx : x = i ∧ y = j ∧ z = k
  · simp [hx, add_assoc]
  · simp [hx]

/-- The body of the second loop of `_calculateNegativeDivergenceVector` for one
fluid cell whose neighbours exist: the six solid corrections are added to its
entry. -/
theorem divergenceFix_spec (s : FluidSimulation) (c : GridIndex) (b : VectorCoefficients)
    (md : ℚ) (hb : b.vector.isIndexInRange c.i c.j c.k = true)
    (hn : ∀ n ∈ _getNeighbourGridIndices6 c.i c.j c.k,
      s._materialGrid.isIndexInRange n.i n.j n.k = true) :
    ∃ md', (do
      let b1 ← solidFix s c.i c.j c.k (c.i - 1) c.j c.k
        (-(1 / s._dx * (s._MACVelocity.U c.i c.j c.k - 0))) b
      let b2 ← solidFix s c.i c.j c.k (c.i + 1) c.j c.k
        (1 / s._dx * (s._MACVelocity.U (c.i + 1) c.j c.k - 0)) b1
      let b3 ← solidFix s c.i c.j c.k c.i (c.j - 1) c.k
        (-(1 / s._dx * (s._MACVelocity.V c.i c.j c.k - 0))) b2
      let b4 ← solidFix s c.i c.j c.k c.i (c.j + 1) c.k
        (1 / s._dx * (s._MACVelocity.V c.i (c.j + 1) c.k - 0)) b3
      let b5 ← solidFix s c.i c.j c.k c.i c.j (c.k - 1)
        (-(1 / s._dx * (s._MACVelocity.W c.i c.j c.k - 0))) b4
      let b6 ← solidFix s c.i c.j c.k c.i c.j (c.k + 1)
        (1 / s._dx * (s._MACVelocity.W c.i c.j (c.k + 1) - 0)) b5
      let v ← b6.vector.get c.i c.j c.k
      let maxDivergence := max md (abs v)
      pure (b6, maxDivergence)) =
      some (b.addAt c.i c.j c.k
        (solidTerm s._materialGrid (c.i - 1) c.j c.k
            (-(1 / s._dx * (s._MACVelocity.U c.i c.j c.k - 0)))
          + solidTerm s._materialGrid (c.i + 1) c.j c.k
            (1 / s._dx * (s._MACVelocity.U (c.i + 1) c.j c.k - 0))
          + solidTerm s._materialGrid c.i (c.j - 1) c.k
            (-(1 / s._dx * (s._MACVelocity.V c.i c.j c.k - 0)))
          + solidTerm s._materialGrid c.i (c.j + 1) c.k
            (1 / s._dx * (s._MACVelocity.V c.i (c.j + 1) c.k - 0))
          + solidTerm s._materialGrid c.i c.j (c.k - 1)
            (-(1 / s._dx * (s._MACVelocity.W c.i c.j c.k - 0)))
          + solidTerm s._materialGrid c.i c.j (c.k + 1)
            (1 / s._dx * (s._MACVelocity.W c.i c.j (c.k + 1) - 0))), md') ∧
      md' = max md (abs (b.vector.grid c.i c.j c.k +
        (negativeDivergenceAt s c.i c.j c.k - rawNegativeDivergence s c.i c.j c.k))) := by
  have n1 := hn ⟨c.i - 1, c.j, c.k⟩ (by simp [_getNeighbourGridIndices6])
  have n2 := hn ⟨c.i + 1, c.j, c.k⟩ (by simp [_getNeighbourGridIndices6])
  have n3 := hn ⟨c.i, c.j - 1, c.k⟩ (by simp [_getNeighbourGridIndices6])
  have n4 := hn ⟨c.i, c.j + 1, c.k⟩ (by simp [_getNeighbourGridIndices6])
  have n5 := hn ⟨c.i, c.j, c.k - 1⟩ (by simp [_getNeighbourGridIndices6])
  have n6 := hn ⟨c.i, c.j, c.k + 1⟩ (by simp [_getNeighbourGridIndices6])
  simp only at n1 n2 n3 n4 n5 n6
  refine ⟨max md (abs ((b.addAt c.i c.j c.k
        (solidTerm s._materialGrid (c.i - 1) c.j c.k
            (-(1 / s._dx * (s._MACVelocity.U c.i c.j c.k - 0)))
          + solidTerm s._materialGrid (c.i + 1) c.j c.k
            (1 / s._dx * (s._MACVelocity.U (c.i + 1) c.j c.k - 0))
          + solidTerm s._materialGrid c.i (c.j - 1) c.k
            (-(1 / s._dx * (s._MACVelocity.V c.i c.j c.k - 0)))
          + solidTerm s._materialGrid c.i (c.j + 1) c.k
            (1 / s._dx * (s._MACVelocity.V c.i (c.j + 1) c.k - 0))
          + solidTerm s._materialGrid c.i c.j (c.k - 1)
            (-(1 / s._dx * (s._MACVelocity.W c.i c.j c.k - 0)))
          + solidTerm s._materialGrid c.i c.j (c.k + 1)
            (1 / s._dx * (s._MACVelocity.W c.i c.j (c.k + 1) - 0)))).vector.grid
              c.i c.j c.k)), ?_, ?_⟩
  swap
  · simp only [VectorCoefficients.addAt, and_self, if_true, negativeDivergenceAt]
    congr 2
    ring
  simp only [Option.bind_eq_bind]
  rw [solidFix_spec _ _ _ _ _ _ _ _ _ n1 hb, Option.some_bind,
    solidFix_spec _ _ _ _ _ _ _ _ _ n2 (by rw [addAt_inRange]; exact hb), Option.some_bind,
    addAt_addAt,
    solidFix_spec _ _ _ _ _ _ _ _ _ n3 (by rw [addAt_inRange]; exact hb), Option.some_bind,
    addAt_addAt,
    solidFix_spec _ _ _ _ _ _ _ _ _ n4 (by rw [addAt_inRange]; exact hb), Option.some_bind,
    addAt_addAt,
    solidFix_spec _ _ _ _ _ _ _ _ _ n5 (by rw [addAt_inRange]; exact hb), Option.some_bind,
    addAt_addAt,
    solidFix_spec _ _ _ _ _ _ _ _ _ n6 (by rw [addAt_inRange]; exact hb), Option.some_bind,
    addAt_addAt,
    get_of_inRange _ _ _ _ (by rw [addAt_inRange]; exact hb), Option.some_bind]
  rfl


/-- `_calculateNegativeDivergenceVector` completes when the cells of the (duplicate
free) fluid cell list and their neighbours exist; it leaves for every listed cell
the divergence term corrected at its solid neighbours, leaves every other entry as it
was, and returns the running maximum of the magnitudes of the listed entries. -/
theorem calculateNegativeDivergenceVector_run (s : FluidSimulation)
    (b0 : VectorCoefficients)
    (hnodup : s._fluidCellIndices.Nodup)
    (hb0 : ∀ c ∈ s._fluidCellIndices, b0.vector.isIndexInRange c.i c.j c.k = true)
    (hn : ∀ c ∈ s._fluidCellIndices, ∀ n ∈ _getNeighbourGridIndices6 c.i c.j c.k,
      s._materialGrid.isIndexInRange n.i n.j n.k = true) :
    ∃ b md, _calculateNegativeDivergenceVector s b0 = some (b, md) ∧
      (∀ x y z, b.vector.isIndexInRange x y z = b0.vector.isIndexInRange x y z) ∧
      (∀ c ∈ s._fluidCellIndices,
        b.vector.grid c.i c.j c.k = negativeDivergenceAt s c.i c.j c.k) ∧
      (∀ c, c ∉ s._fluidCellIndices →
        b.vector.grid c.i c.j c.k = b0.vector.grid c.i c.j c.k) ∧
      md = (s._fluidCellIndices.map
        (fun c => abs (negativeDivergenceAt s c.i c.j c.k))).foldl max 0 := by
  obtain ⟨b1, hrun1, hI1, hr1, hk1⟩ := foldlM_inv
    (fun (b : VectorCoefficients) (idx : GridIndex) => do
      let a ← b.vector.set idx.i idx.j idx.k (rawNegativeDivergence s idx.i idx.j idx.k)
      pure (VectorCoefficients.mk a))
    s._fluidCellIndices b0
    (fun pre b => (∀ x y z, b.vector.isIndexInRange x y z = b0.vector.isIndexInRange x y z) ∧
      (∀ c ∈ pre, b.vector.grid c.i c.j c.k = rawNegativeDivergence s c.i c.j c.k) ∧
      ∀ c, c ∉ pre → b.vector.grid c.i c.j c.k = b0.vector.grid c.i c.j c.k)
    ⟨fun _ _ _ => rfl, fun c hc => by simp at hc, fun _ _ => rfl⟩
    (by
      rintro pre idx post b hl ⟨hr, hI, hk⟩
      have hin : b.vector.isIndexInRange idx.i idx.j idx.k = true := by
        rw [hr]; exact hb0 idx (by rw [hl]; simp)
      refine ⟨⟨⟨b.vector.width, b.vector.height, b.vector.depth, fun x y z =>
          if x = idx.i ∧ y = idx.j ∧ z = idx.k then rawNegativeDivergence s idx.i idx.j idx.k
          else b.vector.grid x y z⟩⟩, ?_, ?_, ?_, ?_⟩
      · simp [Array3d.set, hin]
      · intro x y z
        exact hr x y z
      · intro c hc
        by_cases hx : c.i = idx.i ∧ c.j = idx.j ∧ c.k = idx.k
        · simp only [hx, and_self, if_true]
        · simp only [hx, if_false]
          rcases List.mem_append.1 hc with h | h
          · exact hI c h
          · rw [List.mem_singleton.1 h] at hx
            exact (hx ⟨rfl, rfl, rfl⟩).elim
      · intro c hc
        have hne : ¬ (c.i = idx.i ∧ c.j = idx.j ∧ c.k = idx.k) := by
          rintro ⟨h1, h2, h3⟩
          apply hc
          have : c = idx := by
            cases c; cases idx; simp only at h1 h2 h3; simp [h1, h2, h3]
          rw [this]; simp
        simp only [hne, if_false]
        exact hk c (fun h => hc (List.mem_append_left _ h)))
  obtain ⟨⟨b2, md⟩, hrun2, hr2, hI2, hk2, hmd2⟩ := foldlM_inv
    (fun (acc : VectorCoefficients × ℚ) (idx : GridIndex) => do
      let i := idx.i
      let j := idx.j
      let k := idx.k
      let b := acc.1
      let b ← solidFix s i j k (i - 1) j k (-(1 / s._dx * (s._MACVelocity.U i j k - 0))) b
      let b ← solidFix s i j k (i + 1) j k (1 / s._dx * (s._MACVelocity.U (i + 1) j k - 0)) b
      let b ← solidFix s i j k i (j - 1) k (-(1 / s._dx * (s._MACVelocity.V i j k - 0))) b
      let b ← solidFix s i j k i (j + 1) k (1 / s._dx * (s._MACVelocity.V i (j + 1) k - 0)) b
      let b ← solidFix s i j k i j (k - 1) (-(1 / s._dx * (s._MACVelocity.W i j k - 0))) b
      let b ← solidFix s i j k i j (k + 1) (1 / s._dx * (s._MACVelocity.W i j (k + 1) - 0)) b
      let v ← b.vector.get i j k
      let maxDivergence := max acc.2 (abs v)
      pure (b, maxDivergence))
    s._fluidCellIndices (b1, 0)
    (fun pre acc =>
      (∀ x y z, acc.1.vector.isIndexInRange x y z = b0.vector.isIndexInRange x y z) ∧
      (∀ c ∈ pre, acc.1.vector.grid c.i c.j c.k = negativeDivergenceAt s c.i c.j c.k) ∧
      (∀ c, c ∉ pre → acc.1.vector.grid c.i c.j c.k = b1.vector.grid c.i c.j c.k) ∧
      acc.2 = (pre.map (fun c => abs (negativeDivergenceAt s c.i c.j c.k))).foldl max 0)
    ⟨hI1, fun c hc => by simp at hc, fun _ _ => rfl, rfl⟩
    (by
      rintro pre idx post ⟨b, md⟩ hl ⟨hr, hI, hrest, hmd⟩
      have hmem : idx ∈ s._fluidCellIndices := by rw [hl]; simp
      have hnot : idx ∉ pre := by
        have hnd := hnodup
        rw [hl] at hnd
        have := (List.nodup_append.1 hnd).2.2
        intro hp
        exact this hp (by simp)
      have hin : b.vector.isIndexInRange idx.i idx.j idx.k = true := by
        rw [hr]; exact hb0 idx hmem
      obtain ⟨md', hstep, hmd'⟩ := divergenceFix_spec s idx b md hin (hn idx hmem)
      have hraw0 : b.vector.grid idx.i idx.j idx.k =
          rawNegativeDivergence s idx.i idx.j idx.k := by
        have := hrest idx hnot
        simp only at this
        rw [this]
        exact hr1 idx hmem
      refine ⟨_, hstep, ?_, ?_, ?_, ?_⟩
      rotate_left 3
      · simp only at hmd ⊢
        rw [hmd', hraw0, List.map_append, List.foldl_append, ← hmd]
        simp
      · intro x y z
        exact hr x y z
      · intro c hc
        rcases List.mem_append.1 hc with h | h
        · have hne : ¬ (c.i = idx.i ∧ c.j = idx.j ∧ c.k = idx.k) := by
            rintro ⟨h1, h2, h3⟩
            apply hnot
            have : c = idx := by
              cases c; cases idx; simp only at h1 h2 h3; simp [h1, h2, h3]
            exact this ▸ h
          simp only [VectorCoefficients.addAt, hne, if_false]
          exact hI c h
        · rw [List.mem_singleton.1 h]
          simp only [VectorCoefficients.addAt, and_self, if_true]
          have hraw : b.vector.grid idx.i idx.j idx.k =
              rawNegativeDivergence s idx.i idx.j idx.k := by
            have := hrest idx hnot
            simp only at this
            rw [this]
            exact hr1 idx hmem
          rw [hraw]
          unfold negativeDivergenceAt
          ring
      · intro c hc
        have hne : ¬ (c.i = idx.i ∧ c.j = idx.j ∧ c.k = idx.k) := by
          rintro ⟨h1, h2, h3⟩
          apply hc
          have : c = idx := by
            cases c; cases idx; simp only at h1 h2 h3; simp [h1, h2, h3]
          rw [this]; simp
        simp only [VectorCoefficients.addAt, hne, if_false]
        exact hrest c (fun h => hc (List.mem_append_left _ h)))
  refine ⟨b2, md, ?_, hr2, hI2, ?_, hmd2⟩
  · unfold _calculateNegativeDivergenceVector
    simp only [Option.bind_eq_bind] at hrun1 hrun2 ⊢
    rw [hrun1, Option.some_bind]
    exact hrun2
  · intro c hc
    rw [hk2 c hc]
    exact hk1 c hc

/-- `_calculateNegativeDivergenceVector` completes when the cells of the (duplicate
free) fluid cell list and their neighbours exist, and leaves for every listed cell
the divergence term corrected at its solid neighbours. -/
theorem calculateNegativeDivergenceVector_spec (s : FluidSimulation)
    (b0 : VectorCoefficients)
    (hnodup : s._fluidCellIndices.Nodup)
    (hb0 : ∀ c ∈ s._fluidCellIndices, b0.vector.isIndexInRange c.i c.j c.k = true)
    (hn : ∀ c ∈ s._fluidCellIndices, ∀ n ∈ _getNeighbourGridIndices6 c.i c.j c.k,
      s._materialGrid.isIndexInRange n.i n.j n.k = true) :
    ∃ b md, _calculateNegativeDivergenceVector s b0 = some (b, md) ∧
      ∀ c ∈ s._fluidCellIndices,
        b.vector.grid c.i c.j c.k = negativeDivergenceAt s c.i c.j c.k := by
  obtain ⟨b, md, h, -, hv, -⟩ := calculateNegativeDivergenceVector_run s b0 hnodup hb0 hn
  exact ⟨b, md, h, hv⟩


theorem negativeDivergenceAt_eq (s : FluidSimulation) (i j k : Int) :
    negativeDivergenceAt s i j k = -(1 / s._dx) *
      ((faceFlux s._materialGrid (i + 1) j k (s._MACVelocity.U (i + 1) j k)
          - faceFlux s._materialGrid (i - 1) j k (s._MACVelocity.U i j k))
        + (faceFlux s._materialGrid i (j + 1) k (s._MACVelocity.V i (j + 1) k)
          - faceFlux s._materialGrid i (j - 1) k (s._MACVelocity.V i j k))
        + (faceFlux s._materialGrid i j (k + 1) (s._MACVelocity.W i j (k + 1))
          - faceFlux s._materialGrid i j (k - 1) (s._MACVelocity.W i j k))) := by
  unfold negativeDivergenceAt rawNegativeDivergence solidTerm faceFlux
  split_ifs <;> ring

theorem pressureMatrixTimes_eq (s : FluidSimulation) (dt : ℚ) (i j k : Int) :
    pressureMatrixTimes s dt i j k =
      (dt / (s._density * s._dx * s._dx) *
          (if s._materialGrid.grid (i - 1) j k = M_SOLID then 0 else 1) *
          s._pressureGrid.grid i j k
        + (if s._materialGrid.grid (i - 1) j k = M_FLUID
            then -(dt / (s._density * s._dx * s._dx)) * s._pressureGrid.grid (i - 1) j k
            else 0))
      + (dt / (s._density * s._dx * s._dx) *
          (if s._materialGrid.grid (i + 1) j k = M_SOLID then 0 else 1) *
          s._pressureGrid.grid i j k
        + (if s._materialGrid.grid (i + 1) j k = M_FLUID
            then -(dt / (s._density * s._dx * s._dx)) * s._pressureGrid.grid (i + 1) j k
            else 0))
      + (dt / (s._density * s._dx * s._dx) *
          (if s._materialGrid.grid i (j - 1) k = M_SOLID then 0 else 1) *
          s._pressureGrid.grid i j k
        + (if s._materialGrid.grid i (j - 1) k = M_FLUID
            then -(dt / (s._density * s._dx * s._dx)) * s._pressureGrid.grid i (j - 1) k
            else 0))
      + (dt / (s._density * s._dx * s._dx) *
          (if s._materialGrid.grid i (j + 1) k = M_SOLID then 0 else 1) *
          s._pressureGrid.grid i j k
        + (if s._materialGrid.grid i (j + 1) k = M_FLUID
            then -(dt / (s._density * s._dx * s._dx)) * s._pressureGrid.grid i (j + 1) k
            else 0))
      + (dt / (s._density * s._dx * s._dx) *
          (if s._materialGrid.grid i j (k - 1) = M_SOLID then 0 else 1) *
          s._pressureGrid.grid i j k
        + (if s._materialGrid.grid i j (k - 1) = M_FLUID
            then -(dt / (s._density * s._dx * s._dx)) * s._pressureGrid.grid i j (k - 1)
            else 0))
      + (dt / (s._density * s._dx * s._dx) *
          (if s._materialGrid.grid i j (k + 1) = M_SOLID then 0 else 1) *
          s._pressureGrid.grid i j k
        + (if s._materialGrid.grid i j (k + 1) = M_FLUID
            then -(dt / (s._density * s._dx * s._dx)) * s._pressureGrid.grid i j (k + 1)
            else 0)) := by
  unfold pressureMatrixTimes _getNeighbourGridIndices6
  simp only [List.countP_cons, List.countP_nil, List.map_cons, List.map_nil, List.sum_cons,
    List.sum_nil, decide_eq_true_eq, ne_eq, ite_not]
  push_cast
  ring



theorem dir_term (σ Pc Pd : ℚ) (S F : Prop) [Decidable S] [Decidable F]
    (hFS : F → ¬ S) (hair : ¬ S → ¬ F → Pd = 0) :
    (if S then (0 : ℚ) else σ * (Pd - Pc)) =
      -(σ * (if S then 0 else 1) * Pc + (if F then -σ * Pd else 0)) := by
  by_cases hS : S
  · have hF : ¬ F := fun h => hFS h hS
    simp [hS, hF]
  · by_cases hF : F
    · simp [hS, hF]; ring
    · simp [hS, hF, hair hS hF]

theorem axis_update (sp Pc : ℚ) (Sp Sm : Prop) [Decidable Sp] [Decidable Sm]
    (Up Um Pp Pm : ℚ) :
    (if Sp then (0 : ℚ) else (if Sp then 0 else Up - sp * (Pp - Pc)))
      - (if Sm then (0 : ℚ) else (if Sm then 0 else Um - sp * (Pc - Pm)))
    = ((if Sp then 0 else Up) - (if Sm then 0 else Um))
      - ((if Sp then 0 else sp * (Pp - Pc)) + (if Sm then 0 else sp * (Pm - Pc))) := by
  split_ifs <;> ring

theorem projection_identity (sd sp σ Pc : ℚ) (hσ : σ = sd * sp)
    (S1 S2 S3 S4 S5 S6 F1 F2 F3 F4 F5 F6 : Prop)
    [Decidable S1] [Decidable S2] [Decidable S3] [Decidable S4] [Decidable S5] [Decidable S6]
    [Decidable F1] [Decidable F2] [Decidable F3] [Decidable F4] [Decidable F5] [Decidable F6]
    (U1 U2 U3 U4 U5 U6 P1 P2 P3 P4 P5 P6 : ℚ)
    (f1 : F1 → ¬ S1) (f2 : F2 → ¬ S2) (f3 : F3 → ¬ S3) (f4 : F4 → ¬ S4) (f5 : F5 → ¬ S5)
    (f6 : F6 → ¬ S6)
    (a1 : ¬ S1 → ¬ F1 → P1 = 0) (a2 : ¬ S2 → ¬ F2 → P2 = 0) (a3 : ¬ S3 → ¬ F3 → P3 = 0)
    (a4 : ¬ S4 → ¬ F4 → P4 = 0) (a5 : ¬ S5 → ¬ F5 → P5 = 0) (a6 : ¬ S6 → ¬ F6 → P6 = 0) :
    -sd * (((if S2 then (0 : ℚ) else (if S2 then 0 else U2 - sp * (P2 - Pc)))
          - (if S1 then (0 : ℚ) else (if S1 then 0 else U1 - sp * (Pc - P1))))
        + ((if S4 then (0 : ℚ) else (if S4 then 0 else U4 - sp * (P4 - Pc)))
          - (if S3 then (0 : ℚ) else (if S3 then 0 else U3 - sp * (Pc - P3))))
        + ((if S6 then (0 : ℚ) else (if S6 then 0 else U6 - sp * (P6 - Pc)))
          - (if S5 then (0 : ℚ) else (if S5 then 0 else U5 - sp * (Pc - P5)))))
    = -sd * (((if S2 then 0 else U2) - (if S1 then 0 else U1))
        + ((if S4 then 0 else U4) - (if S3 then 0 else U3))
        + ((if S6 then 0 else U6) - (if S5 then 0 else U5)))
      - ((σ * (if S1 then 0 else 1) * Pc + (if F1 then -σ * P1 else 0))
        + (σ * (if S2 then 0 else 1) * Pc + (if F2 then -σ * P2 else 0))
        + (σ * (if S3 then 0 else 1) * Pc + (if F3 then -σ * P3 else 0))
        + (σ * (if S4 then 0 else 1) * Pc + (if F4 then -σ * P4 else 0))
        + (σ * (if S5 then 0 else 1) * Pc + (if F5 then -σ * P5 else 0))
        + (σ * (if S6 then 0 else 1) * Pc + (if F6 then -σ * P6 else 0))) := by
  have x := axis_update sp Pc S2 S1 U2 U1 P2 P1
  have y := axis_update sp Pc S4 S3 U4 U3 P4 P3
  have z := axis_update sp Pc S6 S5 U6 U5 P6 P5
  have d1 := dir_term σ Pc P1 S1 F1 f1 a1
  have d2 := dir_term σ Pc P2 S2 F2 f2 a2
  have d3 := dir_term σ Pc P3 S3 F3 f3 a3
  have d4 := dir_term σ Pc P4 S4 F4 f4 a4
  have d5 := dir_term σ Pc P5 S5 F5 f5 a5
  have d6 := dir_term σ Pc P6 S6 F6 f6 a6
  have e : ∀ (S : Prop) [Decidable S] (P : ℚ),
      (if S then (0 : ℚ) else σ * (P - Pc)) = sd * (if S then 0 else sp * (P - Pc)) := by
    intro S _ P
    split_ifs
    · ring
    · rw [hσ]; ring
  rw [x, y, z]
  have e1 := e S1 P1
  have e2 := e S2 P2
  have e3 := e S3 P3
  have e4 := e S4 P4
  have e5 := e S5 P5
  have e6 := e S6 P6
  linear_combination d1 + d2 + d3 + d4 + d5 + d6 - e1 - e2 - e3 - e4 - e5 - e6

/-- C3: the projection removes the divergence up to the solver residual.  Over exact
arithmetic, with `dt`, density and `dx` positive, a pressure grid that is `0` outside
the fluid cells, every fluid cell having its six neighbours in range and the fluid
cell list enumerating the fluid cells once each: `_applyPressureToVelocityField`
completes, and for every fluid cell `c` the negative divergence that
`_calculateNegativeDivergenceVector` computes on the projected velocities equals
`b(c) - (A·p)(c)`, with `b` the negative divergence before the projection.  So the
divergence of every fluid cell is `0` when `A·p = b`, and at most `tol` in magnitude
when the residual is at most `tol` in every fluid cell. -/
theorem projection_removes_divergence (s : FluidSimulation) (dt : ℚ)
    (hwf : WellFormed s) (hdt : 0 < dt) (hrho : 0 < s._density) (hdx : 0 < s._dx)
    (hint : FluidInterior s._materialGrid)
    (hnodup : s._fluidCellIndices.Nodup)
    (hlist : ∀ c, c ∈ s._fluidCellIndices ↔ s._materialGrid.get c.i c.j c.k = some M_FLUID)
    (hp0 : ∀ x y z, s._materialGrid.isIndexInRange x y z = true →
      s._materialGrid.grid x y z ≠ M_FLUID → s._pressureGrid.grid x y z = 0) :
    ∃ s' b md b' md',
      _applyPressureToVelocityField s dt = some s' ∧
      _calculateNegativeDivergenceVector s
        (VectorCoefficients.new s._i_voxels s._j_voxels s._k_voxels) = some (b, md) ∧
      _calculateNegativeDivergenceVector s'
        (VectorCoefficients.new s._i_voxels s._j_voxels s._k_voxels) = some (b', md') ∧
      (∀ i j k, s._materialGrid.get i j k = some M_FLUID →
        b'.vector.grid i j k = b.vector.grid i j k - pressureMatrixTimes s dt i j k) ∧
      ((∀ i j k, s._materialGrid.get i j k = some M_FLUID →
          pressureMatrixTimes s dt i j k = b.vector.grid i j k) →
        ∀ i j k, s._materialGrid.get i j k = some M_FLUID → b'.vector.grid i j k = 0) ∧
      (∀ tol : ℚ, (∀ i j k, s._materialGrid.get i j k = some M_FLUID →
          |pressureMatrixTimes s dt i j k - b.vector.grid i j k| ≤ tol) →
        ∀ i j k, s._materialGrid.get i j k = some M_FLUID → |b'.vector.grid i j k| ≤ tol) := by
  have hscale : dt / (s._density * s._dx) ≠ 0 := by positivity
  obtain ⟨tu, tv, tw, hrun, ⟨u1, u2, u3⟩, ⟨v1, v2, v3⟩, ⟨w1, w2, w3⟩, hu, hv, hw⟩ :=
    applyPressureToVelocityField_run s dt hwf hscale hint
  obtain ⟨⟨hm1, hm2, hm3⟩, -, -, ⟨hu1, hu2, hu3⟩, ⟨hv1, hv2, hv3⟩, ⟨hw1, hw2, hw3⟩, -, -, -⟩ :=
    hwf
  have hcellin : ∀ c ∈ s._fluidCellIndices,
      s._materialGrid.isIndexInRange c.i c.j c.k = true := fun c hc =>
    (get_eq_some ((hlist c).1 hc)).1
  have hb0 : ∀ c ∈ s._fluidCellIndices,
      (VectorCoefficients.new s._i_voxels s._j_voxels s._k_voxels).vector.isIndexInRange
        c.i c.j c.k = true := by
    intro c hc
    have := hcellin c hc
    simpa [Array3d.isIndexInRange, VectorCoefficients.new, hm1, hm2, hm3] using this
  have hnb : ∀ c ∈ s._fluidCellIndices, ∀ n ∈ _getNeighbourGridIndices6 c.i c.j c.k,
      s._materialGrid.isIndexInRange n.i n.j n.k = true := fun c hc =>
    hint c.i c.j c.k (cellHolds_of_get ((hlist c).1 hc))
  obtain ⟨b, md, hb, hbv⟩ := calculateNegativeDivergenceVector_spec s _ hnodup hb0 hnb
  obtain ⟨b', md', hb', hbv'⟩ := calculateNegativeDivergenceVector_spec
    { s with _MACVelocity :=
      { u := tu, v := tv, w := tw, tempU := s._MACVelocity.u,
        tempV := s._MACVelocity.v, tempW := s._MACVelocity.w } } _ hnodup hb0 hnb
  have key : ∀ i j k, s._materialGrid.get i j k = some M_FLUID →
      b'.vector.grid i j k = b.vector.grid i j k - pressureMatrixTimes s dt i j k := by
    intro i j k hf
    have hmem : GridIndex.mk i j k ∈ s._fluidCellIndices := (hlist ⟨i, j, k⟩).2 hf
    obtain ⟨hin, hfl⟩ := get_eq_some hf
    have hnbr := hnb _ hmem
    have n1 := hnbr ⟨i - 1, j, k⟩ (by simp [_getNeighbourGridIndices6])
    have n2 := hnbr ⟨i + 1, j, k⟩ (by simp [_getNeighbourGridIndices6])
    have n3 := hnbr ⟨i, j - 1, k⟩ (by simp [_getNeighbourGridIndices6])
    have n4 := hnbr ⟨i, j + 1, k⟩ (by simp [_getNeighbourGridIndices6])
    have n5 := hnbr ⟨i, j, k - 1⟩ (by simp [_getNeighbourGridIndices6])
    have n6 := hnbr ⟨i, j, k + 1⟩ (by simp [_getNeighbourGridIndices6])
    simp only at n1 n2 n3 n4 n5 n6
    have hns : s._materialGrid.grid i j k ≠ M_SOLID := by rw [hfl]; decide
    have hc : cellHolds s._materialGrid i j k M_FLUID = true := cellHolds_of_get hf
    have rng : 0 ≤ i ∧ i < s._i_voxels ∧ 0 ≤ j ∧ j < s._j_voxels ∧ 0 ≤ k ∧ k < s._k_voxels := by
      simpa [Array3d.isIndexInRange, hm1, hm2, hm3] using hin
    -- the six projected face values of the cell
    have hU0 : (if tu.isIndexInRange i j k then tu.grid i j k else 0) =
        if s._materialGrid.grid (i - 1) j k = M_SOLID then 0
        else s._MACVelocity.U i j k - dt / (s._density * s._dx) *
          (s._pressureGrid.grid i j k - s._pressureGrid.grid (i - 1) j k) := by
      have hr : s._MACVelocity.u.isIndexInRange i j k = true := by
        simp only [Array3d.isIndexInRange, hu1, hu2, hu3, decide_eq_true_eq]
        push_cast; omega
      have hr' : tu.isIndexInRange i j k = true := by
        rw [← hr]; simp [Array3d.isIndexInRange, u1, u2, u3, hu1, hu2, hu3]
      rw [if_pos hr', hu i j k hr (by unfold _isFaceBorderingMaterialU; rw [hc]; simp)]
      simp only [hns, or_false]
    have hU1 : (if tu.isIndexInRange (i + 1) j k then tu.grid (i + 1) j k else 0) =
        if s._materialGrid.grid (i + 1) j k = M_SOLID then 0
        else s._MACVelocity.U (i + 1) j k - dt / (s._density * s._dx) *
          (s._pressureGrid.grid (i + 1) j k - s._pressureGrid.grid i j k) := by
      have hr : s._MACVelocity.u.isIndexInRange (i + 1) j k = true := by
        simp only [Array3d.isIndexInRange, hu1, hu2, hu3, decide_eq_true_eq]
        push_cast; omega
      have hr' : tu.isIndexInRange (i + 1) j k = true := by
        rw [← hr]; simp [Array3d.isIndexInRange, u1, u2, u3, hu1, hu2, hu3]
      have e : i + 1 - 1 = i := by ring
      rw [if_pos hr', hu (i + 1) j k hr
        (by unfold _isFaceBorderingMaterialU; rw [e, hc]; simp)]
      simp only [e, hns, false_or]
    have hV0 : (if tv.isIndexInRange i j k then tv.grid i j k else 0) =
        if s._materialGrid.grid i (j - 1) k = M_SOLID then 0
        else s._MACVelocity.V i j k - dt / (s._density * s._dx) *
          (s._pressureGrid.grid i j k - s._pressureGrid.grid i (j - 1) k) := by
      have hr : s._MACVelocity.v.isIndexInRange i j k = true := by
        simp only [Array3d.isIndexInRange, hv1, hv2, hv3, decide_eq_true_eq]
        push_cast; omega
      have hr' : tv.isIndexInRange i j k = true := by
        rw [← hr]; simp [Array3d.isIndexInRange, v1, v2, v3, hv1, hv2, hv3]
      rw [if_pos hr', hv i j k hr (by unfold _isFaceBorderingMaterialV; rw [hc]; simp)]
      simp only [hns, or_false]
    have hV1 : (if tv.isIndexInRange i (j + 1) k then tv.grid i (j + 1) k else 0) =
        if s._materialGrid.grid i (j + 1) k = M_SOLID then 0
        else s._MACVelocity.V i (j + 1) k - dt / (s._density * s._dx) *
          (s._pressureGrid.grid i (j + 1) k - s._pressureGrid.grid i j k) := by
      have hr : s._MACVelocity.v.isIndexInRange i (j + 1) k = true := by
        simp only [Array3d.isIndexInRange, hv1, hv2, hv3, decide_eq_true_eq]
        push_cast; omega
      have hr' : tv.isIndexInRange i (j + 1) k = true := by
        rw [← hr]; simp [Array3d.isIndexInRange, v1, v2, v3, hv1, hv2, hv3]
      have e : j + 1 - 1 = j := by ring
      rw [if_pos hr', hv i (j + 1) k hr
        (by unfold _isFaceBorderingMaterialV; rw [e, hc]; simp)]
      simp only [e, hns, false_or]
    have hW0 : (if tw.isIndexInRange i j k then tw.grid i j k else 0) =
        if s._materialGrid.grid i j (k - 1) = M_SOLID then 0
        else s._MACVelocity.W i j k - dt / (s._density * s._dx) *
          (s._pressureGrid.grid i j k - s._pressureGrid.grid i j (k - 1)) := by
      have hr : s._MACVelocity.w.isIndexInRange i j k = true := by
        simp only [Array3d.isIndexInRange, hw1, hw2, hw3, decide_eq_true_eq]
        push_cast; omega
      have hr' : tw.isIndexInRange i j k = true := by
        rw [← hr]; simp [Array3d.isIndexInRange, w1, w2, w3, hw1, hw2, hw3]
      rw [if_pos hr', hw i j k hr (by unfold _isFaceBorderingMaterialW; rw [hc]; simp)]
      simp only [hns, or_false]
    have hW1 : (if tw.isIndexInRange i j (k + 1) then tw.grid i j (k + 1) else 0) =
        if s._materialGrid.grid i j (k + 1) = M_SOLID then 0
        else s._MACVelocity.W i j (k + 1) - dt / (s._density * s._dx) *
          (s._pressureGrid.grid i j (k + 1) - s._pressureGrid.grid i j k) := by
      have hr : s._MACVelocity.w.isIndexInRange i j (k + 1) = true := by
        simp only [Array3d.isIndexInRange, hw1, hw2, hw3, decide_eq_true_eq]
        push_cast; omega
      have hr' : tw.isIndexInRange i j (k + 1) = true := by
        rw [← hr]; simp [Array3d.isIndexInRange, w1, w2, w3, hw1, hw2, hw3]
      have e : k + 1 - 1 = k := by ring
      rw [if_pos hr', hw i j (k + 1) hr
        (by unfold _isFaceBorderingMaterialW; rw [e, hc]; simp)]
      simp only [e, hns, false_or]
    have hσ : dt / (s._density * s._dx * s._dx) = 1 / s._dx * (dt / (s._density * s._dx)) := by
      field_simp
      left
      ring
    have hb1 := hbv' _ hmem
    have hb2 := hbv _ hmem
    simp only at hb1 hb2
    rw [hb1, hb2, negativeDivergenceAt_eq, negativeDivergenceAt_eq, pressureMatrixTimes_eq]
    simp only [faceFlux, MACVelocityField.U, MACVelocityField.V, MACVelocityField.W] at *
    rw [hU0, hU1, hV0, hV1, hW0, hW1]
    have air : ∀ x y z, s._materialGrid.isIndexInRange x y z = true →
        ¬ s._materialGrid.grid x y z = M_SOLID → ¬ s._materialGrid.grid x y z = M_FLUID →
        s._pressureGrid.grid x y z = 0 := fun x y z h _ h2 => hp0 x y z h h2
    have fs : ∀ x y z, s._materialGrid.grid x y z = M_FLUID →
        ¬ s._materialGrid.grid x y z = M_SOLID := by
      intro x y z h; rw [h]; decide
    exact projection_identity (1 / s._dx) (dt / (s._density * s._dx))
      (dt / (s._density * s._dx * s._dx)) (s._pressureGrid.grid i j k) hσ
      _ _ _ _ _ _ _ _ _ _ _ _ _ _ _ _ _ _ _ _ _ _ _ _
      (fs _ _ _) (fs _ _ _) (fs _ _ _) (fs _ _ _) (fs _ _ _) (fs _ _ _)
      (air _ _ _ n1) (air _ _ _ n2) (air _ _ _ n3) (air _ _ _ n4) (air _ _ _ n5)
      (air _ _ _ n6)
  refine ⟨_, b, md, b', md', hrun, hb, hb', key, ?_, ?_⟩
  · intro hAp i j k hf
    rw [key i j k hf, hAp i j k hf, sub_self]
  · intro tol hres i j k hf
    rw [key i j k hf, abs_sub_comm]
    exact hres i j k hf

/-! ## The sample state -/

theorem centreFluidState_wellFormed (surround : Material) (ps : List MarkerParticle) :
    WellFormed (centreFluidState surround ps) :=
  ⟨hasDims_mk 3 3 3 _, hasDims_mk 3 3 3 _, hasDims_mk 3 3 3 _,
    hasDims_mk 4 3 3 _, hasDims_mk 3 4 3 _, hasDims_mk 3 3 4 _,
    hasDims_mk 4 3 3 _, hasDims_mk 3 4 3 _, hasDims_mk 3 3 4 _⟩

theorem centreFluidState_cell (surround : Material) (hs : surround ≠ M_FLUID)
    (ps : List MarkerParticle) (i j k : Int) :
    (centreFluidState surround ps)._materialGrid.grid i j k = M_FLUID ↔
      i = 1 ∧ j = 1 ∧ k = 1 := by
  show centreFluid surround i j k = M_FLUID ↔ _
  unfold centreFluid
  split_ifs with h
  · exact ⟨fun _ => h, fun _ => rfl⟩
  · exact ⟨fun hh => (hs hh).elim, fun hh => (h hh).elim⟩

theorem centreFluidState_interior (surround : Material) (hs : surround ≠ M_FLUID)
    (ps : List MarkerParticle) : FluidInterior (centreFluidState surround ps)._materialGrid := by
  intro x y z h n hn
  unfold cellHolds at h
  simp only [Bool.and_eq_true, decide_eq_true_eq] at h
  obtain ⟨hx, hy, hz⟩ := (centreFluidState_cell surround hs ps x y z).1 h.2
  subst hx hy hz
  simp only [_getNeighbourGridIndices6, List.mem_cons, List.mem_singleton,
    List.not_mem_nil, or_false] at hn
  rcases hn with h | h | h | h | h | h <;>
    (subst h; simp [centreFluidState, mkSimulation, Array3d.isIndexInRange])

theorem centreFluidState_list (surround : Material) (hs : surround ≠ M_FLUID)
    (ps : List MarkerParticle) (c : GridIndex) :
    c ∈ (centreFluidState surround ps)._fluidCellIndices ↔
      (centreFluidState surround ps)._materialGrid.get c.i c.j c.k = some M_FLUID := by
  show c ∈ [GridIndex.mk 1 1 1] ↔ _
  rw [List.mem_singleton]
  constructor
  · intro h
    subst h
    have hc := (centreFluidState_cell surround hs ps 1 1 1).2 ⟨rfl, rfl, rfl⟩
    rw [get_of_inRange _ _ _ _ (by
      simp [centreFluidState, mkSimulation, Array3d.isIndexInRange]), hc]
  · intro h
    obtain ⟨-, hg⟩ := get_eq_some h
    obtain ⟨h1, h2, h3⟩ := (centreFluidState_cell surround hs ps c.i c.j c.k).1 hg
    cases c
    simp only at h1 h2 h3
    simp [h1, h2, h3]


theorem centreFluidState_get (surround : Material) (ps : List MarkerParticle)
    (i j k : Int) (h : 0 ≤ i ∧ i < 3 ∧ 0 ≤ j ∧ j < 3 ∧ 0 ≤ k ∧ k < 3) :
    (centreFluidState surround ps)._materialGrid.get i j k =
      some (centreFluid surround i j k) := by
  rw [get_of_inRange]
  · rfl
  · simp only [centreFluidState, mkSimulation, Array3d.isIndexInRange, decide_eq_true_eq]
    omega

/-- Witness for C4: the fluid centre cell of the sample grid, surrounded by solid
cells; the `U` face `(1, 1, 1)` lies between the solid cell `(0, 1, 1)` and the fluid
cell `(1, 1, 1)`. -/
theorem applyPressure_solid_faces_zero_witness :
    ∃ s', _applyPressureToVelocityField (centreFluidState M_SOLID []) (1 / 10) = some s' ∧
      s'._MACVelocity.U 1 1 1 = 0 := by
  obtain ⟨s', hrun, hz⟩ := applyPressure_solid_faces_zero (centreFluidState M_SOLID [])
    (1 / 10) (centreFluidState_wellFormed _ _) (by norm_num)
    (by simp [centreFluidState, mkSimulation]) (by simp [centreFluidState, mkSimulation])
    (centreFluidState_interior _ (by decide) _)
  refine ⟨s', hrun, (hz 1 1 1).1 (Or.inr ⟨?_, ?_⟩)⟩
  · rw [centreFluidState_get _ _ _ _ _ (by omega)]
    rfl
  · rw [centreFluidState_get _ _ _ _ _ (by omega)]
    rfl

/-- Witness for C3: the fluid centre cell of the sample grid, surrounded by solid
cells, with zero pressure. -/
theorem projection_removes_divergence_witness :
    ∃ s' b md b' md',
      _applyPressureToVelocityField (centreFluidState M_SOLID []) (1 / 10) = some s' ∧
      _calculateNegativeDivergenceVector (centreFluidState M_SOLID [])
        (VectorCoefficients.new 3 3 3) = some (b, md) ∧
      _calculateNegativeDivergenceVector s' (VectorCoefficients.new 3 3 3) = some (b', md') ∧
      b'.vector.grid 1 1 1 =
        b.vector.grid 1 1 1 - pressureMatrixTimes (centreFluidState M_SOLID []) (1 / 10) 1 1 1 := by
  obtain ⟨s', b, md, b', md', h1, h2, h3, h4, -, -⟩ := projection_removes_divergence
    (centreFluidState M_SOLID []) (1 / 10) (centreFluidState_wellFormed _ _) (by norm_num)
    (by simp [centreFluidState, mkSimulation]) (by simp [centreFluidState, mkSimulation])
    (centreFluidState_interior _ (by decide) _)
    (by simp [centreFluidState, mkSimulation])
    (centreFluidState_list _ (by decide) _)
    (fun _ _ _ _ _ => rfl)
  refine ⟨s', b, md, b', md', h1, h2, h3, h4 1 1 1 ?_⟩
  rw [centreFluidState_get _ _ _ _ _ (by omega)]
  rfl


/-! ## C6: classification and particles after a substep -/

theorem resetExtrapolatedFluidVelocities_material {s s' : FluidSimulation}
    (h : _resetExtrapolatedFluidVelocities s = some s') :
    s'._materialGrid = s._materialGrid := by
  unfold _resetExtrapolatedFluidVelocities at h
  simp only [Option.bind_eq_bind, Option.bind_eq_some] at h
  obtain ⟨m1, -, m2, -, m3, -, h⟩ := h
  rw [← Option.some.inj h]

theorem updateExtrapolationLayers_material {s s' : FluidSimulation} {L : Int}
    (h : _updateExtrapolationLayers s = some (s', L)) :
    s'._materialGrid = s._materialGrid := by
  unfold _updateExtrapolationLayers at h
  simp only [Option.bind_eq_bind, Option.bind_eq_some] at h
  obtain ⟨lg1, -, lg2, -, h⟩ := h
  have := Option.some.inj h
  rw [← (Prod.mk.inj this).1]

theorem extrapolateVelocitiesForLayerIndex_material {s s' : FluidSimulation} {idx : Int}
    (h : _extrapolateVelocitiesForLayerIndex s idx = some s') :
    s'._materialGrid = s._materialGrid := by
  unfold _extrapolateVelocitiesForLayerIndex at h
  simp only [Option.bind_eq_bind, Option.bind_eq_some] at h
  obtain ⟨m1, -, m2, -, m3, -, h⟩ := h
  rw [← Option.some.inj h]

theorem extrapolateFluidVelocities_material {s s' : FluidSimulation}
    (h : _extrapolateFluidVelocities s = some s') :
    s'._materialGrid = s._materialGrid := by
  unfold _extrapolateFluidVelocities at h
  simp only [Option.bind_eq_bind, Option.bind_eq_some] at h
  obtain ⟨s1, h1, ⟨s2, L⟩, h2, h3⟩ := h
  have key := forRange_partial _ _ s2 (fun _ st => st._materialGrid = s2._materialGrid) rfl
    (fun m st st' _ hI hstep =>
      (extrapolateVelocitiesForLayerIndex_material hstep).trans hI) s' h3
  rw [key, updateExtrapolationLayers_material h2, resetExtrapolatedFluidVelocities_material h1]

theorem applyBodyForcesToVelocityField_material {s s' : FluidSimulation} {dt : ℚ}
    (h : _applyBodyForcesToVelocityField s dt = some s') :
    s'._materialGrid = s._materialGrid := by
  unfold _applyBodyForcesToVelocityField at h
  simp only [Option.bind_eq_bind, Option.bind_eq_some] at h
  obtain ⟨m1, -, m2, -, m3, -, h⟩ := h
  rw [← Option.some.inj h]

theorem applyPressureToVelocityField_material {s s' : FluidSimulation} {dt : ℚ}
    (h : _applyPressureToVelocityField s dt = some s') :
    s'._materialGrid = s._materialGrid := by
  unfold _applyPressureToVelocityField at h
  simp only [Option.bind_eq_bind, Option.bind_eq_some] at h
  obtain ⟨m1, -, m2, -, m3, -, h⟩ := h
  rw [← Option.some.inj h]

theorem advanceRangeOfMarkerParticles_material {env : Collaborators}
    {s s' : FluidSimulation} {a b : Int} {dt : ℚ}
    (h : _advanceRangeOfMarkerParticles env s a b dt = some s') :
    s'._materialGrid = s._materialGrid := by
  unfold _advanceRangeOfMarkerParticles at h
  split_ifs at h
  simp only [Option.bind_eq_bind, Option.bind_eq_some] at h
  obtain ⟨ps, -, h⟩ := h
  rw [← Option.some.inj h]

theorem advanceMarkerParticles_material {env : Collaborators} {s s' : FluidSimulation}
    {dt : ℚ} (h : _advanceMarkerParticles env s dt = some s') :
    s'._materialGrid = s._materialGrid := by
  unfold _advanceMarkerParticles at h
  simp only [Option.bind_eq_bind, Option.bind_eq_some] at h
  obtain ⟨ranges, -, h⟩ := h
  exact forRange_partial _ _ s (fun _ st => st._materialGrid = s._materialGrid) rfl
    (fun m st st' _ hI hstep => by
      simp only [Option.bind_eq_some] at hstep
      obtain ⟨a, -, b, -, hstep⟩ := hstep
      exact (advanceRangeOfMarkerParticles_material hstep).trans hI) s' h

/-- The material grid after a completed substep is the one the classification stage
produced. -/
theorem stepFluid_material {env : Collaborators} {s s1 s' : FluidSimulation} {dt : ℚ}
    (h1 : _updateFluidCells s = some s1) (h : _stepFluid env s dt = some s') :
    s'._materialGrid = s1._materialGrid := by
  unfold _stepFluid at h
  rw [h1] at h
  simp only [Option.bind_eq_bind, Option.some_bind, Option.bind_eq_some] at h
  obtain ⟨s2, h2, s3, h3, m, -, p, -, s4, h4, h5⟩ := h
  rw [advanceMarkerParticles_material h5, applyPressureToVelocityField_material h4]
  show s3._materialGrid = _
  rw [applyBodyForcesToVelocityField_material h3, extrapolateFluidVelocities_material h2]


theorem resetExtrapolatedFluidVelocities_form {s s' : FluidSimulation}
    (h : _resetExtrapolatedFluidVelocities s = some s') :
    ∃ m, s' = { s with _MACVelocity := m } := by
  unfold _resetExtrapolatedFluidVelocities at h
  simp only [Option.bind_eq_bind, Option.bind_eq_some] at h
  obtain ⟨m1, -, m2, -, m3, -, h⟩ := h
  exact ⟨m3, (Option.some.inj h).symm⟩

theorem updateExtrapolationLayers_form {s s' : FluidSimulation} {L : Int}
    (h : _updateExtrapolationLayers s = some (s', L)) :
    ∃ lg, s' = { s with _layerGrid := lg } := by
  unfold _updateExtrapolationLayers at h
  simp only [Option.bind_eq_bind, Option.bind_eq_some] at h
  obtain ⟨lg1, -, lg2, -, h⟩ := h
  exact ⟨lg2, (Prod.mk.inj (Option.some.inj h)).1.symm⟩

theorem extrapolateVelocitiesForLayerIndex_form {s s' : FluidSimulation} {idx : Int}
    (h : _extrapolateVelocitiesForLayerIndex s idx = some s') :
    ∃ m, s' = { s with _MACVelocity := m } := by
  unfold _extrapolateVelocitiesForLayerIndex at h
  simp only [Option.bind_eq_bind, Option.bind_eq_some] at h
  obtain ⟨m1, -, m2, -, m3, -, h⟩ := h
  exact ⟨_, (Option.some.inj h).symm⟩

/-- A completed `_extrapolateFluidVelocities` changes nothing but the velocity field
and the layer grid. -/
theorem extrapolateFluidVelocities_form {s s' : FluidSimulation}
    (h : _extrapolateFluidVelocities s = some s') :
    ∃ m lg, s' = { s with _MACVelocity := m, _layerGrid := lg } := by
  unfold _extrapolateFluidVelocities at h
  simp only [Option.bind_eq_bind, Option.bind_eq_some] at h
  obtain ⟨s1, h1, ⟨s2, L⟩, h2, h3⟩ := h
  obtain ⟨m1, rfl⟩ := resetExtrapolatedFluidVelocities_form h1
  obtain ⟨lg, rfl⟩ := updateExtrapolationLayers_form h2
  obtain ⟨m, hm⟩ := forRange_partial _ _ _
    (fun _ st => ∃ m, st = { s with _MACVelocity := m, _layerGrid := lg }) ⟨m1, rfl⟩
    (fun n st st' _ hI hstep => by
      obtain ⟨m2, rfl⟩ := hI
      obtain ⟨m3, rfl⟩ := extrapolateVelocitiesForLayerIndex_form hstep
      exact ⟨m3, rfl⟩) s' h3
  exact ⟨m, lg, hm⟩

theorem applyBodyForces_zero (s : FluidSimulation) (dt : ℚ)
    (h : s._bodyForce = ⟨0, 0, 0⟩) : _applyBodyForcesToVelocityField s dt = some s := by
  unfold _applyBodyForcesToVelocityField
  simp only [h, abs_zero, gt_iff_lt, lt_self_iff_false, if_false, Option.pure_def,
    Option.bind_eq_bind, Option.some_bind]
  rw [← h]


/-- With one worker and one particle, `_advanceMarkerParticles` runs the loop body
once, for the particle at position `0`. -/
theorem advanceMarkerParticles_single (env : Collaborators) (s : FluidSimulation) (dt : ℚ)
    (p : MarkerParticle) (hps : s._markerParticles = [p])
    (hth : s._numAdvanceMarkerParticleThreads = 1) :
    _advanceMarkerParticles env s dt =
      (advanceMarkerParticle env s dt 0 [p]).map
        (fun ps => { s with _markerParticles := ps }) := by
  unfold _advanceMarkerParticles particleRanges _advanceRangeOfMarkerParticles forFromTo
  rw [hps, hth]
  simp only [forRange, List.length_singleton, Nat.cast_one, one_ne_zero, if_false,
    Int.toNat_one, List.range_succ, List.range_zero, List.foldlM_cons, List.foldlM_nil, Nat.cast_zero]
  simp only [Option.bind_eq_bind, Option.pure_def, Option.some_bind, if_true,
    List.nil_append, Int.toNat_zero, List.getElem?_cons_zero, le_refl, not_true_eq_false,
    if_false, sub_self, zero_add, Int.toNat_one, List.range_succ, List.range_zero, List.foldlM_cons,
    List.foldlM_nil, Nat.cast_zero, add_zero, hps, Int.tdiv_self, sub_zero]
  cases advanceMarkerParticle env s dt 0 [p] <;> simp [hth]


/-- A substep with no body force whose advection stage leaves the velocity field as
it is and whose pressure stage leaves a zero pressure grid: every stage before the
particle advance completes, and the particle advance runs on the classified state
with some velocity field, layer grid and pressure grid. -/
theorem stepFluid_constant (v c n : Vec3) (s : FluidSimulation) (dt : ℚ)
    (hwf : WellFormed s)
    (hp : ∀ p ∈ s._markerParticles,
      ∃ m, s._materialGrid.get p.i p.j p.k = some m ∧ m ≠ M_SOLID)
    (hforce : s._bodyForce = ⟨0, 0, 0⟩)
    (hscale : dt / (s._density * s._dx) ≠ 0)
    (hint : ∀ s1, _updateFluidCells s = some s1 → FluidInterior s1._materialGrid) :
    ∃ s1 m lg pg, _updateFluidCells s = some s1 ∧
      _stepFluid (constantCollaborators v c n) s dt =
        _advanceMarkerParticles (constantCollaborators v c n)
          { s1 with _MACVelocity := m, _layerGrid := lg, _pressureGrid := pg } dt := by
  obtain ⟨g2, hrun, hw, hh, hd, -⟩ := updateFluidCells_run s hp
  obtain ⟨⟨mw, mh, md⟩, hl, hpg, hu, hv, hww, htu, htv, htw⟩ := hwf
  have hint1 := hint _ hrun
  have hwf1 : WellFormed { s with
      _materialGrid := g2
      _fluidCellIndices := (cellList g2.depth g2.height g2.width).filter
        (fun c => decide (g2.grid c.i c.j c.k = M_FLUID)) } :=
    ⟨⟨hw.trans mw, hh.trans mh, hd.trans md⟩, hl, hpg, hu, hv, hww, htu, htv, htw⟩
  have hcells : ∀ c ∈ (cellList g2.depth g2.height g2.width).filter
      (fun c => decide (g2.grid c.i c.j c.k = M_FLUID)),
      g2.get c.i c.j c.k = some M_FLUID := by
    intro c hc
    rw [List.mem_filter, decide_eq_true_eq] at hc
    rw [get_of_inRange g2 _ _ _ (inRange_of_mem_cellList g2 c hc.1), hc.2]
  obtain ⟨s2, h2, hwf2, hmat2, -⟩ := extrapolateFluidVelocities_run _ hwf1 hcells
  obtain ⟨m, lg, hform⟩ := extrapolateFluidVelocities_form h2
  subst hform
  have h3 := applyBodyForces_zero _ dt (show ({ ({ s with
      _materialGrid := g2
      _fluidCellIndices := (cellList g2.depth g2.height g2.width).filter
        (fun c => decide (g2.grid c.i c.j c.k = M_FLUID)) } : FluidSimulation) with
      _MACVelocity := m, _layerGrid := lg } : FluidSimulation)._bodyForce = ⟨0, 0, 0⟩
    from hforce)
  obtain ⟨wm, wl, -, wu, wv, www, wtu, wtv, wtw⟩ := hwf2
  obtain ⟨tu, tv, tw, h4, -⟩ := applyPressureToVelocityField_run
    { ({ ({ s with
      _materialGrid := g2
      _fluidCellIndices := (cellList g2.depth g2.height g2.width).filter
        (fun c => decide (g2.grid c.i c.j c.k = M_FLUID)) } : FluidSimulation) with
      _MACVelocity := m, _layerGrid := lg } : FluidSimulation) with
      _pressureGrid := s._pressureGrid.fill 0 } dt
    ⟨wm, wl, hpg, wu, wv, www, wtu, wtv, wtw⟩ hscale hint1
  refine ⟨_, ⟨tu, tv, tw, m.u, m.v, m.w⟩, lg, s._pressureGrid.fill 0, hrun, ?_⟩
  unfold _stepFluid
  simp only [Option.bind_eq_bind]
  rw [hrun, Option.some_bind, h2, Option.some_bind, h3, Option.some_bind]
  simp only [constantCollaborators, Option.some_bind]
  exact congrArg (fun o => Option.bind o _) h4


/-- A lone particle whose Runge-Kutta end point `q` lies in the grid, in a cell that is
not solid, is moved to `q` and its cached cell is recomputed from `q`. -/
theorem advanceMarkerParticle_moves (env : Collaborators) (s : FluidSimulation) (dt : ℚ)
    (p : MarkerParticle) (q : Vec3)
    (hq : _RK4 (env.evaluateVelocityAtPosition s._MACVelocity) p.position
      (env.evaluateVelocityAtPosition s._MACVelocity p.position) dt = q)
    (hin : _isPositionInGrid s q.x q.y q.z = true)
    (hns : _isCellSolid s._materialGrid (positionToGridIndex s._dx q).i
      (positionToGridIndex s._dx q).j (positionToGridIndex s._dx q).k = some false) :
    advanceMarkerParticle env s dt 0 [p] =
      some [⟨q, (positionToGridIndex s._dx q).i, (positionToGridIndex s._dx q).j,
        (positionToGridIndex s._dx q).k⟩] := by
  unfold advanceMarkerParticle
  simp [hq, hin, hns]

/-- The classification stage on the sample channel: the cell of the particle becomes
fluid and every other cell keeps its material. -/
theorem channel_classified :
    ∃ g2 cells, _updateFluidCells channelState =
        some { channelState with _materialGrid := g2, _fluidCellIndices := cells } ∧
      HasDims g2 4 3 3 ∧
      ∀ x y z, g2.grid x y z =
        if x = 1 ∧ y = 1 ∧ z = 1 then M_FLUID else channelMaterial x y z := by
  have hp : ∀ p ∈ channelState._markerParticles,
      ∃ m, channelState._materialGrid.get p.i p.j p.k = some m ∧ m ≠ M_SOLID := by
    intro p hmem
    simp only [channelState, mkSimulation, List.mem_singleton] at hmem
    subst hmem
    exact ⟨M_AIR, by
      simp [channelState, mkSimulation, Array3d.get, Array3d.isIndexInRange, channelMaterial],
      by decide⟩
  obtain ⟨g2, hrun, hw, hh, hd, hcell⟩ := updateFluidCells_run channelState hp
  refine ⟨g2, _, hrun, ⟨hw, hh, hd⟩, fun x y z => ?_⟩
  by_cases hc : x = 1 ∧ y = 1 ∧ z = 1
  · rw [if_pos hc]
    refine (hcell x y z).1 ⟨_, List.mem_singleton_self _, ?_⟩
    obtain ⟨hx, hy, hz⟩ := hc
    subst hx hy hz
    exact ⟨rfl, rfl, rfl⟩
  · rw [if_neg hc, (hcell x y z).2 (by
      rintro ⟨p, hmem, hx, hy, hz⟩
      simp only [channelState, mkSimulation, List.mem_singleton] at hmem
      subst hmem
      exact hc ⟨hx.symm, hy.symm, hz.symm⟩)]
    have hne : channelMaterial x y z ≠ M_FLUID := by
      unfold channelMaterial
      split_ifs <;> decide
    simp [channelState, mkSimulation, hne]

/-- The substep on the sample channel completes; the particle leaves the cell
`(1, 1, 1)`, which stays `M_FLUID`, and enters the cell `(2, 1, 1)`, which stays
`M_AIR`. -/
theorem channel_substep :
    ∃ s', _stepFluid channelCollaborators channelState (1 / 15) = some s' ∧
      s'._markerParticles = [⟨⟨617 / 300, 3 / 2, 3 / 2⟩, 2, 1, 1⟩] ∧
      s'._materialGrid.get 1 1 1 = some M_FLUID ∧
      s'._materialGrid.get 2 1 1 = some M_AIR := by
  obtain ⟨g2, cells, hrun, ⟨hw, hh, hd⟩, hgrid⟩ := channel_classified
  have hp : ∀ p ∈ channelState._markerParticles,
      ∃ m, channelState._materialGrid.get p.i p.j p.k = some m ∧ m ≠ M_SOLID := by
    intro p hmem
    simp only [channelState, mkSimulation, List.mem_singleton] at hmem
    subst hmem
    exact ⟨M_AIR, by
      simp [channelState, mkSimulation, Array3d.get, Array3d.isIndexInRange, channelMaterial],
      by decide⟩
  have hin : ∀ x y z : Int, g2.isIndexInRange x y z =
      decide (0 ≤ x ∧ x < 4 ∧ 0 ≤ y ∧ y < 3 ∧ 0 ≤ z ∧ z < 3) := by
    intro x y z
    simp [Array3d.isIndexInRange, hw, hh, hd]
  have hint : ∀ s1, _updateFluidCells channelState = some s1 →
      FluidInterior s1._materialGrid := by
    intro s1 h1
    rw [hrun] at h1
    rw [← Option.some.inj h1]
    intro x y z hc n hn
    show g2.isIndexInRange n.i n.j n.k = true
    have hf : g2.grid x y z = M_FLUID := by
      simp only [cellHolds, Bool.and_eq_true, decide_eq_true_eq] at hc
      exact hc.2
    rw [hgrid] at hf
    have hxyz : x = 1 ∧ y = 1 ∧ z = 1 := by
      by_contra hne
      rw [if_neg hne] at hf
      unfold channelMaterial at hf
      split_ifs at hf
    obtain ⟨hx, hy, hz⟩ := hxyz
    subst hx hy hz
    rw [hin]
    simp only [_getNeighbourGridIndices6, List.mem_cons, List.mem_singleton,
      List.not_mem_nil, or_false] at hn
    rcases hn with h | h | h | h | h | h <;> (subst h; decide)
  obtain ⟨s1, m, lg, pg, h1, hstep⟩ := stepFluid_constant ⟨1, 0, 0⟩ ⟨3 / 2, 3 / 2, 3 / 2⟩
    ⟨0, 0, 0⟩ channelState (1 / 15)
    (mkSimulation_wellFormed 4 3 3 1 channelMaterial [⟨⟨199 / 100, 3 / 2, 3 / 2⟩, 1, 1, 1⟩])
    hp rfl
    (by norm_num [channelState, mkSimulation]) hint
  rw [hrun] at h1
  have h1 := (Option.some.inj h1).symm
  subst h1
  have hfloor : positionToGridIndex 1 ⟨617 / 300, 3 / 2, 3 / 2⟩ = ⟨2, 1, 1⟩ := by
    have e1 : ⌊(617 / 300 : ℚ) * (1 / 1)⌋ = 2 := by
      rw [Int.floor_eq_iff]; norm_num
    have e2 : ⌊(3 / 2 : ℚ) * (1 / 1)⌋ = 1 := by
      rw [Int.floor_eq_iff]; norm_num
    simp only [positionToGridIndex, e1, e2]
  have hmove := advanceMarkerParticle_moves (constantCollaborators ⟨1, 0, 0⟩
    ⟨3 / 2, 3 / 2, 3 / 2⟩ ⟨0, 0, 0⟩)
    { ({ channelState with _materialGrid := g2, _fluidCellIndices := cells } :
        FluidSimulation) with _MACVelocity := m, _layerGrid := lg, _pressureGrid := pg }
    (1 / 15) ⟨⟨199 / 100, 3 / 2, 3 / 2⟩, 1, 1, 1⟩ ⟨617 / 300, 3 / 2, 3 / 2⟩
    (by
      simp only [_RK4, constantCollaborators, Vec3.add, Vec3.scale]
      norm_num)
    (by
      simp only [_isPositionInGrid, channelState, mkSimulation, decide_eq_true_eq]
      norm_num)
    (by
      show _isCellSolid g2 (positionToGridIndex 1 ⟨617 / 300, 3 / 2, 3 / 2⟩).i
        (positionToGridIndex 1 ⟨617 / 300, 3 / 2, 3 / 2⟩).j
        (positionToGridIndex 1 ⟨617 / 300, 3 / 2, 3 / 2⟩).k = some false
      rw [hfloor, isCellSolid_of_inRange g2 2 1 1 (by rw [hin]; decide), hgrid]
      simp [channelMaterial])
  have hsingle := advanceMarkerParticles_single (constantCollaborators ⟨1, 0, 0⟩
    ⟨3 / 2, 3 / 2, 3 / 2⟩ ⟨0, 0, 0⟩)
    { ({ channelState with _materialGrid := g2, _fluidCellIndices := cells } :
        FluidSimulation) with _MACVelocity := m, _layerGrid := lg, _pressureGrid := pg }
    (1 / 15) ⟨⟨199 / 100, 3 / 2, 3 / 2⟩, 1, 1, 1⟩ rfl rfl
  rw [hmove] at hsingle
  refine ⟨_, hstep.trans hsingle, ?_, ?_, ?_⟩
  · show [_] = _
    have := congrArg (fun c : GridIndex => (c.i, c.j, c.k)) hfloor
    simp only [Prod.mk.injEq] at this
    obtain ⟨a, b, c⟩ := this
    show [MarkerParticle.mk _ (positionToGridIndex 1 ⟨617 / 300, 3 / 2, 3 / 2⟩).i
      (positionToGridIndex 1 ⟨617 / 300, 3 / 2, 3 / 2⟩).j
      (positionToGridIndex 1 ⟨617 / 300, 3 / 2, 3 / 2⟩).k] = _
    rw [a, b, c]
  · show g2.get 1 1 1 = _
    rw [get_of_inRange g2 1 1 1 (by rw [hin]; decide), hgrid]
    simp
  · show g2.get 2 1 1 = _
    rw [get_of_inRange g2 2 1 1 (by rw [hin]; decide), hgrid]
    simp [channelMaterial]


/-- C6, as the code has it: when a substep (`_stepFluid`) that starts from a state in
which every particle's cached cell is in range and not `M_SOLID` completes, the
classification it leaves is the one of the particles' cached cells at the START of the
substep: every cell classified `M_FLUID` has at least one particle whose cached cell
index before the substep equals it, and no cell classified `M_AIR` has one.  (The
particle advance is the last stage and no stage after it reclassifies.) -/
theorem stepFluid_classification_at_start (env : Collaborators) (s s' : FluidSimulation)
    (dt : ℚ)
    (hp : ∀ p ∈ s._markerParticles,
      ∃ m, s._materialGrid.get p.i p.j p.k = some m ∧ m ≠ M_SOLID)
    (h : _stepFluid env s dt = some s') (i j k : Int) (m' : Material)
    (hm : s'._materialGrid.get i j k = some m') :
    (m' = M_FLUID → ∃ p ∈ s._markerParticles, p.i = i ∧ p.j = j ∧ p.k = k) ∧
    (m' = M_AIR → ¬ ∃ p ∈ s._markerParticles, p.i = i ∧ p.j = j ∧ p.k = k) := by
  obtain ⟨g2, hrun, hw, hh, hd, hcell⟩ := updateFluidCells_run s hp
  have hmat := stepFluid_material hrun h
  rw [hmat] at hm
  obtain ⟨hin, hval⟩ := get_eq_some hm
  change g2.isIndexInRange i j k = true at hin
  change g2.grid i j k = m' at hval
  have hin0 : s._materialGrid.isIndexInRange i j k = true := by
    rw [← inRange_of_dims hw hh hd]
    exact hin
  constructor
  · intro hf
    by_contra hno
    have := (hcell i j k).2 hno
    rw [hval, hf] at this
    split_ifs at this with hc
    exact hc ⟨hin0, this.symm⟩
  · intro ha hex
    have := (hcell i j k).1 hex
    rw [hval, ha] at this
    cases this

theorem stepFluid_classification_at_start_witness :
    ∃ s', _stepFluid channelCollaborators channelState (1 / 15) = some s' ∧
      s'._materialGrid.get 1 1 1 = some M_FLUID ∧
      ((M_FLUID = M_FLUID →
          ∃ p ∈ channelState._markerParticles, p.i = 1 ∧ p.j = 1 ∧ p.k = 1) ∧
        (M_FLUID = M_AIR →
          ¬ ∃ p ∈ channelState._markerParticles, p.i = 1 ∧ p.j = 1 ∧ p.k = 1)) := by
  obtain ⟨s', hstep, -, hf, -⟩ := channel_substep
  exact ⟨s', hstep, hf, stepFluid_classification_at_start channelCollaborators
    channelState s' (1 / 15) (by
      intro p hmem
      simp only [channelState, mkSimulation, List.mem_singleton] at hmem
      subst hmem
      exact ⟨M_AIR, by
        simp [channelState, mkSimulation, Array3d.get, Array3d.isIndexInRange,
          channelMaterial], by decide⟩) hstep 1 1 1 M_FLUID hf⟩

/-- C6 as stated fails: on the sample channel every particle's cached cell is in range
and not `M_SOLID`, the substep completes, and afterwards the cell `(1, 1, 1)` is
classified `M_FLUID` although no particle's cached cell index equals it, while the
cell `(2, 1, 1)` is classified `M_AIR` although a particle's cached cell index
equals it. -/
theorem stepFluid_classification_stale :
    (∀ p ∈ channelState._markerParticles,
      ∃ m, channelState._materialGrid.get p.i p.j p.k = some m ∧ m ≠ M_SOLID) ∧
    ∃ s', _stepFluid channelCollaborators channelState (1 / 15) = some s' ∧
      (s'._materialGrid.get 1 1 1 = some M_FLUID ∧
        ¬ ∃ p ∈ s'._markerParticles, p.i = 1 ∧ p.j = 1 ∧ p.k = 1) ∧
      (s'._materialGrid.get 2 1 1 = some M_AIR ∧
        ∃ p ∈ s'._markerParticles, p.i = 2 ∧ p.j = 1 ∧ p.k = 1) := by
  refine ⟨?_, ?_⟩
  · intro p hmem
    simp only [channelState, mkSimulation, List.mem_singleton] at hmem
    subst hmem
    exact ⟨M_AIR, by
      simp [channelState, mkSimulation, Array3d.get, Array3d.isIndexInRange,
        channelMaterial], by decide⟩
  · obtain ⟨s', hstep, hps, hf, ha⟩ := channel_substep
    refine ⟨s', hstep, ⟨hf, ?_⟩, ha, ?_⟩
    · rw [hps]
      rintro ⟨p, hmem, hi, -⟩
      rw [List.mem_singleton] at hmem
      subst hmem
      cases hi
    · rw [hps]
      exact ⟨_, List.mem_singleton_self _, rfl, rfl, rfl⟩

/-! ## C5: the convergence tests of `_solvePressureSystem` -/

theorem mulVec_zero (M : SparseMatrix) (n : Nat) :
    M.mulVec (List.replicate n 0) = List.replicate M.size 0 := by
  unfold SparseMatrix.mulVec
  have h : ∀ c : Nat, (List.replicate n (0 : ℚ)).getD c 0 = 0 := by
    intro c
    rw [List.getD_eq_getElem?_getD, List.getElem?_replicate]
    split_ifs <;> rfl
  simp only [h, mul_zero]
  have h2 : ((List.range M.size).map fun (_ : Nat) => (0 : ℚ)).sum = 0 := by simp
  rw [h2]
  simp [List.map_const']

theorem ductState_divergence :
    ∃ b md, _calculateNegativeDivergenceVector ductState (VectorCoefficients.new 5 3 3) =
        some (b, md) ∧
      _VectorCoefficientsToEigenVectorXd b ductState._fluidCellIndices = some [0, -1] ∧
      md = 1 := by
  obtain ⟨b, md, hrun, hr, hv, -, hmd⟩ := calculateNegativeDivergenceVector_run ductState
    (VectorCoefficients.new 5 3 3) (by simp [ductState])
    (by
      intro c hc
      simp only [ductState, List.mem_cons, List.mem_singleton, List.not_mem_nil,
        or_false] at hc
      rcases hc with h | h <;> (subst h; decide))
    (by
      intro c hc n hn
      simp only [ductState, List.mem_cons, List.mem_singleton, List.not_mem_nil,
        or_false] at hc
      simp only [_getNeighbourGridIndices6, List.mem_cons, List.mem_singleton,
        List.not_mem_nil, or_false] at hn
      rcases hc with h | h <;> subst h <;>
        rcases hn with h | h | h | h | h | h <;> (subst h; decide))
  have e1 : negativeDivergenceAt ductState 1 1 1 = 0 := by
    simp [negativeDivergenceAt, rawNegativeDivergence, solidTerm, ductState, ductVelocity,
      mkSimulation, MACVelocityField.zero, MACVelocityField.U, MACVelocityField.V,
      MACVelocityField.W, MACVelocityField.isIndexInRangeU, MACVelocityField.isIndexInRangeV,
      MACVelocityField.isIndexInRangeW, Array3d.isIndexInRange, ductMaterial]
  have e2 : negativeDivergenceAt ductState 2 1 1 = -1 := by
    simp [negativeDivergenceAt, rawNegativeDivergence, solidTerm, ductState, ductVelocity,
      mkSimulation, MACVelocityField.zero, MACVelocityField.U, MACVelocityField.V,
      MACVelocityField.W, MACVelocityField.isIndexInRangeU, MACVelocityField.isIndexInRangeV,
      MACVelocityField.isIndexInRangeW, Array3d.isIndexInRange, ductMaterial]
  refine ⟨b, md, hrun, ?_, ?_⟩
  · have h1 := hv ⟨1, 1, 1⟩ (by simp [ductState])
    have h2 := hv ⟨2, 1, 1⟩ (by simp [ductState])
    simp only at h1 h2
    have g1 : b.vector.get 1 1 1 = some 0 := by
      rw [get_of_inRange _ _ _ _ (by rw [hr]; decide), h1, e1]
    have g2 : b.vector.get 2 1 1 = some (-1) := by
      rw [get_of_inRange _ _ _ _ (by rw [hr]; decide), h2, e2]
    show _VectorCoefficientsToEigenVectorXd b [⟨1, 1, 1⟩, ⟨2, 1, 1⟩] = _
    simp [_VectorCoefficientsToEigenVectorXd, g1, g2]
  · rw [hmd]
    show List.foldl max (0 : ℚ) (List.map _ [GridIndex.mk 1 1 1, GridIndex.mk 2 1 1]) = 1
    simp only [List.map, List.foldl, e1, e2]
    norm_num

/-- C5, what the code does: on the sample duct the negative divergence vector that
`_calculateNegativeDivergenceVector` assembles is `b = (0, -1)`, of largest magnitude
`1`; for every coefficient set, preconditioner and `dt`, `_solvePressureSystem` returns
the zero vector through its convergence test at entry, because the test compares the
magnitude of the largest SIGNED coefficient (`|max(0, -1)| = 0`) with the tolerance;
and for every matrix `M` of the system's size the returned `x` has
`|(M·x)(1) - b(1)| = 1`, above the tolerance `1e-6`. -/
theorem solvePressureSystem_signed_maximum :
    ∃ b md, _calculateNegativeDivergenceVector ductState (VectorCoefficients.new 5 3 3) =
        some (b, md) ∧
      _VectorCoefficientsToEigenVectorXd b ductState._fluidCellIndices = some [0, -1] ∧
      ∀ (A : MatrixCoefficients) (precon : VectorCoefficients) (dt : ℚ),
        _solvePressureSystem ductState A b precon dt = some [0, 0] ∧
        ∀ M : SparseMatrix, M.size = 2 →
          ductState._pressureSolveTolerance < |(M.mulVec [0, 0]).getD 1 0 - (-1)| := by
  obtain ⟨b, md, hrun, hvec, -⟩ := ductState_divergence
  refine ⟨b, md, hrun, hvec, fun A precon dt => ⟨?_, fun M hM => ?_⟩⟩
  · unfold _solvePressureSystem
    simp only [Option.bind_eq_bind, hvec, Option.some_bind, maxCoeff, List.foldl_cons,
      List.foldl_nil]
    norm_num [ductState, mkSimulation]
    rfl
  · have h := mulVec_zero M 2
    rw [hM] at h
    have h' : M.mulVec [0, 0] = [0, 0] := h
    rw [h']
    norm_num [ductState, mkSimulation]

/-! ## C11: the CFL time step -/

/-- C11: for every CFL number, `dx > 0`, maximum velocity magnitude `m > 0` and
`dt_min ≤ dt_max`, over exact arithmetic `_calculateNextTimeStep` returns
`clamp(CFL·dx/m, dt_min, dt_max)`; the result lies in `[dt_min, dt_max]`, equals
`dt_min` whenever `CFL·dx/m ≤ dt_min` and equals `dt_max` whenever
`CFL·dx/m ≥ dt_max`.  (The sign of `dx` plays no part.) -/
theorem calculateNextTimeStep_clamp (s : FluidSimulation) (m : ℚ)
    (hm : 0 < m) (hmm : s._minTimeStep ≤ s._maxTimeStep) :
    _calculateNextTimeStep s m =
        clamp (s._CFLConditionNumber * s._dx / m) s._minTimeStep s._maxTimeStep ∧
      s._minTimeStep ≤ _calculateNextTimeStep s m ∧
      _calculateNextTimeStep s m ≤ s._maxTimeStep ∧
      (s._CFLConditionNumber * s._dx / m ≤ s._minTimeStep →
        _calculateNextTimeStep s m = s._minTimeStep) ∧
      (s._maxTimeStep ≤ s._CFLConditionNumber * s._dx / m →
        _calculateNextTimeStep s m = s._maxTimeStep) := by
  have hne : m ≠ 0 := ne_of_gt hm
  have hval : _calculateNextTimeStep s m =
      min s._maxTimeStep (max s._minTimeStep (s._CFLConditionNumber * s._dx / m)) := by
    unfold _calculateNextTimeStep
    rw [if_neg hne]
  rw [hval]
  refine ⟨?_, ?_, min_le_left _ _, ?_, ?_⟩
  · unfold clamp
    split_ifs with h1 h2
    · rw [max_eq_left (le_of_lt h1), min_eq_right hmm]
    · rw [max_eq_right (not_lt.1 h1), min_eq_left (le_of_lt h2)]
    · rw [max_eq_right (not_lt.1 h1), min_eq_right (not_lt.1 h2)]
  · exact le_min hmm (le_max_left _ _)
  · intro h
    rw [max_eq_left h, min_eq_right hmm]
  · intro h
    rw [max_eq_right (le_trans hmm h), min_eq_left h]

theorem calculateNextTimeStep_clamp_witness :
    _calculateNextTimeStep channelState 300 =
        clamp (channelState._CFLConditionNumber * channelState._dx / 300)
          channelState._minTimeStep channelState._maxTimeStep ∧
      channelState._minTimeStep ≤ _calculateNextTimeStep channelState 300 ∧
      _calculateNextTimeStep channelState 300 ≤ channelState._maxTimeStep ∧
      (channelState._CFLConditionNumber * channelState._dx / 300 ≤ channelState._minTimeStep →
        _calculateNextTimeStep channelState 300 = channelState._minTimeStep) ∧
      (channelState._maxTimeStep ≤ channelState._CFLConditionNumber * channelState._dx / 300 →
        _calculateNextTimeStep channelState 300 = channelState._maxTimeStep) :=
  calculateNextTimeStep_clamp channelState 300
    (by norm_num) (by norm_num [channelState, mkSimulation])

/-! ## C12, C13: `update` -/

theorem updateFluidCells_form {s s' : FluidSimulation} (h : _updateFluidCells s = some s') :
    ∃ g cells, s' = { s with _materialGrid := g, _fluidCellIndices := cells } := by
  unfold _updateFluidCells at h
  simp only [Option.bind_eq_bind, Option.bind_eq_some] at h
  obtain ⟨g1, -, g2, -, cells, -, h⟩ := h
  exact ⟨g2, cells, (Option.some.inj h).symm⟩

theorem applyBodyForcesToVelocityField_form {s s' : FluidSimulation} {dt : ℚ}
    (h : _applyBodyForcesToVelocityField s dt = some s') :
    ∃ m, s' = { s with _MACVelocity := m } := by
  unfold _applyBodyForcesToVelocityField at h
  simp only [Option.bind_eq_bind, Option.bind_eq_some] at h
  obtain ⟨m1, -, m2, -, m3, -, h⟩ := h
  exact ⟨m3, (Option.some.inj h).symm⟩

theorem applyPressureToVelocityField_form {s s' : FluidSimulation} {dt : ℚ}
    (h : _applyPressureToVelocityField s dt = some s') :
    ∃ m, s' = { s with _MACVelocity := m } := by
  unfold _applyPressureToVelocityField at h
  simp only [Option.bind_eq_bind, Option.bind_eq_some] at h
  obtain ⟨m1, -, m2, -, m3, -, h⟩ := h
  exact ⟨_, (Option.some.inj h).symm⟩

theorem advanceMarkerParticles_form {env : Collaborators} {s s' : FluidSimulation}
    {dt : ℚ} (h : _advanceMarkerParticles env s dt = some s') :
    ∃ ps, s' = { s with _markerParticles := ps } := by
  unfold _advanceMarkerParticles at h
  simp only [Option.bind_eq_bind, Option.bind_eq_some] at h
  obtain ⟨ranges, -, h⟩ := h
  exact forRange_partial _ _ s (fun _ st => ∃ ps, st = { s with _markerParticles := ps })
    ⟨s._markerParticles, rfl⟩
    (fun m st st' _ hI hstep => by
      obtain ⟨ps, rfl⟩ := hI
      simp only [Option.bind_eq_some] at hstep
      obtain ⟨a, -, b, -, hstep⟩ := hstep
      unfold _advanceRangeOfMarkerParticles at hstep
      split_ifs at hstep
      simp only [Option.bind_eq_bind, Option.bind_eq_some] at hstep
      obtain ⟨ps', -, hstep⟩ := hstep
      exact ⟨ps', (Option.some.inj hstep).symm⟩) s' h

/-- A completed substep changes nothing but the velocity field, the three cell grids,
the hash table, the particles and the fluid cell list. -/
theorem stepFluid_form {env : Collaborators} {s s' : FluidSimulation} {dt : ℚ}
    (h : _stepFluid env s dt = some s') :
    ∃ m g lg pg ht ps cells, s' = { s with
      _MACVelocity := m, _materialGrid := g, _layerGrid := lg, _pressureGrid := pg,
      _GridIndexToEigenVectorXdIndex := ht, _markerParticles := ps,
      _fluidCellIndices := cells } := by
  unfold _stepFluid at h
  simp only [Option.bind_eq_bind, Option.bind_eq_some] at h
  obtain ⟨s1, h1, s2, h2, s3, h3, m, -, p, -, s4, h4, h5⟩ := h
  obtain ⟨g, cells, rfl⟩ := updateFluidCells_form h1
  obtain ⟨m2, lg, rfl⟩ := extrapolateFluidVelocities_form h2
  obtain ⟨m3, rfl⟩ := applyBodyForcesToVelocityField_form h3
  obtain ⟨m4, rfl⟩ := applyPressureToVelocityField_form h4
  obtain ⟨ps, rfl⟩ := advanceMarkerParticles_form h5
  exact ⟨m4, g, lg, p.1, p.2, ps, cells, rfl⟩

theorem calculateNextTimeStep_ge (s : FluidSimulation) (m : ℚ)
    (hmm : s._minTimeStep ≤ s._maxTimeStep) :
    s._minTimeStep ≤ _calculateNextTimeStep s m := by
  unfold _calculateNextTimeStep
  split_ifs
  · exact hmm
  · exact le_min hmm le_rfl
  · exact le_min hmm (le_max_left _ _)

/-- The loop of `update` with enough fuel: it does not run out of fuel, and when it
finishes, the substeps it added are at most `⌈timeleft / dt_min⌉`, each of positive
duration at most the step computed for it, and their durations sum to `timeleft`. -/
theorem updateLoop_spec (env : Collaborators) (maxu : MACVelocityField → ℚ) (lo hi : ℚ)
    (hlo : 0 < lo) (hle : lo ≤ hi) :
    ∀ (fuel : Nat) (s : FluidSimulation) (timeleft : ℚ) (steps : List (ℚ × ℚ)),
      s._minTimeStep = lo → s._maxTimeStep = hi → ⌈timeleft / lo⌉₊ ≤ fuel →
      updateLoop env maxu fuel s timeleft steps ≠ Run.unfinished ∧
      ∀ s' steps', updateLoop env maxu fuel s timeleft steps = Run.finished (s', steps') →
        ∃ added, steps' = steps ++ added ∧ added.length ≤ ⌈timeleft / lo⌉₊ ∧
          (∀ p ∈ added, 0 < p.2 ∧ p.2 ≤ p.1) ∧
          (0 < timeleft → (added.map Prod.snd).sum = timeleft) ∧
          (timeleft ≤ 0 → added = []) ∧
          s'._currentFrame = s._currentFrame := by
  intro fuel
  induction fuel with
  | zero =>
    intro s timeleft steps _ _ hfuel
    have hnot : ¬ timeleft > 0 := by
      intro hpos
      have : 0 < ⌈timeleft / lo⌉₊ := Nat.ceil_pos.2 (div_pos hpos hlo)
      omega
    unfold updateLoop
    rw [if_neg hnot]
    refine ⟨by simp, ?_⟩
    intro s' steps' h
    injection h with h
    injection h with h1 h2
    subst h1 h2
    exact ⟨[], by simp, by simp, by simp, fun h => absurd h hnot, fun _ => rfl, rfl⟩
  | succ fuel ih =>
    intro s timeleft steps hmin hmax hfuel
    unfold updateLoop
    by_cases hpos : timeleft > 0
    · rw [if_pos hpos]
      simp only
      have hge : lo ≤ _calculateNextTimeStep s (maxu s._MACVelocity) := by
        have := calculateNextTimeStep_ge s (maxu s._MACVelocity) (by rw [hmin, hmax]; exact hle)
        rwa [hmin] at this
      set computed := _calculateNextTimeStep s (maxu s._MACVelocity) with hcomp
      set timestep := (if timeleft - computed < 0 then timeleft else computed) with hts
      have hts_pos : 0 < timestep := by
        rw [hts]
        split_ifs
        · exact hpos
        · exact lt_of_lt_of_le hlo hge
      have hts_le : timestep ≤ computed := by
        rw [hts]
        split_ifs with hlt
        · linarith
        · exact le_rfl
      have hleft : 0 ≤ timeleft - timestep := by
        rw [hts]
        split_ifs with hlt
        · simp
        · linarith
      have hceil : ⌈(timeleft - timestep) / lo⌉₊ + 1 ≤ ⌈timeleft / lo⌉₊ := by
        by_cases hlt : timeleft - computed < 0
        · have : timestep = timeleft := by rw [hts, if_pos hlt]
          rw [this]
          simp only [sub_self, zero_div, Nat.ceil_zero, zero_add]
          exact Nat.ceil_pos.2 (div_pos hpos hlo)
        · have : timestep = computed := by rw [hts, if_neg hlt]
          rw [this]
          rw [← Nat.ceil_add_one (div_nonneg (by linarith) (le_of_lt hlo))]
          apply Nat.ceil_mono
          rw [div_add_one (ne_of_gt hlo)]
          exact div_le_div_of_nonneg_right (by linarith) (le_of_lt hlo)
      cases hstep : _stepFluid env s timestep with
      | none => exact ⟨by simp, by intro s' steps' h; cases h⟩
      | some s1 =>
        simp only
        obtain ⟨m, g, lg, pg, ht, ps, cells, hform⟩ := stepFluid_form hstep
        have h1min : s1._minTimeStep = lo := by rw [hform]; exact hmin
        have h1max : s1._maxTimeStep = hi := by rw [hform]; exact hmax
        have h1frame : s1._currentFrame = s._currentFrame := by rw [hform]
        obtain ⟨hne, hfin⟩ := ih s1 (timeleft - timestep) (steps ++ [(computed, timestep)])
          h1min h1max (by omega)
        refine ⟨hne, ?_⟩
        intro s' steps' h
        obtain ⟨added, hadd, hlen, hall, hsum, hnil, hframe⟩ := hfin s' steps' h
        refine ⟨(computed, timestep) :: added, by rw [hadd]; simp, ?_, ?_, ?_, ?_, ?_⟩
        · simp only [List.length_cons]
          omega
        · intro p hp
          rcases List.mem_cons.1 hp with hp | hp
          · rw [hp]
            exact ⟨hts_pos, hts_le⟩
          · exact hall p hp
        · intro _
          simp only [List.map_cons, List.sum_cons]
          rcases lt_or_eq_of_le hleft with hl | hl
          · rw [hsum hl]
            ring
          · rw [hnil (le_of_eq hl.symm)]
            simp only [List.map_nil, List.sum_nil, add_zero]
            linarith
        · intro hle0
          exact absurd hpos (not_lt.2 hle0)
        · rw [hframe, h1frame]
    · rw [if_neg hpos]
      refine ⟨by simp, ?_⟩
      intro s' steps' h
      injection h with h
      injection h with h1 h2
      subst h1 h2
      exact ⟨[], by simp, by simp, by simp, fun h => absurd h hpos, fun _ => rfl, rfl⟩

theorem updateLoop_done (env : Collaborators) (maxu : MACVelocityField → ℚ) (fuel : Nat)
    (s : FluidSimulation) (timeleft : ℚ) (steps : List (ℚ × ℚ)) (h : ¬ timeleft > 0) :
    updateLoop env maxu fuel s timeleft steps = Run.finished (s, steps) := by
  cases fuel <;> (unfold updateLoop; rw [if_neg h])

/-! ## C13: `update` without fluid, or when not running -/

/-- C13: if no implicit fluid point and no fluid cuboid was added, then
`_initializeFluidMaterial` completes and leaves nothing changed except that
`_isFluidInSimulation` is `false`; and whenever `_isFluidInSimulation` is `false`, or
the simulation is not running, or it is not initialised, then for every `dt` (and
whatever bound on the loop), `update(dt)` returns with the state unchanged, having run
no substep. -/
theorem update_without_fluid :
    (∀ (rnd : GridIndex → Nat → ℚ → ℚ → ℚ) (s : FluidSimulation),
      s._implicitFluidField.numPoints = 0 → s._implicitFluidField.numCuboids = 0 →
      _initializeFluidMaterial rnd s = some { s with _isFluidInSimulation := false }) ∧
    (∀ (env : Collaborators) (maxu : MACVelocityField → ℚ) (fuel : Nat)
      (s : FluidSimulation) (dt : ℚ),
      (s._isFluidInSimulation = false ∨ s._isSimulationRunning = false ∨
        s._isSimulationInitialized = false) →
      update env maxu fuel s dt = Run.finished (s, [])) := by
  constructor
  · intro rnd s hp hc
    unfold _initializeFluidMaterial
    simp [hp, hc]
  · intro env maxu fuel s dt h
    unfold update
    rw [if_pos]
    rcases h with h | h | h <;> simp [h]

theorem update_without_fluid_witness :
    update channelCollaborators (fun _ => 1) 0
        (mkSimulation 3 3 3 1 (fun _ _ _ => M_AIR) []) (1 / 15) =
      Run.finished (mkSimulation 3 3 3 1 (fun _ _ _ => M_AIR) [], []) :=
  update_without_fluid.2 channelCollaborators (fun _ => 1) 0
    (mkSimulation 3 3 3 1 (fun _ _ _ => M_AIR) []) (1 / 15) (Or.inl rfl)

/-! ## C14: seeding a cell -/

theorem floor_cell (dx x : ℚ) (i : Int) (hdx : 0 < dx) (h1 : i * dx ≤ x)
    (h2 : x < (i + 1) * dx) : ⌊x * (1 / dx)⌋ = i := by
  rw [Int.floor_eq_iff, mul_one_div]
  constructor
  · rw [le_div_iff₀ hdx]
    exact h1
  · rw [div_lt_iff₀ hdx]
    exact h2

theorem seeded_coordinate_inside (dx : ℚ) (i : Int) (x r : ℚ) (hdx : 4 / 100000 < dx)
    (hx : x = i * dx + 0.5 * dx - 0.25 * dx ∨ x = i * dx + 0.5 * dx + 0.25 * dx)
    (h1 : -(dx / 4 - 1 / 100000) ≤ r) (h2 : r ≤ dx / 4 - 1 / 100000) :
    (i : ℚ) * dx < x + r ∧ x + r < (i + 1) * dx := by
  rcases hx with h | h <;> subst h <;> constructor <;> norm_num <;> linarith

/-- C14: for every in-range cell `(i, j, k)`, every `dx > 4e-5` and all jitter values
returned by `_randomFloat` within `[-(dx/4 - 1e-5), dx/4 - 1e-5]`,
`_addMarkerParticlesToCell` appends exactly `8` particles; for each sign combination
of the offset `(±dx/4, ±dx/4, ±dx/4)` one of them sits at the cell centre plus that
offset plus its jitter; each has the cached index `(i, j, k)`, lies strictly inside the
cell, and satisfies `positionToGridIndex(position) = (i, j, k)`. -/
theorem addMarkerParticlesToCell_spec (rnd : Nat → ℚ → ℚ → ℚ) (s : FluidSimulation)
    (i j k : Int) (hin : _isCellIndexInRange s i j k = true)
    (hdx : 4 / 100000 < s._dx)
    (hr : ∀ n, -(s._dx / 4 - 1 / 100000) ≤
        rnd n (-(0.25 * s._dx - 1 / 100000)) (0.25 * s._dx - 1 / 100000) ∧
      rnd n (-(0.25 * s._dx - 1 / 100000)) (0.25 * s._dx - 1 / 100000) ≤
        s._dx / 4 - 1 / 100000) :
    ∃ added, _addMarkerParticlesToCell rnd s i j k =
        some { s with _markerParticles := s._markerParticles ++ added } ∧
      added.length = 8 ∧
      (∀ sx sy sz : ℚ, (sx = 1 ∨ sx = -1) → (sy = 1 ∨ sy = -1) → (sz = 1 ∨ sz = -1) →
        ∃ n < 8, ∃ p, added[n]? = some p ∧
          p.position.x = (i + 1 / 2) * s._dx + sx * (s._dx / 4) +
            rnd (3 * n) (-(0.25 * s._dx - 1 / 100000)) (0.25 * s._dx - 1 / 100000) ∧
          p.position.y = (j + 1 / 2) * s._dx + sy * (s._dx / 4) +
            rnd (3 * n + 1) (-(0.25 * s._dx - 1 / 100000)) (0.25 * s._dx - 1 / 100000) ∧
          p.position.z = (k + 1 / 2) * s._dx + sz * (s._dx / 4) +
            rnd (3 * n + 2) (-(0.25 * s._dx - 1 / 100000)) (0.25 * s._dx - 1 / 100000)) ∧
      (∀ p ∈ added, p.i = i ∧ p.j = j ∧ p.k = k ∧
        i * s._dx < p.position.x ∧ p.position.x < (i + 1) * s._dx ∧
        j * s._dx < p.position.y ∧ p.position.y < (j + 1) * s._dx ∧
        k * s._dx < p.position.z ∧ p.position.z < (k + 1) * s._dx ∧
        positionToGridIndex s._dx p.position = ⟨i, j, k⟩) := by
  have hpos : 0 < s._dx := by linarith
  refine ⟨(seedPoints ⟨i * s._dx + 0.5 * s._dx, j * s._dx + 0.5 * s._dx,
      k * s._dx + 0.5 * s._dx⟩ (0.25 * s._dx)).enum.map (fun (ip : Nat × Vec3) =>
    MarkerParticle.mk (ip.2.add
      ⟨rnd (3 * ip.1) (-(0.25 * s._dx - 1 / 100000)) (0.25 * s._dx - 1 / 100000),
       rnd (3 * ip.1 + 1) (-(0.25 * s._dx - 1 / 100000)) (0.25 * s._dx - 1 / 100000),
       rnd (3 * ip.1 + 2) (-(0.25 * s._dx - 1 / 100000)) (0.25 * s._dx - 1 / 100000)⟩)
      i j k), ?_, ?_, ?_, ?_⟩
  · unfold _addMarkerParticlesToCell gridIndexToCellCenter
    rw [if_pos hin]
    rfl
  · simp [seedPoints, List.enum]
  · intro sx sy sz hx hy hz
    rcases hx with rfl | rfl <;> rcases hy with rfl | rfl <;> rcases hz with rfl | rfl
    · refine ⟨6, by norm_num, _, rfl, ?_, ?_, ?_⟩ <;>
        (simp only [Vec3.add, seedPoints, List.enum, List.enumFrom, List.map,
          List.getElem_cons_succ, List.getElem_cons_zero]; norm_num; ring)
    · refine ⟨5, by norm_num, _, rfl, ?_, ?_, ?_⟩ <;>
        (simp only [Vec3.add, seedPoints, List.enum, List.enumFrom, List.map,
          List.getElem_cons_succ, List.getElem_cons_zero]; norm_num; ring)
    · refine ⟨2, by norm_num, _, rfl, ?_, ?_, ?_⟩ <;>
        (simp only [Vec3.add, seedPoints, List.enum, List.enumFrom, List.map,
          List.getElem_cons_succ, List.getElem_cons_zero]; norm_num; ring)
    · refine ⟨1, by norm_num, _, rfl, ?_, ?_, ?_⟩ <;>
        (simp only [Vec3.add, seedPoints, List.enum, List.enumFrom, List.map,
          List.getElem_cons_succ, List.getElem_cons_zero]; norm_num; ring)
    · refine ⟨7, by norm_num, _, rfl, ?_, ?_, ?_⟩ <;>
        (simp only [Vec3.add, seedPoints, List.enum, List.enumFrom, List.map,
          List.getElem_cons_succ, List.getElem_cons_zero]; norm_num; ring)
    · refine ⟨4, by norm_num, _, rfl, ?_, ?_, ?_⟩ <;>
        (simp only [Vec3.add, seedPoints, List.enum, List.enumFrom, List.map,
          List.getElem_cons_succ, List.getElem_cons_zero]; norm_num; ring)
    · refine ⟨3, by norm_num, _, rfl, ?_, ?_, ?_⟩ <;>
        (simp only [Vec3.add, seedPoints, List.enum, List.enumFrom, List.map,
          List.getElem_cons_succ, List.getElem_cons_zero]; norm_num; ring)
    · refine ⟨0, by norm_num, _, rfl, ?_, ?_, ?_⟩ <;>
        (simp only [Vec3.add, seedPoints, List.enum, List.enumFrom, List.map,
          List.getElem_cons_succ, List.getElem_cons_zero]; norm_num; ring)
  · intro p
    have key : ∀ (x y z : ℚ) (a b c : Nat),
        (x = i * s._dx + 0.5 * s._dx - 0.25 * s._dx ∨ x = i * s._dx + 0.5 * s._dx + 0.25 * s._dx) →
        (y = j * s._dx + 0.5 * s._dx - 0.25 * s._dx ∨ y = j * s._dx + 0.5 * s._dx + 0.25 * s._dx) →
        (z = k * s._dx + 0.5 * s._dx - 0.25 * s._dx ∨ z = k * s._dx + 0.5 * s._dx + 0.25 * s._dx) →
        p = MarkerParticle.mk (Vec3.add ⟨x, y, z⟩
          ⟨rnd a (-(0.25 * s._dx - 1 / 100000)) (0.25 * s._dx - 1 / 100000),
           rnd b (-(0.25 * s._dx - 1 / 100000)) (0.25 * s._dx - 1 / 100000),
           rnd c (-(0.25 * s._dx - 1 / 100000)) (0.25 * s._dx - 1 / 100000)⟩) i j k →
        p.i = i ∧ p.j = j ∧ p.k = k ∧
        i * s._dx < p.position.x ∧ p.position.x < (i + 1) * s._dx ∧
        j * s._dx < p.position.y ∧ p.position.y < (j + 1) * s._dx ∧
        k * s._dx < p.position.z ∧ p.position.z < (k + 1) * s._dx ∧
        positionToGridIndex s._dx p.position = ⟨i, j, k⟩ := by
      intro x y z a b c hx hy hz hpeq
      obtain ⟨ha1, ha2⟩ := hr a
      obtain ⟨hb1, hb2⟩ := hr b
      obtain ⟨hc1, hc2⟩ := hr c
      subst hpeq
      simp only [Vec3.add]
      have bx := seeded_coordinate_inside s._dx i x _ hdx hx ha1 ha2
      have by' := seeded_coordinate_inside s._dx j y _ hdx hy hb1 hb2
      have bz := seeded_coordinate_inside s._dx k z _ hdx hz hc1 hc2
      refine ⟨trivial, trivial, trivial, bx.1, bx.2, by'.1, by'.2, bz.1, bz.2, ?_⟩
      simp only [positionToGridIndex]
      rw [floor_cell _ _ i hpos (le_of_lt bx.1) bx.2,
        floor_cell _ _ j hpos (le_of_lt by'.1) by'.2,
        floor_cell _ _ k hpos (le_of_lt bz.1) bz.2]
    intro hp
    simp only [seedPoints, List.enum, List.enumFrom, List.map_cons, List.map_nil,
      List.mem_cons, List.mem_singleton, List.not_mem_nil, or_false] at hp
    rcases hp with h | h | h | h | h | h | h | h
    · exact key _ _ _ _ _ _ (Or.inl rfl) (Or.inl rfl) (Or.inl rfl) h
    · exact key _ _ _ _ _ _ (Or.inr rfl) (Or.inl rfl) (Or.inl rfl) h
    · exact key _ _ _ _ _ _ (Or.inr rfl) (Or.inl rfl) (Or.inr rfl) h
    · exact key _ _ _ _ _ _ (Or.inl rfl) (Or.inl rfl) (Or.inr rfl) h
    · exact key _ _ _ _ _ _ (Or.inl rfl) (Or.inr rfl) (Or.inl rfl) h
    · exact key _ _ _ _ _ _ (Or.inr rfl) (Or.inr rfl) (Or.inl rfl) h
    · exact key _ _ _ _ _ _ (Or.inr rfl) (Or.inr rfl) (Or.inr rfl) h
    · exact key _ _ _ _ _ _ (Or.inl rfl) (Or.inr rfl) (Or.inr rfl) h

theorem addMarkerParticlesToCell_spec_witness :
    ∃ added, _addMarkerParticlesToCell (fun _ _ _ => 0) channelState 1 1 1 =
        some { channelState with _markerParticles := channelState._markerParticles ++ added } ∧
      added.length = 8 ∧
      ∀ p ∈ added, positionToGridIndex channelState._dx p.position = ⟨1, 1, 1⟩ := by
  obtain ⟨added, h1, h2, -, h4⟩ := addMarkerParticlesToCell_spec (fun _ _ _ => 0)
    channelState 1 1 1 (by decide) (by norm_num [channelState, mkSimulation])
    (by intro n; norm_num [channelState, mkSimulation])
  exact ⟨added, h1, h2, fun p hp => (h4 p hp).2.2.2.2.2.2.2.2.2⟩

/-! ## The order of the sweep over the cells -/

theorem cellList_pairwise (depth height width : Nat) :
    (cellList depth height width).Pairwise sweepBefore := by
  unfold cellList
  rw [List.pairwise_flatMap]
  constructor
  · intro k _
    rw [List.pairwise_flatMap]
    constructor
    · intro j _
      rw [List.pairwise_map]
      exact (List.pairwise_lt_range width).imp (fun {a b} h =>
        Or.inr ⟨rfl, Or.inr ⟨rfl, Int.ofNat_lt.2 h⟩⟩)
    · exact (List.pairwise_lt_range height).imp (fun {a b} h x hx y hy => by
        simp only [List.mem_map] at hx hy
        obtain ⟨_, _, rfl⟩ := hx
        obtain ⟨_, _, rfl⟩ := hy
        exact Or.inr ⟨rfl, Or.inl (Int.ofNat_lt.2 h)⟩)
  · exact (List.pairwise_lt_range depth).imp (fun {a b} h x hx y hy => by
      simp only [List.mem_flatMap, List.mem_map] at hx hy
      obtain ⟨_, _, _, _, rfl⟩ := hx
      obtain ⟨_, _, _, _, rfl⟩ := hy
      exact Or.inl (Int.ofNat_lt.2 h))

theorem sweepBefore_irrefl (a : GridIndex) : ¬ sweepBefore a a := by
  unfold sweepBefore
  omega

theorem cellList_nodup (depth height width : Nat) : (cellList depth height width).Nodup :=
  (cellList_pairwise depth height width).imp (fun {a b} h hab => by
    subst hab
    exact sweepBefore_irrefl a h)

/-! ## C15: `_initializeFluidMaterial` -/

theorem addMarkerParticlesToCell_run (rnd : Nat → ℚ → ℚ → ℚ) (s : FluidSimulation)
    (i j k : Int) (hin : _isCellIndexInRange s i j k = true) :
    ∃ added, _addMarkerParticlesToCell rnd s i j k =
        some { s with _markerParticles := s._markerParticles ++ added } ∧
      added.length = 8 ∧ ∀ p ∈ added, p.i = i ∧ p.j = j ∧ p.k = k := by
  refine ⟨(seedPoints ⟨i * s._dx + 0.5 * s._dx, j * s._dx + 0.5 * s._dx,
      k * s._dx + 0.5 * s._dx⟩ (0.25 * s._dx)).enum.map (fun (ip : Nat × Vec3) =>
    MarkerParticle.mk (ip.2.add
      ⟨rnd (3 * ip.1) (-(0.25 * s._dx - 1 / 100000)) (0.25 * s._dx - 1 / 100000),
       rnd (3 * ip.1 + 1) (-(0.25 * s._dx - 1 / 100000)) (0.25 * s._dx - 1 / 100000),
       rnd (3 * ip.1 + 2) (-(0.25 * s._dx - 1 / 100000)) (0.25 * s._dx - 1 / 100000)⟩)
      i j k), ?_, ?_, ?_⟩
  · unfold _addMarkerParticlesToCell gridIndexToCellCenter
    rw [if_pos hin]
    rfl
  · simp [seedPoints, List.enum]
  · intro p hp
    rw [List.mem_map] at hp
    obtain ⟨ip, -, rfl⟩ := hp
    exact ⟨rfl, rfl, rfl⟩

/-- What `_initializeFluidMaterial` computes when the implicit field has a primitive. -/
theorem initializeFluidMaterial_run (rnd : GridIndex → Nat → ℚ → ℚ → ℚ)
    (s : FluidSimulation)
    (hw : s._materialGrid.width = s._i_voxels) (hh : s._materialGrid.height = s._j_voxels)
    (hd : s._materialGrid.depth = s._k_voxels)
    (hprim : 0 < s._implicitFluidField.numPoints ∨ 0 < s._implicitFluidField.numCuboids) :
    ∃ g added, _initializeFluidMaterial rnd s = some { s with
        _isFluidInSimulation := true, _materialGrid := g,
        _markerParticles := s._markerParticles ++ added } ∧
      g.width = s._materialGrid.width ∧ g.height = s._materialGrid.height ∧
      g.depth = s._materialGrid.depth ∧
      (∀ x y z, g.grid x y z =
        if s._materialGrid.isIndexInRange x y z = true ∧ turnsFluid s ⟨x, y, z⟩ = true
        then M_FLUID else s._materialGrid.grid x y z) ∧
      added.length = 8 * ((cellList s._materialGrid.depth s._materialGrid.height
        s._materialGrid.width).filter (turnsFluid s)).length ∧
      ∀ p ∈ added, s._materialGrid.isIndexInRange p.i p.j p.k = true ∧
        turnsFluid s ⟨p.i, p.j, p.k⟩ = true := by
  have hflag : (decide (s._implicitFluidField.numPoints > 0) ||
      decide (s._implicitFluidField.numCuboids > 0)) = true := by
    rcases hprim with h | h <;> simp [h]
  have hnd := cellList_nodup s._materialGrid.depth s._materialGrid.height
    s._materialGrid.width
  obtain ⟨st, hrun, g, added, hst, hgw, hgh, hgd, hgrid, hlen, hmem⟩ := foldlM_inv
    (fun (s : FluidSimulation) (c : GridIndex) => do
        let ctr ← gridIndexToCellCenter s c.i c.j c.k
        if s._implicitFluidField.isInside ctr.x ctr.y ctr.z then
          if (← _isCellAir s._materialGrid c.i c.j c.k) then
            let g ← s._materialGrid.set c.i c.j c.k M_FLUID
            _addMarkerParticlesToCell (rnd ⟨c.i, c.j, c.k⟩) { s with _materialGrid := g }
              c.i c.j c.k
          else pure s
        else pure s)
    (cellList s._materialGrid.depth s._materialGrid.height s._materialGrid.width)
    { s with _isFluidInSimulation := true }
    (fun pre st => ∃ g added, st = { s with
        _isFluidInSimulation := true, _materialGrid := g,
        _markerParticles := s._markerParticles ++ added } ∧
      g.width = s._materialGrid.width ∧ g.height = s._materialGrid.height ∧
      g.depth = s._materialGrid.depth ∧
      (∀ x y z, g.grid x y z =
        if GridIndex.mk x y z ∈ pre ∧ turnsFluid s ⟨x, y, z⟩ = true
        then M_FLUID else s._materialGrid.grid x y z) ∧
      added.length = 8 * (pre.filter (turnsFluid s)).length ∧
      ∀ p ∈ added, GridIndex.mk p.i p.j p.k ∈ pre ∧ turnsFluid s ⟨p.i, p.j, p.k⟩ = true)
    ⟨s._materialGrid, [], by simp, rfl, rfl, rfl, by simp, by simp, by simp⟩
    (by
      rintro pre c post st hl ⟨g, added, rfl, hgw, hgh, hgd, hgrid, hlen, hmem⟩
      have hcmem : c ∈ cellList s._materialGrid.depth s._materialGrid.height
          s._materialGrid.width := by rw [hl]; simp
      have hcin := inRange_of_mem_cellList s._materialGrid c hcmem
      have hcnot : c ∉ pre := by
        rw [hl] at hnd
        have := (List.nodup_append.1 hnd).2.2
        intro hp
        exact this hp (by simp)
      have hcell : _isCellIndexInRange s c.i c.j c.k = true := by
        simp only [Array3d.isIndexInRange, hw, hh, hd] at hcin
        exact hcin
      have hgc : g.grid c.i c.j c.k = s._materialGrid.grid c.i c.j c.k := by
        rw [hgrid]
        have : GridIndex.mk c.i c.j c.k = c := rfl
        rw [this, if_neg (fun h => hcnot h.1)]
      have hgin : g.isIndexInRange c.i c.j c.k = true := by
        rw [inRange_of_dims hgw hgh hgd]; exact hcin
      have hctr : gridIndexToCellCenter { s with
          _isFluidInSimulation := true, _materialGrid := g,
          _markerParticles := s._markerParticles ++ added } c.i c.j c.k =
          some ⟨c.i * s._dx + 0.5 * s._dx, c.j * s._dx + 0.5 * s._dx,
            c.k * s._dx + 0.5 * s._dx⟩ := by
        unfold gridIndexToCellCenter
        exact if_pos hcell
      simp only [Option.bind_eq_bind, hctr, Option.some_bind]
      by_cases hinside : s._implicitFluidField.isInside (c.i * s._dx + 0.5 * s._dx)
          (c.j * s._dx + 0.5 * s._dx) (c.k * s._dx + 0.5 * s._dx) = true
      · rw [if_pos hinside]
        by_cases hair : s._materialGrid.grid c.i c.j c.k = M_AIR
        · have hturn : turnsFluid s c = true := by
            simp [turnsFluid, hair, hinside]
          have h1 : _isCellAir g c.i c.j c.k = some true := by
            simp [_isCellAir, get_of_inRange g _ _ _ hgin, hgc, hair]
          have h2 : g.set c.i c.j c.k M_FLUID = some { g with grid := fun a b d =>
              if a = c.i ∧ b = c.j ∧ d = c.k then M_FLUID else g.grid a b d } := by
            simp [Array3d.set, hgin]
          obtain ⟨new, hnew, hnlen, hnmem⟩ := addMarkerParticlesToCell_run (rnd ⟨c.i, c.j, c.k⟩)
            { s with _isFluidInSimulation := true,
                     _materialGrid := { g with grid := fun a b d =>
                        if a = c.i ∧ b = c.j ∧ d = c.k then M_FLUID else g.grid a b d },
                     _markerParticles := s._markerParticles ++ added } c.i c.j c.k hcell
          refine ⟨_, by
            show (_isCellAir g c.i c.j c.k).bind _ = _
            rw [h1, Option.some_bind, if_pos rfl]
            show (g.set c.i c.j c.k M_FLUID).bind _ = _
            rw [h2, Option.some_bind]
            exact hnew, { g with grid := fun a b d =>
              if a = c.i ∧ b = c.j ∧ d = c.k then M_FLUID else g.grid a b d },
            added ++ new, by simp [List.append_assoc], hgw, hgh, hgd, ?_, ?_, ?_⟩
          · intro x y z
            by_cases hx : x = c.i ∧ y = c.j ∧ z = c.k
            · obtain ⟨rfl, rfl, rfl⟩ := hx
              simp [hturn]
            · have hne : GridIndex.mk x y z ≠ c := by
                intro h
                apply hx
                rw [← h]
                exact ⟨rfl, rfl, rfl⟩
              simp only [hx, if_false, hgrid, List.mem_append, List.mem_singleton, hne,
                or_false]
          · rw [List.length_append, hlen, hnlen, List.filter_append]
            simp [hturn]
            ring
          · intro p hp
            rcases List.mem_append.1 hp with h | h
            · exact ⟨List.mem_append_left _ (hmem p h).1, (hmem p h).2⟩
            · obtain ⟨e1, e2, e3⟩ := hnmem p h
              rw [e1, e2, e3]
              exact ⟨by simp, hturn⟩
        · have hturn : turnsFluid s c = false := by
            simp [turnsFluid, hair]
          have h1 : _isCellAir g c.i c.j c.k = some false := by
            simp [_isCellAir, get_of_inRange g _ _ _ hgin, hgc, hair]
          refine ⟨_, by
            show (_isCellAir g c.i c.j c.k).bind _ = _
            rw [h1, Option.some_bind]
            rfl, g, added, rfl, hgw, hgh, hgd, ?_, ?_, ?_⟩
          · intro x y z
            rw [hgrid]
            by_cases hx : GridIndex.mk x y z = c
            · rw [hx]
              simp [hturn, hcnot]
            · simp [hx]
          · rw [hlen, List.filter_append]
            simp [hturn]
          · intro p hp
            exact ⟨List.mem_append_left _ (hmem p hp).1, (hmem p hp).2⟩
      · rw [if_neg hinside]
        have hturn : turnsFluid s c = false := by
          simp only [Bool.not_eq_true] at hinside
          simp [turnsFluid, hinside]
        refine ⟨_, rfl, g, added, rfl, hgw, hgh, hgd, ?_, ?_, ?_⟩
        · intro x y z
          rw [hgrid]
          by_cases hx : GridIndex.mk x y z = c
          · rw [hx]
            simp [hturn, hcnot]
          · simp [hx]
        · rw [hlen, List.filter_append]
          simp [hturn]
        · intro p hp
          exact ⟨List.mem_append_left _ (hmem p hp).1, (hmem p hp).2⟩)
  subst hst
  refine ⟨g, added, ?_, hgw, hgh, hgd, ?_, hlen, ?_⟩
  · unfold _initializeFluidMaterial
    simp only [hflag, Bool.not_true, Bool.false_eq_true, if_false]
    rw [forCells_eq_foldlM]
    exact hrun
  · intro x y z
    rw [hgrid]
    by_cases hin : s._materialGrid.isIndexInRange x y z = true
    · have := mem_cellList_of_inRange s._materialGrid x y z hin
      simp [hin, this]
    · have : GridIndex.mk x y z ∉ cellList s._materialGrid.depth s._materialGrid.height
          s._materialGrid.width := fun h =>
        hin (inRange_of_mem_cellList s._materialGrid ⟨x, y, z⟩ h)
      simp [hin, this]
  · intro p hp
    exact ⟨inRange_of_mem_cellList s._materialGrid ⟨p.i, p.j, p.k⟩ (hmem p hp).1,
      (hmem p hp).2⟩

/-- C15: for every implicit fluid field with at least one primitive and every material
grid (of the simulation's dimensions), `_initializeFluidMaterial` completes; a cell is
turned `M_FLUID` if and only if it was `M_AIR` and its centre is inside the implicit
field; every other cell, in particular every `M_SOLID` cell, keeps its material; the
particles appended number `8` times the cells turned `M_FLUID`, and each of them is
cached in a cell that was `M_AIR` (so none is created in a `M_SOLID` cell). -/
theorem initializeFluidMaterial_spec (rnd : GridIndex → Nat → ℚ → ℚ → ℚ)
    (s : FluidSimulation)
    (hw : s._materialGrid.width = s._i_voxels) (hh : s._materialGrid.height = s._j_voxels)
    (hd : s._materialGrid.depth = s._k_voxels)
    (hprim : 0 < s._implicitFluidField.numPoints ∨ 0 < s._implicitFluidField.numCuboids) :
    ∃ s', _initializeFluidMaterial rnd s = some s' ∧
      (∀ i j k : Int, s._materialGrid.isIndexInRange i j k = true →
        ((s'._materialGrid.grid i j k = M_FLUID ∧ s._materialGrid.grid i j k ≠ M_FLUID) ↔
          (s._materialGrid.grid i j k = M_AIR ∧
            s._implicitFluidField.isInside (i * s._dx + 0.5 * s._dx)
              (j * s._dx + 0.5 * s._dx) (k * s._dx + 0.5 * s._dx) = true))) ∧
      (∀ i j k : Int, s'._materialGrid.grid i j k ≠ s._materialGrid.grid i j k →
        s._materialGrid.grid i j k = M_AIR ∧ s'._materialGrid.grid i j k = M_FLUID) ∧
      (∀ i j k : Int, s._materialGrid.grid i j k = M_SOLID →
        s'._materialGrid.grid i j k = M_SOLID) ∧
      ∃ added, s'._markerParticles = s._markerParticles ++ added ∧
        added.length = 8 * ((cellList s._materialGrid.depth s._materialGrid.height
          s._materialGrid.width).filter (turnsFluid s)).length ∧
        ∀ p ∈ added, s._materialGrid.get p.i p.j p.k = some M_AIR ∧
          s'._materialGrid.get p.i p.j p.k = some M_FLUID := by
  obtain ⟨g, added, hrun, hgw, hgh, hgd, hgrid, hlen, hmem⟩ :=
    initializeFluidMaterial_run rnd s hw hh hd hprim
  refine ⟨_, hrun, ?_, ?_, ?_, added, rfl, hlen, ?_⟩
  · intro i j k hin
    show (g.grid i j k = M_FLUID ∧ _) ↔ _
    rw [hgrid]
    simp only [hin, true_and, turnsFluid, Bool.and_eq_true, decide_eq_true_eq]
    constructor
    · rintro ⟨h1, h2⟩
      by_contra hno
      rw [if_neg hno] at h1
      exact h2 h1
    · intro h
      rw [if_pos h]
      exact ⟨rfl, by rw [h.1]; decide⟩
  · intro i j k hne
    change g.grid i j k ≠ _ at hne
    show _ ∧ g.grid i j k = _
    rw [hgrid] at hne ⊢
    by_cases h : s._materialGrid.isIndexInRange i j k = true ∧ turnsFluid s ⟨i, j, k⟩ = true
    · rw [if_pos h]
      simp only [turnsFluid, Bool.and_eq_true, decide_eq_true_eq] at h
      exact ⟨h.2.1, rfl⟩
    · rw [if_neg h] at hne
      exact absurd rfl hne
  · intro i j k hsolid
    show g.grid i j k = _
    rw [hgrid, if_neg, hsolid]
    rintro ⟨-, h⟩
    simp only [turnsFluid, Bool.and_eq_true, decide_eq_true_eq] at h
    rw [hsolid] at h
    exact absurd h.1 (by decide)
  · intro p hp
    obtain ⟨hin, hturn⟩ := hmem p hp
    have hair : s._materialGrid.grid p.i p.j p.k = M_AIR := by
      simp only [turnsFluid, Bool.and_eq_true, decide_eq_true_eq] at hturn
      exact hturn.1
    refine ⟨by rw [get_of_inRange _ _ _ _ hin, hair], ?_⟩
    show g.get p.i p.j p.k = _
    rw [get_of_inRange _ _ _ _ (by rw [inRange_of_dims hgw hgh hgd]; exact hin), hgrid,
      if_pos ⟨hin, hturn⟩]

theorem initializeFluidMaterial_spec_witness :
    ∃ s', _initializeFluidMaterial (fun _ _ _ _ => 0) seededState = some s' ∧
      s'._materialGrid.grid 1 1 1 = M_FLUID ∧ s'._materialGrid.grid 0 1 1 = M_AIR := by
  obtain ⟨s', hrun, h1, h2, -⟩ := initializeFluidMaterial_spec (fun _ _ _ _ => 0)
    seededState rfl rfl rfl (Or.inl (by decide))
  refine ⟨s', hrun, ?_, ?_⟩
  · exact ((h1 1 1 1 (by decide)).2 ⟨rfl, by
      simp only [seededState, mkSimulation]
      norm_num⟩).1
  · by_contra hne
    have := (h2 0 1 1 hne).2
    have h3 := (h1 0 1 1 (by decide)).1 ⟨this, by decide⟩
    simp only [seededState, mkSimulation] at h3
    norm_num at h3

/-! ## C17: `getMarkerParticles` -/

theorem lt_ceil_iff_mul_lt (n m : Nat) (skip : Int) (hskip : 1 ≤ skip) :
    m < ⌈(n : ℚ) / skip⌉₊ ↔ (m : Int) * skip < n := by
  have hpos : (0 : ℚ) < skip := by exact_mod_cast (by omega : (0 : Int) < skip)
  rw [Nat.lt_ceil, lt_div_iff₀ hpos]
  constructor
  · intro h
    exact_mod_cast h
  · intro h
    exact_mod_cast h

theorem getMarkerParticlesLoop_spec (ps : List MarkerParticle) (skip : Int)
    (hskip : 1 ≤ skip) :
    ∀ (fuel m : Nat) (out : List Vec3),
      m ≤ ⌈(ps.length : ℚ) / skip⌉₊ → ⌈(ps.length : ℚ) / skip⌉₊ - m ≤ fuel →
      out.length = m →
      (∀ m' < m, ∃ p, ps[m' * skip.toNat]? = some p ∧ out[m']? = some p.position) →
      ∃ out', getMarkerParticlesLoop ps skip fuel (m * skip) out = Run.finished out' ∧
        out'.length = ⌈(ps.length : ℚ) / skip⌉₊ ∧
        ∀ m' < ⌈(ps.length : ℚ) / skip⌉₊,
          ∃ p, ps[m' * skip.toNat]? = some p ∧ out'[m']? = some p.position := by
  intro fuel
  induction fuel with
  | zero =>
    intro m out hm hfuel hlen hout
    have hmeq : m = ⌈(ps.length : ℚ) / skip⌉₊ := by omega
    have hnot : ¬ ((m : Int) * skip < ps.length) := by
      rw [← lt_ceil_iff_mul_lt _ _ _ hskip]
      omega
    unfold getMarkerParticlesLoop
    rw [if_neg hnot]
    exact ⟨out, rfl, by rw [hlen, hmeq], by rw [← hmeq]; exact hout⟩
  | succ fuel ih =>
    intro m out hm hfuel hlen hout
    unfold getMarkerParticlesLoop
    by_cases hlt : (m : Int) * skip < ps.length
    · rw [if_pos hlt]
      have hmlt : m < ⌈(ps.length : ℚ) / skip⌉₊ := (lt_ceil_iff_mul_lt _ _ _ hskip).2 hlt
      have hnn : (0 : Int) ≤ m * skip := by positivity
      have hidx : ((m : Int) * skip).toNat = m * skip.toNat := by
        have h1 : ((m * skip.toNat : Nat) : Int) = (m : Int) * skip := by
          push_cast
          rw [Int.toNat_of_nonneg (by omega)]
        rw [← h1]
        exact Int.toNat_natCast _
      have hin : m * skip.toNat < ps.length := by
        rw [← hidx]
        omega
      rw [if_pos hnn, hidx, List.getElem?_eq_getElem hin]
      simp only
      have hnext : ((m : Int) * skip + skip) = ((m + 1 : Nat) : Int) * skip := by
        push_cast
        ring
      rw [hnext]
      refine ih (m + 1) (out ++ [(ps[m * skip.toNat]).position]) hmlt (by omega)
        (by simp [hlen]) ?_
      intro m' hm'
      rcases Nat.lt_succ_iff_lt_or_eq.1 hm' with h | h
      · obtain ⟨p, hp1, hp2⟩ := hout m' h
        exact ⟨p, hp1, by rw [List.getElem?_append_left (by omega)]; exact hp2⟩
      · subst h
        exact ⟨ps[m' * skip.toNat], List.getElem?_eq_getElem hin, by
          rw [List.getElem?_append_right (by omega)]
          simp [hlen]⟩
    · rw [if_neg hlt]
      have hmeq : m = ⌈(ps.length : ℚ) / skip⌉₊ := by
        have := (lt_ceil_iff_mul_lt ps.length m skip hskip).not.2 hlt
        omega
      exact ⟨out, rfl, by rw [hlen, hmeq], by rw [← hmeq]; exact hout⟩

/-- C17: for every particle list of length `n` and every `skip ≥ 1` (with the loop
given at least `⌈n/skip⌉` iterations), `getMarkerParticles(skip)` returns a list of
length `⌈n/skip⌉` whose `m`-th element is the position of particle `m·skip`, in order;
the state is only read, so it is unchanged; and `getMarkerParticles()` returns the
positions of all `n` particles in order. -/
theorem getMarkerParticles_spec (s : FluidSimulation) (skip : Int) (fuel : Nat)
    (hskip : 1 ≤ skip) (hfuel : ⌈(s._markerParticles.length : ℚ) / skip⌉₊ ≤ fuel) :
    (∃ out, getMarkerParticles fuel s skip = Run.finished out ∧
      out.length = ⌈(s._markerParticles.length : ℚ) / skip⌉₊ ∧
      ∀ m < ⌈(s._markerParticles.length : ℚ) / skip⌉₊,
        ∃ p, s._markerParticles[m * skip.toNat]? = some p ∧ out[m]? = some p.position) ∧
    (s._markerParticles.length ≤ fuel →
      getMarkerParticlesAll fuel s =
        Run.finished (s._markerParticles.map (fun p => p.position))) := by
  constructor
  · have := getMarkerParticlesLoop_spec s._markerParticles skip hskip fuel 0 []
      (Nat.zero_le _) (by omega) rfl (by intro m' h; omega)
    simpa [getMarkerParticles] using this
  · intro hf
    obtain ⟨out, hrun, hlen, hall⟩ := getMarkerParticlesLoop_spec s._markerParticles 1
      le_rfl fuel 0 [] (Nat.zero_le _) (by simp; omega) rfl (by intro m' h; omega)
    have hc : ⌈(s._markerParticles.length : ℚ) / ((1 : Int) : ℚ)⌉₊ =
        s._markerParticles.length := by simp
    rw [hc] at hlen hall
    have : out = s._markerParticles.map (fun p => p.position) := by
      apply List.ext_getElem? 
      intro m
      by_cases hm : m < s._markerParticles.length
      · obtain ⟨p, hp1, hp2⟩ := hall m hm
        simp only [Int.toNat_one, mul_one] at hp1
        rw [hp2, List.getElem?_map, hp1]
        rfl
      · rw [List.getElem?_eq_none (by omega), List.getElem?_eq_none (by simp; omega)]
    rw [← this]
    simpa [getMarkerParticlesAll, getMarkerParticles] using hrun

theorem getMarkerParticles_spec_witness :
    (∃ out, getMarkerParticles 1 ductState 2 = Run.finished out ∧
      out.length = ⌈(ductState._markerParticles.length : ℚ) / (2 : Int)⌉₊ ∧
      ∀ m < ⌈(ductState._markerParticles.length : ℚ) / (2 : Int)⌉₊,
        ∃ p, ductState._markerParticles[m * (2 : Int).toNat]? = some p ∧
          out[m]? = some p.position) ∧
    (ductState._markerParticles.length ≤ 1 →
      getMarkerParticlesAll 1 ductState =
        Run.finished (ductState._markerParticles.map (fun p => p.position))) :=
  getMarkerParticles_spec ductState 2 1 (by norm_num) (by
    have : (ductState._markerParticles.length : ℚ) / ((2 : Int) : ℚ) = 1 := by
      norm_num [ductState, mkSimulation]
    rw [this]
    simp)

/-! ## C18: positions and cell indices -/

/-- C18: for every `dx > 0` and every in-range cell index `(i, j, k)`, over exact
arithmetic `positionToGridIndex` returns the componentwise floor of `p/dx`,
`gridIndexToCellCenter(i, j, k) = ((i+0.5)dx, (j+0.5)dx, (k+0.5)dx)`, and
`positionToGridIndex` maps both `gridIndexToCellCenter(i, j, k)` and
`gridIndexToPosition(i, j, k)` back to `(i, j, k)`. -/
theorem positionToGridIndex_round_trip (s : FluidSimulation) (i j k : Int)
    (hdx : 0 < s._dx) (hin : _isCellIndexInRange s i j k = true) :
    (∀ p : Vec3, positionToGridIndex s._dx p =
      ⟨⌊p.x / s._dx⌋, ⌊p.y / s._dx⌋, ⌊p.z / s._dx⌋⟩) ∧
    gridIndexToCellCenter s i j k =
      some ⟨(i + 0.5) * s._dx, (j + 0.5) * s._dx, (k + 0.5) * s._dx⟩ ∧
    (∃ c, gridIndexToCellCenter s i j k = some c ∧
      positionToGridIndex s._dx c = ⟨i, j, k⟩) ∧
    (∃ p, gridIndexToPosition s ⟨i, j, k⟩ = some p ∧
      positionToGridIndex s._dx p = ⟨i, j, k⟩) := by
  have hcentre : ∀ n : Int, ⌊((n : ℚ) * s._dx + 0.5 * s._dx) * (1 / s._dx)⌋ = n := by
    intro n
    apply floor_cell _ _ n hdx
    · norm_num
      linarith
    · norm_num
      linarith
  have hcorner : ∀ n : Int, ⌊((n : ℚ) * s._dx) * (1 / s._dx)⌋ = n := by
    intro n
    apply floor_cell _ _ n hdx le_rfl
    linarith
  refine ⟨?_, ?_, ⟨⟨i * s._dx + 0.5 * s._dx, j * s._dx + 0.5 * s._dx,
    k * s._dx + 0.5 * s._dx⟩, ?_, ?_⟩, ⟨⟨i * s._dx, j * s._dx, k * s._dx⟩, ?_, ?_⟩⟩
  · intro p
    simp only [positionToGridIndex, mul_one_div]
  · unfold gridIndexToCellCenter
    rw [if_pos hin]
    congr 2 <;> ring
  · unfold gridIndexToCellCenter
    rw [if_pos hin]
  · simp only [positionToGridIndex, hcentre]
  · unfold gridIndexToPosition
    exact if_pos hin
  · simp only [positionToGridIndex, hcorner]

theorem positionToGridIndex_round_trip_witness :
    (∀ p : Vec3, positionToGridIndex channelState._dx p =
      ⟨⌊p.x / channelState._dx⌋, ⌊p.y / channelState._dx⌋, ⌊p.z / channelState._dx⌋⟩) ∧
    gridIndexToCellCenter channelState 2 1 1 =
      some ⟨(((2 : Int) : ℚ) + 0.5) * channelState._dx,
        (((1 : Int) : ℚ) + 0.5) * channelState._dx,
        (((1 : Int) : ℚ) + 0.5) * channelState._dx⟩ ∧
    (∃ c, gridIndexToCellCenter channelState 2 1 1 = some c ∧
      positionToGridIndex channelState._dx c = ⟨2, 1, 1⟩) ∧
    (∃ p, gridIndexToPosition channelState ⟨2, 1, 1⟩ = some p ∧
      positionToGridIndex channelState._dx p = ⟨2, 1, 1⟩) :=
  positionToGridIndex_round_trip channelState 2 1 1
    (by norm_num [channelState, mkSimulation]) (by decide)

/-! ## C19: the negative divergence vector -/

theorem foldl_max_ge (l : List ℚ) (a : ℚ) :
    a ≤ l.foldl max a ∧ ∀ x ∈ l, x ≤ l.foldl max a := by
  induction l generalizing a with
  | nil => simp
  | cons y ys ih =>
    simp only [List.foldl_cons, List.mem_cons]
    obtain ⟨h1, h2⟩ := ih (max a y)
    refine ⟨le_trans (le_max_left _ _) h1, ?_⟩
    rintro x (rfl | hx)
    · exact le_trans (le_max_right _ _) h1
    · exact h2 x hx

theorem foldl_max_mem (l : List ℚ) (a : ℚ) :
    l.foldl max a = a ∨ l.foldl max a ∈ l := by
  induction l generalizing a with
  | nil => simp
  | cons y ys ih =>
    simp only [List.foldl_cons, List.mem_cons]
    rcases ih (max a y) with h | h
    · rw [h]
      rcases max_choice a y with h' | h'
      · exact Or.inl h'
      · exact Or.inr (Or.inl h')
    · exact Or.inr (Or.inr h)

/-- C19: for every velocity field and every cell `c = (i, j, k)` of the (duplicate
free) fluid cell list whose neighbours exist, the value that
`_calculateNegativeDivergenceVector` stores is
`b(c) = -(1/dx)·[(U⁺ - U⁻) + (V⁺ - V⁻) + (W⁺ - W⁻)]`, where each of the six face values
is the stored face velocity if the neighbour cell across that face is not `M_SOLID`
and `0` if it is; and the returned value is the maximum of `|b(c)|` over the fluid
cells (`0` for an empty list). -/
theorem calculateNegativeDivergenceVector_values (s : FluidSimulation)
    (b0 : VectorCoefficients)
    (hnodup : s._fluidCellIndices.Nodup)
    (hb0 : ∀ c ∈ s._fluidCellIndices, b0.vector.isIndexInRange c.i c.j c.k = true)
    (hn : ∀ c ∈ s._fluidCellIndices, ∀ n ∈ _getNeighbourGridIndices6 c.i c.j c.k,
      s._materialGrid.isIndexInRange n.i n.j n.k = true) :
    ∃ b md, _calculateNegativeDivergenceVector s b0 = some (b, md) ∧
      (∀ c ∈ s._fluidCellIndices, b.vector.get c.i c.j c.k = some (-(1 / s._dx) *
        ((faceFlux s._materialGrid (c.i + 1) c.j c.k (s._MACVelocity.U (c.i + 1) c.j c.k)
            - faceFlux s._materialGrid (c.i - 1) c.j c.k (s._MACVelocity.U c.i c.j c.k))
          + (faceFlux s._materialGrid c.i (c.j + 1) c.k (s._MACVelocity.V c.i (c.j + 1) c.k)
            - faceFlux s._materialGrid c.i (c.j - 1) c.k (s._MACVelocity.V c.i c.j c.k))
          + (faceFlux s._materialGrid c.i c.j (c.k + 1) (s._MACVelocity.W c.i c.j (c.k + 1))
            - faceFlux s._materialGrid c.i c.j (c.k - 1) (s._MACVelocity.W c.i c.j c.k))))) ∧
      (∀ c ∈ s._fluidCellIndices, |b.vector.grid c.i c.j c.k| ≤ md) ∧
      (s._fluidCellIndices = [] → md = 0) ∧
      (s._fluidCellIndices ≠ [] →
        ∃ c ∈ s._fluidCellIndices, md = |b.vector.grid c.i c.j c.k|) := by
  obtain ⟨b, md, hrun, hr, hv, -, hmd⟩ :=
    calculateNegativeDivergenceVector_run s b0 hnodup hb0 hn
  refine ⟨b, md, hrun, ?_, ?_, ?_, ?_⟩
  · intro c hc
    rw [get_of_inRange _ _ _ _ (by rw [hr]; exact hb0 c hc), hv c hc,
      negativeDivergenceAt_eq]
  · intro c hc
    rw [hmd, hv c hc]
    exact (foldl_max_ge _ 0).2 _ (List.mem_map.2 ⟨c, hc, rfl⟩)
  · intro h
    rw [hmd, h]
    rfl
  · intro hne
    rcases foldl_max_mem (s._fluidCellIndices.map
      (fun c => |negativeDivergenceAt s c.i c.j c.k|)) 0 with h | h
    · obtain ⟨c, hc⟩ := List.exists_mem_of_ne_nil _ hne
      refine ⟨c, hc, ?_⟩
      have hle := (foldl_max_ge (s._fluidCellIndices.map
        (fun c => |negativeDivergenceAt s c.i c.j c.k|)) 0).2 _
        (List.mem_map.2 ⟨c, hc, rfl⟩)
      rw [h] at hle
      rw [hmd, h, hv c hc]
      exact le_antisymm (abs_nonneg _) hle
    · obtain ⟨c, hc, hcv⟩ := List.mem_map.1 h
      exact ⟨c, hc, by rw [hmd, hv c hc]; exact hcv.symm⟩

theorem calculateNegativeDivergenceVector_values_witness :
    ∃ b md, _calculateNegativeDivergenceVector ductState (VectorCoefficients.new 5 3 3) =
        some (b, md) ∧
      (∀ c ∈ ductState._fluidCellIndices, |b.vector.grid c.i c.j c.k| ≤ md) ∧
      (ductState._fluidCellIndices ≠ [] →
        ∃ c ∈ ductState._fluidCellIndices, md = |b.vector.grid c.i c.j c.k|) := by
  obtain ⟨b, md, h1, -, h3, -, h5⟩ := calculateNegativeDivergenceVector_values ductState
    (VectorCoefficients.new 5 3 3) (by simp [ductState])
    (by
      intro c hc
      simp only [ductState, List.mem_cons, List.mem_singleton, List.not_mem_nil,
        or_false] at hc
      rcases hc with h | h <;> (subst h; decide))
    (by
      intro c hc n hn
      simp only [ductState, List.mem_cons, List.mem_singleton, List.not_mem_nil,
        or_false] at hc
      simp only [_getNeighbourGridIndices6, List.mem_cons, List.mem_singleton,
        List.not_mem_nil, or_false] at hn
      rcases hc with h | h <;> subst h <;>
        rcases hn with h | h | h | h | h | h <;> (subst h; decide))
  exact ⟨b, md, h1, h3, h5⟩

/-! ## C16: the pressure grid outside the fluid -/

/-- C16: after `_updatePressureGrid(dt)`, for every state, the pressure of every cell
that is not in the fluid cell list is `0`; and if the largest magnitude that
`_calculateNegativeDivergenceVector` returns is below the tolerance, the call returns
right after it, with no solve run, the hash table untouched and the pressure of every
cell `0`. -/
theorem updatePressureGrid_zero_outside (sqrt : ℚ → ℚ) (s : FluidSimulation) (dt : ℚ) :
    (∀ s', _updatePressureGrid sqrt s dt = some s' →
      ∀ i j k : Int, GridIndex.mk i j k ∉ s._fluidCellIndices →
        s'._pressureGrid.grid i j k = 0) ∧
    (∀ b md, _calculateNegativeDivergenceVector
        { s with _pressureGrid := s._pressureGrid.fill 0 }
        (VectorCoefficients.new s._i_voxels s._j_voxels s._k_voxels) = some (b, md) →
      md < s._pressureSolveTolerance →
      _updatePressureGrid sqrt s dt = some { s with _pressureGrid := s._pressureGrid.fill 0 } ∧
      ∀ i j k : Int, (s._pressureGrid.fill 0).grid i j k = 0) := by
  constructor
  · intro s' h i j k hnot
    unfold _updatePressureGrid at h
    simp only [Option.bind_eq_bind, Option.bind_eq_some] at h
    obtain ⟨⟨b, md⟩, -, h⟩ := h
    split_ifs at h with hlt
    · rw [← Option.some.inj h]
      rfl
    · simp only [Option.bind_eq_some] at h
      obtain ⟨A, -, precon, -, pressures, -, h⟩ := h
      have key := forRange_partial _ _
        (_updateFluidGridIndexToEigenVectorXdIndexHashTable
          { s with _pressureGrid := s._pressureGrid.fill 0 })
        (fun _ (st : FluidSimulation) => st._fluidCellIndices = s._fluidCellIndices ∧
          ∀ x y z : Int, GridIndex.mk x y z ∉ s._fluidCellIndices →
            st._pressureGrid.grid x y z = 0)
        ⟨rfl, fun _ _ _ _ => rfl⟩
        (fun n st st' _ hI hstep => by
          simp only [Option.bind_eq_some] at hstep
          obtain ⟨index, hidx, p, -, g, hg, hst⟩ := hstep
          rw [← Option.some.inj hst]
          refine ⟨hI.1, fun x y z hxyz => ?_⟩
          show g.grid x y z = 0
          have hmem : index ∈ s._fluidCellIndices := by
            unfold _VectorIndexToGridIndex at hidx
            split_ifs at hidx
            rw [hI.1] at hidx
            exact List.getElem?_mem hidx
          unfold Array3d.set at hg
          split_ifs at hg
          rw [← Option.some.inj hg]
          have hne : ¬ (x = index.i ∧ y = index.j ∧ z = index.k) := by
            rintro ⟨rfl, rfl, rfl⟩
            exact hxyz hmem
          simp only [hne, if_false]
          exact hI.2 x y z hxyz) s' h
      exact key.2 i j k hnot
  · intro b md hb hlt
    refine ⟨?_, fun _ _ _ => rfl⟩
    unfold _updatePressureGrid
    simp only [Option.bind_eq_bind]
    rw [hb, Option.some_bind]
    exact if_pos hlt

theorem updatePressureGrid_zero_outside_witness :
    _updatePressureGrid (fun x => x) channelState 1 =
        some { channelState with _pressureGrid := channelState._pressureGrid.fill 0 } ∧
      ∀ i j k : Int, (channelState._pressureGrid.fill 0).grid i j k = 0 :=
  (updatePressureGrid_zero_outside (fun x => x) channelState 1).2
    (VectorCoefficients.new 4 3 3) 0 rfl (by norm_num [channelState, mkSimulation])

/-! ## C20: the diagonal coefficients -/

theorem inletState_cells :
    _isCellFluid inletState._materialGrid 3 1 1 = some false ∧
    _isCellAir inletState._materialGrid 3 1 1 = some false ∧
    _isCellFluid inletState._materialGrid 2 2 1 = some false ∧
    _isCellAir inletState._materialGrid 2 2 1 = some false ∧
    _isCellFluid inletState._materialGrid 2 1 2 = some false ∧
    _isCellAir inletState._materialGrid 2 1 2 = some false ∧
    _isCellFluid inletState._materialGrid 1 1 1 = some false ∧
    _isCellFluid inletState._materialGrid 2 0 1 = some false ∧
    _isCellFluid inletState._materialGrid 2 1 0 = some false := by
  simp [_isCellFluid, _isCellAir, inletState, mkSimulation, Array3d.get,
    Array3d.isIndexInRange, inletMaterial]

theorem inletState_neighbours :
    _getNumFluidOrAirCellNeighbours inletState._materialGrid 2 1 1 = some 1 := by
  simp [_getNumFluidOrAirCellNeighbours, _isCellSolid, inletState, mkSimulation,
    Array3d.get, Array3d.isIndexInRange, inletMaterial]

/-- C20, what the code does: on the sample inlet (solid outer shell, fluid cell
`(2, 1, 1)` with the air cell `(1, 1, 1)` on its negative `x` side and solid cells on
its other five sides) `_calculateMatrixCoefficients`, started from zeroed
coefficients, completes and leaves `A.diag(2, 1, 1) = 0`, whereas the cell has one
non-solid 6-neighbour and `_MatrixCoefficientsToEigenSparseMatrix` puts
`1 · σ = dt/20` on the diagonal of the assembled matrix; the two differ for every
`dt ≠ 0`. -/
theorem calculateMatrixCoefficients_diag_negative_side (dt : ℚ) :
    ∃ A M, _calculateMatrixCoefficients inletState (MatrixCoefficients.new 4 3 3) dt =
        some A ∧
      A.diag.get 2 1 1 = some 0 ∧
      _getNumFluidOrAirCellNeighbours inletState._materialGrid 2 1 1 = some 1 ∧
      _MatrixCoefficientsToEigenSparseMatrix inletState A dt = some M ∧
      M.coeff 0 0 = 1 * (dt / (inletState._density * inletState._dx * inletState._dx)) ∧
      (dt ≠ 0 → A.diag.get 2 1 1 ≠ some (M.coeff 0 0)) := by
  obtain ⟨c1, c2, c3, c4, c5, c6, c7, c8, c9⟩ := inletState_cells
  have hA : _calculateMatrixCoefficients inletState (MatrixCoefficients.new 4 3 3) dt =
      some (MatrixCoefficients.new 4 3 3) := by
    unfold _calculateMatrixCoefficients
    show List.foldlM _ _ [GridIndex.mk 2 1 1] = _
    simp only [List.foldlM_cons, List.foldlM_nil, matrixAxisUpdate, Option.bind_eq_bind,
      Option.pure_def]
    norm_num [c1, c2, c3, c4, c5, c6]
  have hM : _MatrixCoefficientsToEigenSparseMatrix inletState (MatrixCoefficients.new 4 3 3)
      dt = some ⟨1, [(0, 0, 1 * (dt / (inletState._density * inletState._dx *
        inletState._dx)))]⟩ := by
    unfold _MatrixCoefficientsToEigenSparseMatrix
    show Option.bind (List.foldlM _ _ [((0 : Nat), GridIndex.mk 2 1 1)]) _ = _
    simp only [List.foldlM_cons, List.foldlM_nil, neighbourTriplet, Option.bind_eq_bind,
      Option.pure_def, inletState_neighbours, Option.some_bind]
    norm_num [c1, c3, c5, c7, c8, c9, setFromTriplets]
    exact ⟨Nat.zero_lt_one, rfl⟩
  have hcoef : (SparseMatrix.mk 1 [(0, 0, 1 * (dt / (inletState._density * inletState._dx *
      inletState._dx)))]).coeff 0 0 =
      1 * (dt / (inletState._density * inletState._dx * inletState._dx)) := by
    simp [SparseMatrix.coeff]
  refine ⟨_, _, hA, rfl, inletState_neighbours, hM, hcoef, ?_⟩
  intro hdt h
  rw [hcoef] at h
  have h' : (0 : ℚ) = 1 * (dt / (inletState._density * inletState._dx * inletState._dx)) :=
    Option.some.inj h
  norm_num [inletState, mkSimulation] at h'
  exact hdt (by linarith)

/-! ## C22: the order of the fluid cell list -/

/-- C22: after `_updateFluidCells` (from a state in which every particle's cached cell
is in range and not `M_SOLID`, so that the call completes), the fluid cell list
contains exactly the `M_FLUID` cells of the material grid, each exactly once, in
strictly increasing lexicographic order of `(k, j, i)` with `k` most significant and
`i` least significant. -/
theorem updateFluidCells_list_sorted (s : FluidSimulation)
    (hp : ∀ p ∈ s._markerParticles,
      ∃ m, s._materialGrid.get p.i p.j p.k = some m ∧ m ≠ M_SOLID) :
    ∃ s', _updateFluidCells s = some s' ∧
      (∀ c : GridIndex, c ∈ s'._fluidCellIndices ↔
        s'._materialGrid.get c.i c.j c.k = some M_FLUID) ∧
      s'._fluidCellIndices.Nodup ∧
      s'._fluidCellIndices.Pairwise sweepBefore := by
  obtain ⟨g2, hrun, -⟩ := updateFluidCells_run s hp
  refine ⟨_, hrun, ?_, ?_, ?_⟩
  · intro c
    show c ∈ List.filter _ _ ↔ g2.get c.i c.j c.k = some M_FLUID
    rw [List.mem_filter, decide_eq_true_eq]
    constructor
    · rintro ⟨hc, hf⟩
      rw [get_of_inRange g2 _ _ _ (inRange_of_mem_cellList g2 c hc), hf]
    · intro h
      obtain ⟨hin, hv⟩ := get_eq_some h
      exact ⟨mem_cellList_of_inRange g2 c.i c.j c.k hin, hv⟩
  · exact (cellList_nodup _ _ _).filter _
  · exact (cellList_pairwise _ _ _).filter _

theorem updateFluidCells_list_sorted_witness :
    ∃ s', _updateFluidCells channelState = some s' ∧
      (∀ c : GridIndex, c ∈ s'._fluidCellIndices ↔
        s'._materialGrid.get c.i c.j c.k = some M_FLUID) ∧
      s'._fluidCellIndices.Nodup ∧
      s'._fluidCellIndices.Pairwise sweepBefore :=
  updateFluidCells_list_sorted channelState (by
    intro p hmem
    simp only [channelState, mkSimulation, List.mem_singleton] at hmem
    subst hmem
    exact ⟨M_AIR, by
      simp [channelState, mkSimulation, Array3d.get, Array3d.isIndexInRange,
        channelMaterial], by decide⟩)

/-! ## C23: the hash from cell indices to list positions -/

/-- C23, what the code does: on the sample slab (`W = 3`, `H = 7`, `D = 4`) the fluid
cell list holds the two distinct in-range cells `(1, 5, 1)` and `(1, 1, 2)`; both get
the key `28 = i + W·(j + D·k)`, so after
`_updateFluidGridIndexToEigenVectorXdIndexHashTable` the table holds the single pair
`(28, 0)`, and `_GridIndexToVectorIndex(_VectorIndexToGridIndex(1))` is `0`, not
`1`. -/
theorem gridIndexHash_collision :
    slabState._fluidCellIndices.Nodup ∧
    (∀ c ∈ slabState._fluidCellIndices, _isCellIndexInRange slabState c.i c.j c.k = true) ∧
    _calculateGridIndexHash slabState ⟨1, 5, 1⟩ = 28 ∧
    _calculateGridIndexHash slabState ⟨1, 1, 2⟩ = 28 ∧
    (_updateFluidGridIndexToEigenVectorXdIndexHashTable slabState)._GridIndexToEigenVectorXdIndex
      = [(28, 0)] ∧
    _VectorIndexToGridIndex (_updateFluidGridIndexToEigenVectorXdIndexHashTable slabState) 1
      = some ⟨1, 1, 2⟩ ∧
    _GridIndexToVectorIndex (_updateFluidGridIndexToEigenVectorXdIndexHashTable slabState)
      1 1 2 = 0 := by
  refine ⟨by decide, by decide, by decide, by decide, by decide, by decide, by decide⟩

/-! ## C24: where the hash is rebuilt -/

theorem hashInsert_of_absent (t : HashTable) (key : Nat) (v : Int)
    (h : hashFind t key = none) : hashInsert t key v = t ++ [(key, v)] := by
  unfold hashInsert
  rw [h]
  rfl

/-- The table built from a list of cells with pairwise distinct keys maps the key of
every listed cell to the position of the cell. -/
theorem hashTable_of_distinct_keys (key : GridIndex → Nat) (l : List GridIndex)
    (hkeys : (l.map key).Nodup) :
    (∀ kv ∈ l.enum.foldl (fun t ic => hashInsert t (key ic.2) (ic.1 : Int)) [],
      ∃ c ∈ l, kv.1 = key c) ∧
    ∀ (idx : Nat) (c : GridIndex), l[idx]? = some c →
      hashFind (l.enum.foldl (fun t ic => hashInsert t (key ic.2) (ic.1 : Int)) [])
        (key c) = some (idx : Int) := by
  induction l using List.reverseRecOn with
  | nil => simp
  | append_singleton l a ih =>
    rw [List.map_append, List.nodup_append] at hkeys
    obtain ⟨hl, -, hdisj⟩ := hkeys
    obtain ⟨ih1, ih2⟩ := ih hl
    have hnew : hashFind (l.enum.foldl (fun t ic => hashInsert t (key ic.2) (ic.1 : Int)) [])
        (key a) = none := by
      unfold hashFind
      rw [Option.map_eq_none', List.find?_eq_none]
      intro kv hkv
      obtain ⟨c, hc, hk⟩ := ih1 kv hkv
      simp only [decide_eq_true_eq]
      intro h
      exact hdisj (List.mem_map.2 ⟨c, hc, rfl⟩) (by rw [← hk, h]; simp)
    have hfold : (l ++ [a]).enum.foldl (fun t ic => hashInsert t (key ic.2) (ic.1 : Int)) [] =
        l.enum.foldl (fun t ic => hashInsert t (key ic.2) (ic.1 : Int)) [] ++
          [(key a, (l.length : Int))] := by
      rw [List.enum_append, List.foldl_append]
      simp only [List.enumFrom_cons, List.enumFrom_nil, List.foldl_cons, List.foldl_nil]
      exact hashInsert_of_absent _ _ _ hnew
    rw [hfold]
    constructor
    · intro kv hkv
      rcases List.mem_append.1 hkv with h | h
      · obtain ⟨c, hc, hk⟩ := ih1 kv h
        exact ⟨c, List.mem_append_left _ hc, hk⟩
      · rw [List.mem_singleton] at h
        exact ⟨a, by simp, by rw [h]⟩
    · intro idx c hc
      unfold hashFind
      rw [List.find?_append]
      by_cases hidx : idx < l.length
      · rw [List.getElem?_append_left hidx] at hc
        have := ih2 idx c hc
        unfold hashFind at this
        cases hfind : List.find? (fun kv => decide (kv.1 = key c))
            (l.enum.foldl (fun t ic => hashInsert t (key ic.2) (ic.1 : Int)) []) with
        | none => rw [hfind] at this; cases this
        | some kv =>
          rw [hfind] at this
          simpa using this
      · have hlen : idx = l.length := by
          have := (List.getElem?_eq_some.1 hc).1
          simp only [List.length_append, List.length_singleton] at this
          omega
        subst hlen
        rw [List.getElem?_append_right (le_refl _)] at hc
        simp only [Nat.sub_self, List.getElem?_cons_zero, Option.some.injEq] at hc
        subst hc
        unfold hashFind at hnew
        rw [Option.map_eq_none'] at hnew
        rw [hnew]
        simp

/-- C24, as the code has it: `_updateFluidCells` leaves the hash as it was;
`_updatePressureGrid` leaves it as it was when the solve is skipped and otherwise
rebuilds it, just before the solve, as the table of the fluid cell list; and that
table maps every listed cell to its position whenever the keys of the listed cells are
pairwise distinct. -/
theorem hash_rebuilt_by_pressure_stage :
    (∀ s s1 : FluidSimulation, _updateFluidCells s = some s1 →
      s1._GridIndexToEigenVectorXdIndex = s._GridIndexToEigenVectorXdIndex) ∧
    (∀ (sqrt : ℚ → ℚ) (s s' : FluidSimulation) (dt : ℚ),
      _updatePressureGrid sqrt s dt = some s' →
      s'._fluidCellIndices = s._fluidCellIndices ∧
      ∃ b md, _calculateNegativeDivergenceVector
          { s with _pressureGrid := s._pressureGrid.fill 0 }
          (VectorCoefficients.new s._i_voxels s._j_voxels s._k_voxels) = some (b, md) ∧
        (md < s._pressureSolveTolerance →
          s'._GridIndexToEigenVectorXdIndex = s._GridIndexToEigenVectorXdIndex) ∧
        (¬ md < s._pressureSolveTolerance →
          s'._GridIndexToEigenVectorXdIndex = fluidCellHashTable s)) ∧
    (∀ s : FluidSimulation,
      (s._fluidCellIndices.map (_calculateGridIndexHash s)).Nodup →
      ∀ (idx : Nat) (c : GridIndex), s._fluidCellIndices[idx]? = some c →
        _GridIndexToVectorIndex (_updateFluidGridIndexToEigenVectorXdIndexHashTable s)
          c.i c.j c.k = idx) := by
  refine ⟨?_, ?_, ?_⟩
  · intro s s1 h
    obtain ⟨g, cells, rfl⟩ := updateFluidCells_form h
    rfl
  · intro sqrt s s' dt h
    unfold _updatePressureGrid at h
    simp only [Option.bind_eq_bind, Option.bind_eq_some] at h
    obtain ⟨⟨b, md⟩, hb, h⟩ := h
    split_ifs at h with hlt
    · rw [← Option.some.inj h]
      exact ⟨rfl, b, md, hb, fun _ => rfl, fun hn => absurd hlt hn⟩
    · simp only [Option.bind_eq_some] at h
      obtain ⟨A, -, precon, -, pressures, -, h⟩ := h
      have key := forRange_partial _ _
        (_updateFluidGridIndexToEigenVectorXdIndexHashTable
          { s with _pressureGrid := s._pressureGrid.fill 0 })
        (fun _ (st : FluidSimulation) => st._fluidCellIndices = s._fluidCellIndices ∧
          st._GridIndexToEigenVectorXdIndex = fluidCellHashTable s)
        ⟨rfl, rfl⟩
        (fun n st st' _ hI hstep => by
          simp only [Option.bind_eq_some] at hstep
          obtain ⟨index, -, p, -, g, -, hst⟩ := hstep
          rw [← Option.some.inj hst]
          exact hI) s' h
      exact ⟨key.1, b, md, hb, fun hl => absurd hl hlt, fun _ => key.2⟩
  · intro s hkeys idx c hc
    have := (hashTable_of_distinct_keys (_calculateGridIndexHash s) s._fluidCellIndices
      hkeys).2 idx c hc
    unfold _GridIndexToVectorIndex
    show (match hashFind (fluidCellHashTable s) (_calculateGridIndexHash s ⟨c.i, c.j, c.k⟩) with
      | none => -1
      | some v => v) = _
    unfold fluidCellHashTable
    rw [this]

/-- C24 as stated fails: on the sample channel (whose hash is empty, as after
construction) `_updateFluidCells` completes, the cell `(1, 1, 1)` is `M_FLUID` and
listed in the rebuilt fluid cell list, yet `_GridIndexToVectorIndex(1, 1, 1)` is `-1`,
which is no list position. -/
theorem hash_stale_after_classification :
    ∃ s1, _updateFluidCells channelState = some s1 ∧
      s1._materialGrid.get 1 1 1 = some M_FLUID ∧
      (∃ idx : Nat, s1._fluidCellIndices[idx]? = some ⟨1, 1, 1⟩) ∧
      _GridIndexToVectorIndex s1 1 1 1 = -1 := by
  obtain ⟨s1, hrun, hmem, -, -⟩ := updateFluidCells_list_sorted channelState (by
    intro p hmem
    simp only [channelState, mkSimulation, List.mem_singleton] at hmem
    subst hmem
    exact ⟨M_AIR, by
      simp [channelState, mkSimulation, Array3d.get, Array3d.isIndexInRange,
        channelMaterial], by decide⟩)
  obtain ⟨g2, cells, hrun', ⟨hw, hh, hd⟩, hgrid⟩ := channel_classified
  rw [hrun] at hrun'
  have hs1 := Option.some.inj hrun'
  have hf : s1._materialGrid.get 1 1 1 = some M_FLUID := by
    rw [hs1]
    show g2.get 1 1 1 = _
    rw [get_of_inRange g2 1 1 1 (by simp [Array3d.isIndexInRange, hw, hh, hd]), hgrid]
    simp
  refine ⟨s1, hrun, hf, ?_, ?_⟩
  · have := (hmem ⟨1, 1, 1⟩).2 hf
    obtain ⟨idx, hidx⟩ := List.mem_iff_getElem?.1 this
    exact ⟨idx, hidx⟩
  · rw [hs1]
    rfl

/-! ## C25: the extrapolated face velocities -/

theorem foldl_sum_count {α : Type} (l : List α) (p : α → Bool) (f : α → ℚ) (a n : ℚ) :
    l.foldl (fun (acc : ℚ × ℚ) c => if p c = true then (acc.1 + f c, acc.2 + 1) else acc)
        (a, n) =
      (a + ((l.filter p).map f).sum, n + ((l.filter p).length : ℚ)) := by
  induction l generalizing a n with
  | nil => simp
  | cons x xs ih =>
    simp only [List.foldl_cons]
    by_cases hx : p x = true
    · rw [if_pos hx, ih, List.filter_cons_of_pos hx]
      simp only [List.map_cons, List.sum_cons, List.length_cons, Nat.cast_add, Nat.cast_one]
      congr 1 <;> ring
    · rw [if_neg hx, ih, List.filter_cons_of_neg hx]

theorem mean_or_zero {α : Type} (l : List α) (p : α → Bool) (f : α → ℚ) :
    (let acc := l.foldl (fun (acc : ℚ × ℚ) c =>
        if p c = true then (acc.1 + f c, acc.2 + 1) else acc) (0, 0)
      if acc.1 = 0 then 0 else acc.1 / acc.2) =
      (if (l.filter p).length = 0 then 0
        else ((l.filter p).map f).sum / ((l.filter p).length : ℚ)) ∧
    ((l.foldl (fun (acc : ℚ × ℚ) c =>
        if p c = true then (acc.1 + f c, acc.2 + 1) else acc) (0, 0)).1 ≠ 0 →
      (l.foldl (fun (acc : ℚ × ℚ) c =>
        if p c = true then (acc.1 + f c, acc.2 + 1) else acc) (0, 0)).2 ≠ 0) := by
  rw [foldl_sum_count]
  simp only [zero_add]
  constructor
  · by_cases hq : (l.filter p).length = 0
    · simp [List.length_eq_zero.1 hq]
    · rw [if_neg hq]
      by_cases hs : ((l.filter p).map f).sum = 0
      · simp [hs]
      · rw [if_neg hs]
  · intro hs hlen
    have : l.filter p = [] := by
      have h0 : (l.filter p).length = 0 := by exact_mod_cast hlen
      exact List.length_eq_zero.1 h0
    rw [this] at hs
    simp at hs

/-- C25: for every velocity field, layer grid, face index `(i, j, k)` and layer `l`,
`_getExtrapolatedVelocityForFaceU` returns the arithmetic mean of `U` over those of
the six lattice neighbours `(i±1, j, k)`, `(i, j±1, k)`, `(i, j, k±1)` that are in range
for `U` and border a layer-`(l-1)` cell, and `0` when no neighbour qualifies; the
division is performed only with a non-zero count.  The same holds for the `V` and `W`
variants. -/
theorem getExtrapolatedVelocityForFace_mean (m : MACVelocityField) (lg : Array3d Int)
    (i j k l : Int) :
    (_getExtrapolatedVelocityForFaceU m lg i j k l =
        (if ((_getNeighbourGridIndices6 i j k).filter (fun c =>
            m.isIndexInRangeU c.i c.j c.k &&
              _isFaceBorderingLayerIndexU lg c.i c.j c.k (l - 1))).length = 0 then 0
          else (((_getNeighbourGridIndices6 i j k).filter (fun c =>
              m.isIndexInRangeU c.i c.j c.k &&
                _isFaceBorderingLayerIndexU lg c.i c.j c.k (l - 1))).map
              (fun c => m.U c.i c.j c.k)).sum /
            (((_getNeighbourGridIndices6 i j k).filter (fun c =>
              m.isIndexInRangeU c.i c.j c.k &&
                _isFaceBorderingLayerIndexU lg c.i c.j c.k (l - 1))).length : ℚ)) ∧
      (((_getNeighbourGridIndices6 i j k).foldl (fun (acc : ℚ × ℚ) c =>
          if (m.isIndexInRangeU c.i c.j c.k &&
              _isFaceBorderingLayerIndexU lg c.i c.j c.k (l - 1)) = true then
            (acc.1 + m.U c.i c.j c.k, acc.2 + 1)
          else acc) (0, 0)).1 ≠ 0 →
        ((_getNeighbourGridIndices6 i j k).foldl (fun (acc : ℚ × ℚ) c =>
          if (m.isIndexInRangeU c.i c.j c.k &&
              _isFaceBorderingLayerIndexU lg c.i c.j c.k (l - 1)) = true then
            (acc.1 + m.U c.i c.j c.k, acc.2 + 1)
          else acc) (0, 0)).2 ≠ 0)) ∧
    (_getExtrapolatedVelocityForFaceV m lg i j k l =
        (if ((_getNeighbourGridIndices6 i j k).filter (fun c =>
            m.isIndexInRangeV c.i c.j c.k &&
              _isFaceBorderingLayerIndexV lg c.i c.j c.k (l - 1))).length = 0 then 0
          else (((_getNeighbourGridIndices6 i j k).filter (fun c =>
              m.isIndexInRangeV c.i c.j c.k &&
                _isFaceBorderingLayerIndexV lg c.i c.j c.k (l - 1))).map
              (fun c => m.V c.i c.j c.k)).sum /
            (((_getNeighbourGridIndices6 i j k).filter (fun c =>
              m.isIndexInRangeV c.i c.j c.k &&
                _isFaceBorderingLayerIndexV lg c.i c.j c.k (l - 1))).length : ℚ)) ∧
      (((_getNeighbourGridIndices6 i j k).foldl (fun (acc : ℚ × ℚ) c =>
          if (m.isIndexInRangeV c.i c.j c.k &&
              _isFaceBorderingLayerIndexV lg c.i c.j c.k (l - 1)) = true then
            (acc.1 + m.V c.i c.j c.k, acc.2 + 1)
          else acc) (0, 0)).1 ≠ 0 →
        ((_getNeighbourGridIndices6 i j k).foldl (fun (acc : ℚ × ℚ) c =>
          if (m.isIndexInRangeV c.i c.j c.k &&
              _isFaceBorderingLayerIndexV lg c.i c.j c.k (l - 1)) = true then
            (acc.1 + m.V c.i c.j c.k, acc.2 + 1)
          else acc) (0, 0)).2 ≠ 0)) ∧
    (_getExtrapolatedVelocityForFaceW m lg i j k l =
        (if ((_getNeighbourGridIndices6 i j k).filter (fun c =>
            m.isIndexInRangeW c.i c.j c.k &&
              _isFaceBorderingLayerIndexW lg c.i c.j c.k (l - 1))).length = 0 then 0
          else (((_getNeighbourGridIndices6 i j k).filter (fun c =>
              m.isIndexInRangeW c.i c.j c.k &&
                _isFaceBorderingLayerIndexW lg c.i c.j c.k (l - 1))).map
              (fun c => m.W c.i c.j c.k)).sum /
            (((_getNeighbourGridIndices6 i j k).filter (fun c =>
              m.isIndexInRangeW c.i c.j c.k &&
                _isFaceBorderingLayerIndexW lg c.i c.j c.k (l - 1))).length : ℚ)) ∧
      (((_getNeighbourGridIndices6 i j k).foldl (fun (acc : ℚ × ℚ) c =>
          if (m.isIndexInRangeW c.i c.j c.k &&
              _isFaceBorderingLayerIndexW lg c.i c.j c.k (l - 1)) = true then
            (acc.1 + m.W c.i c.j c.k, acc.2 + 1)
          else acc) (0, 0)).1 ≠ 0 →
        ((_getNeighbourGridIndices6 i j k).foldl (fun (acc : ℚ × ℚ) c =>
          if (m.isIndexInRangeW c.i c.j c.k &&
              _isFaceBorderingLayerIndexW lg c.i c.j c.k (l - 1)) = true then
            (acc.1 + m.W c.i c.j c.k, acc.2 + 1)
          else acc) (0, 0)).2 ≠ 0)) :=
  ⟨mean_or_zero _ _ _, mean_or_zero _ _ _, mean_or_zero _ _ _⟩

/-! ## C26: body forces -/

theorem foldlM_lift {σ τ α : Type} (lift : τ → σ) (fS : σ → α → Option σ)
    (fT : τ → α → Option τ) (h : ∀ t a, fS (lift t) a = (fT t a).map lift)
    (l : List α) (t0 : τ) :
    l.foldlM fS (lift t0) = (l.foldlM fT t0).map lift := by
  induction l generalizing t0 with
  | nil => rfl
  | cons a as ih =>
    simp only [List.foldlM_cons, Option.bind_eq_bind, h]
    cases fT t0 a with
    | none => rfl
    | some t1 => exact ih t1

theorem forCells_lift {σ τ : Type} (lift : τ → σ) (d h w : Nat)
    (bodyS : Int → Int → Int → σ → Option σ) (bodyT : Int → Int → Int → τ → Option τ)
    (hb : ∀ i j k t, bodyS i j k (lift t) = (bodyT i j k t).map lift) (t0 : τ) :
    forCells d h w bodyS (lift t0) = (forCells d h w bodyT t0).map lift := by
  rw [forCells_eq_foldlM, forCells_eq_foldlM]
  exact foldlM_lift lift _ _ (fun t c => hb c.i c.j c.k t) _ t0

/-- A sweep over the index range of an array that adds `delta` wherever `cond` holds:
the sweep completes, and the array holds the old value plus `delta` exactly at the
swept indices satisfying `cond`. -/
theorem add_sweep (d h w : Nat) (g0 : Array3d ℚ)
    (hw : g0.width = w) (hh : g0.height = h) (hd : g0.depth = d)
    (cond : Int → Int → Int → Bool) (delta : ℚ) :
    ∃ g, forCells d h w (fun i j k g =>
        if cond i j k = true then Array3d.add g i j k delta else some g) g0 = some g ∧
      g.width = w ∧ g.height = h ∧ g.depth = d ∧
      ∀ x y z, g.grid x y z =
        if g0.isIndexInRange x y z = true ∧ cond x y z = true then g0.grid x y z + delta
        else g0.grid x y z := by
  rw [forCells_eq_foldlM]
  have hnd := cellList_nodup d h w
  obtain ⟨g, hrun, gw, gh, gd, hg⟩ := foldlM_inv
    (fun (g : Array3d ℚ) (c : GridIndex) =>
      if cond c.i c.j c.k = true then Array3d.add g c.i c.j c.k delta else some g)
    (cellList d h w) g0
    (fun pre g => g.width = w ∧ g.height = h ∧ g.depth = d ∧
      ∀ x y z, g.grid x y z =
        if GridIndex.mk x y z ∈ pre ∧ cond x y z = true then g0.grid x y z + delta
        else g0.grid x y z)
    ⟨hw, hh, hd, fun x y z => by simp⟩
    (by
      rintro pre c post g hl ⟨gw, gh, gd, hg⟩
      have hcmem : c ∈ cellList d h w := by rw [hl]; simp
      have hcnot : c ∉ pre := by
        rw [hl] at hnd
        have := (List.nodup_append.1 hnd).2.2
        intro hp
        exact this hp (by simp)
      have hin : g.isIndexInRange c.i c.j c.k = true := by
        rw [mem_cellList] at hcmem
        simp only [Array3d.isIndexInRange, gw, gh, gd, decide_eq_true_eq]
        omega
      by_cases hc : cond c.i c.j c.k = true
      · refine ⟨⟨g.width, g.height, g.depth, fun a b e =>
            if a = c.i ∧ b = c.j ∧ e = c.k then g.grid c.i c.j c.k + delta
            else g.grid a b e⟩, ?_, gw, gh, gd, ?_⟩
        · beta_reduce
          rw [if_pos hc]
          simp [Array3d.add, Array3d.get, Array3d.set, hin]
        · intro x y z
          by_cases hx : x = c.i ∧ y = c.j ∧ z = c.k
          · obtain ⟨rfl, rfl, rfl⟩ := hx
            have hold : g.grid c.i c.j c.k = g0.grid c.i c.j c.k := by
              rw [hg, if_neg (fun h => hcnot h.1)]
            simp [hold, hc]
          · have hne : GridIndex.mk x y z ≠ c := by
              intro h
              apply hx
              rw [← h]
              exact ⟨rfl, rfl, rfl⟩
            simp only [hx, if_false, hg, List.mem_append, List.mem_singleton, hne, or_false]
      · refine ⟨g, by beta_reduce; rw [if_neg hc], gw, gh, gd, ?_⟩
        intro x y z
        rw [hg]
        by_cases hx : GridIndex.mk x y z = c
        · have h1 : cond x y z = false := by
            have : x = c.i ∧ y = c.j ∧ z = c.k := by rw [← hx]; exact ⟨rfl, rfl, rfl⟩
            obtain ⟨rfl, rfl, rfl⟩ := this
            simpa using hc
          simp [h1]
        · simp [hx])
  refine ⟨g, hrun, gw, gh, gd, fun x y z => ?_⟩
  rw [hg]
  by_cases hin : g0.isIndexInRange x y z = true
  · have : GridIndex.mk x y z ∈ cellList d h w := by
      have := mem_cellList_of_inRange g0 x y z hin
      rwa [hw, hh, hd] at this
    simp [hin, this]
  · have : GridIndex.mk x y z ∉ cellList d h w := by
      intro hm
      apply hin
      have := inRange_of_mem_cellList g0 ⟨x, y, z⟩ (by rw [hw, hh, hd]; exact hm)
      exact this
    simp [hin, this]

/-- One axis of the body-force update, seen on the one array it touches. -/
theorem axis_sweep (d h w : Nat) (lift : Array3d ℚ → MACVelocityField)
    (g0 : Array3d ℚ) (hw : g0.width = w) (hh : g0.height = h) (hd : g0.depth = d)
    (body : Int → Int → Int → MACVelocityField → Option MACVelocityField)
    (cond : Int → Int → Int → Bool) (force dt : ℚ)
    (hb : ∀ i j k t, body i j k (lift t) =
      (if cond i j k = true then Array3d.add t i j k (force * dt) else some t).map lift) :
    ∃ g, (if |force| > 0 then forCells d h w body (lift g0) else pure (lift g0)) =
        some (lift g) ∧
      g.width = w ∧ g.height = h ∧ g.depth = d ∧
      (∀ x y z, g.grid x y z =
        if g0.isIndexInRange x y z = true ∧ cond x y z = true
        then g0.grid x y z + force * dt else g0.grid x y z) ∧
      (force = 0 → g = g0) := by
  by_cases hx : |force| > 0
  · obtain ⟨g, hrun, gw, gh, gd, hg⟩ := add_sweep d h w g0 hw hh hd cond (force * dt)
    refine ⟨g, ?_, gw, gh, gd, hg, fun h0 => by rw [h0] at hx; simp at hx⟩
    rw [if_pos hx]
    have := forCells_lift lift d h w body
      (fun i j k g =>
        if cond i j k = true then Array3d.add g i j k (force * dt) else some g) hb g0
    rw [hrun] at this
    exact this
  · refine ⟨g0, by rw [if_neg hx]; rfl, hw, hh, hd, fun x y z => ?_, fun _ => rfl⟩
    have h0 : force = 0 := by
      by_contra hne
      exact hx (abs_pos.2 hne)
    rw [h0]
    simp

/-- C26: for every velocity field, body force `g` and `dt` (on a state whose grids have
the simulation's dimensions), `_applyBodyForcesToVelocityField(dt)` completes; each
face velocity on axis `a` that borders an `M_FLUID` cell or has been extrapolated
equals its old value plus `g_a·dt`, every other face velocity on that axis is
unchanged, and when `g_a = 0` no face velocity on axis `a` changes; the temp arrays,
the material, layer and pressure grids, the particles and everything else are
unchanged. -/
theorem applyBodyForcesToVelocityField_spec (s : FluidSimulation) (dt : ℚ)
    (hwf : WellFormed s) :
    ∃ u v w, _applyBodyForcesToVelocityField s dt =
        some { s with _MACVelocity := { s._MACVelocity with u := u, v := v, w := w } } ∧
      (∀ x y z, u.grid x y z =
        if s._MACVelocity.u.isIndexInRange x y z = true ∧
            (_isFaceBorderingMaterialU s._materialGrid x y z M_FLUID ||
              _isFaceVelocityExtrapolatedU s._layerGrid x y z) = true
        then s._MACVelocity.u.grid x y z + s._bodyForce.x * dt
        else s._MACVelocity.u.grid x y z) ∧
      (∀ x y z, v.grid x y z =
        if s._MACVelocity.v.isIndexInRange x y z = true ∧
            (_isFaceBorderingMaterialV s._materialGrid x y z M_FLUID ||
              _isFaceVelocityExtrapolatedV s._layerGrid x y z) = true
        then s._MACVelocity.v.grid x y z + s._bodyForce.y * dt
        else s._MACVelocity.v.grid x y z) ∧
      (∀ x y z, w.grid x y z =
        if s._MACVelocity.w.isIndexInRange x y z = true ∧
            (_isFaceBorderingMaterialW s._materialGrid x y z M_FLUID ||
              _isFaceVelocityExtrapolatedW s._layerGrid x y z) = true
        then s._MACVelocity.w.grid x y z + s._bodyForce.z * dt
        else s._MACVelocity.w.grid x y z) ∧
      (s._bodyForce.x = 0 → u = s._MACVelocity.u) ∧
      (s._bodyForce.y = 0 → v = s._MACVelocity.v) ∧
      (s._bodyForce.z = 0 → w = s._MACVelocity.w) := by
  obtain ⟨-, -, -, ⟨uw, uh, ud⟩, ⟨vw, vh, vd⟩, ⟨ww, wh, wd⟩, -, -, -⟩ := hwf
  obtain ⟨u, hu, -, -, -, hug, hu0⟩ := axis_sweep s._k_voxels s._j_voxels (s._i_voxels + 1)
    (fun a => ({ s._MACVelocity with u := a } : MACVelocityField))
    s._MACVelocity.u uw uh ud
    (fun i j k m =>
      if _isFaceBorderingMaterialU s._materialGrid i j k M_FLUID ||
          _isFaceVelocityExtrapolatedU s._layerGrid i j k then
        MACVelocityField.addU m i j k (s._bodyForce.x * dt)
      else pure m)
    (fun i j k => _isFaceBorderingMaterialU s._materialGrid i j k M_FLUID ||
      _isFaceVelocityExtrapolatedU s._layerGrid i j k) s._bodyForce.x dt
    (fun i j k t => by
      by_cases hc : (_isFaceBorderingMaterialU s._materialGrid i j k M_FLUID ||
          _isFaceVelocityExtrapolatedU s._layerGrid i j k) = true
      · simp only [hc, if_true, MACVelocityField.addU, Array3d.add,
          Option.bind_eq_bind, Option.pure_def]
        cases t.get i j k with
        | none => rfl
        | some old =>
          simp only [Option.some_bind]
          cases t.set i j k (old + s._bodyForce.x * dt) <;> rfl
      · simp only [hc, if_false]
        rfl)
  obtain ⟨v, hv, -, -, -, hvg, hv0⟩ := axis_sweep s._k_voxels (s._j_voxels + 1) s._i_voxels
    (fun a => ({ s._MACVelocity with u := u, v := a } : MACVelocityField))
    s._MACVelocity.v vw vh vd
    (fun i j k m =>
      if _isFaceBorderingMaterialV s._materialGrid i j k M_FLUID ||
          _isFaceVelocityExtrapolatedV s._layerGrid i j k then
        MACVelocityField.addV m i j k (s._bodyForce.y * dt)
      else pure m)
    (fun i j k => _isFaceBorderingMaterialV s._materialGrid i j k M_FLUID ||
      _isFaceVelocityExtrapolatedV s._layerGrid i j k) s._bodyForce.y dt
    (fun i j k t => by
      by_cases hc : (_isFaceBorderingMaterialV s._materialGrid i j k M_FLUID ||
          _isFaceVelocityExtrapolatedV s._layerGrid i j k) = true
      · simp only [hc, if_true, MACVelocityField.addV, Array3d.add,
          Option.bind_eq_bind, Option.pure_def]
        cases t.get i j k with
        | none => rfl
        | some old =>
          simp only [Option.some_bind]
          cases t.set i j k (old + s._bodyForce.y * dt) <;> rfl
      · simp only [hc, if_false]
        rfl)
  obtain ⟨w, hw, -, -, -, hwg, hw0⟩ := axis_sweep (s._k_voxels + 1) s._j_voxels s._i_voxels
    (fun a => ({ s._MACVelocity with u := u, v := v, w := a } : MACVelocityField))
    s._MACVelocity.w ww wh wd
    (fun i j k m =>
      if _isFaceBorderingMaterialW s._materialGrid i j k M_FLUID ||
          _isFaceVelocityExtrapolatedW s._layerGrid i j k then
        MACVelocityField.addW m i j k (s._bodyForce.z * dt)
      else pure m)
    (fun i j k => _isFaceBorderingMaterialW s._materialGrid i j k M_FLUID ||
      _isFaceVelocityExtrapolatedW s._layerGrid i j k) s._bodyForce.z dt
    (fun i j k t => by
      by_cases hc : (_isFaceBorderingMaterialW s._materialGrid i j k M_FLUID ||
          _isFaceVelocityExtrapolatedW s._layerGrid i j k) = true
      · simp only [hc, if_true, MACVelocityField.addW, Array3d.add,
          Option.bind_eq_bind, Option.pure_def]
        cases t.get i j k with
        | none => rfl
        | some old =>
          simp only [Option.some_bind]
          cases t.set i j k (old + s._bodyForce.z * dt) <;> rfl
      · simp only [hc, if_false]
        rfl)
  refine ⟨u, v, w, ?_, hug, hvg, hwg, hu0, hv0, hw0⟩
  unfold _applyBodyForcesToVelocityField
  simp only [Option.bind_eq_bind]
  have hu1 : (if |s._bodyForce.x| > 0 then
        forCells s._k_voxels s._j_voxels (s._i_voxels + 1) (fun i j k m =>
          if _isFaceBorderingMaterialU s._materialGrid i j k M_FLUID ||
              _isFaceVelocityExtrapolatedU s._layerGrid i j k then
            MACVelocityField.addU m i j k (s._bodyForce.x * dt)
          else pure m) s._MACVelocity
      else pure s._MACVelocity) = some { s._MACVelocity with u := u } := hu
  rw [hu1, Option.some_bind]
  have hv1 : (if |s._bodyForce.y| > 0 then
        forCells s._k_voxels (s._j_voxels + 1) s._i_voxels (fun i j k m =>
          if _isFaceBorderingMaterialV s._materialGrid i j k M_FLUID ||
              _isFaceVelocityExtrapolatedV s._layerGrid i j k then
            MACVelocityField.addV m i j k (s._bodyForce.y * dt)
          else pure m) { s._MACVelocity with u := u }
      else pure { s._MACVelocity with u := u }) =
        some { s._MACVelocity with u := u, v := v } := hv
  rw [hv1, Option.some_bind]
  have hw1 : (if |s._bodyForce.z| > 0 then
        forCells (s._k_voxels + 1) s._j_voxels s._i_voxels (fun i j k m =>
          if _isFaceBorderingMaterialW s._materialGrid i j k M_FLUID ||
              _isFaceVelocityExtrapolatedW s._layerGrid i j k then
            MACVelocityField.addW m i j k (s._bodyForce.z * dt)
          else pure m) { s._MACVelocity with u := u, v := v }
      else pure { s._MACVelocity with u := u, v := v }) =
        some { s._MACVelocity with u := u, v := v, w := w } := hw
  rw [hw1, Option.some_bind]
  rfl

theorem applyBodyForcesToVelocityField_spec_witness :
    WellFormed channelState ∧
    ∃ u v w, _applyBodyForcesToVelocityField channelState 1 =
        some { channelState with
          _MACVelocity := { channelState._MACVelocity with u := u, v := v, w := w } } ∧
      (∀ x y z, u.grid x y z =
        if channelState._MACVelocity.u.isIndexInRange x y z = true ∧
            (_isFaceBorderingMaterialU channelState._materialGrid x y z M_FLUID ||
              _isFaceVelocityExtrapolatedU channelState._layerGrid x y z) = true
        then channelState._MACVelocity.u.grid x y z + channelState._bodyForce.x * 1
        else channelState._MACVelocity.u.grid x y z) ∧
      (∀ x y z, v.grid x y z =
        if channelState._MACVelocity.v.isIndexInRange x y z = true ∧
            (_isFaceBorderingMaterialV channelState._materialGrid x y z M_FLUID ||
              _isFaceVelocityExtrapolatedV channelState._layerGrid x y z) = true
        then channelState._MACVelocity.v.grid x y z + channelState._bodyForce.y * 1
        else channelState._MACVelocity.v.grid x y z) ∧
      (∀ x y z, w.grid x y z =
        if channelState._MACVelocity.w.isIndexInRange x y z = true ∧
            (_isFaceBorderingMaterialW channelState._materialGrid x y z M_FLUID ||
              _isFaceVelocityExtrapolatedW channelState._layerGrid x y z) = true
        then channelState._MACVelocity.w.grid x y z + channelState._bodyForce.z * 1
        else channelState._MACVelocity.w.grid x y z) ∧
      (channelState._bodyForce.x = 0 → u = channelState._MACVelocity.u) ∧
      (channelState._bodyForce.y = 0 → v = channelState._MACVelocity.v) ∧
      (channelState._bodyForce.z = 0 → w = channelState._MACVelocity.w) :=
  ⟨mkSimulation_wellFormed 4 3 3 1 channelMaterial [⟨⟨199 / 100, 3 / 2, 3 / 2⟩, 1, 1, 1⟩],
    applyBodyForcesToVelocityField_spec channelState 1
      (mkSimulation_wellFormed 4 3 3 1 channelMaterial [⟨⟨199 / 100, 3 / 2, 3 / 2⟩, 1, 1, 1⟩])⟩

/-! ## The particle ranges of the workers -/

/-- Closed form of the ranges of source lines 1431-1439: worker `t` starts at
`t · chunksize`, and ends one before the next start, except the last worker, which
ends at `size - 1`. -/
theorem particleRanges_closed (n N : Int) (hN : 1 ≤ N) :
    ∃ starts ends : List Int, particleRanges n N = some (starts, ends) ∧
      starts.length = N.toNat ∧ ends.length = N.toNat ∧
      ∀ t : Nat, t < N.toNat →
        starts[t]? = some ((t : Int) * Int.tdiv n N) ∧
        ends[t]? = some (if (t : Int) = N - 1 then n - 1
          else ((t : Int) + 1) * Int.tdiv n N - 1) := by
  unfold particleRanges
  rw [if_neg (by omega)]
  obtain ⟨acc, hrun, h1, h2, h3⟩ := forRange_inv N.toNat
    (fun i (acc : List Int × List Int) => do
      let startIdx ← (if i = 0 then pure 0 else do
        let e ← acc.2[(i - 1).toNat]?
        pure (e + 1))
      let endIdx := if i = N - 1 then n - 1 else startIdx + Int.tdiv n N - 1
      pure (acc.1 ++ [startIdx], acc.2 ++ [endIdx])) ([], [])
    (fun m acc => acc.1.length = m ∧ acc.2.length = m ∧
      ∀ t : Nat, t < m →
        acc.1[t]? = some ((t : Int) * Int.tdiv n N) ∧
        acc.2[t]? = some (if (t : Int) = N - 1 then n - 1
          else ((t : Int) + 1) * Int.tdiv n N - 1))
    ⟨rfl, rfl, fun t ht => absurd ht (Nat.not_lt_zero t)⟩
    (by
      rintro m ⟨as, bs⟩ hm ⟨h1, h2, h3⟩
      simp only at h1 h2 h3
      have hstart : (if (m : Int) = 0 then (pure 0 : Option Int) else do
          let e ← bs[((m : Int) - 1).toNat]?
          pure (e + 1)) = some ((m : Int) * Int.tdiv n N) := by
        rcases Nat.eq_zero_or_pos m with h0 | hpos
        · subst h0
          simp
        · have hne : (m : Int) ≠ 0 := by omega
          rw [if_neg hne]
          have hidx : ((m : Int) - 1).toNat = m - 1 := by omega
          have := (h3 (m - 1) (by omega)).2
          rw [hidx, this]
          have hnl : ¬ (((m - 1 : Nat) : Int) = N - 1) := by omega
          rw [if_neg hnl]
          have hc : ((m - 1 : Nat) : Int) + 1 = (m : Int) := by omega
          simp [hc]
      refine ⟨(as ++ [(m : Int) * Int.tdiv n N],
        bs ++ [if (m : Int) = N - 1 then n - 1
          else ((m : Int) + 1) * Int.tdiv n N - 1]), ?_, by simp [h1], by simp [h2], ?_⟩
      · simp only [Option.bind_eq_bind] at hstart ⊢
        rw [hstart]
        simp only [Option.some_bind, Option.pure_def]
        rw [add_one_mul]
      · intro t ht
        rcases Nat.lt_succ_iff_lt_or_eq.1 ht with hlt | heq
        · rw [List.getElem?_append_left (by omega), List.getElem?_append_left (by omega)]
          exact h3 t hlt
        · subst heq
          constructor
          · rw [List.getElem?_append_right (by omega)]
            simp [h1]
          · rw [List.getElem?_append_right (by omega)]
            simp [h2])
  exact ⟨acc.1, acc.2, hrun, h1, h2, h3⟩


/-- C27 (the claim fails): five particles and two workers give the ranges `[0, 1]` and
`[2, 4]`, of lengths two and three. -/
theorem particleRanges_unequal :
    particleRanges 5 2 = some ([0, 2], [1, 4]) ∧ (1 : Int) - 0 + 1 ≠ 4 - 2 + 1 := by
  constructor
  · rfl
  · decide

/-- C27 (amended): for every particle count `n ≥ 0` and worker count `N ≥ 1` the ranges
computed by `_advanceMarkerParticles` exist, one per worker; they are contiguous
(`start_0 = 0`, `start_{t+1} = end_t + 1`, `end_{N-1} = n - 1`); every worker but the
last gets `⌊n / N⌋` particles and the last gets the remaining `n - (N - 1)·⌊n / N⌋`; and
every particle index lies in exactly one range. -/
theorem particleRanges_partition (n N : Int) (hn : 0 ≤ n) (hN : 1 ≤ N) :
    ∃ starts ends : List Int, particleRanges n N = some (starts, ends) ∧
      starts.length = N.toNat ∧ ends.length = N.toNat ∧
      starts[0]? = some 0 ∧
      (∀ t : Nat, (t : Int) + 1 < N →
        ∃ e, ends[t]? = some e ∧ starts[t + 1]? = some (e + 1)) ∧
      ends[(N - 1).toNat]? = some (n - 1) ∧
      (∀ t : Nat, (t : Int) < N → ∃ a e, starts[t]? = some a ∧ ends[t]? = some e ∧
        e - a + 1 = if (t : Int) = N - 1 then n - (N - 1) * Int.tdiv n N
          else Int.tdiv n N) ∧
      (∀ i : Int, 0 ≤ i → i < n → ∃ t : Nat, (t : Int) < N ∧
        (∃ a e, starts[t]? = some a ∧ ends[t]? = some e ∧ a ≤ i ∧ i ≤ e) ∧
        ∀ u : Nat, (u : Int) < N →
          (∃ a e, starts[u]? = some a ∧ ends[u]? = some e ∧ a ≤ i ∧ i ≤ e) → u = t) := by
  obtain ⟨starts, ends, hrun, hs, he, hform⟩ := particleRanges_closed n N hN
  have hq : Int.tdiv n N = n / N := Int.tdiv_eq_ediv hn (by omega)
  have hNpos : 0 < N := by omega
  have hq0 : 0 ≤ n / N := Int.ediv_nonneg hn (by omega)
  have hqle : N * (n / N) ≤ n := Int.mul_ediv_self_le (by omega)
  have hqlt : n < N * (n / N) + N := by
    have := Int.lt_ediv_add_one_mul_self n hNpos
    linarith
  rw [hq] at hform
  refine ⟨starts, ends, hrun, hs, he, ?_, ?_, ?_, ?_, ?_⟩
  · have := (hform 0 (by omega)).1
    simpa using this
  · intro t ht
    have h1 := (hform t (by omega)).2
    have h2 := (hform (t + 1) (by omega)).1
    rw [if_neg (by omega)] at h1
    refine ⟨_, h1, ?_⟩
    rw [h2]
    push_cast
    congr 1
    ring
  · have := (hform (N - 1).toNat (by omega)).2
    rw [if_pos (by omega)] at this
    exact this
  · intro t ht
    obtain ⟨h1, h2⟩ := hform t (by omega)
    refine ⟨_, _, h1, h2, ?_⟩
    by_cases hl : (t : Int) = N - 1
    · rw [if_pos hl, if_pos hl, hl, hq]
      ring
    · rw [if_neg hl, if_neg hl, hq]
      ring
  · intro i hi0 hin
    have key : ∀ u t : Nat, (u : Int) < N → (t : Int) < N → u < t →
        (∃ a e, starts[u]? = some a ∧ ends[u]? = some e ∧ a ≤ i ∧ i ≤ e) →
        (∃ a e, starts[t]? = some a ∧ ends[t]? = some e ∧ a ≤ i ∧ i ≤ e) → False := by
      rintro u t hu ht hut ⟨a, e, -, he1, -, hie⟩ ⟨a', e', ha1, -, hai, -⟩
      have h2 := (hform u (by omega)).2
      rw [if_neg (by omega), he1] at h2
      have h1 := (hform t (by omega)).1
      rw [ha1] at h1
      have ea := Option.some.inj h2
      have aa := Option.some.inj h1
      have hmono : ((u : Int) + 1) * (n / N) ≤ (t : Int) * (n / N) :=
        mul_le_mul_of_nonneg_right (by omega) hq0
      omega
    have hex : ∃ t : Nat, (t : Int) < N ∧
        ∃ a e, starts[t]? = some a ∧ ends[t]? = some e ∧ a ≤ i ∧ i ≤ e := by
      by_cases hlast : ((N - 1) * (n / N) ≤ i)
      · refine ⟨(N - 1).toNat, by omega, _, _, (hform _ (by omega)).1,
          (hform _ (by omega)).2, ?_, ?_⟩
        · have : (((N - 1).toNat : Nat) : Int) = N - 1 := by omega
          rw [this]
          exact hlast
        · rw [if_pos (by omega)]
          omega
      · have hqpos : 0 < n / N := by
          rcases hq0.lt_or_eq with h | h
          · exact h
          · rw [← h] at hlast
            simp at hlast
            omega
        have hd0 : 0 ≤ i / (n / N) := Int.ediv_nonneg hi0 hq0
        have hd1 : i / (n / N) * (n / N) ≤ i := Int.ediv_mul_le i (by omega)
        have hd2 : i < (i / (n / N) + 1) * (n / N) :=
          Int.lt_ediv_add_one_mul_self i hqpos
        have hdlt : i / (n / N) < N - 1 := by
          by_contra hge
          apply hlast
          have : (N - 1) * (n / N) ≤ i / (n / N) * (n / N) :=
            mul_le_mul_of_nonneg_right (by omega) hq0
          omega
        have hcast : (((i / (n / N)).toNat : Nat) : Int) = i / (n / N) := by omega
        refine ⟨(i / (n / N)).toNat, by omega, _, _, (hform _ (by omega)).1,
          (hform _ (by omega)).2, ?_, ?_⟩
        · rw [hcast]
          exact hd1
        · rw [if_neg (by omega), hcast]
          omega
    obtain ⟨t, ht, hmem⟩ := hex
    refine ⟨t, ht, hmem, fun u hu humem => ?_⟩
    rcases Nat.lt_trichotomy u t with h | h | h
    · exact absurd (key u t hu ht h humem hmem) id
    · exact h
    · exact absurd (key t u ht hu h hmem humem) id


theorem particleRanges_partition_witness :
    (0 : Int) ≤ 5 ∧ (1 : Int) ≤ 2 ∧
    ∃ starts ends : List Int, particleRanges 5 2 = some (starts, ends) ∧
      starts.length = (2 : Int).toNat ∧ ends.length = (2 : Int).toNat ∧
      starts[0]? = some 0 ∧
      (∀ t : Nat, (t : Int) + 1 < 2 →
        ∃ e, ends[t]? = some e ∧ starts[t + 1]? = some (e + 1)) ∧
      ends[((2 : Int) - 1).toNat]? = some (5 - 1) ∧
      (∀ t : Nat, (t : Int) < 2 → ∃ a e, starts[t]? = some a ∧ ends[t]? = some e ∧
        e - a + 1 = if (t : Int) = 2 - 1 then 5 - (2 - 1) * Int.tdiv 5 2
          else Int.tdiv 5 2) ∧
      (∀ i : Int, 0 ≤ i → i < 5 → ∃ t : Nat, (t : Int) < 2 ∧
        (∃ a e, starts[t]? = some a ∧ ends[t]? = some e ∧ a ≤ i ∧ i ≤ e) ∧
        ∀ u : Nat, (u : Int) < 2 →
          (∃ a e, starts[u]? = some a ∧ ends[u]? = some e ∧ a ≤ i ∧ i ≤ e) → u = t) :=
  ⟨by decide, by decide, particleRanges_partition 5 2 (by decide) (by decide)⟩


/-- C35 (the code violates the claim): with one particle and two workers the first
range handed to `_advanceRangeOfMarkerParticles` is `(0, -1)`, whose assertion
`startIdx <= endIdx` fails, so the particle advance of a state with one particle and
two workers aborts.  With at least as many particles as workers every range passes the
assertion and stays inside the particle array. -/
theorem advanceMarkerParticles_range_assertion :
    particleRanges 1 2 = some ([0, 0], [-1, 0]) ∧
    (∀ env s dt, _advanceRangeOfMarkerParticles env s 0 (-1) dt = none) ∧
    (∀ env dt, _advanceMarkerParticles env
      { channelState with _numAdvanceMarkerParticleThreads := 2 } dt = none) ∧
    (∀ n N : Int, 1 ≤ N → N ≤ n →
      ∃ starts ends : List Int, particleRanges n N = some (starts, ends) ∧
        starts.length = N.toNat ∧ ends.length = N.toNat ∧
        ∀ t : Nat, (t : Int) < N → ∃ a e, starts[t]? = some a ∧ ends[t]? = some e ∧
          0 ≤ a ∧ a ≤ e ∧ e ≤ n - 1) := by
  refine ⟨rfl, fun env s dt => rfl, fun env dt => ?_, fun n N hN hn => ?_⟩
  · have hr : particleRanges 1 2 = some ([0, 0], [-1, 0]) := rfl
    unfold _advanceMarkerParticles
    simp only [channelState, mkSimulation, List.length_singleton, Nat.cast_one, hr,
      Option.bind_eq_bind, Option.some_bind]
    rfl
  · obtain ⟨starts, ends, hrun, hs, he, hform⟩ := particleRanges_closed n N hN
    have hq : Int.tdiv n N = n / N := Int.tdiv_eq_ediv (by omega) (by omega)
    have hqle : N * (n / N) ≤ n := Int.mul_ediv_self_le (by omega)
    have hq1 : 1 ≤ n / N := by
      have := Int.ediv_le_ediv (by omega : 0 < N) hn
      rwa [Int.ediv_self (by omega)] at this
    rw [hq] at hform
    refine ⟨starts, ends, hrun, hs, he, fun t ht => ?_⟩
    obtain ⟨h1, h2⟩ := hform t (by omega)
    refine ⟨_, _, h1, h2, by positivity, ?_, ?_⟩
    · have hmono : (t : Int) * (n / N) ≤ (N - 1) * (n / N) :=
        mul_le_mul_of_nonneg_right (by omega) (by omega)
      by_cases hl : (t : Int) = N - 1
      · rw [if_pos hl]
        rw [hl]
        linarith
      · rw [if_neg hl]
        linarith
    · by_cases hl : (t : Int) = N - 1
      · rw [if_pos hl]
      · rw [if_neg hl]
        have hmono : ((t : Int) + 1) * (n / N) ≤ N * (n / N) :=
          mul_le_mul_of_nonneg_right (by omega) (by omega)
        linarith

/-! ## The preconditioner -/

theorem calculatePreconditionerVector_eq (sqrt : ℚ → ℚ) (s : FluidSimulation)
    (p : VectorCoefficients) (A : MatrixCoefficients) :
    _calculatePreconditionerVector sqrt s p A =
      s._fluidCellIndices.foldlM (preconditionerStep sqrt A) p := rfl

theorem get_of_dims {α : Type} {g : Array3d α} {W H D : Nat} (h : HasDims g W H D)
    (i j k : Int) (hi : 0 ≤ i ∧ i < W) (hj : 0 ≤ j ∧ j < H) (hk : 0 ≤ k ∧ k < D) :
    g.get i j k = some (g.grid i j k) := by
  obtain ⟨hw, hh, hd⟩ := h
  apply get_of_inRange
  simp only [Array3d.isIndexInRange, hw, hh, hd, decide_eq_true_eq]
  omega

/-- One iteration of the preconditioner loop on a cell whose reads are in range: the
reads succeed, and the value is stored when `|e|` exceeds the threshold. -/
theorem preconditionerStep_eq (sqrt : ℚ → ℚ) (A : MatrixCoefficients)
    (p : VectorCoefficients) (W H D : Nat) (hA : A.HasDims W H D)
    (hp : HasDims p.vector W H D) (c : GridIndex) (hc : NegativeSidesInRange W H D c) :
    preconditionerStep sqrt A p c =
      if |pivotAt A p c| > 1 / 100000000 then
        (p.vector.set c.i c.j c.k (1 / sqrt (pivotAt A p c))).bind (fun a => some ⟨a⟩)
      else some p := by
  obtain ⟨hd, hpi, hpj, hpk⟩ := hA
  obtain ⟨i1, i2, j1, j2, k1, k2⟩ := hc
  have e1 : A.minusSide c.i c.j c.k = some (A.plusi.grid (c.i - 1) c.j c.k,
      A.plusj.grid c.i (c.j - 1) c.k, A.plusk.grid c.i c.j (c.k - 1)) := by
    unfold MatrixCoefficients.minusSide
    rw [get_of_dims hpi _ _ _ (by omega) (by omega) (by omega),
      get_of_dims hpj _ _ _ (by omega) (by omega) (by omega),
      get_of_dims hpk _ _ _ (by omega) (by omega) (by omega)]
    rfl
  have e2 : p.minusSide c.i c.j c.k = some (p.vector.grid (c.i - 1) c.j c.k,
      p.vector.grid c.i (c.j - 1) c.k, p.vector.grid c.i c.j (c.k - 1)) := by
    unfold VectorCoefficients.minusSide
    rw [get_of_dims hp _ _ _ (by omega) (by omega) (by omega),
      get_of_dims hp _ _ _ (by omega) (by omega) (by omega),
      get_of_dims hp _ _ _ (by omega) (by omega) (by omega)]
    rfl
  have e3 : A.diag.get c.i c.j c.k = some (A.diag.grid c.i c.j c.k) :=
    get_of_dims hd _ _ _ (by omega) (by omega) (by omega)
  have e4 : ∀ x y z : Int, (0 ≤ x ∧ x < W) → (0 ≤ y ∧ y < H) → (0 ≤ z ∧ z < D) →
      A.plusAt x y z = some (A.plusi.grid x y z, A.plusj.grid x y z, A.plusk.grid x y z) := by
    intro x y z hx hy hz
    unfold MatrixCoefficients.plusAt
    rw [get_of_dims hpi _ _ _ hx hy hz, get_of_dims hpj _ _ _ hx hy hz,
      get_of_dims hpk _ _ _ hx hy hz]
    rfl
  unfold preconditionerStep
  rw [e1, e2, e3, e4 _ _ _ (by omega) (by omega) (by omega),
    e4 _ _ _ (by omega) (by omega) (by omega), e4 _ _ _ (by omega) (by omega) (by omega)]
  rfl

theorem preconditionerStep_spec (sqrt : ℚ → ℚ) (A : MatrixCoefficients)
    (p : VectorCoefficients) (W H D : Nat) (hA : A.HasDims W H D)
    (hp : HasDims p.vector W H D) (c : GridIndex) (hc : NegativeSidesInRange W H D c) :
    ∃ p', preconditionerStep sqrt A p c = some p' ∧ HasDims p'.vector W H D ∧
      (∀ x y z, ¬ (x = c.i ∧ y = c.j ∧ z = c.k) →
        p'.vector.grid x y z = p.vector.grid x y z) ∧
      p'.vector.grid c.i c.j c.k =
        if |pivotAt A p c| > 1 / 100000000 then 1 / sqrt (pivotAt A p c)
        else p.vector.grid c.i c.j c.k := by
  rw [preconditionerStep_eq sqrt A p W H D hA hp c hc]
  obtain ⟨i1, i2, j1, j2, k1, k2⟩ := hc
  have hin : p.vector.isIndexInRange c.i c.j c.k = true := by
    obtain ⟨hw, hh, hd⟩ := hp
    simp only [Array3d.isIndexInRange, hw, hh, hd, decide_eq_true_eq]
    omega
  by_cases he : |pivotAt A p c| > 1 / 100000000
  · rw [if_pos he, if_pos he]
    refine ⟨⟨⟨p.vector.width, p.vector.height, p.vector.depth, fun a b e =>
      if a = c.i ∧ b = c.j ∧ e = c.k then 1 / sqrt (pivotAt A p c)
      else p.vector.grid a b e⟩⟩, ?_, hp, ?_, ?_⟩
    · simp [Array3d.set, hin]
    · intro x y z hne
      simp [hne]
    · simp
  · rw [if_neg he, if_neg he]
    exact ⟨p, rfl, hp, fun _ _ _ _ => rfl, rfl⟩

/-- The preconditioner loop over any list of cells whose reads are in range
completes and leaves the unlisted cells as they were. -/
theorem preconditioner_fold (sqrt : ℚ → ℚ) (A : MatrixCoefficients) (W H D : Nat)
    (hA : A.HasDims W H D) (l : List GridIndex)
    (hl : ∀ c ∈ l, NegativeSidesInRange W H D c) (p : VectorCoefficients)
    (hp : HasDims p.vector W H D) :
    ∃ p', l.foldlM (preconditionerStep sqrt A) p = some p' ∧ HasDims p'.vector W H D ∧
      ∀ x y z, GridIndex.mk x y z ∉ l → p'.vector.grid x y z = p.vector.grid x y z := by
  induction l generalizing p with
  | nil => exact ⟨p, rfl, hp, fun _ _ _ _ => rfl⟩
  | cons c l ih =>
    obtain ⟨p1, h1, hd1, hf1, -⟩ := preconditionerStep_spec sqrt A p W H D hA hp c
      (hl c (List.mem_cons_self _ _))
    obtain ⟨p2, h2, hd2, hf2⟩ := ih (fun c hc => hl c (List.mem_cons_of_mem _ hc)) p1 hd1
    refine ⟨p2, ?_, hd2, fun x y z hx => ?_⟩
    · rw [List.foldlM_cons, h1]
      exact h2
    · rw [hf2 x y z (fun h => hx (List.mem_cons_of_mem _ h))]
      apply hf1
      rintro ⟨rfl, rfl, rfl⟩
      exact hx (List.mem_cons_self _ _)

/-- The run of `_calculatePreconditionerVector`, cell by cell: the call completes,
and for every listed cell `c` the values held when `c` is processed are those left by
the cells listed before it; they differ from the initial ones only at those cells, and
the value stored for `c` survives to the end unless `c` is listed again. -/
theorem calculatePreconditionerVector_run (sqrt : ℚ → ℚ) (s : FluidSimulation)
    (p0 : VectorCoefficients) (A : MatrixCoefficients) (W H D : Nat)
    (hA : A.HasDims W H D) (hp : HasDims p0.vector W H D)
    (hin : ∀ c ∈ s._fluidCellIndices, NegativeSidesInRange W H D c) :
    ∃ P, _calculatePreconditionerVector sqrt s p0 A = some P ∧ HasDims P.vector W H D ∧
      (∀ x y z, GridIndex.mk x y z ∉ s._fluidCellIndices →
        P.vector.grid x y z = p0.vector.grid x y z) ∧
      ∀ pre c post, s._fluidCellIndices = pre ++ c :: post →
        ∃ Ppre, _calculatePreconditionerVector sqrt { s with _fluidCellIndices := pre }
            p0 A = some Ppre ∧
          (∀ x y z, GridIndex.mk x y z ∉ pre →
            Ppre.vector.grid x y z = p0.vector.grid x y z) ∧
          (∀ x y z, GridIndex.mk x y z ∉ c :: post →
            P.vector.grid x y z = Ppre.vector.grid x y z) ∧
          (c ∉ post → P.vector.grid c.i c.j c.k =
            if |pivotAt A Ppre c| > 1 / 100000000 then 1 / sqrt (pivotAt A Ppre c)
            else Ppre.vector.grid c.i c.j c.k) := by
  obtain ⟨P, hrun, hdP, hfP⟩ := preconditioner_fold sqrt A W H D hA _ hin p0 hp
  refine ⟨P, hrun, hdP, hfP, fun pre c post hl => ?_⟩
  have hin1 : ∀ x ∈ pre, NegativeSidesInRange W H D x := fun x hx =>
    hin x (by rw [hl]; exact List.mem_append_left _ hx)
  have hin2 : ∀ x ∈ post, NegativeSidesInRange W H D x := fun x hx =>
    hin x (by rw [hl]; exact List.mem_append_right _ (List.mem_cons_of_mem _ hx))
  have hinc : NegativeSidesInRange W H D c :=
    hin c (by rw [hl]; exact List.mem_append_right _ (List.mem_cons_self _ _))
  obtain ⟨P1, h1, hd1, hf1⟩ := preconditioner_fold sqrt A W H D hA pre hin1 p0 hp
  obtain ⟨P2, h2, hd2, hf2, hv2⟩ := preconditionerStep_spec sqrt A P1 W H D hA hd1 c hinc
  obtain ⟨P3, h3, hd3, hf3⟩ := preconditioner_fold sqrt A W H D hA post hin2 P2 hd2
  have hP : P = P3 := by
    have : s._fluidCellIndices.foldlM (preconditionerStep sqrt A) p0 = some P3 := by
      rw [hl, List.foldlM_append, h1]
      show (c :: post).foldlM (preconditionerStep sqrt A) P1 = some P3
      rw [List.foldlM_cons, h2]
      exact h3
    rw [this] at hrun
    exact (Option.some.inj hrun).symm
  refine ⟨P1, h1, hf1, fun x y z hx => ?_, fun hc => ?_⟩
  · rw [hP, hf3 x y z (fun h => hx (List.mem_cons_of_mem _ h))]
    apply hf2
    rintro ⟨rfl, rfl, rfl⟩
    exact hx (List.mem_cons_self _ _)
  · rw [hP, hf3 c.i c.j c.k hc, hv2]

/-- C30 (the claim fails): a 3×3×3 grid whose only listed cell is the centre, zero
off-diagonal coefficients and diagonal `5e-9` at the centre, and a zero initial
preconditioner.  The value `e` of the centre is `5e-9`, which is above `1e-9`, but the
call stores nothing: the centre keeps `0`, which is not `1 / sqrt e` for any square
root that is not `0` at `5e-9`. -/
theorem preconditioner_threshold_gap :
    pivotAt tinyDiagonal (VectorCoefficients.new 3 3 3) ⟨1, 1, 1⟩ = 1 / 200000000 ∧
    |(1 / 200000000 : ℚ)| > 1 / 1000000000 ∧
    ∀ sqrt : ℚ → ℚ,
      _calculatePreconditionerVector sqrt (centreFluidState M_SOLID [])
        (VectorCoefficients.new 3 3 3) tinyDiagonal = some (VectorCoefficients.new 3 3 3) ∧
      (VectorCoefficients.new 3 3 3).vector.grid 1 1 1 = 0 ∧
      (sqrt (1 / 200000000) ≠ 0 → (0 : ℚ) ≠ 1 / sqrt (1 / 200000000)) := by
  have hpiv : pivotAt tinyDiagonal (VectorCoefficients.new 3 3 3) ⟨1, 1, 1⟩ =
      1 / 200000000 := by
    simp only [pivotAt, preconditionerPivot, tinyDiagonal, MatrixCoefficients.new,
      VectorCoefficients.new]
    norm_num
  refine ⟨hpiv, by norm_num [abs_of_pos], fun sqrt => ⟨?_, rfl, fun h0 h => ?_⟩⟩
  · have hstep := preconditionerStep_eq sqrt tinyDiagonal
      (VectorCoefficients.new 3 3 3) 3 3 3
      ⟨⟨rfl, rfl, rfl⟩, ⟨rfl, rfl, rfl⟩, ⟨rfl, rfl, rfl⟩, ⟨rfl, rfl, rfl⟩⟩
      ⟨rfl, rfl, rfl⟩ ⟨1, 1, 1⟩ (by simp [NegativeSidesInRange])
    rw [hpiv, if_neg (by norm_num [abs_of_pos])] at hstep
    rw [calculatePreconditionerVector_eq]
    show [GridIndex.mk 1 1 1].foldlM (preconditionerStep sqrt tinyDiagonal)
      (VectorCoefficients.new 3 3 3) = _
    rw [List.foldlM_cons, hstep]
    rfl
  · have := one_div_ne_zero h0
    exact this h.symm


/-- C30 (amended): for coefficient grids and an initial vector of the grid's
dimensions and a duplicate-free fluid cell list whose cells have their negative-side
neighbours in range, `_calculatePreconditionerVector` completes, and for every listed
cell `c`, with `e` computed by the MIC(0) formula (`tau = 0.97`) from the values held
when `c` is processed and replaced by `A_diag(c)` when `e < 0.25·A_diag(c)`, the final
value is `P(c) = 1/sqrt(e)` when `|e| > 1e-8` (the literal `10e-9`) and the initial
value of `c` (zero for a fresh vector) otherwise.  The values held when `c` is
processed are the final ones wherever the cell is not listed at or after `c`. -/
theorem calculatePreconditionerVector_spec (sqrt : ℚ → ℚ) (s : FluidSimulation)
    (p0 : VectorCoefficients) (A : MatrixCoefficients) (W H D : Nat)
    (hA : A.HasDims W H D) (hp : HasDims p0.vector W H D)
    (hin : ∀ c ∈ s._fluidCellIndices, NegativeSidesInRange W H D c)
    (hnd : s._fluidCellIndices.Nodup) :
    ∃ P, _calculatePreconditionerVector sqrt s p0 A = some P ∧
      ∀ pre c post, s._fluidCellIndices = pre ++ c :: post →
        ∃ Ppre, _calculatePreconditionerVector sqrt { s with _fluidCellIndices := pre }
            p0 A = some Ppre ∧
          (∀ x y z, GridIndex.mk x y z ∉ c :: post →
            P.vector.grid x y z = Ppre.vector.grid x y z) ∧
          P.vector.grid c.i c.j c.k =
            if |pivotAt A Ppre c| > 1 / 100000000 then 1 / sqrt (pivotAt A Ppre c)
            else p0.vector.grid c.i c.j c.k := by
  obtain ⟨P, hrun, -, -, hcells⟩ :=
    calculatePreconditionerVector_run sqrt s p0 A W H D hA hp hin
  refine ⟨P, hrun, fun pre c post hl => ?_⟩
  obtain ⟨Ppre, h1, hf1, hf2, hv⟩ := hcells pre c post hl
  rw [hl] at hnd
  have hnd1 := List.nodup_append.1 hnd
  have hcpost : c ∉ post := (List.nodup_cons.1 hnd1.2.1).1
  have hcpre : c ∉ pre := fun h => hnd1.2.2 h (List.mem_cons_self _ _)
  refine ⟨Ppre, h1, hf2, ?_⟩
  rw [hv hcpost, hf1 c.i c.j c.k hcpre]

theorem calculatePreconditionerVector_spec_witness :
    tinyDiagonal.HasDims 3 3 3 ∧ HasDims (VectorCoefficients.new 3 3 3).vector 3 3 3 ∧
    (∀ c ∈ (centreFluidState M_SOLID [])._fluidCellIndices, NegativeSidesInRange 3 3 3 c) ∧
    (centreFluidState M_SOLID [])._fluidCellIndices.Nodup ∧
    ∃ P, _calculatePreconditionerVector (fun x => x) (centreFluidState M_SOLID [])
        (VectorCoefficients.new 3 3 3) tinyDiagonal = some P ∧
      ∀ pre c post, (centreFluidState M_SOLID [])._fluidCellIndices = pre ++ c :: post →
        ∃ Ppre, _calculatePreconditionerVector (fun x => x)
            { centreFluidState M_SOLID [] with _fluidCellIndices := pre }
            (VectorCoefficients.new 3 3 3) tinyDiagonal = some Ppre ∧
          (∀ x y z, GridIndex.mk x y z ∉ c :: post →
            P.vector.grid x y z = Ppre.vector.grid x y z) ∧
          P.vector.grid c.i c.j c.k =
            if |pivotAt tinyDiagonal Ppre c| > 1 / 100000000 then
              1 / (fun x => x) (pivotAt tinyDiagonal Ppre c)
            else (VectorCoefficients.new 3 3 3).vector.grid c.i c.j c.k :=
  have hA : tinyDiagonal.HasDims 3 3 3 :=
    ⟨⟨rfl, rfl, rfl⟩, ⟨rfl, rfl, rfl⟩, ⟨rfl, rfl, rfl⟩, ⟨rfl, rfl, rfl⟩⟩
  have hin : ∀ c ∈ (centreFluidState M_SOLID [])._fluidCellIndices,
      NegativeSidesInRange 3 3 3 c := by
    intro c hc
    have : c = ⟨1, 1, 1⟩ := by simpa [centreFluidState] using hc
    subst this
    simp [NegativeSidesInRange]
  have hnd : (centreFluidState M_SOLID [])._fluidCellIndices.Nodup := by
    simp [centreFluidState]
  ⟨hA, ⟨rfl, rfl, rfl⟩, hin, hnd,
    calculatePreconditionerVector_spec (fun x => x) (centreFluidState M_SOLID [])
      (VectorCoefficients.new 3 3 3) tinyDiagonal 3 3 3 hA ⟨rfl, rfl, rfl⟩ hin hnd⟩

/-- The value `e` left by lines 1074-1088 is at least a quarter of the diagonal
coefficient when that coefficient is not negative. -/
theorem preconditionerPivot_ge (diag : ℚ) (am pm ai aj ak : ℚ × ℚ × ℚ) (hd : 0 ≤ diag) :
    1 / 4 * diag ≤ preconditionerPivot (97 / 100) (1 / 4) diag am pm ai aj ak := by
  unfold preconditionerPivot
  simp only
  split_ifs with h
  · linarith
  · linarith

/-- With non-negative diagonal coefficients and a square root that is positive on
positive arguments, the preconditioner loop keeps a non-negative vector
non-negative. -/
theorem preconditioner_fold_nonneg (sqrt : ℚ → ℚ) (hsqrt : ∀ x, 0 < x → 0 < sqrt x)
    (A : MatrixCoefficients) (W H D : Nat)
    (hA : A.HasDims W H D) (l : List GridIndex)
    (hl : ∀ c ∈ l, NegativeSidesInRange W H D c)
    (hdiag : ∀ c ∈ l, 0 ≤ A.diag.grid c.i c.j c.k) (p : VectorCoefficients)
    (hp : HasDims p.vector W H D) (hp0 : ∀ x y z, 0 ≤ p.vector.grid x y z) :
    ∀ p', l.foldlM (preconditionerStep sqrt A) p = some p' →
      ∀ x y z, 0 ≤ p'.vector.grid x y z := by
  induction l generalizing p with
  | nil =>
    intro p' h x y z
    cases h
    exact hp0 x y z
  | cons c l ih =>
    intro p' h
    obtain ⟨p1, h1, hd1, hf1, hv1⟩ := preconditionerStep_spec sqrt A p W H D hA hp c
      (hl c (List.mem_cons_self _ _))
    rw [List.foldlM_cons, h1] at h
    refine ih (fun c hc => hl c (List.mem_cons_of_mem _ hc))
      (fun c hc => hdiag c (List.mem_cons_of_mem _ hc)) p1 hd1 ?_ p' h
    intro x y z
    by_cases hx : x = c.i ∧ y = c.j ∧ z = c.k
    · obtain ⟨rfl, rfl, rfl⟩ := hx
      rw [hv1]
      split_ifs with he
      · have hge := preconditionerPivot_ge (A.diag.grid c.i c.j c.k)
          (A.plusi.grid (c.i - 1) c.j c.k, A.plusj.grid c.i (c.j - 1) c.k,
            A.plusk.grid c.i c.j (c.k - 1))
          (p.vector.grid (c.i - 1) c.j c.k, p.vector.grid c.i (c.j - 1) c.k,
            p.vector.grid c.i c.j (c.k - 1))
          (A.plusi.grid (c.i - 1) c.j c.k, A.plusj.grid (c.i - 1) c.j c.k,
            A.plusk.grid (c.i - 1) c.j c.k)
          (A.plusi.grid c.i (c.j - 1) c.k, A.plusj.grid c.i (c.j - 1) c.k,
            A.plusk.grid c.i (c.j - 1) c.k)
          (A.plusi.grid c.i c.j (c.k - 1), A.plusj.grid c.i c.j (c.k - 1),
            A.plusk.grid c.i c.j (c.k - 1)) (hdiag c (List.mem_cons_self _ _))
        have hd0 := hdiag c (List.mem_cons_self _ _)
        have h0 : 0 ≤ pivotAt A p c := by
          unfold pivotAt
          linarith
        have hne : pivotAt A p c ≠ 0 := by
          intro hz
          rw [hz] at he
          norm_num at he
        have hpos : 0 < pivotAt A p c := lt_of_le_of_ne h0 (Ne.symm hne)
        exact le_of_lt (one_div_pos.2 (hsqrt _ hpos))
      · exact hp0 _ _ _
    · rw [hf1 x y z hx]
      exact hp0 x y z

/-- C39: for coefficient grids with `A.diag(c) ≥ 0` at every listed fluid cell (and a
square root that is positive on positive arguments, a non-negative initial vector and
in-range reads), `_calculatePreconditionerVector` completes; for every processed cell
the value `e` satisfies `e ≥ 0.25·A.diag(c) ≥ 0`, and whenever the branch
`|e| > 10e-9` is taken `e > 0`, the divisor `sqrt(e)` is not zero and the stored value
`1/sqrt(e)` is positive; every value of the final vector is `≥ 0`. -/
theorem calculatePreconditionerVector_sqrt_argument (sqrt : ℚ → ℚ)
    (hsqrt : ∀ x, 0 < x → 0 < sqrt x) (s : FluidSimulation)
    (p0 : VectorCoefficients) (A : MatrixCoefficients) (W H D : Nat)
    (hA : A.HasDims W H D) (hp : HasDims p0.vector W H D)
    (hin : ∀ c ∈ s._fluidCellIndices, NegativeSidesInRange W H D c)
    (hdiag : ∀ c ∈ s._fluidCellIndices, 0 ≤ A.diag.grid c.i c.j c.k)
    (hp0 : ∀ x y z, 0 ≤ p0.vector.grid x y z) :
    ∃ P, _calculatePreconditionerVector sqrt s p0 A = some P ∧
      (∀ x y z, 0 ≤ P.vector.grid x y z) ∧
      ∀ pre c post, s._fluidCellIndices = pre ++ c :: post →
        ∃ Ppre, _calculatePreconditionerVector sqrt { s with _fluidCellIndices := pre }
            p0 A = some Ppre ∧
          1 / 4 * A.diag.grid c.i c.j c.k ≤ pivotAt A Ppre c ∧
          0 ≤ pivotAt A Ppre c ∧
          (|pivotAt A Ppre c| > 1 / 100000000 →
            0 < pivotAt A Ppre c ∧ sqrt (pivotAt A Ppre c) ≠ 0 ∧
              0 < 1 / sqrt (pivotAt A Ppre c)) := by
  obtain ⟨P, hrun, -, -, hcells⟩ :=
    calculatePreconditionerVector_run sqrt s p0 A W H D hA hp hin
  refine ⟨P, hrun, ?_, fun pre c post hl => ?_⟩
  · exact preconditioner_fold_nonneg sqrt hsqrt A W H D hA _ hin hdiag p0 hp hp0 P hrun
  · obtain ⟨Ppre, h1, -, -, -⟩ := hcells pre c post hl
    have hd0 : 0 ≤ A.diag.grid c.i c.j c.k :=
      hdiag c (by rw [hl]; exact List.mem_append_right _ (List.mem_cons_self _ _))
    have hge : 1 / 4 * A.diag.grid c.i c.j c.k ≤ pivotAt A Ppre c :=
      preconditionerPivot_ge _ _ _ _ _ _ hd0
    have h0 : 0 ≤ pivotAt A Ppre c := by linarith
    refine ⟨Ppre, h1, hge, h0, fun he => ?_⟩
    have hne : pivotAt A Ppre c ≠ 0 := by
      intro hz
      rw [hz] at he
      norm_num at he
    have hpos : 0 < pivotAt A Ppre c := lt_of_le_of_ne h0 (Ne.symm hne)
    exact ⟨hpos, ne_of_gt (hsqrt _ hpos), one_div_pos.2 (hsqrt _ hpos)⟩

/-! ## Injectivity of the cell key -/

theorem toUInt64_natCast (n : Nat) (h : n < 18446744073709551616) :
    toUInt64 (n : Int) = n := by
  unfold toUInt64
  have : ((n : Int) % 18446744073709551616) = (n : Int) := by omega
  rw [this]
  exact Int.toNat_natCast n

theorem pack_inj (W i x i' x' : Nat) (hi : i < W) (hi' : i' < W)
    (h : i + W * x = i' + W * x') : i = i' ∧ x = x' := by
  have h1 : (i + W * x) % W = i := by
    rw [Nat.add_mul_mod_self_left, Nat.mod_eq_of_lt hi]
  have h2 : (i' + W * x') % W = i' := by
    rw [Nat.add_mul_mod_self_left, Nat.mod_eq_of_lt hi']
  have h3 : (i + W * x) / W = x := by
    rw [Nat.add_mul_div_left _ _ (by omega), Nat.div_eq_of_lt hi, Nat.zero_add]
  have h4 : (i' + W * x') / W = x' := by
    rw [Nat.add_mul_div_left _ _ (by omega), Nat.div_eq_of_lt hi', Nat.zero_add]
  rw [h] at h1 h3
  exact ⟨by rw [← h1, h2], by rw [← h3, h4]⟩

/-- Without wrap-around the key is the packed index `i + W·(j + D·k)`. -/
theorem gridIndexHash_value (s : FluidSimulation) (i j k : Nat)
    (hi : i < s._i_voxels) (hj : j < s._k_voxels) (hk : k < s._k_voxels)
    (hfit : s._i_voxels * s._k_voxels * s._k_voxels < 18446744073709551616) :
    _calculateGridIndexHash s ⟨i, j, k⟩ = i + s._i_voxels * (j + s._k_voxels * k) := by
  have hW1 : 1 ≤ s._i_voxels := by omega
  have hD1 : 1 ≤ s._k_voxels := by omega
  have b0 : s._k_voxels * (k + 1) ≤ s._k_voxels * s._k_voxels :=
    Nat.mul_le_mul_left _ hk
  have b1 : s._i_voxels * (j + s._k_voxels * k + 1) ≤
      s._i_voxels * (s._k_voxels * s._k_voxels) :=
    Nat.mul_le_mul_left _ (by rw [Nat.mul_add] at b0; omega)
  have b2 : 1 * (s._k_voxels * s._k_voxels) ≤ s._i_voxels * (s._k_voxels * s._k_voxels) :=
    Nat.mul_le_mul_right _ hW1
  have b3 : s._k_voxels * 1 ≤ s._k_voxels * s._k_voxels := Nat.mul_le_mul_left _ hD1
  have b4 : s._i_voxels * 1 ≤ s._i_voxels * (s._k_voxels * s._k_voxels) :=
    Nat.mul_le_mul_left _ (by omega)
  rw [Nat.mul_assoc] at hfit
  rw [Nat.mul_add] at b0 b1
  have c1 : s._k_voxels * k < 18446744073709551616 := by omega
  have c2 : j + s._k_voxels * k < 18446744073709551616 := by omega
  have c3 : s._i_voxels * (j + s._k_voxels * k) < 18446744073709551616 := by omega
  have c4 : i + s._i_voxels * (j + s._k_voxels * k) < 18446744073709551616 := by omega
  unfold _calculateGridIndexHash
  simp only
  rw [toUInt64_natCast i (by omega), toUInt64_natCast j (by omega),
    toUInt64_natCast k (by omega), toUInt64_natCast s._i_voxels (by omega),
    toUInt64_natCast s._k_voxels (by omega),
    Nat.mod_eq_of_lt c1, Nat.mod_eq_of_lt c2, Nat.mod_eq_of_lt c3, Nat.mod_eq_of_lt c4]

/-- C38 (the claim fails): the grid `W = 2^20`, `H = 1`, `D = 2^30` has `H ≤ D` and
`2^50` cells, a count that fits in 64 bits, but the in-range cells `(0, 0, 0)` and
`(0, 0, 2^14)` both get the key `0`, because `W·D·2^14 = 2^64` wraps to `0`. -/
theorem gridIndexHash_wraps :
    longGridState._j_voxels ≤ longGridState._k_voxels ∧
    longGridState._i_voxels * longGridState._j_voxels * longGridState._k_voxels
      < 18446744073709551616 ∧
    _isCellIndexInRange longGridState 0 0 0 = true ∧
    _isCellIndexInRange longGridState 0 0 16384 = true ∧
    _calculateGridIndexHash longGridState ⟨0, 0, 0⟩ = 0 ∧
    _calculateGridIndexHash longGridState ⟨0, 0, 16384⟩ = 0 ∧
    (GridIndex.mk 0 0 0) ≠ ⟨0, 0, 16384⟩ := by
  refine ⟨by decide, by decide, by decide, by decide, by decide, by decide, by decide⟩

/-- C38 (amended): for every grid with `H ≤ D` and `W·D² < 2^64`,
`_calculateGridIndexHash` is injective on in-range cell indices: two in-range cells
with the same key are the same cell, and the key of an in-range cell is
`i + W·(j + D·k)` without wrap-around. -/
theorem gridIndexHash_injective (s : FluidSimulation)
    (hHD : s._j_voxels ≤ s._k_voxels)
    (hfit : s._i_voxels * s._k_voxels * s._k_voxels < 18446744073709551616)
    (a b : GridIndex)
    (ha : _isCellIndexInRange s a.i a.j a.k = true)
    (hb : _isCellIndexInRange s b.i b.j b.k = true)
    (h : _calculateGridIndexHash s a = _calculateGridIndexHash s b) :
    a = b ∧ (_calculateGridIndexHash s a : Int) =
      a.i + s._i_voxels * (a.j + s._k_voxels * a.k) := by
  obtain ⟨ai, aj, ak⟩ := a
  obtain ⟨bi, bj, bk⟩ := b
  simp only [_isCellIndexInRange, decide_eq_true_eq] at ha hb
  obtain ⟨i, rfl⟩ := Int.eq_ofNat_of_zero_le ha.1
  obtain ⟨j, rfl⟩ := Int.eq_ofNat_of_zero_le ha.2.2.1
  obtain ⟨k, rfl⟩ := Int.eq_ofNat_of_zero_le ha.2.2.2.2.1
  obtain ⟨i', rfl⟩ := Int.eq_ofNat_of_zero_le hb.1
  obtain ⟨j', rfl⟩ := Int.eq_ofNat_of_zero_le hb.2.2.1
  obtain ⟨k', rfl⟩ := Int.eq_ofNat_of_zero_le hb.2.2.2.2.1
  have hi : i < s._i_voxels := by omega
  have hj : j < s._k_voxels := by omega
  have hk : k < s._k_voxels := by omega
  have hi' : i' < s._i_voxels := by omega
  have hj' : j' < s._k_voxels := by omega
  have hk' : k' < s._k_voxels := by omega
  have va := gridIndexHash_value s i j k hi hj hk hfit
  have vb := gridIndexHash_value s i' j' k' hi' hj' hk' hfit
  rw [va, vb] at h
  obtain ⟨e1, e2⟩ := pack_inj _ _ _ _ _ hi hi' h
  obtain ⟨e3, e4⟩ := pack_inj _ _ _ _ _ hj hj' e2
  subst e1 e3 e4
  refine ⟨rfl, ?_⟩
  rw [va]
  push_cast
  ring

theorem gridIndexHash_injective_witness :
    inletState._j_voxels ≤ inletState._k_voxels ∧
    inletState._i_voxels * inletState._k_voxels * inletState._k_voxels
      < 18446744073709551616 ∧
    _isCellIndexInRange inletState 1 1 1 = true ∧
    _calculateGridIndexHash inletState ⟨1, 1, 1⟩ =
      _calculateGridIndexHash inletState ⟨1, 1, 1⟩ ∧
    (GridIndex.mk 1 1 1) = ⟨1, 1, 1⟩ ∧
    (_calculateGridIndexHash inletState ⟨1, 1, 1⟩ : Int) =
      (GridIndex.mk 1 1 1).i + inletState._i_voxels *
        ((GridIndex.mk 1 1 1).j + inletState._k_voxels * (GridIndex.mk 1 1 1).k) :=
  ⟨by decide, by decide, by decide, rfl,
    gridIndexHash_injective inletState (by decide) (by decide) ⟨1, 1, 1⟩ ⟨1, 1, 1⟩
      (by decide) (by decide) rfl⟩

/-! ## The residual of the conjugate gradient loop -/

theorem vectorCoefficientsToEigenVectorXd_length (v : VectorCoefficients)
    (l : List GridIndex) (ev : List ℚ)
    (h : _VectorCoefficientsToEigenVectorXd v l = some ev) : ev.length = l.length := by
  induction l generalizing ev with
  | nil =>
    simp only [_VectorCoefficientsToEigenVectorXd] at h
    cases h
    rfl
  | cons c l ih =>
    simp only [_VectorCoefficientsToEigenVectorXd, Option.bind_eq_bind,
      Option.bind_eq_some] at h
    obtain ⟨x, -, ev', h', h⟩ := h
    cases h
    simp [ih ev' h']

theorem applyPreconditioner_length (s : FluidSimulation) (r : List ℚ)
    (p : VectorCoefficients) (A : MatrixCoefficients) (z : List ℚ)
    (h : _applyPreconditioner s r p A = some z) : z.length = s._fluidCellIndices.length := by
  unfold _applyPreconditioner at h
  simp only [Option.bind_eq_bind, Option.bind_eq_some] at h
  obtain ⟨_, -, _, -, zz, -, h⟩ := h
  exact vectorCoefficientsToEigenVectorXd_length _ _ _ h

theorem axpy_length (a : List ℚ) (c : ℚ) (b : List ℚ) :
    (axpy a c b).length = min a.length b.length := by
  simp [axpy]

theorem axpy_getD (a : List ℚ) (c : ℚ) (b : List ℚ) (h : a.length = b.length) (i : Nat) :
    (axpy a c b).getD i 0 = a.getD i 0 + c * b.getD i 0 := by
  unfold axpy
  simp only [List.getD_eq_getElem?_getD, List.getElem?_zipWith]
  by_cases hi : i < a.length
  · have hb : i < b.length := by omega
    rw [List.getElem?_eq_getElem hi, List.getElem?_eq_getElem hb]
    rfl
  · have hb : ¬ i < b.length := by omega
    rw [List.getElem?_eq_none (by omega), List.getElem?_eq_none (by omega)]
    simp

theorem zipWith_diag {α β : Type} (f : α → α → β) (l : List α) :
    List.zipWith f l l = l.map (fun x => f x x) := by
  induction l with
  | nil => rfl
  | cons a l ih => simp [ih]

/-- The matrix product is linear in the vector. -/
theorem mulVec_axpy (M : SparseMatrix) (a : List ℚ) (c : ℚ) (b : List ℚ)
    (h : a.length = b.length) :
    M.mulVec (axpy a c b) = axpy (M.mulVec a) c (M.mulVec b) := by
  unfold SparseMatrix.mulVec
  have hrow : ∀ r : Nat,
      ((List.range M.size).map fun (x : Nat) => M.coeff r x * (axpy a c b).getD x 0).sum =
        ((List.range M.size).map fun (x : Nat) => M.coeff r x * a.getD x 0).sum +
          c * ((List.range M.size).map fun (x : Nat) => M.coeff r x * b.getD x 0).sum := by
    intro r
    rw [← List.sum_map_mul_left, ← List.sum_map_add]
    congr 1
    apply List.map_congr_left
    intro x _
    rw [axpy_getD a c b h]
    ring
  simp only [hrow]
  unfold axpy
  rw [List.zipWith_map, zipWith_diag]

theorem vsub_axpy (b u v : List ℚ) (c : ℚ) (h : u.length = v.length) :
    axpy (vsub b u) (-c) v = vsub b (axpy u c v) := by
  induction b generalizing u v with
  | nil => simp [vsub, axpy]
  | cons x b ih =>
    cases u with
    | nil =>
      cases v with
      | nil => simp [vsub, axpy]
      | cons z v => simp at h
    | cons y u =>
      cases v with
      | nil => simp at h
      | cons z v =>
        have := ih u v (by simpa using h)
        simp only [vsub, axpy, List.zipWith_cons_cons] at this ⊢
        rw [this]
        congr 1
        ring


/-- The update of lines 1326-1329 keeps the residual equal to `b - A·x`. -/
theorem residual_update (M : SparseMatrix) (b p sv : List ℚ) (alpha : ℚ)
    (h : p.length = sv.length) :
    axpy (vsub b (M.mulVec p)) (-alpha) (M.mulVec sv) =
      vsub b (M.mulVec (axpy p alpha sv)) := by
  rw [mulVec_axpy M p alpha sv h]
  apply vsub_axpy
  simp [SparseMatrix.mulVec]

/-- C33: over exact arithmetic, for every number `n` of iterations left, the loop of
`_solvePressureSystem` entered with `residualVector = b - A·pressureVector` (and
vectors of the system's size) keeps that equation: whenever it returns, through the
convergence test or because the `n` iterations are used up, the tracked residual is
`b - A·x` for the returned `x`, and the loop body was entered at most `n` times; at
the entry of `_solvePressureSystem` (`x = 0`, residual `b`) the equation holds; and
the loop of the source returns the pressure vector of the tracked loop. -/
theorem pcgLoop_residual_invariant (s : FluidSimulation) (A : MatrixCoefficients)
    (precon : VectorCoefficients) (aMatrix : SparseMatrix) (tol : ℚ) (b : List ℚ)
    (n it : Nat) (p r sv : List ℚ) (sigma : ℚ)
    (hp : p.length = s._fluidCellIndices.length)
    (hsv : sv.length = s._fluidCellIndices.length)
    (hinv : r = vsub b (aMatrix.mulVec p)) :
    pcgLoop s A precon aMatrix tol n p r sv sigma =
        (pcgLoopTracked s A precon aMatrix tol n it p r sv sigma).map (fun t => t.1) ∧
      (∀ p' r' it', pcgLoopTracked s A precon aMatrix tol n it p r sv sigma =
          some (p', r', it') →
        r' = vsub b (aMatrix.mulVec p') ∧ it' ≤ it + n ∧
          p'.length = s._fluidCellIndices.length) ∧
      (b.length = aMatrix.size →
        b = vsub b (aMatrix.mulVec (List.replicate s._fluidCellIndices.length 0))) := by
  refine ⟨?_, ?_, ?_⟩
  · clear hp hsv hinv
    induction n generalizing it p r sv sigma with
    | zero => rfl
    | succ n ih =>
      simp only [pcgLoop, pcgLoopTracked, Option.bind_eq_bind]
      cases maxCoeff (axpy r (-(sigma / dot (aMatrix.mulVec sv) sv)) (aMatrix.mulVec sv)) with
      | none => rfl
      | some m =>
        simp only [Option.some_bind]
        split_ifs
        · rfl
        · cases _applyPreconditioner s
            (axpy r (-(sigma / dot (aMatrix.mulVec sv) sv)) (aMatrix.mulVec sv)) precon A with
          | none => rfl
          | some aux =>
            simp only [Option.some_bind]
            exact ih _ _ _ _ _
  · induction n generalizing it p r sv sigma with
    | zero =>
      intro p' r' it' h
      simp only [pcgLoopTracked] at h
      cases h
      exact ⟨hinv, le_refl _, hp⟩
    | succ n ih =>
      intro p' r' it' h
      have hupd := residual_update aMatrix b p sv (sigma / dot (aMatrix.mulVec sv) sv)
        (by rw [hp, hsv])
      rw [← hinv] at hupd
      have hplen : (axpy p (sigma / dot (aMatrix.mulVec sv) sv) sv).length =
          s._fluidCellIndices.length := by
        rw [axpy_length, hp, hsv, min_self]
      simp only [pcgLoopTracked, Option.bind_eq_bind] at h
      cases hm : maxCoeff
          (axpy r (-(sigma / dot (aMatrix.mulVec sv) sv)) (aMatrix.mulVec sv)) with
      | none =>
        rw [hm] at h
        cases h
      | some m =>
        rw [hm] at h
        simp only [Option.some_bind] at h
        split_ifs at h
        · cases h
          exact ⟨hupd, by omega, hplen⟩
        · cases haux : _applyPreconditioner s
            (axpy r (-(sigma / dot (aMatrix.mulVec sv) sv)) (aMatrix.mulVec sv)) precon A with
          | none =>
            rw [haux] at h
            cases h
          | some aux =>
            rw [haux] at h
            simp only [Option.some_bind] at h
            have hauxlen := applyPreconditioner_length _ _ _ _ _ haux
            obtain ⟨h1, h2, h3⟩ := ih (it + 1) _ _ _ _ hplen
              (by rw [axpy_length, hauxlen, hsv, min_self]) hupd p' r' it' h
            exact ⟨h1, by omega, h3⟩
  · intro hb
    rw [mulVec_zero]
    unfold vsub
    clear hinv
    generalize aMatrix.size = N at hb
    induction b generalizing N with
    | nil => rfl
    | cons x b ih =>
      cases N with
      | zero => simp at hb
      | succ N =>
        simp only [List.replicate_succ, List.zipWith_cons_cons, sub_zero]
        congr 1
        exact ih N (by simpa using hb)


theorem pcgLoop_residual_invariant_witness :
    ([0] : List ℚ).length = (centreFluidState M_SOLID [])._fluidCellIndices.length ∧
    ([1] : List ℚ).length = (centreFluidState M_SOLID [])._fluidCellIndices.length ∧
    ([1] : List ℚ) = vsub [1] ((SparseMatrix.mk 1 [(0, 0, 1)]).mulVec [0]) ∧
    (pcgLoop (centreFluidState M_SOLID []) (MatrixCoefficients.new 3 3 3)
        (VectorCoefficients.new 3 3 3) ⟨1, [(0, 0, 1)]⟩ (1 / 1000000) 1 [0] [1] [1] 1 =
      (pcgLoopTracked (centreFluidState M_SOLID []) (MatrixCoefficients.new 3 3 3)
        (VectorCoefficients.new 3 3 3) ⟨1, [(0, 0, 1)]⟩ (1 / 1000000) 1 0 [0] [1] [1] 1).map
          (fun t => t.1) ∧
      (∀ p' r' it', pcgLoopTracked (centreFluidState M_SOLID [])
          (MatrixCoefficients.new 3 3 3) (VectorCoefficients.new 3 3 3)
          ⟨1, [(0, 0, 1)]⟩ (1 / 1000000) 1 0 [0] [1] [1] 1 = some (p', r', it') →
        r' = vsub [1] ((SparseMatrix.mk 1 [(0, 0, 1)]).mulVec p') ∧ it' ≤ 0 + 1 ∧
          p'.length = (centreFluidState M_SOLID [])._fluidCellIndices.length) ∧
      (([1] : List ℚ).length = (SparseMatrix.mk 1 [(0, 0, 1)]).size →
        ([1] : List ℚ) = vsub [1] ((SparseMatrix.mk 1 [(0, 0, 1)]).mulVec
          (List.replicate (centreFluidState M_SOLID [])._fluidCellIndices.length 0)))) :=
  have hinv : ([1] : List ℚ) = vsub [1] ((SparseMatrix.mk 1 [(0, 0, 1)]).mulVec [0]) := by
    norm_num [vsub, SparseMatrix.mulVec, SparseMatrix.coeff, List.range_succ]
  ⟨rfl, rfl, hinv,
    pcgLoop_residual_invariant (centreFluidState M_SOLID []) (MatrixCoefficients.new 3 3 3)
      (VectorCoefficients.new 3 3 3) ⟨1, [(0, 0, 1)]⟩ (1 / 1000000) [1] 1 0 [0] [1] [1] 1
      rfl rfl hinv⟩

/-- The sample run of the loop: a 1×1 system with matrix `(1)` and `b = (1)` converges
in the first pass through the loop body, with `x = (1)` and tracked residual `(0)`. -/
theorem pcgLoopTracked_sample :
    pcgLoopTracked (centreFluidState M_SOLID []) (MatrixCoefficients.new 3 3 3)
      (VectorCoefficients.new 3 3 3) ⟨1, [(0, 0, 1)]⟩ (1 / 1000000) 1 0 [0] [1] [1] 1 =
        some ([1], [0], 1) := by
  simp only [pcgLoopTracked, Option.bind_eq_bind]
  norm_num [SparseMatrix.mulVec, SparseMatrix.coeff, List.range_succ, axpy, dot, maxCoeff]

/-! ## `_integrateVelocity` -/

theorem isCellSolid_eq (s : FluidSimulation) (p : Vec3) :
    _isCellSolid s._materialGrid (positionToGridIndex s._dx p).i
        (positionToGridIndex s._dx p).j (positionToGridIndex s._dx p).k =
      (s._materialGrid.get (positionToGridIndex s._dx p).i
        (positionToGridIndex s._dx p).j (positionToGridIndex s._dx p).k).map
          (fun m => decide (m = M_SOLID)) := by
  unfold _isCellSolid
  cases s._materialGrid.get (positionToGridIndex s._dx p).i
    (positionToGridIndex s._dx p).j (positionToGridIndex s._dx p).k <;> rfl

theorem isCellSolid_false_iff (s : FluidSimulation) (p : Vec3) :
    _isCellSolid s._materialGrid (positionToGridIndex s._dx p).i
        (positionToGridIndex s._dx p).j (positionToGridIndex s._dx p).k = some false ↔
      InNonSolidCell s p := by
  rw [isCellSolid_eq]
  unfold InNonSolidCell
  cases s._materialGrid.get (positionToGridIndex s._dx p).i
    (positionToGridIndex s._dx p).j (positionToGridIndex s._dx p).k with
  | none => simp
  | some m => simp

theorem isCellSolid_some_of_inGrid (s : FluidSimulation) (p : Vec3) (h : InGridCell s p) :
    ∃ b, _isCellSolid s._materialGrid (positionToGridIndex s._dx p).i
        (positionToGridIndex s._dx p).j (positionToGridIndex s._dx p).k = some b := by
  rw [isCellSolid_eq, get_of_inRange _ _ _ _ h]
  exact ⟨_, rfl⟩

/-- C34: for every `p0` in an in-range non-solid cell, every `v0`, `dt`, velocity
sampler and collision routine: whenever `_integrateVelocity` returns, the point left
in `*p1` lies in a non-solid cell, the flag is `true` exactly when the RK4 end point
lies in a non-solid cell, and then `*p1` is that end point; and the call returns
whenever the cell of the RK4 end point is in range and, if that cell is solid, the
collision routine returns and the cell of the jogged point is in range. -/
theorem integrateVelocity_spec (env : Collaborators) (s : FluidSimulation)
    (p0 v0 : Vec3) (dt : ℚ) (hp0 : InNonSolidCell s p0) :
    (∀ b p1, _integrateVelocity env s p0 v0 dt = some (b, p1) →
      InNonSolidCell s p1 ∧
      (b = true ↔
        InNonSolidCell s (_RK4 (env.evaluateVelocityAtPosition s._MACVelocity) p0 v0 dt)) ∧
      (b = true → p1 = _RK4 (env.evaluateVelocityAtPosition s._MACVelocity) p0 v0 dt)) ∧
    (InGridCell s (_RK4 (env.evaluateVelocityAtPosition s._MACVelocity) p0 v0 dt) →
      (¬ InNonSolidCell s (_RK4 (env.evaluateVelocityAtPosition s._MACVelocity) p0 v0 dt) →
        ∃ cn, env._calculateSolidCellCollision s p0
            (_RK4 (env.evaluateVelocityAtPosition s._MACVelocity) p0 v0 dt) = some cn ∧
          InGridCell s (cn.1.add (Vec3.scale (0.01 * s._dx) cn.2))) →
      ∃ b p1, _integrateVelocity env s p0 v0 dt = some (b, p1)) := by
  constructor
  · intro b p1 h
    unfold _integrateVelocity at h
    simp only [Option.bind_eq_bind] at h
    cases hs : _isCellSolid s._materialGrid
        (positionToGridIndex s._dx
          (_RK4 (env.evaluateVelocityAtPosition s._MACVelocity) p0 v0 dt)).i
        (positionToGridIndex s._dx
          (_RK4 (env.evaluateVelocityAtPosition s._MACVelocity) p0 v0 dt)).j
        (positionToGridIndex s._dx
          (_RK4 (env.evaluateVelocityAtPosition s._MACVelocity) p0 v0 dt)).k with
    | none =>
      rw [hs] at h
      cases h
    | some solid =>
      rw [hs] at h
      simp only [Option.some_bind] at h
      cases solid with
      | false =>
        simp only [Bool.false_eq_true, if_false] at h
        cases h
        have := (isCellSolid_false_iff s _).1 hs
        exact ⟨this, ⟨fun _ => this, fun _ => rfl⟩, fun _ => rfl⟩
      | true =>
        simp only [if_true] at h
        have hnot : ¬ InNonSolidCell s
            (_RK4 (env.evaluateVelocityAtPosition s._MACVelocity) p0 v0 dt) := by
          rw [← isCellSolid_false_iff, hs]
          simp
        cases hc : env._calculateSolidCellCollision s p0
            (_RK4 (env.evaluateVelocityAtPosition s._MACVelocity) p0 v0 dt) with
        | none =>
          rw [hc] at h
          cases h
        | some cn =>
          rw [hc] at h
          simp only [Option.some_bind] at h
          cases hj : _isCellSolid s._materialGrid
              (positionToGridIndex s._dx (cn.1.add (Vec3.scale (0.01 * s._dx) cn.2))).i
              (positionToGridIndex s._dx (cn.1.add (Vec3.scale (0.01 * s._dx) cn.2))).j
              (positionToGridIndex s._dx (cn.1.add (Vec3.scale (0.01 * s._dx) cn.2))).k with
          | none =>
            rw [hj] at h
            cases h
          | some solid2 =>
            rw [hj] at h
            simp only [Option.some_bind] at h
            cases solid2 with
            | false =>
              simp only [Bool.false_eq_true, if_false] at h
              cases h
              exact ⟨(isCellSolid_false_iff s _).1 hj,
                ⟨fun hb => absurd hb (by simp), fun hi => absurd hi hnot⟩,
                fun hb => absurd hb (by simp)⟩
            | true =>
              simp only [if_true] at h
              cases h
              exact ⟨hp0, ⟨fun hb => absurd hb (by simp), fun hi => absurd hi hnot⟩,
                fun hb => absurd hb (by simp)⟩
  · intro hend hcoll
    obtain ⟨solid, hs⟩ := isCellSolid_some_of_inGrid s _ hend
    unfold _integrateVelocity
    simp only [Option.bind_eq_bind]
    rw [hs]
    simp only [Option.some_bind]
    cases solid with
    | false => exact ⟨true, _, rfl⟩
    | true =>
      have hnot : ¬ InNonSolidCell s
          (_RK4 (env.evaluateVelocityAtPosition s._MACVelocity) p0 v0 dt) := by
        rw [← isCellSolid_false_iff, hs]
        simp
      obtain ⟨cn, hc, hjog⟩ := hcoll hnot
      obtain ⟨solid2, hj⟩ := isCellSolid_some_of_inGrid s _ hjog
      simp only [if_true]
      rw [hc]
      simp only [Option.some_bind]
      rw [hj]
      cases solid2 with
      | false => exact ⟨false, _, rfl⟩
      | true => exact ⟨false, _, rfl⟩

theorem channel_centre_nonSolid : InNonSolidCell channelState ⟨3 / 2, 3 / 2, 3 / 2⟩ := by
  have hf : ⌊(3 / 2 : ℚ) * (1 / 1)⌋ = 1 :=
    floor_cell 1 (3 / 2) 1 (by norm_num) (by norm_num) (by norm_num)
  refine ⟨M_AIR, ?_, by decide⟩
  simp only [positionToGridIndex, channelState, mkSimulation, hf]
  rfl

theorem integrateVelocity_spec_witness :
    InNonSolidCell channelState ⟨3 / 2, 3 / 2, 3 / 2⟩ ∧
    ((∀ b p1, _integrateVelocity channelCollaborators channelState ⟨3 / 2, 3 / 2, 3 / 2⟩
        ⟨0, 0, 0⟩ 0 = some (b, p1) →
      InNonSolidCell channelState p1 ∧
      (b = true ↔
        InNonSolidCell channelState
          (_RK4 (channelCollaborators.evaluateVelocityAtPosition channelState._MACVelocity)
            ⟨3 / 2, 3 / 2, 3 / 2⟩ ⟨0, 0, 0⟩ 0)) ∧
      (b = true → p1 =
        _RK4 (channelCollaborators.evaluateVelocityAtPosition channelState._MACVelocity)
          ⟨3 / 2, 3 / 2, 3 / 2⟩ ⟨0, 0, 0⟩ 0)) ∧
    (InGridCell channelState
        (_RK4 (channelCollaborators.evaluateVelocityAtPosition channelState._MACVelocity)
          ⟨3 / 2, 3 / 2, 3 / 2⟩ ⟨0, 0, 0⟩ 0) →
      (¬ InNonSolidCell channelState
          (_RK4 (channelCollaborators.evaluateVelocityAtPosition channelState._MACVelocity)
            ⟨3 / 2, 3 / 2, 3 / 2⟩ ⟨0, 0, 0⟩ 0) →
        ∃ cn, channelCollaborators._calculateSolidCellCollision channelState
            ⟨3 / 2, 3 / 2, 3 / 2⟩
            (_RK4 (channelCollaborators.evaluateVelocityAtPosition channelState._MACVelocity)
              ⟨3 / 2, 3 / 2, 3 / 2⟩ ⟨0, 0, 0⟩ 0) = some cn ∧
          InGridCell channelState
            (cn.1.add (Vec3.scale (0.01 * channelState._dx) cn.2))) →
      ∃ b p1, _integrateVelocity channelCollaborators channelState ⟨3 / 2, 3 / 2, 3 / 2⟩
        ⟨0, 0, 0⟩ 0 = some (b, p1))) :=
  ⟨channel_centre_nonSolid,
    integrateVelocity_spec channelCollaborators channelState ⟨3 / 2, 3 / 2, 3 / 2⟩
      ⟨0, 0, 0⟩ 0 channel_centre_nonSolid⟩

/-! ## The slices of the particle mesher -/

theorem ceil_div_bounds (a b : Int) (hb : 0 < b) :
    (⌈(a : ℚ) / (b : ℚ)⌉ - 1) * b < a ∧ a ≤ ⌈(a : ℚ) / (b : ℚ)⌉ * b := by
  have hbq : (0 : ℚ) < (b : ℚ) := by exact_mod_cast hb
  constructor
  · have h := Int.ceil_lt_add_one ((a : ℚ) / (b : ℚ))
    have h2 : ((⌈(a : ℚ) / (b : ℚ)⌉ : ℚ) - 1) * (b : ℚ) < (a : ℚ) := by
      rw [← lt_div_iff₀ hbq]
      linarith
    exact_mod_cast h2
  · have h := Int.le_ceil ((a : ℚ) / (b : ℚ))
    have h2 : (a : ℚ) ≤ (⌈(a : ℚ) / (b : ℚ)⌉ : ℚ) * (b : ℚ) := by
      rw [← div_le_iff₀ hbq]
      exact h
    exact_mod_cast h2

/-- The arithmetic of the slicing for a width `w ≥ 2` cut in `2 ≤ n ≤ w` slices: the
slice width `sw` is at least `1`, and the number `N` of slices satisfies `2 ≤ N ≤ n`
and `(N - 1)·sw < w ≤ N·sw`. -/
theorem slicing_arith (w n : Int) (hn : 2 ≤ n) (hw : n ≤ w) :
    1 ≤ ⌈(w : ℚ) / (n : ℚ)⌉ ∧
    2 ≤ ⌈(w : ℚ) / ((⌈(w : ℚ) / (n : ℚ)⌉ : Int) : ℚ)⌉ ∧
    ⌈(w : ℚ) / ((⌈(w : ℚ) / (n : ℚ)⌉ : Int) : ℚ)⌉ ≤ n ∧
    (⌈(w : ℚ) / ((⌈(w : ℚ) / (n : ℚ)⌉ : Int) : ℚ)⌉ - 1) * ⌈(w : ℚ) / (n : ℚ)⌉ < w ∧
    w ≤ ⌈(w : ℚ) / ((⌈(w : ℚ) / (n : ℚ)⌉ : Int) : ℚ)⌉ * ⌈(w : ℚ) / (n : ℚ)⌉ := by
  obtain ⟨h1, h2⟩ := ceil_div_bounds w n (by omega)
  generalize ⌈(w : ℚ) / (n : ℚ)⌉ = sw at h1 h2 ⊢
  have hsw : 1 ≤ sw := by
    by_contra hlt
    have : sw * n ≤ 0 := mul_nonpos_of_nonpos_of_nonneg (by omega) (by omega)
    omega
  obtain ⟨h3, h4⟩ := ceil_div_bounds w sw (by omega)
  generalize ⌈(w : ℚ) / (sw : ℚ)⌉ = N at h3 h4 ⊢
  refine ⟨hsw, ?_, ?_, h3, h4⟩
  · by_contra hlt
    have hN : N ≤ 1 := by omega
    have h5 : N * sw ≤ 1 * sw := mul_le_mul_of_nonneg_right hN (by omega)
    have h6 : (sw - 1) * 2 ≤ (sw - 1) * n := mul_le_mul_of_nonneg_left hn (by omega)
    linarith
  · by_contra hgt
    have hN : n ≤ N - 1 := by omega
    have h5 : n * sw ≤ (N - 1) * sw := mul_le_mul_of_nonneg_right hN (by omega)
    linarith


/-- The slices of `_polygonizeSlices` in closed form, for `2 ≤ n ≤ width` slices
requested: slice `t` starts at `t·sliceWidth` and ends one before the next start, or at
`width - 1` if that comes first. -/
theorem polygonizeSlices_closed (m : IsotropicParticleMesher)
    (hn : 2 ≤ m._numPolygonizationSlices)
    (hw : m._numPolygonizationSlices ≤ m._isize * m._subdivisionLevel) :
    1 ≤ m.sliceWidth ∧ 2 ≤ m.numSlices ∧ m.numSlices ≤ m._numPolygonizationSlices ∧
    (m.numSlices - 1) * m.sliceWidth < m._isize * m._subdivisionLevel ∧
    m._isize * m._subdivisionLevel ≤ m.numSlices * m.sliceWidth ∧
    m._polygonizeSlices.length = m.numSlices.toNat ∧
    ∀ t : Nat, t < m.numSlices.toNat →
      m._polygonizeSlices[t]? = some ((t : Int) * m.sliceWidth,
        if (t : Int) * m.sliceWidth + m.sliceWidth - 1 < m._isize * m._subdivisionLevel
        then (t : Int) * m.sliceWidth + m.sliceWidth - 1
        else m._isize * m._subdivisionLevel - 1) := by
  obtain ⟨h1, h2, h3, h4, h5⟩ :=
    slicing_arith (m._isize * m._subdivisionLevel) m._numPolygonizationSlices hn hw
  have hsw : m.sliceWidth =
      ⌈((m._isize * m._subdivisionLevel : Int) : ℚ) / (m._numPolygonizationSlices : ℚ)⌉ := rfl
  have hN : m.numSlices =
      ⌈((m._isize * m._subdivisionLevel : Int) : ℚ) / ((m.sliceWidth : Int) : ℚ)⌉ := rfl
  rw [← hsw] at h1 h2 h3 h4 h5
  rw [← hN] at h2 h3 h4 h5
  have hlist : m._polygonizeSlices = (List.range m.numSlices.toNat).map fun (i : Nat) =>
      ((i : Int) * m.sliceWidth,
        if (i : Int) * m.sliceWidth + m.sliceWidth - 1 < m._isize * m._subdivisionLevel
        then (i : Int) * m.sliceWidth + m.sliceWidth - 1
        else m._isize * m._subdivisionLevel - 1) := by
    unfold IsotropicParticleMesher._polygonizeSlices
    rw [if_neg (by omega)]
    rfl
  refine ⟨h1, h2, h3, h4, h5, by rw [hlist]; simp, fun t ht => ?_⟩
  rw [hlist, List.getElem?_map, List.getElem?_range ht]
  rfl

/-- C36: for every grid width `isize ≥ 1`, subdivision level `s ≥ 1` and slice count
`n` with `2 ≤ n ≤ isize`, after `setNumPolygonizationSlices(n)` the slices
`[startidx, endidx]` that `_polygonizeSlices` hands to `_polygonizeSlice` partition
the subdivided width `isize·s`: there are at least two and at most `n` of them, every
slice is non-empty, slice `0` starts at `0`, each slice starts at the previous
`endidx + 1`, and the last slice ends at `width - 1`. -/
theorem polygonizeSlices_partition (m0 : IsotropicParticleMesher) (n : Int)
    (hi : 1 ≤ m0._isize) (hs : 1 ≤ m0._subdivisionLevel) (hn : 2 ≤ n)
    (hn' : n ≤ m0._isize) :
    ∃ m, m0.setNumPolygonizationSlices n = some m ∧
      2 ≤ m._polygonizeSlices.length ∧ (m._polygonizeSlices.length : Int) ≤ n ∧
      (∀ se ∈ m._polygonizeSlices, se.1 ≤ se.2) ∧
      (∃ e, m._polygonizeSlices[0]? = some (0, e)) ∧
      (∀ t : Nat, t + 1 < m._polygonizeSlices.length →
        ∃ a b, m._polygonizeSlices[t]? = some a ∧ m._polygonizeSlices[t + 1]? = some b ∧
          b.1 = a.2 + 1) ∧
      (∃ a, m._polygonizeSlices[m._polygonizeSlices.length - 1]? =
        some (a, m0._isize * m0._subdivisionLevel - 1)) := by
  have hset : m0.setNumPolygonizationSlices n =
      some { m0 with _numPolygonizationSlices := n } := by
    unfold IsotropicParticleMesher.setNumPolygonizationSlices
    rw [if_pos (by omega)]
    simp only
    rw [if_neg (by omega)]
  have hwid : m0._isize * 1 ≤ m0._isize * m0._subdivisionLevel :=
    mul_le_mul_of_nonneg_left hs (by omega)
  obtain ⟨h1, h2, h3, h4, h5, hlen, hform⟩ :=
    polygonizeSlices_closed { m0 with _numPolygonizationSlices := n } hn
      (by simp only; omega)
  simp only at h3 h4 h5 hform
  generalize ({ m0 with _numPolygonizationSlices := n } : IsotropicParticleMesher) = m
    at hset h1 h2 h3 h4 h5 hlen hform
  generalize m.sliceWidth = sw at h1 h4 h5 hform
  generalize m.numSlices = N at h2 h3 h4 h5 hlen hform
  refine ⟨m, hset, by omega, by omega, ?_, ?_, ?_, ?_⟩
  · intro se hse
    obtain ⟨t, ht, hget⟩ := List.getElem_of_mem hse
    have htN : t < N.toNat := by omega
    have := hform t htN
    rw [List.getElem?_eq_getElem ht, hget] at this
    cases Option.some.inj this
    simp only
    have hmono : (t : Int) * sw ≤ (N - 1) * sw :=
      mul_le_mul_of_nonneg_right (by omega) (by omega)
    split_ifs <;> omega
  · have := hform 0 (by omega)
    simp only [Nat.cast_zero, zero_mul] at this
    exact ⟨_, this⟩
  · intro t ht
    have ha := hform t (by omega)
    have hb := hform (t + 1) (by omega)
    refine ⟨_, _, ha, hb, ?_⟩
    simp only
    have hmono : ((t : Int) + 1) * sw ≤ (N - 1) * sw :=
      mul_le_mul_of_nonneg_right (by omega) (by omega)
    have hexp : ((t : Int) + 1) * sw = (t : Int) * sw + sw := by ring
    rw [if_pos (by omega)]
    push_cast
    omega
  · have hl := hform (N.toNat - 1) (by omega)
    rw [hlen]
    refine ⟨((N.toNat - 1 : Nat) : Int) * sw, ?_⟩
    rw [hl]
    congr 2
    have hc : (((N.toNat - 1 : Nat) : Int)) = N - 1 := by omega
    rw [hc]
    have hexp : (N - 1) * sw + sw = N * sw := by ring
    split_ifs <;> omega

theorem polygonizeSlices_partition_witness :
    (1 : Int) ≤ (IsotropicParticleMesher.mk 5 1 1 1 1)._isize ∧
    (1 : Int) ≤ (IsotropicParticleMesher.mk 5 1 1 1 1)._subdivisionLevel ∧
    (2 : Int) ≤ 3 ∧ (3 : Int) ≤ (IsotropicParticleMesher.mk 5 1 1 1 1)._isize ∧
    ∃ m, (IsotropicParticleMesher.mk 5 1 1 1 1).setNumPolygonizationSlices 3 = some m ∧
      2 ≤ m._polygonizeSlices.length ∧ (m._polygonizeSlices.length : Int) ≤ 3 ∧
      (∀ se ∈ m._polygonizeSlices, se.1 ≤ se.2) ∧
      (∃ e, m._polygonizeSlices[0]? = some (0, e)) ∧
      (∀ t : Nat, t + 1 < m._polygonizeSlices.length →
        ∃ a b, m._polygonizeSlices[t]? = some a ∧ m._polygonizeSlices[t + 1]? = some b ∧
          b.1 = a.2 + 1) ∧
      (∃ a, m._polygonizeSlices[m._polygonizeSlices.length - 1]? =
        some (a, (IsotropicParticleMesher.mk 5 1 1 1 1)._isize *
          (IsotropicParticleMesher.mk 5 1 1 1 1)._subdivisionLevel - 1)) :=
  ⟨by decide, by decide, by decide, by decide,
    polygonizeSlices_partition (IsotropicParticleMesher.mk 5 1 1 1 1) 3
      (by decide) (by decide) (by decide) (by decide)⟩


theorem foldlM_none_of_abort {σ α : Type} (f : σ → α → Option σ) (l : List α) (a : α)
    (ha : a ∈ l) (hf : ∀ s, f s a = none) (init : σ) : l.foldlM f init = none := by
  induction l generalizing init with
  | nil => cases ha
  | cons b l ih =>
    rw [List.foldlM_cons]
    rcases List.mem_cons.1 ha with rfl | hmem
    · rw [hf]
      rfl
    · cases f init b with
      | none => rfl
      | some s1 => exact ih hmem s1

/-- C37 (the code violates the claim): with `isize = 2`, subdivision level `1` and two
slices, `_polygonizeSlices` produces the slices `[0, 0]` and `[1, 1]`; for the end slice
`[1, 1]` the slice material grid is two cells wide, so `_getSliceMaterialGrid` reads the
material grid at the x-index `1 + 1 = 2 = isize·subdivisionLevel`, out of range, and
the computation of the slice aborts.  The same holds for every `isize ≥ 1`,
subdivision level `s ≥ 1` and slice count `2 ≤ n ≤ isize`: the last slice
`[a, width - 1]` makes `_getSliceMaterialGrid` read the x-index `width`. -/
theorem getSliceMaterialGrid_reads_past_end :
    (IsotropicParticleMesher.mk 2 1 1 1 2)._polygonizeSlices = [(0, 0), (1, 1)] ∧
    (IsotropicParticleMesher.mk 2 1 1 1 2).sliceGridWidth 1 1 = 2 ∧
    (∀ mat : Int → Int → Int → Material,
      subdividedMaterial ⟨2, 1, 1, mat⟩ 1 (1 + 1) 0 0 = none ∧
      (IsotropicParticleMesher.mk 2 1 1 1 2)._polygonizeSlice 1 1 ⟨2, 1, 1, mat⟩ = none) ∧
    (∀ (m : IsotropicParticleMesher) (g : Array3d Material),
      1 ≤ m._subdivisionLevel → 2 ≤ m._numPolygonizationSlices →
      m._numPolygonizationSlices ≤ m._isize → 1 ≤ m._jsize → 1 ≤ m._ksize →
      (g.width : Int) = m._isize → (g.height : Int) = m._jsize →
      (g.depth : Int) = m._ksize →
      ∃ a, m._polygonizeSlices[m._polygonizeSlices.length - 1]? =
          some (a, m._isize * m._subdivisionLevel - 1) ∧
        0 ≤ m.sliceGridWidth a (m._isize * m._subdivisionLevel - 1) - 1 ∧
        a + (m.sliceGridWidth a (m._isize * m._subdivisionLevel - 1) - 1) =
          m._isize * m._subdivisionLevel ∧
        m._polygonizeSlice a (m._isize * m._subdivisionLevel - 1) g = none) := by
  have hsw : (IsotropicParticleMesher.mk 2 1 1 1 2).sliceWidth = 1 := by
    unfold IsotropicParticleMesher.sliceWidth
      IsotropicParticleMesher._getSubdividedGridDimensions
    rw [Int.ceil_eq_iff]
    norm_num
  have hN : (IsotropicParticleMesher.mk 2 1 1 1 2).numSlices = 2 := by
    unfold IsotropicParticleMesher.numSlices
    rw [hsw]
    unfold IsotropicParticleMesher._getSubdividedGridDimensions
    rw [Int.ceil_eq_iff]
    norm_num
  have hread : ∀ mat : Int → Int → Int → Material,
      subdividedMaterial ⟨2, 1, 1, mat⟩ 1 (1 + 1) 0 0 = none := by
    intro mat
    unfold subdividedMaterial
    rw [if_neg]
    simp
  refine ⟨?_, by decide, fun mat => ⟨hread mat, ?_⟩, ?_⟩
  · unfold IsotropicParticleMesher._polygonizeSlices
    rw [hN, hsw]
    decide
  · unfold IsotropicParticleMesher._polygonizeSlice
      IsotropicParticleMesher._computeSliceScalarField
      IsotropicParticleMesher._getSliceMaterialGrid
    rw [forCells_eq_foldlM]
    apply foldlM_none_of_abort _ _ ⟨1, 0, 0⟩
    · rw [mem_cellList]
      decide
    · intro sl
      simp only [hread mat]
      rfl
  · intro m g hs hn hw hj hk gw gh gd
    have hwid : m._isize * 1 ≤ m._isize * m._subdivisionLevel :=
      mul_le_mul_of_nonneg_left hs (by omega)
    have hhei : m._jsize * 1 ≤ m._jsize * m._subdivisionLevel :=
      mul_le_mul_of_nonneg_left hs (by omega)
    have hdep : m._ksize * 1 ≤ m._ksize * m._subdivisionLevel :=
      mul_le_mul_of_nonneg_left hs (by omega)
    obtain ⟨h1, h2, h3, h4, h5, hlen, hform⟩ := polygonizeSlices_closed m hn (by omega)
    have hl := hform (m.numSlices.toNat - 1) (by omega)
    have hc : (((m.numSlices.toNat - 1 : Nat) : Int)) = m.numSlices - 1 := by omega
    have hexp : (m.numSlices - 1) * m.sliceWidth + m.sliceWidth =
        m.numSlices * m.sliceWidth := by ring
    have hpos : 1 * m.sliceWidth ≤ (m.numSlices - 1) * m.sliceWidth :=
      mul_le_mul_of_nonneg_right (by omega) (by omega)
    have hend : (if (m.numSlices - 1) * m.sliceWidth + m.sliceWidth - 1 <
          m._isize * m._subdivisionLevel
        then (m.numSlices - 1) * m.sliceWidth + m.sliceWidth - 1
        else m._isize * m._subdivisionLevel - 1) = m._isize * m._subdivisionLevel - 1 := by
      split_ifs <;> omega
    rw [hc, hend] at hl
    have hgw : m.sliceGridWidth ((m.numSlices - 1) * m.sliceWidth)
        (m._isize * m._subdivisionLevel - 1) =
          m._isize * m._subdivisionLevel - (m.numSlices - 1) * m.sliceWidth + 1 := by
      unfold IsotropicParticleMesher.sliceGridWidth
        IsotropicParticleMesher._getSubdividedGridDimensions
      simp only [decide_True, Bool.or_true, if_true]
      ring
    refine ⟨(m.numSlices - 1) * m.sliceWidth, by rw [hlen]; exact hl, by rw [hgw]; omega,
      by rw [hgw]; ring, ?_⟩
    unfold IsotropicParticleMesher._polygonizeSlice
      IsotropicParticleMesher._computeSliceScalarField
      IsotropicParticleMesher._getSliceMaterialGrid
    rw [forCells_eq_foldlM]
    apply foldlM_none_of_abort _ _
      ⟨m._isize * m._subdivisionLevel - (m.numSlices - 1) * m.sliceWidth, 0, 0⟩
    · rw [mem_cellList]
      simp only [hgw, IsotropicParticleMesher._getSubdividedGridDimensions]
      omega
    · intro sl
      have : subdividedMaterial g m._subdivisionLevel
          ((m.numSlices - 1) * m.sliceWidth +
            (m._isize * m._subdivisionLevel - (m.numSlices - 1) * m.sliceWidth)) 0 0 =
          none := by
        unfold subdividedMaterial
        rw [if_neg]
        rw [gw]
        intro h
        omega
      simp only [this]
      rfl

/-! ## The assembled pressure matrix -/

theorem inRange_iff_of_dims {α : Type} {g : Array3d α} {W H D : Nat} (h : HasDims g W H D)
    (i j k : Int) :
    g.isIndexInRange i j k = true ↔ 0 ≤ i ∧ i < W ∧ 0 ≤ j ∧ j < H ∧ 0 ≤ k ∧ k < D := by
  obtain ⟨hw, hh, hd⟩ := h
  simp [Array3d.isIndexInRange, hw, hh, hd]

theorem set_of_dims {α : Type} {g : Array3d α} {W H D : Nat} (h : HasDims g W H D)
    (i j k : Int) (v : α) (hr : 0 ≤ i ∧ i < W ∧ 0 ≤ j ∧ j < H ∧ 0 ≤ k ∧ k < D) :
    ∃ g', g.set i j k v = some g' ∧ HasDims g' W H D ∧
      ∀ x y z, g'.grid x y z = if x = i ∧ y = j ∧ z = k then v else g.grid x y z := by
  have hin := (inRange_iff_of_dims h i j k).2 hr
  refine ⟨⟨g.width, g.height, g.depth,
    fun a b c => if a = i ∧ b = j ∧ c = k then v else g.grid a b c⟩, ?_, h, fun x y z => rfl⟩
  simp [Array3d.set, hin]

theorem add_of_dims {g : Array3d ℚ} {W H D : Nat} (h : HasDims g W H D)
    (i j k : Int) (v : ℚ) (hr : 0 ≤ i ∧ i < W ∧ 0 ≤ j ∧ j < H ∧ 0 ≤ k ∧ k < D) :
    ∃ g', g.add i j k v = some g' ∧ HasDims g' W H D := by
  have hin := (inRange_iff_of_dims h i j k).2 hr
  unfold Array3d.add
  rw [get_of_inRange g i j k hin]
  obtain ⟨g', h1, h2, -⟩ := set_of_dims h i j k (g.grid i j k + v) hr
  exact ⟨g', h1, h2⟩

/-- One axis of the loop body of `_calculateMatrixCoefficients`: the update completes,
keeps the dimensions, and writes `-scale` into the off-diagonal grid of the axis at
the cell exactly when the neighbour is fluid. -/
theorem matrixAxisUpdate_spec (g : Array3d Material) (scale : ℚ) (i j k ni nj nk : Int)
    (setPlus : MatrixCoefficients → Array3d ℚ → MatrixCoefficients)
    (plus : MatrixCoefficients → Array3d ℚ) (A : MatrixCoefficients) (W H D : Nat)
    (hlens : ∀ (B : MatrixCoefficients) (d : Array3d ℚ),
      setPlus { B with diag := d } (plus B) = { B with diag := d })
    (hg : HasDims g W H D) (hd : HasDims A.diag W H D) (hp : HasDims (plus A) W H D)
    (hc : 0 ≤ i ∧ i < W ∧ 0 ≤ j ∧ j < H ∧ 0 ≤ k ∧ k < D)
    (hn : 0 ≤ ni ∧ ni < W ∧ 0 ≤ nj ∧ nj < H ∧ 0 ≤ nk ∧ nk < D) :
    ∃ d p, HasDims d W H D ∧ HasDims p W H D ∧
      (∀ x y z, p.grid x y z =
        if (x = i ∧ y = j ∧ z = k) ∧ g.grid ni nj nk = M_FLUID then -scale
        else (plus A).grid x y z) ∧
      matrixAxisUpdate g scale i j k ni nj nk setPlus plus A =
        some (setPlus { A with diag := d } p) := by
  have hgn := (inRange_iff_of_dims hg ni nj nk).2 hn
  unfold matrixAxisUpdate
  simp only [_isCellFluid, _isCellAir, get_of_inRange g ni nj nk hgn, Option.bind_eq_bind,
    Option.some_bind, Option.pure_def]
  by_cases hf : g.grid ni nj nk = M_FLUID
  · obtain ⟨d1, e1, hd1⟩ := add_of_dims hd i j k scale hc
    obtain ⟨d2, e2, hd2⟩ := add_of_dims hd1 ni nj nk scale hn
    obtain ⟨p, e3, hp3, hpv⟩ := set_of_dims hp i j k (-scale) hc
    refine ⟨d2, p, hd2, hp3, fun x y z => ?_, ?_⟩
    · rw [hpv]
      simp [hf]
    · simp [hf, e1, e2, e3]
  · by_cases ha : g.grid ni nj nk = M_AIR
    · obtain ⟨d1, e1, hd1⟩ := add_of_dims hd i j k scale hc
      refine ⟨d1, plus A, hd1, hp, fun x y z => by simp [hf], ?_⟩
      rw [hlens]
      simp [hf, ha, e1]
    · refine ⟨A.diag, plus A, hd, hp, fun x y z => by simp [hf], ?_⟩
      rw [hlens]
      simp [hf, ha]


theorem neighbours_inRange {g : Array3d Material} {W H D : Nat} (hg : HasDims g W H D)
    (hint : FluidInterior g) {c : GridIndex}
    (hc : cellHolds g c.i c.j c.k M_FLUID = true) :
    (0 ≤ c.i - 1 ∧ c.i + 1 < W) ∧ (0 ≤ c.j - 1 ∧ c.j + 1 < H) ∧
      (0 ≤ c.k - 1 ∧ c.k + 1 < D) := by
  have h := hint c.i c.j c.k hc
  have h1 := (inRange_iff_of_dims hg _ _ _).1
    (h ⟨c.i - 1, c.j, c.k⟩ (by simp [_getNeighbourGridIndices6]))
  have h2 := (inRange_iff_of_dims hg _ _ _).1
    (h ⟨c.i + 1, c.j, c.k⟩ (by simp [_getNeighbourGridIndices6]))
  have h3 := (inRange_iff_of_dims hg _ _ _).1
    (h ⟨c.i, c.j - 1, c.k⟩ (by simp [_getNeighbourGridIndices6]))
  have h4 := (inRange_iff_of_dims hg _ _ _).1
    (h ⟨c.i, c.j + 1, c.k⟩ (by simp [_getNeighbourGridIndices6]))
  have h5 := (inRange_iff_of_dims hg _ _ _).1
    (h ⟨c.i, c.j, c.k - 1⟩ (by simp [_getNeighbourGridIndices6]))
  have h6 := (inRange_iff_of_dims hg _ _ _).1
    (h ⟨c.i, c.j, c.k + 1⟩ (by simp [_getNeighbourGridIndices6]))
  simp only at h1 h2 h3 h4 h5 h6
  omega

/-- The off-diagonal grids that `_calculateMatrixCoefficients` leaves: the call
completes, and `plusi` (`plusj`, `plusk`) holds `-scale` at every listed cell whose
neighbour on the positive side of the axis is fluid and its initial value elsewhere. -/
theorem calculateMatrixCoefficients_plus (s : FluidSimulation) (dt : ℚ) (W H D : Nat)
    (hg : HasDims s._materialGrid W H D) (hint : FluidInterior s._materialGrid)
    (hmem : ∀ c ∈ s._fluidCellIndices, cellHolds s._materialGrid c.i c.j c.k M_FLUID = true)
    (A0 : MatrixCoefficients) (hA0 : A0.HasDims W H D) :
    ∃ A, _calculateMatrixCoefficients s A0 dt = some A ∧ A.HasDims W H D ∧
      (∀ x y z, A.plusi.grid x y z =
        if GridIndex.mk x y z ∈ s._fluidCellIndices ∧
            s._materialGrid.grid (x + 1) y z = M_FLUID
        then -(dt / (s._density * s._dx * s._dx)) else A0.plusi.grid x y z) ∧
      (∀ x y z, A.plusj.grid x y z =
        if GridIndex.mk x y z ∈ s._fluidCellIndices ∧
            s._materialGrid.grid x (y + 1) z = M_FLUID
        then -(dt / (s._density * s._dx * s._dx)) else A0.plusj.grid x y z) ∧
      (∀ x y z, A.plusk.grid x y z =
        if GridIndex.mk x y z ∈ s._fluidCellIndices ∧
            s._materialGrid.grid x y (z + 1) = M_FLUID
        then -(dt / (s._density * s._dx * s._dx)) else A0.plusk.grid x y z) := by
  unfold _calculateMatrixCoefficients
  simp only
  obtain ⟨A, hrun, hdim, h1, h2, h3⟩ := foldlM_inv
    (fun (A : MatrixCoefficients) (idx : GridIndex) => do
      let A ← matrixAxisUpdate s._materialGrid (dt / (s._density * s._dx * s._dx))
        idx.i idx.j idx.k (idx.i + 1) idx.j idx.k
        (fun A p => { A with plusi := p }) (fun A => A.plusi) A
      let A ← matrixAxisUpdate s._materialGrid (dt / (s._density * s._dx * s._dx))
        idx.i idx.j idx.k idx.i (idx.j + 1) idx.k
        (fun A p => { A with plusj := p }) (fun A => A.plusj) A
      matrixAxisUpdate s._materialGrid (dt / (s._density * s._dx * s._dx))
        idx.i idx.j idx.k idx.i idx.j (idx.k + 1)
        (fun A p => { A with plusk := p }) (fun A => A.plusk) A)
    s._fluidCellIndices A0
    (fun pre A => A.HasDims W H D ∧
      (∀ x y z, A.plusi.grid x y z =
        if GridIndex.mk x y z ∈ pre ∧ s._materialGrid.grid (x + 1) y z = M_FLUID
        then -(dt / (s._density * s._dx * s._dx)) else A0.plusi.grid x y z) ∧
      (∀ x y z, A.plusj.grid x y z =
        if GridIndex.mk x y z ∈ pre ∧ s._materialGrid.grid x (y + 1) z = M_FLUID
        then -(dt / (s._density * s._dx * s._dx)) else A0.plusj.grid x y z) ∧
      (∀ x y z, A.plusk.grid x y z =
        if GridIndex.mk x y z ∈ pre ∧ s._materialGrid.grid x y (z + 1) = M_FLUID
        then -(dt / (s._density * s._dx * s._dx)) else A0.plusk.grid x y z))
    ⟨hA0, fun _ _ _ => by simp, fun _ _ _ => by simp, fun _ _ _ => by simp⟩
    (by
      rintro pre c post A hl ⟨⟨hd, hpi, hpj, hpk⟩, h1, h2, h3⟩
      have hcm : c ∈ s._fluidCellIndices := by rw [hl]; simp
      have hcf := hmem c hcm
      have hcr := (inRange_iff_of_dims hg _ _ _).1 (cellHolds_inRange hcf)
      obtain ⟨hx, hy, hz⟩ := neighbours_inRange hg hint hcf
      obtain ⟨d1, p1, hd1, hp1, hv1, e1⟩ := matrixAxisUpdate_spec s._materialGrid
        (dt / (s._density * s._dx * s._dx)) c.i c.j c.k (c.i + 1) c.j c.k
        (fun A p => { A with plusi := p }) (fun A => A.plusi) A W H D
        (fun _ _ => rfl) hg hd hpi hcr (by omega)
      obtain ⟨d2, p2, hd2, hp2, hv2, e2⟩ := matrixAxisUpdate_spec s._materialGrid
        (dt / (s._density * s._dx * s._dx)) c.i c.j c.k c.i (c.j + 1) c.k
        (fun A p => { A with plusj := p }) (fun A => A.plusj)
        { A with diag := d1, plusi := p1 } W H D
        (fun _ _ => rfl) hg hd1 hpj hcr (by omega)
      obtain ⟨d3, p3, hd3, hp3, hv3, e3⟩ := matrixAxisUpdate_spec s._materialGrid
        (dt / (s._density * s._dx * s._dx)) c.i c.j c.k c.i c.j (c.k + 1)
        (fun A p => { A with plusk := p }) (fun A => A.plusk)
        { A with diag := d2, plusi := p1, plusj := p2 } W H D
        (fun _ _ => rfl) hg hd2 hpk hcr (by omega)
      refine ⟨{ A with diag := d3, plusi := p1, plusj := p2, plusk := p3 }, ?_,
        ⟨hd3, hp1, hp2, hp3⟩, fun x y z => ?_, fun x y z => ?_, fun x y z => ?_⟩
      · simp only [Option.bind_eq_bind]
        rw [e1]
        simp only [Option.some_bind]
        rw [e2]
        simp only [Option.some_bind]
        rw [e3]
      · show p1.grid x y z = _
        rw [hv1, h1]
        by_cases hx : x = c.i ∧ y = c.j ∧ z = c.k
        · obtain ⟨rfl, rfl, rfl⟩ := hx
          by_cases hf : s._materialGrid.grid (c.i + 1) c.j c.k = M_FLUID
          · simp [hf]
          · simp [hf]
        · have hne : GridIndex.mk x y z ≠ c := by
            intro h
            apply hx
            rw [← h]
            exact ⟨rfl, rfl, rfl⟩
          simp [hx, hne]
      · show p2.grid x y z = _
        rw [hv2, h2]
        by_cases hx : x = c.i ∧ y = c.j ∧ z = c.k
        · obtain ⟨rfl, rfl, rfl⟩ := hx
          by_cases hf : s._materialGrid.grid c.i (c.j + 1) c.k = M_FLUID
          · simp [hf]
          · simp [hf]
        · have hne : GridIndex.mk x y z ≠ c := by
            intro h
            apply hx
            rw [← h]
            exact ⟨rfl, rfl, rfl⟩
          simp [hx, hne]
      · show p3.grid x y z = _
        rw [hv3, h3]
        by_cases hx : x = c.i ∧ y = c.j ∧ z = c.k
        · obtain ⟨rfl, rfl, rfl⟩ := hx
          by_cases hf : s._materialGrid.grid c.i c.j (c.k + 1) = M_FLUID
          · simp [hf]
          · simp [hf]
        · have hne : GridIndex.mk x y z ≠ c := by
            intro h
            apply hx
            rw [← h]
            exact ⟨rfl, rfl, rfl⟩
          simp [hx, hne])
  exact ⟨A, hrun, hdim, h1, h2, h3⟩


theorem numFluidOrAirCellNeighbours_eq (g : Array3d Material) (c : GridIndex)
    (h : ∀ n ∈ _getNeighbourGridIndices6 c.i c.j c.k, g.isIndexInRange n.i n.j n.k = true) :
    _getNumFluidOrAirCellNeighbours g c.i c.j c.k = some (nonSolidCount g c) := by
  have h1 := isCellSolid_of_inRange g _ _ _
    (h ⟨c.i - 1, c.j, c.k⟩ (by simp [_getNeighbourGridIndices6]))
  have h2 := isCellSolid_of_inRange g _ _ _
    (h ⟨c.i + 1, c.j, c.k⟩ (by simp [_getNeighbourGridIndices6]))
  have h3 := isCellSolid_of_inRange g _ _ _
    (h ⟨c.i, c.j - 1, c.k⟩ (by simp [_getNeighbourGridIndices6]))
  have h4 := isCellSolid_of_inRange g _ _ _
    (h ⟨c.i, c.j + 1, c.k⟩ (by simp [_getNeighbourGridIndices6]))
  have h5 := isCellSolid_of_inRange g _ _ _
    (h ⟨c.i, c.j, c.k - 1⟩ (by simp [_getNeighbourGridIndices6]))
  have h6 := isCellSolid_of_inRange g _ _ _
    (h ⟨c.i, c.j, c.k + 1⟩ (by simp [_getNeighbourGridIndices6]))
  simp only at h1 h2 h3 h4 h5 h6
  unfold _getNumFluidOrAirCellNeighbours nonSolidCount _getNeighbourGridIndices6
  simp only [h1, h2, h3, h4, h5, h6, Option.bind_eq_bind, Option.some_bind, Option.pure_def]
  by_cases e1 : g.grid (c.i - 1) c.j c.k = M_SOLID <;>
  by_cases e2 : g.grid (c.i + 1) c.j c.k = M_SOLID <;>
  by_cases e3 : g.grid c.i (c.j - 1) c.k = M_SOLID <;>
  by_cases e4 : g.grid c.i (c.j + 1) c.k = M_SOLID <;>
  by_cases e5 : g.grid c.i c.j (c.k - 1) = M_SOLID <;>
  by_cases e6 : g.grid c.i c.j (c.k + 1) = M_SOLID <;>
  simp [e1, e2, e3, e4, e5, e6, List.filter]

theorem neighbourTriplet_spec (s : FluidSimulation) (plus : Array3d ℚ) (row : Int)
    (ni nj nk ci cj ck : Int) (ts : List (Int × Int × ℚ))
    (hn : s._materialGrid.isIndexInRange ni nj nk = true)
    (hc : plus.isIndexInRange ci cj ck = true) :
    neighbourTriplet s plus row ni nj nk ci cj ck ts =
      some (ts ++ if s._materialGrid.grid ni nj nk = M_FLUID then
        [(_GridIndexToVectorIndex s ni nj nk, row, plus.grid ci cj ck)] else []) := by
  unfold neighbourTriplet
  simp only [_isCellFluid, get_of_inRange _ _ _ _ hn, get_of_inRange _ _ _ _ hc,
    Option.bind_eq_bind, Option.some_bind, Option.pure_def]
  by_cases hf : s._materialGrid.grid ni nj nk = M_FLUID
  · simp [hf]
  · simp [hf]


theorem matrixCoefficientsToEigenSparseMatrix_eq (s : FluidSimulation)
    (A : MatrixCoefficients) (dt : ℚ) :
    _MatrixCoefficientsToEigenSparseMatrix s A dt =
      (s._fluidCellIndices.enum.foldlM
        (assembleRow s A (dt / (s._density * s._dx * s._dx))) []).bind
        (setFromTriplets s._fluidCellIndices.length) := rfl

theorem slot_congr (P : Prop) [Decidable P] (a row : Int) (x y : ℚ) (h : P → x = y) :
    (if P then [(a, row, x)] else []) = if P then [(a, row, y)] else [] := by
  by_cases hp : P
  · rw [if_pos hp, if_pos hp, h hp]
  · rw [if_neg hp, if_neg hp]

theorem mem_list_of_fluid {s : FluidSimulation} {W H D : Nat} (hr : SystemReady s W H D)
    (x y z : Int) (hin : s._materialGrid.isIndexInRange x y z = true)
    (hf : s._materialGrid.grid x y z = M_FLUID) : GridIndex.mk x y z ∈ s._fluidCellIndices := by
  rw [hr.2.2.1]
  rw [get_of_inRange _ _ _ _ hin, hf]

theorem fluid_of_mem_list {s : FluidSimulation} {W H D : Nat} (hr : SystemReady s W H D)
    (c : GridIndex) (hc : c ∈ s._fluidCellIndices) :
    cellHolds s._materialGrid c.i c.j c.k M_FLUID = true :=
  cellHolds_of_get ((hr.2.2.1 c).1 hc)

/-- One pass through the loop body of the assembly for a listed cell. -/
theorem assembleRow_spec (s : FluidSimulation) (A : MatrixCoefficients) (scale : ℚ)
    (W H D : Nat) (hr : SystemReady s W H D) (hA : A.HasDims W H D)
    (hplus : PlusCoefficients s A scale) (p : Nat) (c : GridIndex)
    (hc : c ∈ s._fluidCellIndices) (ts : List (Int × Int × ℚ)) :
    assembleRow s A scale ts (p, c) = some (ts ++ rowTriplets s scale p c) := by
  obtain ⟨hg, hint, hlist, hnd, hidx⟩ := hr
  obtain ⟨-, hpi, hpj, hpk⟩ := hA
  obtain ⟨vi, vj, vk⟩ := hplus
  have hcf := cellHolds_of_get ((hlist c).1 hc)
  have hcr := (inRange_iff_of_dims hg _ _ _).1 (cellHolds_inRange hcf)
  have hcfl : s._materialGrid.grid c.i c.j c.k = M_FLUID := by
    unfold cellHolds at hcf
    simp only [Bool.and_eq_true, decide_eq_true_eq] at hcf
    exact hcf.2
  obtain ⟨hx, hy, hz⟩ := neighbours_inRange hg hint hcf
  have hnb := hint c.i c.j c.k hcf
  have rg : ∀ x y z : Int, (0 ≤ x ∧ x < W ∧ 0 ≤ y ∧ y < H ∧ 0 ≤ z ∧ z < D) →
      s._materialGrid.isIndexInRange x y z = true :=
    fun x y z h => (inRange_iff_of_dims hg x y z).2 h
  have ri : ∀ x y z : Int, (0 ≤ x ∧ x < W ∧ 0 ≤ y ∧ y < H ∧ 0 ≤ z ∧ z < D) →
      A.plusi.isIndexInRange x y z = true :=
    fun x y z h => (inRange_iff_of_dims hpi x y z).2 h
  have rj : ∀ x y z : Int, (0 ≤ x ∧ x < W ∧ 0 ≤ y ∧ y < H ∧ 0 ≤ z ∧ z < D) →
      A.plusj.isIndexInRange x y z = true :=
    fun x y z h => (inRange_iff_of_dims hpj x y z).2 h
  have rk : ∀ x y z : Int, (0 ≤ x ∧ x < W ∧ 0 ≤ y ∧ y < H ∧ 0 ≤ z ∧ z < D) →
      A.plusk.isIndexInRange x y z = true :=
    fun x y z h => (inRange_iff_of_dims hpk x y z).2 h
  have hm : ∀ x y z : Int, (0 ≤ x ∧ x < W ∧ 0 ≤ y ∧ y < H ∧ 0 ≤ z ∧ z < D) →
      s._materialGrid.grid x y z = M_FLUID → GridIndex.mk x y z ∈ s._fluidCellIndices := by
    intro x y z h hf
    rw [hlist, get_of_inRange _ _ _ _ (rg x y z h), hf]
  have hcm : GridIndex.mk c.i c.j c.k ∈ s._fluidCellIndices := hc
  unfold assembleRow
  simp only [Option.bind_eq_bind]
  rw [numFluidOrAirCellNeighbours_eq _ c hnb]
  simp only [Option.some_bind]
  rw [neighbourTriplet_spec s A.plusi p (c.i - 1) c.j c.k (c.i - 1) c.j c.k _
    (rg _ _ _ (by omega)) (ri _ _ _ (by omega))]
  simp only [Option.some_bind]
  rw [neighbourTriplet_spec s A.plusi p (c.i + 1) c.j c.k c.i c.j c.k _
    (rg _ _ _ (by omega)) (ri _ _ _ (by omega))]
  simp only [Option.some_bind]
  rw [neighbourTriplet_spec s A.plusj p c.i (c.j - 1) c.k c.i (c.j - 1) c.k _
    (rg _ _ _ (by omega)) (rj _ _ _ (by omega))]
  simp only [Option.some_bind]
  rw [neighbourTriplet_spec s A.plusj p c.i (c.j + 1) c.k c.i c.j c.k _
    (rg _ _ _ (by omega)) (rj _ _ _ (by omega))]
  simp only [Option.some_bind]
  rw [neighbourTriplet_spec s A.plusk p c.i c.j (c.k - 1) c.i c.j (c.k - 1) _
    (rg _ _ _ (by omega)) (rk _ _ _ (by omega))]
  simp only [Option.some_bind]
  rw [neighbourTriplet_spec s A.plusk p c.i c.j (c.k + 1) c.i c.j c.k _
    (rg _ _ _ (by omega)) (rk _ _ _ (by omega))]
  rw [slot_congr _ _ _ (A.plusi.grid (c.i - 1) c.j c.k) (-scale) (fun hf => by
      rw [vi, if_pos ⟨hm _ _ _ (by omega) hf, by rw [sub_add_cancel]; exact hcfl⟩]),
    slot_congr _ _ _ (A.plusi.grid c.i c.j c.k) (-scale) (fun hf => by
      rw [vi, if_pos ⟨hcm, hf⟩]),
    slot_congr _ _ _ (A.plusj.grid c.i (c.j - 1) c.k) (-scale) (fun hf => by
      rw [vj, if_pos ⟨hm _ _ _ (by omega) hf, by rw [sub_add_cancel]; exact hcfl⟩]),
    slot_congr _ _ _ (A.plusj.grid c.i c.j c.k) (-scale) (fun hf => by
      rw [vj, if_pos ⟨hcm, hf⟩]),
    slot_congr _ _ _ (A.plusk.grid c.i c.j (c.k - 1)) (-scale) (fun hf => by
      rw [vk, if_pos ⟨hm _ _ _ (by omega) hf, by rw [sub_add_cancel]; exact hcfl⟩]),
    slot_congr _ _ _ (A.plusk.grid c.i c.j c.k) (-scale) (fun hf => by
      rw [vk, if_pos ⟨hcm, hf⟩])]
  simp only [rowTriplets, _getNeighbourGridIndices6, List.flatMap_cons, List.flatMap_nil,
    List.append_assoc, List.append_nil, List.singleton_append, List.cons_append,
    List.nil_append]


theorem foldlM_append_all {α β : Type} (f : List β → α → Option (List β)) (g : α → List β)
    (l : List α) (h : ∀ a ∈ l, ∀ ts, f ts a = some (ts ++ g a)) (init : List β) :
    l.foldlM f init = some (init ++ l.flatMap g) := by
  induction l generalizing init with
  | nil => simp
  | cons a l ih =>
    rw [List.foldlM_cons, h a (List.mem_cons_self _ _)]
    simp only [Option.some_bind, Option.bind_eq_bind]
    rw [ih (fun b hb => h b (List.mem_cons_of_mem _ hb))]
    simp

theorem mem_enum_getElem {α : Type} (l : List α) (p : Nat) (x : α)
    (h : (p, x) ∈ l.enum) : l[p]? = some x := by
  rw [List.mk_mem_enum_iff_getElem?] at h
  exact h

/-- Every triplet of the row of a listed cell lies inside the matrix. -/
theorem rowTriplets_inside (s : FluidSimulation) (scale : ℚ) (W H D : Nat)
    (hr : SystemReady s W H D) (p : Nat) (c : GridIndex)
    (hp : s._fluidCellIndices[p]? = some c) :
    ∀ t ∈ rowTriplets s scale p c,
      t.2.1 = p ∧ 0 ≤ t.1 ∧ t.1 < s._fluidCellIndices.length := by
  obtain ⟨hg, hint, hlist, hnd, hidx⟩ := hr
  have hc : c ∈ s._fluidCellIndices := List.getElem?_mem hp
  have hplt : p < s._fluidCellIndices.length := by
    by_contra hge
    rw [List.getElem?_eq_none (by omega)] at hp
    cases hp
  have hcf := cellHolds_of_get ((hlist c).1 hc)
  intro t ht
  unfold rowTriplets at ht
  rcases List.mem_cons.1 ht with rfl | ht
  · exact ⟨rfl, by simp, by simpa using hplt⟩
  · rw [List.mem_flatMap] at ht
    obtain ⟨n, hn, ht⟩ := ht
    by_cases hf : s._materialGrid.grid n.i n.j n.k = M_FLUID
    · rw [if_pos hf, List.mem_singleton] at ht
      subst ht
      have hnin := hint c.i c.j c.k hcf n hn
      have hnm : n ∈ s._fluidCellIndices := by
        rw [hlist, get_of_inRange _ _ _ _ hnin, hf]
      obtain ⟨q, hq, hqe⟩ := List.getElem_of_mem hnm
      have hqi := hidx q n (by rw [List.getElem?_eq_getElem hq, hqe])
      refine ⟨rfl, ?_, ?_⟩
      · simp only [hqi]
        omega
      · simp only [hqi]
        exact_mod_cast hq
    · rw [if_neg hf] at ht
      cases ht

/-- The assembled matrix in closed form. -/
theorem matrixCoefficientsToEigenSparseMatrix_closed (s : FluidSimulation)
    (A : MatrixCoefficients) (dt : ℚ) (W H D : Nat) (hr : SystemReady s W H D)
    (hA : A.HasDims W H D)
    (hplus : PlusCoefficients s A (dt / (s._density * s._dx * s._dx))) :
    _MatrixCoefficientsToEigenSparseMatrix s A dt =
      some ⟨s._fluidCellIndices.length, s._fluidCellIndices.enum.flatMap
        (fun ig => rowTriplets s (dt / (s._density * s._dx * s._dx)) ig.1 ig.2)⟩ := by
  rw [matrixCoefficientsToEigenSparseMatrix_eq]
  rw [foldlM_append_all _
    (fun ig => rowTriplets s (dt / (s._density * s._dx * s._dx)) ig.1 ig.2) _
    (fun ig hig ts => assembleRow_spec s A _ W H D hr hA hplus ig.1 ig.2
      (List.getElem?_mem (mem_enum_getElem _ _ _ hig)) ts)]
  simp only [List.nil_append, Option.some_bind, Option.bind_eq_bind]
  unfold setFromTriplets
  rw [if_pos]
  rw [List.all_eq_true]
  intro t ht
  rw [List.mem_flatMap] at ht
  obtain ⟨ig, hig, ht⟩ := ht
  have hp := mem_enum_getElem _ _ _ hig
  have hplt : ig.1 < s._fluidCellIndices.length := by
    by_contra hge
    rw [List.getElem?_eq_none (by omega)] at hp
    cases hp
  obtain ⟨h1, h2, h3⟩ := rowTriplets_inside s _ W H D hr ig.1 ig.2 hp t ht
  simp only [decide_eq_true_eq]
  refine ⟨h2, h3, ?_, ?_⟩
  · rw [h1]
    omega
  · rw [h1]
    exact_mod_cast hplt


theorem sum_filter_flatMap {α β : Type} (l : List α) (g : α → List β) (q : β → Bool)
    (v : β → ℚ) :
    (((l.flatMap g).filter q).map v).sum =
      (l.map (fun a => (((g a).filter q).map v).sum)).sum := by
  induction l with
  | nil => simp
  | cons a l ih =>
    rw [List.flatMap_cons, List.filter_append, List.map_append, List.sum_append, ih]
    simp

theorem sum_enumFrom_zero {α : Type} (l : List α) (n c : Nat) (F : Nat × α → ℚ)
    (hF : ∀ p y, p ≠ c → F (p, y) = 0) (hn : c < n) :
    ((l.enumFrom n).map F).sum = 0 := by
  induction l generalizing n with
  | nil => simp
  | cons y l ih =>
    rw [List.enumFrom_cons, List.map_cons, List.sum_cons, hF n y (by omega),
      ih (n + 1) (by omega), add_zero]

theorem sum_enumFrom_single {α : Type} (l : List α) (n c : Nat) (x : α) (F : Nat × α → ℚ)
    (hF : ∀ p y, p ≠ c → F (p, y) = 0) (hn : n ≤ c) (hx : l[c - n]? = some x) :
    ((l.enumFrom n).map F).sum = F (c, x) := by
  induction l generalizing n with
  | nil => simp at hx
  | cons y l ih =>
    rw [List.enumFrom_cons, List.map_cons, List.sum_cons]
    rcases Nat.eq_or_lt_of_le hn with heq | hlt
    · subst heq
      rw [Nat.sub_self, List.getElem?_cons_zero] at hx
      cases hx
      rw [sum_enumFrom_zero l (n + 1) n F hF (by omega), add_zero]
    · rw [hF n y (by omega), zero_add]
      apply ih (n + 1) (by omega)
      have : c - n = (c - (n + 1)) + 1 := by omega
      rw [this, List.getElem?_cons_succ] at hx
      exact hx

theorem sum_ite_eq_of_nodup {α : Type} [DecidableEq α] (l : List α) (a : α) (v : ℚ)
    (h : l.Nodup) :
    (l.map (fun n => if n = a then v else 0)).sum = if a ∈ l then v else 0 := by
  induction l with
  | nil => simp
  | cons b l ih =>
    rw [List.map_cons, List.sum_cons, ih (List.nodup_cons.1 h).2]
    by_cases hb : b = a
    · subst hb
      have : b ∉ l := (List.nodup_cons.1 h).1
      simp [this]
    · have : a ≠ b := fun e => hb e.symm
      simp [hb, this]

theorem neighbours6_nodup (i j k : Int) : (_getNeighbourGridIndices6 i j k).Nodup := by
  simp only [_getNeighbourGridIndices6, List.nodup_cons, List.mem_cons, List.mem_singleton,
    GridIndex.mk.injEq, List.not_mem_nil, List.nodup_nil, or_false, and_true, not_or,
    not_false_eq_true]
  refine ⟨⟨?_, ?_, ?_, ?_, ?_⟩, ⟨?_, ?_, ?_, ?_⟩, ⟨?_, ?_, ?_⟩, ⟨?_, ?_⟩, ?_⟩ <;>
    intro h <;> omega

theorem rowTriplets_column (s : FluidSimulation) (scale : ℚ) (row : Int) (c : GridIndex) :
    ∀ t ∈ rowTriplets s scale row c, t.2.1 = row := by
  intro t ht
  unfold rowTriplets at ht
  rcases List.mem_cons.1 ht with rfl | ht
  · rfl
  · rw [List.mem_flatMap] at ht
    obtain ⟨n, -, ht⟩ := ht
    split_ifs at ht
    · rw [List.mem_singleton] at ht
      subst ht
      rfl
    · cases ht

/-- The entry `(r, c)` that the row of the cell `cc` of position `c` contributes. -/
theorem rowTriplets_entry (s : FluidSimulation) (scale : ℚ) (r : Int) (c : Nat)
    (cc : GridIndex) :
    (((rowTriplets s scale c cc).filter
        (fun t => decide (t.1 = r ∧ t.2.1 = (c : Int)))).map (fun t => t.2.2)).sum =
      (if (c : Int) = r then (nonSolidCount s._materialGrid cc : ℚ) * scale else 0) +
        ((_getNeighbourGridIndices6 cc.i cc.j cc.k).map (fun n =>
          if s._materialGrid.grid n.i n.j n.k = M_FLUID ∧
              _GridIndexToVectorIndex s n.i n.j n.k = r then -scale else 0)).sum := by
  unfold rowTriplets
  rw [List.filter_cons]
  have hrest : ((((_getNeighbourGridIndices6 cc.i cc.j cc.k).flatMap (fun n =>
        if s._materialGrid.grid n.i n.j n.k = M_FLUID then
          [(_GridIndexToVectorIndex s n.i n.j n.k, (c : Int), -scale)]
        else [])).filter (fun t => decide (t.1 = r ∧ t.2.1 = (c : Int)))).map
          (fun t => t.2.2)).sum =
      ((_getNeighbourGridIndices6 cc.i cc.j cc.k).map (fun n =>
          if s._materialGrid.grid n.i n.j n.k = M_FLUID ∧
              _GridIndexToVectorIndex s n.i n.j n.k = r then -scale else 0)).sum := by
    rw [sum_filter_flatMap]
    congr 1
    apply List.map_congr_left
    intro n _
    by_cases hf : s._materialGrid.grid n.i n.j n.k = M_FLUID
    · by_cases hi : _GridIndexToVectorIndex s n.i n.j n.k = r
      · simp [hf, hi]
      · simp [hf, hi]
    · simp [hf]
  by_cases hcr : (c : Int) = r
  · subst hcr
    simp only [and_self, decide_True, if_true, List.map_cons, List.sum_cons]
    rw [hrest]
  · have : ¬ ((c : Int) = r ∧ (c : Int) = (c : Int)) := fun h => hcr h.1
    simp only [this, decide_False, Bool.false_eq_true, if_false, hcr, zero_add]
    exact hrest


/-- Among the neighbours of a listed cell, the fluid one whose index is `r` is the
cell listed at position `r`. -/
theorem fluid_index_iff (s : FluidSimulation) (W H D : Nat) (hr : SystemReady s W H D)
    (r : Nat) (cr cc n : GridIndex) (hcr : s._fluidCellIndices[r]? = some cr)
    (hcc : cc ∈ s._fluidCellIndices) (hn : n ∈ _getNeighbourGridIndices6 cc.i cc.j cc.k) :
    (s._materialGrid.grid n.i n.j n.k = M_FLUID ∧
      _GridIndexToVectorIndex s n.i n.j n.k = (r : Int)) ↔ n = cr := by
  obtain ⟨hg, hint, hlist, hnd, hidx⟩ := hr
  have hccf := cellHolds_of_get ((hlist cc).1 hcc)
  have hnin := hint cc.i cc.j cc.k hccf n hn
  constructor
  · rintro ⟨hf, hi⟩
    have hnm : n ∈ s._fluidCellIndices := by
      rw [hlist, get_of_inRange _ _ _ _ hnin, hf]
    obtain ⟨q, hq, hqe⟩ := List.getElem_of_mem hnm
    have hqs : s._fluidCellIndices[q]? = some n := by
      rw [List.getElem?_eq_getElem hq, hqe]
    have hqi := hidx q n hqs
    rw [hi] at hqi
    have : q = r := by exact_mod_cast hqi.symm
    subst this
    rw [hqs] at hcr
    exact Option.some.inj hcr
  · rintro rfl
    have hm : n ∈ s._fluidCellIndices := List.getElem?_mem hcr
    have hf := cellHolds_of_get ((hlist n).1 hm)
    unfold cellHolds at hf
    simp only [Bool.and_eq_true, decide_eq_true_eq] at hf
    exact ⟨hf.2, hidx r n hcr⟩

/-- The entries of the assembled matrix: the diagonal of a row is the number of
non-solid neighbours of its cell times `scale`, and the entry of two different listed
cells is `-scale` when they are 6-neighbours and `0` otherwise. -/
theorem assembled_coeff (s : FluidSimulation) (A : MatrixCoefficients) (dt : ℚ)
    (W H D : Nat) (hr : SystemReady s W H D) (hA : A.HasDims W H D)
    (hplus : PlusCoefficients s A (dt / (s._density * s._dx * s._dx)))
    (M : SparseMatrix) (hM : _MatrixCoefficientsToEigenSparseMatrix s A dt = some M)
    (r c : Nat) (cr cc : GridIndex) (hcr : s._fluidCellIndices[r]? = some cr)
    (hcc : s._fluidCellIndices[c]? = some cc) :
    M.coeff r c =
      (if c = r then (nonSolidCount s._materialGrid cc : ℚ) *
          (dt / (s._density * s._dx * s._dx)) else 0) +
        (if cr ∈ _getNeighbourGridIndices6 cc.i cc.j cc.k
          then -(dt / (s._density * s._dx * s._dx)) else 0) := by
  rw [matrixCoefficientsToEigenSparseMatrix_closed s A dt W H D hr hA hplus] at hM
  cases hM
  unfold SparseMatrix.coeff
  simp only
  rw [sum_filter_flatMap]
  unfold List.enum
  rw [sum_enumFrom_single _ 0 c cc _ _ (Nat.zero_le _) (by simpa using hcc)]
  · simp only
    rw [rowTriplets_entry]
    congr 1
    · by_cases h : c = r
      · simp [h]
      · have : ¬ ((c : Int) = (r : Int)) := by exact_mod_cast h
        simp [h, this]
    · rw [← sum_ite_eq_of_nodup _ cr _ (neighbours6_nodup cc.i cc.j cc.k)]
      congr 1
      apply List.map_congr_left
      intro n hn
      have := fluid_index_iff s W H D hr r cr cc n hcr (List.getElem?_mem hcc) hn
      by_cases hncr : n = cr
      · rw [if_pos (this.2 hncr), if_pos hncr]
      · rw [if_neg (fun h => hncr (this.1 h)), if_neg hncr]
  · intro p y hp
    have hnil : (rowTriplets s (dt / (s._density * s._dx * s._dx)) (p : Int) y).filter
        (fun t => decide (t.1 = (r : Int) ∧ t.2.1 = (c : Int))) = [] := by
      rw [List.filter_eq_nil_iff]
      intro t ht
      have := rowTriplets_column s _ _ y t ht
      simp only [decide_eq_true_eq, not_and]
      intro _ h2
      rw [this] at h2
      exact hp (by exact_mod_cast h2)
    simp only [hnil, List.map_nil, List.sum_nil]


theorem matrixCoefficients_new_hasDims (W H D : Nat) :
    (MatrixCoefficients.new W H D).HasDims W H D :=
  ⟨⟨rfl, rfl, rfl⟩, ⟨rfl, rfl, rfl⟩, ⟨rfl, rfl, rfl⟩, ⟨rfl, rfl, rfl⟩⟩

/-- On a ready state the coefficients computed from zero and the matrix assembled from
them exist, and the off-diagonal grids are as `PlusCoefficients` states. -/
theorem pressure_matrix_exists (s : FluidSimulation) (dt : ℚ) (W H D : Nat)
    (hr : SystemReady s W H D) :
    ∃ A M, _calculateMatrixCoefficients s (MatrixCoefficients.new W H D) dt = some A ∧
      _MatrixCoefficientsToEigenSparseMatrix s A dt = some M ∧
      A.HasDims W H D ∧ PlusCoefficients s A (dt / (s._density * s._dx * s._dx)) ∧
      M.size = s._fluidCellIndices.length := by
  obtain ⟨A, hA, hdims, h1, h2, h3⟩ := calculateMatrixCoefficients_plus s dt W H D hr.1 hr.2.1
    (fun c hc => fluid_of_mem_list hr c hc) (MatrixCoefficients.new W H D)
    (matrixCoefficients_new_hasDims W H D)
  have hplus : PlusCoefficients s A (dt / (s._density * s._dx * s._dx)) := ⟨h1, h2, h3⟩
  exact ⟨A, _, hA, matrixCoefficientsToEigenSparseMatrix_closed s A dt W H D hr hdims hplus,
    hdims, hplus, rfl⟩

/-- C21: on a state whose fluid cell list holds exactly the fluid cells, none on the
grid boundary, and on which `_GridIndexToVectorIndex` returns each listed cell's
position, `_calculateMatrixCoefficients` (from zeroed coefficients) and
`_MatrixCoefficientsToEigenSparseMatrix` complete; `plusi` (`plusj`, `plusk`) of a cell
is `-σ` when the cell and its `+axis` neighbour are both fluid and `0` otherwise; and
for all list positions `r ≠ c` the matrix satisfies `M(r, c) = M(c, r)`, the entry being
`-σ` when the two cells are 6-neighbours and `0` otherwise (`σ = dt/(ρ·dx²)`). -/
theorem assembled_matrix_symmetric (s : FluidSimulation) (dt : ℚ) (W H D : Nat)
    (hr : SystemReady s W H D) :
    ∃ A M, _calculateMatrixCoefficients s (MatrixCoefficients.new W H D) dt = some A ∧
      _MatrixCoefficientsToEigenSparseMatrix s A dt = some M ∧
      M.size = s._fluidCellIndices.length ∧
      (∀ x y z, A.plusi.grid x y z =
        if s._materialGrid.get x y z = some M_FLUID ∧
            s._materialGrid.grid (x + 1) y z = M_FLUID
        then -(dt / (s._density * s._dx * s._dx)) else 0) ∧
      (∀ x y z, A.plusj.grid x y z =
        if s._materialGrid.get x y z = some M_FLUID ∧
            s._materialGrid.grid x (y + 1) z = M_FLUID
        then -(dt / (s._density * s._dx * s._dx)) else 0) ∧
      (∀ x y z, A.plusk.grid x y z =
        if s._materialGrid.get x y z = some M_FLUID ∧
            s._materialGrid.grid x y (z + 1) = M_FLUID
        then -(dt / (s._density * s._dx * s._dx)) else 0) ∧
      ∀ (r c : Nat) (cr cc : GridIndex), r ≠ c →
        s._fluidCellIndices[r]? = some cr → s._fluidCellIndices[c]? = some cc →
        M.coeff r c = M.coeff c r ∧
        M.coeff r c = if cr ∈ _getNeighbourGridIndices6 cc.i cc.j cc.k
          then -(dt / (s._density * s._dx * s._dx)) else 0 := by
  obtain ⟨A, M, hA, hM, hdims, ⟨h1, h2, h3⟩, hsize⟩ := pressure_matrix_exists s dt W H D hr
  have hlist := hr.2.2.1
  refine ⟨A, M, hA, hM, hsize, fun x y z => ?_, fun x y z => ?_, fun x y z => ?_,
    fun r c cr cc hne hcr hcc => ?_⟩
  · rw [h1]
    exact if_congr (and_congr (hlist ⟨x, y, z⟩) Iff.rfl) rfl rfl
  · rw [h2]
    exact if_congr (and_congr (hlist ⟨x, y, z⟩) Iff.rfl) rfl rfl
  · rw [h3]
    exact if_congr (and_congr (hlist ⟨x, y, z⟩) Iff.rfl) rfl rfl
  · have e1 := assembled_coeff s A dt W H D hr hdims ⟨h1, h2, h3⟩ M hM r c cr cc hcr hcc
    have e2 := assembled_coeff s A dt W H D hr hdims ⟨h1, h2, h3⟩ M hM c r cc cr hcc hcr
    rw [if_neg (fun h => hne h.symm), zero_add] at e1
    rw [if_neg hne, zero_add] at e2
    refine ⟨?_, e1⟩
    rw [e1, e2]
    by_cases hn : cr ∈ _getNeighbourGridIndices6 cc.i cc.j cc.k
    · rw [if_pos hn, if_pos (neighbours6_symm hn)]
    · rw [if_neg hn, if_neg (fun h => hn (neighbours6_symm h))]

theorem ductSystem_ready : SystemReady ductSystem 5 3 3 := by
  refine ⟨⟨rfl, rfl, rfl⟩, ?_, ?_, by decide, ?_⟩
  · intro x y z h n hn
    unfold cellHolds at h
    simp only [Bool.and_eq_true, decide_eq_true_eq] at h
    obtain ⟨hin, hf⟩ := h
    have hf' : ductMaterial x y z = M_FLUID := hf
    unfold ductMaterial at hf'
    split_ifs at hf' with h1 h2
    simp only [_getNeighbourGridIndices6, List.mem_cons, List.mem_singleton,
      List.not_mem_nil, or_false] at hn
    show decide (_ ∧ _ < ((5 : Nat) : Int) ∧ _ ∧ _ < ((3 : Nat) : Int) ∧ _ ∧
      _ < ((3 : Nat) : Int)) = true
    rw [decide_eq_true_eq]
    rcases hn with rfl | rfl | rfl | rfl | rfl | rfl <;> simp only <;> omega
  · intro c
    show c ∈ [GridIndex.mk 1 1 1, GridIndex.mk 2 1 1] ↔ _
    obtain ⟨x, y, z⟩ := c
    simp only [List.mem_cons, List.mem_singleton, GridIndex.mk.injEq, List.not_mem_nil,
      or_false]
    constructor
    · rintro (⟨rfl, rfl, rfl⟩ | ⟨rfl, rfl, rfl⟩) <;> rfl
    · intro h
      obtain ⟨hin, hf⟩ := get_eq_some h
      have hf' : ductMaterial x y z = M_FLUID := hf
      unfold ductMaterial at hf'
      split_ifs at hf' with h1 h2
      omega
  · intro p c hp
    have hlist : ductSystem._fluidCellIndices = [GridIndex.mk 1 1 1, GridIndex.mk 2 1 1] := rfl
    rw [hlist] at hp
    match p, hp with
    | 0, hp =>
      cases hp
      decide
    | 1, hp =>
      cases hp
      decide
    | (q + 2), hp =>
      simp at hp

theorem assembled_matrix_symmetric_witness :
    SystemReady ductSystem 5 3 3 ∧
    ∃ A M, _calculateMatrixCoefficients ductSystem (MatrixCoefficients.new 5 3 3) 1 = some A ∧
      _MatrixCoefficientsToEigenSparseMatrix ductSystem A 1 = some M ∧
      M.size = ductSystem._fluidCellIndices.length ∧
      (∀ x y z, A.plusi.grid x y z =
        if ductSystem._materialGrid.get x y z = some M_FLUID ∧
            ductSystem._materialGrid.grid (x + 1) y z = M_FLUID
        then -(1 / (ductSystem._density * ductSystem._dx * ductSystem._dx)) else 0) ∧
      (∀ x y z, A.plusj.grid x y z =
        if ductSystem._materialGrid.get x y z = some M_FLUID ∧
            ductSystem._materialGrid.grid x (y + 1) z = M_FLUID
        then -(1 / (ductSystem._density * ductSystem._dx * ductSystem._dx)) else 0) ∧
      (∀ x y z, A.plusk.grid x y z =
        if ductSystem._materialGrid.get x y z = some M_FLUID ∧
            ductSystem._materialGrid.grid x y (z + 1) = M_FLUID
        then -(1 / (ductSystem._density * ductSystem._dx * ductSystem._dx)) else 0) ∧
      ∀ (r c : Nat) (cr cc : GridIndex), r ≠ c →
        ductSystem._fluidCellIndices[r]? = some cr →
        ductSystem._fluidCellIndices[c]? = some cc →
        M.coeff r c = M.coeff c r ∧
        M.coeff r c = if cr ∈ _getNeighbourGridIndices6 cc.i cc.j cc.k
          then -(1 / (ductSystem._density * ductSystem._dx * ductSystem._dx)) else 0 :=
  ⟨ductSystem_ready, assembled_matrix_symmetric ductSystem 1 5 3 3 ductSystem_ready⟩


theorem MarkedWith.congr_set {mat : Array3d Material} {lg lg1 : Array3d Int} {l : Int}
    {S T : GridIndex → Prop} (h : MarkedWith mat lg lg1 l S) (hST : ∀ c, S c ↔ T c) :
    MarkedWith mat lg lg1 l T := by
  obtain ⟨h1, h2, h3, h4⟩ := h
  refine ⟨h1, h2, h3, fun x y z => ?_⟩
  rcases h4 x y z with ⟨a, b1, b2, b3, b4⟩ | ⟨a, b⟩
  · exact Or.inl ⟨a, b1, b2, b3, (hST _).1 b4⟩
  · exact Or.inr ⟨a, fun ⟨c1, c2, c3, c4⟩ => b ⟨c1, c2, c3, (hST _).2 c4⟩⟩

/-- The body of the loop over the neighbours, for the neighbour `n`. -/
theorem markNeighbour_step (s : FluidSimulation) (l : Int) (hl : l ≠ -1)
    (lg lg1 : Array3d Int) (S : GridIndex → Prop)
    (hw : s._materialGrid.width = s._i_voxels) (hh : s._materialGrid.height = s._j_voxels)
    (hd : s._materialGrid.depth = s._k_voxels)
    (gw : lg.width = s._materialGrid.width) (gh : lg.height = s._materialGrid.height)
    (gd : lg.depth = s._materialGrid.depth)
    (hM : MarkedWith s._materialGrid lg lg1 l S) (n : GridIndex) :
    ∃ lg2, (do
        if _isCellIndexInRange s n.i n.j n.k then
          if (← lg1.get n.i n.j n.k) = -1 then
            if !(← _isCellSolid s._materialGrid n.i n.j n.k) then
              lg1.set n.i n.j n.k l
            else pure lg1
          else pure lg1
        else pure lg1) = some lg2 ∧
      MarkedWith s._materialGrid lg lg2 l (fun c => S c ∨ c = n) := by
  obtain ⟨m1, m2, m3, m4⟩ := hM
  have hweak : MarkedWith s._materialGrid lg lg1 l (fun c => S c ∨ c = n) →
      ∃ lg2, some lg1 = some lg2 ∧
        MarkedWith s._materialGrid lg lg2 l (fun c => S c ∨ c = n) :=
    fun h => ⟨lg1, rfl, h⟩
  -- the marking is unchanged when `n` does not qualify or is marked already
  have hsame : (lg.grid n.i n.j n.k = -1 → lg.isIndexInRange n.i n.j n.k = true →
        s._materialGrid.grid n.i n.j n.k ≠ M_SOLID → lg1.grid n.i n.j n.k = l) →
      MarkedWith s._materialGrid lg lg1 l (fun c => S c ∨ c = n) := by
    intro hq
    refine ⟨m1, m2, m3, fun x y z => ?_⟩
    rcases m4 x y z with ⟨a, b1, b2, b3, b4⟩ | ⟨a, b⟩
    · exact Or.inl ⟨a, b1, b2, b3, Or.inl b4⟩
    · by_cases hx : GridIndex.mk x y z = n
      · subst hx
        by_cases hc : lg.grid x y z = -1 ∧ lg.isIndexInRange x y z = true ∧
            s._materialGrid.grid x y z ≠ M_SOLID
        · exact Or.inl ⟨hq hc.1 hc.2.1 hc.2.2, hc.1, hc.2.1, hc.2.2, Or.inr rfl⟩
        · exact Or.inr ⟨a, fun ⟨c1, c2, c3, _⟩ => hc ⟨c1, c2, c3⟩⟩
      · refine Or.inr ⟨a, fun ⟨c1, c2, c3, c4⟩ => ?_⟩
        rcases c4 with c4 | c4
        · exact b ⟨c1, c2, c3, c4⟩
        · exact hx c4
  by_cases hr : _isCellIndexInRange s n.i n.j n.k = true
  · have hr' := hr
    simp only [_isCellIndexInRange, decide_eq_true_eq] at hr'
    have hnin1 : lg1.isIndexInRange n.i n.j n.k = true := by
      simp only [Array3d.isIndexInRange, m1, m2, m3, gw, gh, gd, hw, hh, hd,
        decide_eq_true_eq]
      exact hr'
    have hnin : lg.isIndexInRange n.i n.j n.k = true := by
      simp only [Array3d.isIndexInRange, gw, gh, gd, hw, hh, hd, decide_eq_true_eq]
      exact hr'
    have hmin : s._materialGrid.isIndexInRange n.i n.j n.k = true := by
      simp only [Array3d.isIndexInRange, hw, hh, hd, decide_eq_true_eq]
      exact hr'
    simp only [hr, if_true, get_of_inRange _ _ _ _ hnin1, Option.bind_eq_bind,
      Option.some_bind, isCellSolid_of_inRange _ _ _ _ hmin]
    by_cases hv : lg1.grid n.i n.j n.k = -1
    · have hlgn : lg.grid n.i n.j n.k = -1 := by
        rcases m4 n.i n.j n.k with ⟨a, -⟩ | ⟨a, -⟩
        · rw [a] at hv
          exact absurd hv hl
        · rw [← a]
          exact hv
      by_cases hsol : s._materialGrid.grid n.i n.j n.k = M_SOLID
      · simp only [hv, if_true, hsol, decide_True, Bool.not_true, Bool.false_eq_true,
          if_false, Option.pure_def]
        exact hweak (hsame (fun _ _ h => absurd hsol h))
      · simp only [hv, if_true, hsol, decide_False, Bool.not_false]
        refine ⟨⟨lg1.width, lg1.height, lg1.depth, fun a b c =>
          if a = n.i ∧ b = n.j ∧ c = n.k then l else lg1.grid a b c⟩, ?_, m1, m2, m3,
          fun x y z => ?_⟩
        · simp [Array3d.set, hnin1]
        · by_cases hx : x = n.i ∧ y = n.j ∧ z = n.k
          · obtain ⟨rfl, rfl, rfl⟩ := hx
            exact Or.inl ⟨by simp, hlgn, hnin, hsol, Or.inr rfl⟩
          · have hne : GridIndex.mk x y z ≠ n := by
              intro h
              apply hx
              rw [← h]
              exact ⟨rfl, rfl, rfl⟩
            simp only [hx, if_false]
            rcases m4 x y z with ⟨a, b1, b2, b3, b4⟩ | ⟨a, b⟩
            · exact Or.inl ⟨a, b1, b2, b3, Or.inl b4⟩
            · refine Or.inr ⟨a, fun ⟨c1, c2, c3, c4⟩ => ?_⟩
              rcases c4 with c4 | c4
              · exact b ⟨c1, c2, c3, c4⟩
              · exact hne c4
    · simp only [hv, if_false, Option.pure_def]
      refine hweak (hsame (fun h1 _ _ => ?_))
      rcases m4 n.i n.j n.k with ⟨a, -⟩ | ⟨a, -⟩
      · exact a
      · rw [a] at hv
        exact absurd h1 hv
  · simp only [hr, Bool.false_eq_true, if_false, Option.pure_def]
    refine hweak (hsame (fun _ h2 _ => ?_))
    exfalso
    apply hr
    simp only [Array3d.isIndexInRange, gw, gh, gd, hw, hh, hd, decide_eq_true_eq] at h2
    simp only [_isCellIndexInRange, decide_eq_true_eq]
    exact h2


/-- The loop over the six neighbours of the cell `c`. -/
theorem markNeighbours_marked (s : FluidSimulation) (l : Int) (hl : l ≠ -1)
    (lg lg1 : Array3d Int) (S : GridIndex → Prop)
    (hw : s._materialGrid.width = s._i_voxels) (hh : s._materialGrid.height = s._j_voxels)
    (hd : s._materialGrid.depth = s._k_voxels)
    (gw : lg.width = s._materialGrid.width) (gh : lg.height = s._materialGrid.height)
    (gd : lg.depth = s._materialGrid.depth)
    (hM : MarkedWith s._materialGrid lg lg1 l S) (c : GridIndex) :
    ∃ lg2, (_getNeighbourGridIndices6 c.i c.j c.k).foldlM (fun lg n => do
          if _isCellIndexInRange s n.i n.j n.k then
            if (← lg.get n.i n.j n.k) = -1 then
              if !(← _isCellSolid s._materialGrid n.i n.j n.k) then
                lg.set n.i n.j n.k l
              else pure lg
            else pure lg
          else pure lg) lg1 = some lg2 ∧
      MarkedWith s._materialGrid lg lg2 l
        (fun x => S x ∨ x ∈ _getNeighbourGridIndices6 c.i c.j c.k) := by
  apply foldlM_inv _ _ lg1
    (fun pre lg2 => MarkedWith s._materialGrid lg lg2 l (fun x => S x ∨ x ∈ pre))
  · exact hM.congr_set (fun x => by simp)
  · intro pre n post lg2 _ hI
    obtain ⟨lg3, h3, hM3⟩ := markNeighbour_step s l hl lg lg2 _ hw hh hd gw gh gd hI n
    refine ⟨lg3, h3, hM3.congr_set (fun x => ?_)⟩
    simp only [List.mem_append, List.mem_singleton]
    tauto

/-- One sweep of `_updateExtrapolationLayer` for the layer `l + 1`: it completes, and
writes `l + 1` at exactly the unreached non-solid cells that have a non-solid
neighbour of layer `l`. -/
theorem updateExtrapolationLayer_marked (s : FluidSimulation) (l : Nat) (lg : Array3d Int)
    (hw : s._materialGrid.width = s._i_voxels) (hh : s._materialGrid.height = s._j_voxels)
    (hd : s._materialGrid.depth = s._k_voxels)
    (gw : lg.width = s._materialGrid.width) (gh : lg.height = s._materialGrid.height)
    (gd : lg.depth = s._materialGrid.depth) :
    ∃ lg', _updateExtrapolationLayer s ((l : Int) + 1) lg = some lg' ∧
      MarkedWith s._materialGrid lg lg' ((l : Int) + 1) (fun x =>
        ∃ m : GridIndex, lg.isIndexInRange m.i m.j m.k = true ∧ lg.grid m.i m.j m.k = l ∧
          s._materialGrid.grid m.i m.j m.k ≠ M_SOLID ∧
          x ∈ _getNeighbourGridIndices6 m.i m.j m.k) := by
  unfold _updateExtrapolationLayer
  rw [forCells_eq_foldlM]
  obtain ⟨lg', hrun, hM⟩ := foldlM_inv
    (fun (lg1 : Array3d Int) (c : GridIndex) => do
      if (← lg1.get c.i c.j c.k) = (l : Int) + 1 - 1 then
        if !(← _isCellSolid s._materialGrid c.i c.j c.k) then
          (_getNeighbourGridIndices6 c.i c.j c.k).foldlM (fun lg n => do
            if _isCellIndexInRange s n.i n.j n.k then
              if (← lg.get n.i n.j n.k) = -1 then
                if !(← _isCellSolid s._materialGrid n.i n.j n.k) then
                  lg.set n.i n.j n.k ((l : Int) + 1)
                else pure lg
              else pure lg
            else pure lg) lg1
        else pure lg1
      else pure lg1)
    (cellList lg.depth lg.height lg.width) lg
    (fun pre lg1 => MarkedWith s._materialGrid lg lg1 ((l : Int) + 1) (fun x =>
      ∃ m : GridIndex, m ∈ pre ∧ lg.grid m.i m.j m.k = l ∧ s._materialGrid.grid m.i m.j m.k ≠ M_SOLID ∧
        x ∈ _getNeighbourGridIndices6 m.i m.j m.k))
    ⟨rfl, rfl, rfl, fun x y z => Or.inr ⟨rfl, fun ⟨_, _, _, m, hm, _⟩ => by cases hm⟩⟩
    (by
      intro pre c post lg1 hlist hI
      have hcl : c ∈ cellList lg.depth lg.height lg.width := by rw [hlist]; simp
      have hcin : lg.isIndexInRange c.i c.j c.k = true := inRange_of_mem_cellList lg c hcl
      have hcin1 : lg1.isIndexInRange c.i c.j c.k = true := by
        rw [inRange_of_dims hI.1 hI.2.1 hI.2.2.1]
        exact hcin
      have hmin : s._materialGrid.isIndexInRange c.i c.j c.k = true := by
        rw [← inRange_of_dims gw gh gd]
        exact hcin
      have hval : lg1.grid c.i c.j c.k = (l : Int) ↔ lg.grid c.i c.j c.k = l := by
        rcases hI.2.2.2 c.i c.j c.k with ⟨a, b, -⟩ | ⟨a, -⟩
        · rw [a, b]
          constructor <;> intro h <;> omega
        · rw [a]
      have hext : ∀ (T : GridIndex → Prop),
          (∀ x, T x ↔ (lg.grid c.i c.j c.k = l ∧ s._materialGrid.grid c.i c.j c.k ≠ M_SOLID ∧
            x ∈ _getNeighbourGridIndices6 c.i c.j c.k)) →
          ∀ x, ((∃ m : GridIndex, m ∈ pre ∧ lg.grid m.i m.j m.k = l ∧
              s._materialGrid.grid m.i m.j m.k ≠ M_SOLID ∧
              x ∈ _getNeighbourGridIndices6 m.i m.j m.k) ∨ T x) ↔
            ∃ m : GridIndex, m ∈ pre ++ [c] ∧ lg.grid m.i m.j m.k = l ∧
              s._materialGrid.grid m.i m.j m.k ≠ M_SOLID ∧
              x ∈ _getNeighbourGridIndices6 m.i m.j m.k := by
        intro T hT x
        rw [hT]
        constructor
        · rintro (⟨m, hm, h1, h2, h3⟩ | ⟨h1, h2, h3⟩)
          · exact ⟨m, List.mem_append_left _ hm, h1, h2, h3⟩
          · exact ⟨c, by simp, h1, h2, h3⟩
        · rintro ⟨m, hm, h1, h2, h3⟩
          rcases List.mem_append.1 hm with hm | hm
          · exact Or.inl ⟨m, hm, h1, h2, h3⟩
          · rw [List.mem_singleton] at hm
            subst hm
            exact Or.inr ⟨h1, h2, h3⟩
      simp only [get_of_inRange _ _ _ _ hcin1, Option.bind_eq_bind, Option.some_bind,
        isCellSolid_of_inRange _ _ _ _ hmin, add_sub_cancel_right]
      by_cases hv : lg1.grid c.i c.j c.k = (l : Int)
      · by_cases hsol : s._materialGrid.grid c.i c.j c.k = M_SOLID
        · refine ⟨lg1, by simp [hv, hsol], ?_⟩
          have := hI.congr_set (fun x => Iff.symm (or_iff_left (b := False) (by tauto)))
          exact this.congr_set (hext (fun _ => False)
            (fun x => ⟨fun h => h.elim, fun ⟨_, h2, _⟩ => h2 hsol⟩))
        · obtain ⟨lg2, hrun, hM2⟩ := markNeighbours_marked s ((l : Int) + 1) (by omega) lg lg1 _
            hw hh hd gw gh gd hI c
          refine ⟨lg2, ?_, hM2.congr_set (hext _ (fun x =>
            ⟨fun h => ⟨hval.1 hv, hsol, h⟩, fun h => h.2.2⟩))⟩
          simp only [hv, if_true, hsol, decide_False, Bool.not_false]
          simpa only [Option.bind_eq_bind] using hrun
      · refine ⟨lg1, by simp [hv], ?_⟩
        have := hI.congr_set (fun x => Iff.symm (or_iff_left (b := False) (by tauto)))
        exact this.congr_set (hext (fun _ => False)
          (fun x => ⟨fun h => h.elim, fun ⟨h1, _, _⟩ => hv (hval.2 h1)⟩)))
  refine ⟨lg', hrun, hM.congr_set (fun x => ?_)⟩
  constructor
  · rintro ⟨m, hm, h1, h2, h3⟩
    exact ⟨m, inRange_of_mem_cellList lg m hm, h1, h2, h3⟩
  · rintro ⟨m, hm, h1, h2, h3⟩
    exact ⟨m, mem_cellList_of_inRange lg m.i m.j m.k hm, h1, h2, h3⟩


theorem path_nonSolid (mat : Array3d Material) (cells : List GridIndex)
    (hcells : ∀ c ∈ cells, mat.get c.i c.j c.k = some M_FLUID) (n : Nat) (c : GridIndex)
    (h : PathOfLength mat cells n c) :
    mat.isIndexInRange c.i c.j c.k = true ∧ mat.grid c.i c.j c.k ≠ M_SOLID := by
  cases n with
  | zero =>
    obtain ⟨h1, h2⟩ := get_eq_some (hcells c h)
    refine ⟨h1, ?_⟩
    rw [h2]
    decide
  | succ n => exact ⟨h.1, h.2.1⟩

theorem exists_atDistance (mat : Array3d Material) (cells : List GridIndex) (d : Nat)
    (c : GridIndex) (h : PathOfLength mat cells d c) :
    ∃ d0, d0 ≤ d ∧ AtDistance mat cells d0 c := by
  induction d using Nat.strong_induction_on with
  | _ d ih =>
    by_cases hmin : ∀ d', d' < d → ¬ PathOfLength mat cells d' c
    · exact ⟨d, le_refl d, h, hmin⟩
    · push_neg at hmin
      obtain ⟨d', hd', hp⟩ := hmin
      obtain ⟨d0, h0, ha⟩ := ih d' hd' hp
      exact ⟨d0, by omega, ha⟩

/-- A cell is at distance `l + 1` exactly when it is in range, not solid, not at a
distance `≤ l`, and has a neighbour at distance `l`. -/
theorem atDistance_succ_iff (mat : Array3d Material) (cells : List GridIndex) (l : Nat)
    (c : GridIndex) :
    AtDistance mat cells (l + 1) c ↔
      (∀ n, n ≤ l → ¬ AtDistance mat cells n c) ∧
      mat.isIndexInRange c.i c.j c.k = true ∧ mat.grid c.i c.j c.k ≠ M_SOLID ∧
      ∃ m ∈ _getNeighbourGridIndices6 c.i c.j c.k, AtDistance mat cells l m := by
  constructor
  · rintro ⟨⟨hin, hns, m, hm, hp⟩, hmin⟩
    refine ⟨fun n hn ha => hmin n (by omega) ha.1, hin, hns, m, hm, hp, fun d hd hpd => ?_⟩
    exact hmin (d + 1) (by omega) ⟨hin, hns, m, hm, hpd⟩
  · rintro ⟨hno, hin, hns, m, hm, ha⟩
    refine ⟨⟨hin, hns, m, hm, ha.1⟩, fun d hd hp => ?_⟩
    obtain ⟨d0, h0, ha0⟩ := exists_atDistance mat cells d c hp
    exact hno d0 (by omega) ha0

/-- One more pass extends the layers by one. -/
theorem layersUpTo_step (s : FluidSimulation) (l : Nat) (lg : Array3d Int)
    (hw : s._materialGrid.width = s._i_voxels) (hh : s._materialGrid.height = s._j_voxels)
    (hd : s._materialGrid.depth = s._k_voxels)
    (hcells : ∀ c ∈ s._fluidCellIndices, s._materialGrid.get c.i c.j c.k = some M_FLUID)
    (hF : LayersUpTo s._materialGrid s._fluidCellIndices l lg) :
    ∃ lg', _updateExtrapolationLayer s ((l : Int) + 1) lg = some lg' ∧
      LayersUpTo s._materialGrid s._fluidCellIndices (l + 1) lg' := by
  obtain ⟨gw, gh, gd, hval⟩ := hF
  obtain ⟨lg', hrun, m1, m2, m3, m4⟩ :=
    updateExtrapolationLayer_marked s l lg hw hh hd gw gh gd
  refine ⟨lg', hrun, m1.trans gw, m2.trans gh, m3.trans gd, fun x y z hin' => ?_⟩
  have hin : lg.isIndexInRange x y z = true := by
    rw [← inRange_of_dims m1 m2 m3]
    exact hin'
  have hmin : s._materialGrid.isIndexInRange x y z = true := by
    rw [← inRange_of_dims gw gh gd]
    exact hin
  obtain ⟨hrange, hiff⟩ := hval x y z hin
  have hsucc := atDistance_succ_iff s._materialGrid s._fluidCellIndices l ⟨x, y, z⟩
  rcases m4 x y z with ⟨a, b1, b2, b3, m, hm1, hm2, hm3, hm4⟩ | ⟨a, b⟩
  · -- the cell is marked in this pass
    have hnot : ∀ n, n ≤ l → ¬ AtDistance s._materialGrid s._fluidCellIndices n ⟨x, y, z⟩ := by
      intro n hn ha
      have := (hiff n hn).2 ha
      omega
    have hma : AtDistance s._materialGrid s._fluidCellIndices l m :=
      ((hval m.i m.j m.k hm1).2 l (le_refl l)).1 hm2
    have hat : AtDistance s._materialGrid s._fluidCellIndices (l + 1) ⟨x, y, z⟩ :=
      hsucc.2 ⟨hnot, hmin, b3, m, neighbours6_symm hm4, hma⟩
    refine ⟨Or.inr ⟨l + 1, le_refl _, by rw [a]; push_cast; rfl⟩, fun n hn => ?_⟩
    rcases Nat.eq_or_lt_of_le hn with rfl | hlt
    · exact ⟨fun _ => hat, fun _ => by rw [a]; push_cast; rfl⟩
    · constructor
      · intro h
        rw [a] at h
        omega
      · intro ha
        exact absurd ha (hnot n (by omega))
  · -- the cell keeps its value
    refine ⟨?_, fun n hn => ?_⟩
    · rcases hrange with h | ⟨n, hn, h⟩
      · exact Or.inl (by rw [a]; exact h)
      · exact Or.inr ⟨n, by omega, by rw [a]; exact h⟩
    · rcases Nat.eq_or_lt_of_le hn with rfl | hlt
      · constructor
        · intro h
          rw [a] at h
          rcases hrange with h' | ⟨n, hn', h'⟩
          · omega
          · rw [h'] at h
            have : n = l + 1 := by exact_mod_cast h
            omega
        · intro hat
          exfalso
          obtain ⟨hnot, -, hns, m, hm, hma⟩ := hsucc.1 hat
          apply b
          have hmr := (path_nonSolid _ _ hcells l m hma.1)
          have hmin' : lg.isIndexInRange m.i m.j m.k = true := by
            rw [inRange_of_dims gw gh gd]
            exact hmr.1
          refine ⟨?_, hin, hns, m, hmin', ?_, hmr.2, neighbours6_symm hm⟩
          · rcases hrange with h | ⟨n, hn', h⟩
            · exact h
            · exact absurd ((hiff n hn').1 h) (hnot n hn')
          · exact ((hval m.i m.j m.k hmin').2 l (le_refl l)).2 hma
      · rw [a]
        exact hiff n (by omega)

theorem layersUpTo_zero (s : FluidSimulation) (lg : Array3d Int)
    (h : LayerInv s._materialGrid s._fluidCellIndices 0 lg) :
    LayersUpTo s._materialGrid s._fluidCellIndices 0 lg := by
  obtain ⟨h1, h2, h3, h4⟩ := h
  refine ⟨h1, h2, h3, fun x y z hin => ?_⟩
  obtain ⟨a1, a2, a3, -, -⟩ := h4 x y z hin
  refine ⟨?_, fun n hn => ?_⟩
  · by_cases h0 : lg.grid x y z = 0
    · exact Or.inr ⟨0, le_refl 0, by rw [h0]; rfl⟩
    · left
      omega
  · have : n = 0 := by omega
    subst this
    constructor
    · intro h0
      exact ⟨a3.1 (by simpa using h0), fun d hd => absurd hd (Nat.not_lt_zero d)⟩
    · intro ha
      have := a3.2 ha.1
      rw [this]
      rfl


/-- C31: after `_updateExtrapolationLayers` (on a state whose grids have the
simulation's dimensions, whose fluid cell list holds exactly the `M_FLUID` cells, and
with `L = ⌈CFL⌉ + 2 ≥ 0`) the layer value of every cell is its breadth-first distance
from the fluid: a cell whose shortest 6-connected path from a fluid cell through
in-range non-solid cells has `d ≤ L` steps has layer `d`, and a cell that is solid or
has no such path of at most `L` steps has layer `-1`. -/
theorem updateExtrapolationLayers_distance (s : FluidSimulation)
    (hw : s._materialGrid.width = s._i_voxels) (hh : s._materialGrid.height = s._j_voxels)
    (hd : s._materialGrid.depth = s._k_voxels)
    (hlw : s._layerGrid.width = s._materialGrid.width)
    (hlh : s._layerGrid.height = s._materialGrid.height)
    (hld : s._layerGrid.depth = s._materialGrid.depth)
    (hcells : ∀ c : GridIndex, c ∈ s._fluidCellIndices ↔
      s._materialGrid.get c.i c.j c.k = some M_FLUID)
    (hL : 0 ≤ ⌈s._CFLConditionNumber⌉ + 2) :
    ∃ s' L, _updateExtrapolationLayers s = some (s', L) ∧
      L = ⌈s._CFLConditionNumber⌉ + 2 ∧
      ∀ x y z : Int, s._materialGrid.isIndexInRange x y z = true →
        (∀ d : Nat, (d : Int) ≤ L →
          AtDistance s._materialGrid s._fluidCellIndices d ⟨x, y, z⟩ →
          s'._layerGrid.grid x y z = d) ∧
        ((s._materialGrid.grid x y z = M_SOLID ∨ ∀ d : Nat, (d : Int) ≤ L →
            ¬ PathOfLength s._materialGrid s._fluidCellIndices d ⟨x, y, z⟩) →
          s'._layerGrid.grid x y z = -1) := by
  have hcells' : ∀ c ∈ s._fluidCellIndices, s._materialGrid.get c.i c.j c.k = some M_FLUID :=
    fun c hc => (hcells c).1 hc
  obtain ⟨lg0, hrun0, hI0⟩ := initLayers_spec s hlw hlh hld hcells'
  obtain ⟨lg, hrun, hI⟩ := forRange_inv (⌈s._CFLConditionNumber⌉ + 2 - 1 + 1).toNat
    (fun n lg => _updateExtrapolationLayer s (1 + n) lg) lg0
    (fun n lg => LayersUpTo s._materialGrid s._fluidCellIndices n lg)
    (layersUpTo_zero s lg0 hI0)
    (by
      intro n lg1 _ hI1
      obtain ⟨lg2, h2, hI2⟩ := layersUpTo_step s n lg1 hw hh hd hcells' hI1
      refine ⟨lg2, ?_, hI2⟩
      show _updateExtrapolationLayer s (1 + (n : Int)) lg1 = some lg2
      rw [add_comm]
      exact h2)
  refine ⟨{ s with _layerGrid := lg }, ⌈s._CFLConditionNumber⌉ + 2, ?_, rfl,
    fun x y z hin => ?_⟩
  · unfold _updateExtrapolationLayers forFromTo
    simp only [Option.bind_eq_bind]
    rw [hrun0, Option.some_bind, hrun]
    rfl
  · obtain ⟨gw, gh, gd, hval⟩ := hI
    have hcast : (((⌈s._CFLConditionNumber⌉ + 2 - 1 + 1).toNat : Nat) : Int) =
        ⌈s._CFLConditionNumber⌉ + 2 := by omega
    have hlin : lg.isIndexInRange x y z = true := by
      rw [inRange_of_dims gw gh gd]
      exact hin
    obtain ⟨hrange, hiff⟩ := hval x y z hlin
    refine ⟨fun d hd hat => (hiff d (by omega)).2 hat, fun hno => ?_⟩
    rcases hrange with h | ⟨n, hn, h⟩
    · exact h
    · exfalso
      have hat := (hiff n hn).1 h
      rcases hno with hsol | hno
      · exact (path_nonSolid _ _ hcells' n _ hat.1).2 hsol
      · exact hno n (by omega) hat.1

theorem updateExtrapolationLayers_distance_witness :
    (centreFluidState M_AIR [])._materialGrid.width = (centreFluidState M_AIR [])._i_voxels ∧
    (centreFluidState M_AIR [])._materialGrid.height = (centreFluidState M_AIR [])._j_voxels ∧
    (centreFluidState M_AIR [])._materialGrid.depth = (centreFluidState M_AIR [])._k_voxels ∧
    (centreFluidState M_AIR [])._layerGrid.width =
      (centreFluidState M_AIR [])._materialGrid.width ∧
    (centreFluidState M_AIR [])._layerGrid.height =
      (centreFluidState M_AIR [])._materialGrid.height ∧
    (centreFluidState M_AIR [])._layerGrid.depth =
      (centreFluidState M_AIR [])._materialGrid.depth ∧
    (∀ c : GridIndex, c ∈ (centreFluidState M_AIR [])._fluidCellIndices ↔
      (centreFluidState M_AIR [])._materialGrid.get c.i c.j c.k = some M_FLUID) ∧
    0 ≤ ⌈(centreFluidState M_AIR [])._CFLConditionNumber⌉ + 2 ∧
    ∃ s' L, _updateExtrapolationLayers (centreFluidState M_AIR []) = some (s', L) ∧
      L = ⌈(centreFluidState M_AIR [])._CFLConditionNumber⌉ + 2 ∧
      ∀ x y z : Int, (centreFluidState M_AIR [])._materialGrid.isIndexInRange x y z = true →
        (∀ d : Nat, (d : Int) ≤ L →
          AtDistance (centreFluidState M_AIR [])._materialGrid
            (centreFluidState M_AIR [])._fluidCellIndices d ⟨x, y, z⟩ →
          s'._layerGrid.grid x y z = d) ∧
        (((centreFluidState M_AIR [])._materialGrid.grid x y z = M_SOLID ∨
            ∀ d : Nat, (d : Int) ≤ L →
              ¬ PathOfLength (centreFluidState M_AIR [])._materialGrid
                (centreFluidState M_AIR [])._fluidCellIndices d ⟨x, y, z⟩) →
          s'._layerGrid.grid x y z = -1) :=
  have hcfl : 0 ≤ ⌈(centreFluidState M_AIR [])._CFLConditionNumber⌉ + 2 := by
    have : (0 : ℚ) ≤ (centreFluidState M_AIR [])._CFLConditionNumber := by
      show (0 : ℚ) ≤ 5
      norm_num
    have := Int.ceil_nonneg this
    omega
  ⟨rfl, rfl, rfl, rfl, rfl, rfl, centreFluidState_list M_AIR (by decide) [], hcfl,
    updateExtrapolationLayers_distance (centreFluidState M_AIR []) rfl rfl rfl rfl rfl rfl
      (centreFluidState_list M_AIR (by decide) []) hcfl⟩

/-! ## The walk towards the solid cell -/

theorem floor_mul_one_div_one (x : ℚ) (i : Int) (h1 : (i : ℚ) ≤ x) (h2 : x < i + 1) :
    ⌊x * (1 / (1 : ℚ))⌋ = i := by
  rw [Int.floor_eq_iff]
  constructor
  · simpa using h1
  · simpa using h2

theorem walkingLoop_exit (s : FluidSimulation) (vnorm : Vec3) (fuel : Nat) (w : WalkState)
    (h : _isCellNeighbours w.f.i w.f.j w.f.k w.s.i w.s.j w.s.k = true) :
    walkingLoop s vnorm (fuel + 1) w = some w := by
  unfold walkingLoop
  rw [if_pos h]

/-- A pass of the loop whose step lands in a solid cell: both points become the new
point. -/
theorem walkingLoop_solid (s : FluidSimulation) (vnorm : Vec3) (fuel : Nat) (w : WalkState)
    (q : Vec3) (n : GridIndex)
    (h : _isCellNeighbours w.f.i w.f.j w.f.k w.s.i w.s.j w.s.k = false)
    (hq : w.p1.sub (Vec3.scale (s._dx - 1 / 100000) vnorm) = q)
    (hn : positionToGridIndex s._dx q = n)
    (hsolid : _isCellSolid s._materialGrid n.i n.j n.k = some true)
    (hsteps : w.numSteps + 1 < 100) (hne : w.f ≠ n) :
    walkingLoop s vnorm (fuel + 1) w =
      walkingLoop s vnorm fuel ⟨q, q, w.f, n, w.numSteps + 1⟩ := by
  rw [walkingLoop]
  rw [if_neg (by rw [h]; decide)]
  simp only [hq, hn, hsolid, Option.bind_eq_bind, Option.some_bind, if_true]
  rw [if_neg (by omega), if_neg hne]

/-- C28 (the code violates the claim): on the sample pocket (`dx = 1`, the only
non-solid cell is `(1, 1, 1)`), `p0 = (1.5, 1.5, 1.5)` lies in the non-solid cell
`(1, 1, 1)` and `p1 = (3.5, 1.5, 1.5)` in the solid cell `(3, 1, 1)`, which are not
26-neighbours.  The first pass of the loop steps back to `(2.50001, 1.5, 1.5)`, which
lies in the solid cell `(2, 1, 1)`, so it assigns that point to `p0` and to `p1`; the
cells `(1, 1, 1)` and `(2, 1, 1)` are neighbours and the loop exits with `p0 = p1`, a
point of the solid cell `(2, 1, 1)`, not of the cell `(fi, fj, fk) = (1, 1, 1)`. -/
theorem walk_exits_with_equal_points :
    positionToGridIndex pocketState._dx ⟨3 / 2, 3 / 2, 3 / 2⟩ = ⟨1, 1, 1⟩ ∧
    positionToGridIndex pocketState._dx ⟨7 / 2, 3 / 2, 3 / 2⟩ = ⟨3, 1, 1⟩ ∧
    _isCellSolid pocketState._materialGrid 1 1 1 = some false ∧
    _isCellSolid pocketState._materialGrid 3 1 1 = some true ∧
    _isCellNeighbours 1 1 1 3 1 1 = false ∧
    (∀ normalize : Vec3 → Vec3, normalize ⟨2, 0, 0⟩ = ⟨1, 0, 0⟩ →
      walkToNeighbours normalize pocketState ⟨3 / 2, 3 / 2, 3 / 2⟩ ⟨7 / 2, 3 / 2, 3 / 2⟩ =
        some ⟨⟨250001 / 100000, 3 / 2, 3 / 2⟩, ⟨250001 / 100000, 3 / 2, 3 / 2⟩,
          ⟨1, 1, 1⟩, ⟨2, 1, 1⟩, 2⟩) ∧
    positionToGridIndex pocketState._dx ⟨250001 / 100000, 3 / 2, 3 / 2⟩ = ⟨2, 1, 1⟩ ∧
    _isCellSolid pocketState._materialGrid 2 1 1 = some true := by
  have hdx : pocketState._dx = 1 := rfl
  have f1 : ⌊(3 / 2 : ℚ) * (1 / 1)⌋ = 1 :=
    floor_mul_one_div_one _ 1 (by norm_num) (by norm_num)
  have f3 : ⌊(7 / 2 : ℚ) * (1 / 1)⌋ = 3 :=
    floor_mul_one_div_one _ 3 (by norm_num) (by norm_num)
  have f2 : ⌊(250001 / 100000 : ℚ) * (1 / 1)⌋ = 2 :=
    floor_mul_one_div_one _ 2 (by norm_num) (by norm_num)
  have g1 : positionToGridIndex pocketState._dx ⟨3 / 2, 3 / 2, 3 / 2⟩ = ⟨1, 1, 1⟩ := by
    simp only [positionToGridIndex, hdx, f1]
  have g3 : positionToGridIndex pocketState._dx ⟨7 / 2, 3 / 2, 3 / 2⟩ = ⟨3, 1, 1⟩ := by
    simp only [positionToGridIndex, hdx, f1, f3]
  have g2 : positionToGridIndex pocketState._dx ⟨250001 / 100000, 3 / 2, 3 / 2⟩ =
      ⟨2, 1, 1⟩ := by
    simp only [positionToGridIndex, hdx, f1, f2]
  have s1 : _isCellSolid pocketState._materialGrid 1 1 1 = some false := by decide
  have s2 : _isCellSolid pocketState._materialGrid 2 1 1 = some true := by decide
  have s3 : _isCellSolid pocketState._materialGrid 3 1 1 = some true := by decide
  have hnb : _isCellNeighbours 1 1 1 3 1 1 = false := by
    simp only [_isCellNeighbours, decide_eq_false_iff_not]
    norm_num
  have hnb2 : _isCellNeighbours 1 1 1 2 1 1 = true := by
    simp only [_isCellNeighbours, decide_eq_true_eq]
    norm_num
  refine ⟨g1, g3, s1, s3, hnb, fun normalize hn => ?_, g2, s2⟩
  have hsub : (Vec3.mk (7 / 2) (3 / 2) (3 / 2)).sub ⟨3 / 2, 3 / 2, 3 / 2⟩ = ⟨2, 0, 0⟩ := by
    simp only [Vec3.sub]
    norm_num
  have hstep : (Vec3.mk (7 / 2) (3 / 2) (3 / 2)).sub
      (Vec3.scale (pocketState._dx - 1 / 100000) ⟨1, 0, 0⟩) =
      ⟨250001 / 100000, 3 / 2, 3 / 2⟩ := by
    simp only [Vec3.sub, Vec3.scale, hdx]
    norm_num
  unfold walkToNeighbours
  rw [g1, g3, hsub, hn]
  show Option.bind (_isCellSolid pocketState._materialGrid 1 1 1) _ = _
  rw [s1, Option.some_bind, if_neg (by decide)]
  show Option.bind (_isCellSolid pocketState._materialGrid 3 1 1) _ = _
  rw [s3, Option.some_bind, if_neg (by decide)]
  rw [show (100 : Nat) = 98 + 1 + 1 from rfl,
    walkingLoop_solid pocketState ⟨1, 0, 0⟩ (98 + 1) _ _ ⟨2, 1, 1⟩ hnb hstep g2 s2
      (by norm_num) (by decide),
    walkingLoop_exit pocketState ⟨1, 0, 0⟩ 98 _ hnb2]
  norm_num

/-! ## Collisions with the faces of solid cells -/


theorem mem_neighbours26 (i j k : Int) (n : GridIndex) :
    n ∈ _getNeighbourGridIndices26 i j k ↔ IsNeighbour26 ⟨i, j, k⟩ n := by
  obtain ⟨a, b, c⟩ := n
  simp only [_getNeighbourGridIndices26, IsNeighbour26, List.mem_filter, List.mem_flatMap,
    List.mem_map, List.mem_cons, List.mem_singleton, List.not_mem_nil, or_false,
    GridIndex.mk.injEq, Bool.not_eq_true', decide_eq_false_iff_not, ne_eq]
  constructor
  · rintro ⟨⟨nk, hk, nj, hj, ni, hi, h1, h2, h3⟩, h⟩
    refine ⟨h, ?_⟩
    omega
  · rintro ⟨h, h1⟩
    refine ⟨⟨c, by omega, b, by omega, a, by omega, rfl, rfl, rfl⟩, h⟩

theorem getCellFace_some (s : FluidSimulation) (i j k : Int) (normal : Vec3)
    (hin : _isCellIndexInRange s i j k = true) (hn : normal ∈ faceNormals) :
    ∃ f, _getCellFace s i j k normal = some f := by
  simp only [faceNormals, List.mem_cons, List.mem_singleton, List.not_mem_nil, or_false]
    at hn
  unfold _getCellFace gridIndexToCellCenter
  rcases hn with h | h | h | h | h | h <;> subst h <;> simp [hin] <;> norm_num

/-- The inner loop of `_getNeighbourSolidCellFaces` appends the six faces of an
in-range cell. -/
theorem cellFaces_fold (s : FluidSimulation) (n : GridIndex)
    (hin : _isCellIndexInRange s n.i n.j n.k = true) (acc : List CellFace) :
    ∃ acc', faceNormals.foldlM (fun (faces : List CellFace) normal => do
        let f ← _getCellFace s n.i n.j n.k normal
        pure (faces ++ [f])) acc = some acc' ∧
      ∀ f, f ∈ acc' ↔ f ∈ acc ∨ ∃ normal ∈ faceNormals,
        _getCellFace s n.i n.j n.k normal = some f := by
  obtain ⟨acc', hrun, hI⟩ := foldlM_inv (fun (faces : List CellFace) normal => do
        let f ← _getCellFace s n.i n.j n.k normal
        pure (faces ++ [f])) faceNormals acc
    (fun pre a => ∀ f, f ∈ a ↔ f ∈ acc ∨ ∃ normal ∈ pre,
        _getCellFace s n.i n.j n.k normal = some f)
    (fun f => by simp)
    (fun pre a post a0 hl hI => by
      obtain ⟨f0, hf0⟩ := getCellFace_some s n.i n.j n.k a hin (by rw [hl]; simp)
      refine ⟨a0 ++ [f0], by simp [hf0], fun f => ?_⟩
      rw [List.mem_append, hI f]
      constructor
      · rintro ((h | ⟨nrm, hm, h⟩) | h)
        · exact Or.inl h
        · exact Or.inr ⟨nrm, List.mem_append_left _ hm, h⟩
        · rw [List.mem_singleton] at h
          subst h
          exact Or.inr ⟨a, by simp, hf0⟩
      · rintro (h | ⟨nrm, hm, h⟩)
        · exact Or.inl (Or.inl h)
        · rw [List.mem_append, List.mem_singleton] at hm
          rcases hm with hm | hm
          · exact Or.inl (Or.inr ⟨nrm, hm, h⟩)
          · subst hm
            rw [hf0] at h
            exact Or.inr (by simpa using h.symm))
  exact ⟨acc', hrun, hI⟩

/-- On a grid of the declared size `_getNeighbourSolidCellFaces` returns, from an
in-range cell, exactly the faces of its in-range solid 26-neighbours. -/
theorem getNeighbourSolidCellFaces_spec (s : FluidSimulation) (i j k : Int)
    (hdims : HasDims s._materialGrid s._i_voxels s._j_voxels s._k_voxels)
    (hin : _isCellIndexInRange s i j k = true) :
    ∃ L, _getNeighbourSolidCellFaces s i j k = some L ∧
      ∀ f, f ∈ L ↔ IsNeighbourSolidFace s ⟨i, j, k⟩ f := by
  have hget : ∀ n : GridIndex, _isCellIndexInRange s n.i n.j n.k = true →
      s._materialGrid.get n.i n.j n.k = some (s._materialGrid.grid n.i n.j n.k) := by
    intro n hn
    simp only [_isCellIndexInRange, decide_eq_true_eq] at hn
    exact get_of_dims hdims n.i n.j n.k ⟨hn.1, hn.2.1⟩ ⟨hn.2.2.1, hn.2.2.2.1⟩
      ⟨hn.2.2.2.2.1, hn.2.2.2.2.2⟩
  unfold _getNeighbourSolidCellFaces
  rw [hin]
  simp only [Bool.not_true, Bool.false_eq_true, if_false]
  obtain ⟨L, hrun, hI⟩ := foldlM_inv (fun (faces : List CellFace) (c : GridIndex) => do
      if _isCellIndexInRange s c.i c.j c.k then
        if (← _isCellSolid s._materialGrid c.i c.j c.k) then
          faceNormals.foldlM (fun (faces : List CellFace) normal => do
            let f ← _getCellFace s c.i c.j c.k normal
            pure (faces ++ [f])) faces
        else pure faces
      else pure faces) (_getNeighbourGridIndices26 i j k) []
    (fun pre a => ∀ f, f ∈ a ↔ ∃ n ∈ pre, _isCellIndexInRange s n.i n.j n.k = true ∧
      s._materialGrid.get n.i n.j n.k = some M_SOLID ∧
      ∃ normal ∈ faceNormals, _getCellFace s n.i n.j n.k normal = some f)
    (fun f => by simp)
    (fun pre a post a0 hl hI => by
      by_cases hr : _isCellIndexInRange s a.i a.j a.k = true
      · have hg := hget a hr
        by_cases hs : s._materialGrid.grid a.i a.j a.k = M_SOLID
        · obtain ⟨acc', hrun, hacc⟩ := cellFaces_fold s a hr a0
          refine ⟨acc', ?_, fun f => ?_⟩
          · simp only [hr, if_true, _isCellSolid, hg, hs, Option.bind_eq_bind,
              Option.some_bind, Option.pure_def, decide_True]
            exact hrun
          · rw [hacc f, hI f]
            constructor
            · rintro (⟨n, hn, h⟩ | h)
              · exact ⟨n, List.mem_append_left _ hn, h⟩
              · exact ⟨a, by simp, hr, by rw [hg, hs], h⟩
            · rintro ⟨n, hn, h⟩
              rw [List.mem_append, List.mem_singleton] at hn
              rcases hn with hn | hn
              · exact Or.inl ⟨n, hn, h⟩
              · subst hn
                exact Or.inr h.2.2
        · refine ⟨a0, ?_, fun f => ?_⟩
          · simp [hr, _isCellSolid, hg, hs]
          · rw [hI f]
            constructor
            · rintro ⟨n, hn, h⟩
              exact ⟨n, List.mem_append_left _ hn, h⟩
            · rintro ⟨n, hn, h⟩
              rw [List.mem_append, List.mem_singleton] at hn
              rcases hn with hn | hn
              · exact ⟨n, hn, h⟩
              · subst hn
                rw [hg] at h
                exact absurd (Option.some.inj h.2.1) hs
      · refine ⟨a0, ?_, fun f => ?_⟩
        · simp [hr]
        · rw [hI f]
          constructor
          · rintro ⟨n, hn, h⟩
            exact ⟨n, List.mem_append_left _ hn, h⟩
          · rintro ⟨n, hn, h⟩
            rw [List.mem_append, List.mem_singleton] at hn
            rcases hn with hn | hn
            · exact ⟨n, hn, h⟩
            · subst hn
              exact absurd h.1 hr)
  refine ⟨L, hrun, fun f => ?_⟩
  rw [hI f]
  unfold IsNeighbourSolidFace
  constructor
  · rintro ⟨n, hn, h⟩
    exact ⟨n, (mem_neighbours26 i j k n).1 hn, h⟩
  · rintro ⟨n, hn, h⟩
    exact ⟨n, (mem_neighbours26 i j k n).2 hn, h⟩

/-- One pass of the loop of `_findFaceCollision`. -/
theorem closestOf_step (p0 vnorm : Vec3) (L : List CellFace) (a : CellFace)
    (best : Option (ℚ × Vec3 × CellFace)) (ih : ClosestOf p0 vnorm L best) :
    ClosestOf p0 vnorm (L ++ [a]) (closerCollision p0 vnorm best a) := by
  unfold closerCollision
  cases hr : (_getVectorFaceIntersection p0 vnorm a).1 with
  | false =>
    simp only [hr, Bool.not_false, if_true]
    cases best with
    | none =>
      simp only [ClosestOf] at ih ⊢
      intro f hf
      rw [List.mem_append, List.mem_singleton] at hf
      rcases hf with hf | hf
      · exact ih f hf
      · rw [hf]
        exact hr
    | some b =>
      simp only [ClosestOf] at ih ⊢
      obtain ⟨h1, h2, h3, h4⟩ := ih
      refine ⟨List.mem_append_left _ h1, h2, h3, fun f hf hhit => ?_⟩
      rw [List.mem_append, List.mem_singleton] at hf
      rcases hf with hf | hf
      · exact h4 f hf hhit
      · rw [hf, hr] at hhit
        exact absurd hhit (by decide)
  | true =>
    simp only [hr, Bool.not_true, Bool.false_eq_true, if_false]
    have hpair : _getVectorFaceIntersection p0 vnorm a =
        (true, (_getVectorFaceIntersection p0 vnorm a).2) := by
      rw [← hr]
    cases best with
    | none =>
      simp only [ClosestOf] at ih ⊢
      refine ⟨by simp, hpair, rfl, fun f hf hhit => ?_⟩
      rw [List.mem_append, List.mem_singleton] at hf
      rcases hf with hf | hf
      · rw [ih f hf] at hhit
        exact absurd hhit (by decide)
      · rw [hf]
        exact le_refl _
    | some b =>
      simp only [ClosestOf] at ih
      obtain ⟨h1, h2, h3, h4⟩ := ih
      by_cases hlt : ((_getVectorFaceIntersection p0 vnorm a).2.sub p0).dot
          ((_getVectorFaceIntersection p0 vnorm a).2.sub p0) < b.1
      · simp only [hlt, if_true, ClosestOf]
        refine ⟨by simp, hpair, rfl, fun f hf hhit => ?_⟩
        rw [List.mem_append, List.mem_singleton] at hf
        rcases hf with hf | hf
        · exact le_trans (le_of_lt hlt) (h4 f hf hhit)
        · rw [hf]
          exact le_refl _
      · simp only [hlt, if_false, ClosestOf]
        refine ⟨List.mem_append_left _ h1, h2, h3, fun f hf hhit => ?_⟩
        rw [List.mem_append, List.mem_singleton] at hf
        rcases hf with hf | hf
        · exact h4 f hf hhit
        · rw [hf]
          exact not_lt.1 hlt

/-- The loop of `_findFaceCollision` keeps a closest intersection. -/
theorem closerCollision_fold (p0 vnorm : Vec3) (L : List CellFace) :
    ClosestOf p0 vnorm L (L.foldl (closerCollision p0 vnorm) none) := by
  induction L using List.reverseRecOn with
  | nil =>
    simp [ClosestOf]
  | append_singleton L a ih =>
    rw [List.foldl_append, List.foldl_cons, List.foldl_nil]
    exact closestOf_step p0 vnorm L a _ ih

/-- The test of `_getVectorFaceIntersection` succeeds with the point `q` exactly when
the direction is not within `10e-30` of the plane of the face and the line crosses that
plane at `q`, a point of the face. -/
theorem getVectorFaceIntersection_iff (p0 v : Vec3) (f : CellFace) (q : Vec3) :
    _getVectorFaceIntersection p0 v f = (true, q) ↔
      1 / 100000000000000000000000000000 ≤ |v.dot f.normal| ∧ LineMeetsFace p0 v f q := by
  unfold _getVectorFaceIntersection LineMeetsFace
  by_cases hg : |v.dot f.normal| < 1 / 100000000000000000000000000000
  · simp only [hg, if_true, Prod.mk.injEq, Bool.false_eq_true, false_and, false_iff, not_and]
    intro h
    exact absurd hg (not_lt.2 h)
  · simp only [hg, if_false, Prod.mk.injEq]
    have hne : v.dot f.normal ≠ 0 := by
      intro h0
      rw [h0] at hg
      norm_num at hg
    constructor
    · rintro ⟨hon, hq⟩
      subst hq
      refine ⟨not_lt.1 hg, ⟨_, rfl⟩, ?_, hon⟩
      simp only [Vec3.dot, Vec3.sub, Vec3.add, Vec3.scale] at hne ⊢
      field_simp
      ring
    · rintro ⟨_, ⟨t, ht⟩, hplane, hon⟩
      have hteq : t = (Vec3.sub ⟨f.minx, f.miny, f.minz⟩ p0).dot f.normal / v.dot f.normal := by
        rw [eq_div_iff hne]
        subst ht
        simp only [Vec3.dot, Vec3.sub, Vec3.add, Vec3.scale] at hplane ⊢
        linarith
      rw [← hteq, ← ht]
      exact ⟨hon, rfl⟩

/-- On a grid of the declared size, from a point whose cell is in range,
`_findFaceCollision` returns; what it returns is described by the test
`_getVectorFaceIntersection` on the faces of the solid neighbours that pass the filter
of `_getSolidCellFaceCollisionCandidates`. -/
theorem findFaceCollision_run (normalize : Vec3 → Vec3) (s : FluidSimulation) (p0 p1 : Vec3)
    (hdims : HasDims s._materialGrid s._i_voxels s._j_voxels s._k_voxels)
    (hin : _isCellIndexInRange s (positionToGridIndex s._dx p0).i
      (positionToGridIndex s._dx p0).j (positionToGridIndex s._dx p0).k = true) :
    ∃ r, _findFaceCollision normalize s p0 p1 = some r ∧
      (r = none → ∀ f, IsNeighbourSolidFace s (positionToGridIndex s._dx p0) f →
        f.normal.dot (normalize (p1.sub p0)) < 0 →
        (_getVectorFaceIntersection p0 (normalize (p1.sub p0)) f).1 = false) ∧
      ∀ f q, r = some (f, q) →
        IsNeighbourSolidFace s (positionToGridIndex s._dx p0) f ∧
        f.normal.dot (normalize (p1.sub p0)) < 0 ∧
        _getVectorFaceIntersection p0 (normalize (p1.sub p0)) f = (true, q) ∧
        ∀ f', IsNeighbourSolidFace s (positionToGridIndex s._dx p0) f' →
          f'.normal.dot (normalize (p1.sub p0)) < 0 →
          (_getVectorFaceIntersection p0 (normalize (p1.sub p0)) f').1 = true →
          distsq p0 q ≤ distsq p0 (_getVectorFaceIntersection p0 (normalize (p1.sub p0)) f').2 := by
  obtain ⟨L, hL, hmem⟩ := getNeighbourSolidCellFaces_spec s _ _ _ hdims hin
  have hcand : ∀ f, f ∈ L.filter (fun f => decide (f.normal.dot (normalize (p1.sub p0)) < 0)) ↔
      IsNeighbourSolidFace s (positionToGridIndex s._dx p0) f ∧
        f.normal.dot (normalize (p1.sub p0)) < 0 := by
    intro f
    rw [List.mem_filter, hmem f, decide_eq_true_eq]
  have hfold := closerCollision_fold p0 (normalize (p1.sub p0))
    (L.filter (fun f => decide (f.normal.dot (normalize (p1.sub p0)) < 0)))
  refine ⟨(List.foldl (closerCollision p0 (normalize (p1.sub p0))) none
      (L.filter (fun f => decide (f.normal.dot (normalize (p1.sub p0)) < 0)))).map
        (fun b => (b.2.2, b.2.1)), by
    simp only [_findFaceCollision, _getSolidCellFaceCollisionCandidates, hL,
      Option.bind_eq_bind, Option.some_bind, Option.pure_def], ?_, ?_⟩
  · intro hnone f hf hdot
    cases hb : List.foldl (closerCollision p0 (normalize (p1.sub p0))) none
        (L.filter (fun f => decide (f.normal.dot (normalize (p1.sub p0)) < 0))) with
    | none =>
      rw [hb] at hfold
      exact hfold f ((hcand f).2 ⟨hf, hdot⟩)
    | some b =>
      rw [hb] at hnone
      exact absurd hnone (by simp)
  · intro f q hr
    cases hb : List.foldl (closerCollision p0 (normalize (p1.sub p0))) none
        (L.filter (fun f => decide (f.normal.dot (normalize (p1.sub p0)) < 0))) with
    | none =>
      rw [hb] at hr
      exact absurd hr (by simp)
    | some b =>
      rw [hb] at hr hfold
      simp only [Option.map_some', Option.some.injEq, Prod.mk.injEq] at hr
      obtain ⟨hf, hq⟩ := hr
      obtain ⟨h1, h2, h3, h4⟩ := hfold
      rw [hf] at h1 h2
      rw [hq] at h2 h3
      refine ⟨((hcand f).1 h1).1, ((hcand f).1 h1).2, h2, fun f' hf' hdot' hhit => ?_⟩
      rw [← h3]
      exact h4 f' ((hcand f').2 ⟨hf', hdot'⟩) hhit

theorem dot_scale_right (k : ℚ) (a d : Vec3) : a.dot (Vec3.scale k d) = k * a.dot d := by
  simp only [Vec3.dot, Vec3.scale]
  ring

/-- A positive multiple of the direction spans the same line. -/
theorem lineMeetsFace_scale (p0 d : Vec3) (k : ℚ) (hk : 0 < k) (f : CellFace) (q : Vec3) :
    LineMeetsFace p0 (Vec3.scale k d) f q ↔ LineMeetsFace p0 d f q := by
  unfold LineMeetsFace
  refine and_congr ⟨?_, ?_⟩ Iff.rfl
  · rintro ⟨t, ht⟩
    refine ⟨t * k, ?_⟩
    rw [ht]
    simp only [Vec3.add, Vec3.scale, Vec3.mk.injEq]
    refine ⟨?_, ?_, ?_⟩ <;> ring
  · rintro ⟨t, ht⟩
    refine ⟨t / k, ?_⟩
    rw [ht]
    simp only [Vec3.add, Vec3.scale, Vec3.mk.injEq]
    refine ⟨?_, ?_, ?_⟩ <;> field_simp <;> ring

/-- With a normalised direction that is a positive multiple of `d`, the test of
`_getVectorFaceIntersection` on a face that passes the filter is the relation
`CollidesAt`. -/
theorem collidesAt_iff (s : FluidSimulation) (p0 d v : Vec3) (k : ℚ) (hk : 0 < k)
    (hv : v = Vec3.scale k d) (f : CellFace) (q : Vec3) :
    CollidesAt s p0 d v f q ↔
      IsNeighbourSolidFace s (positionToGridIndex s._dx p0) f ∧ f.normal.dot v < 0 ∧
        _getVectorFaceIntersection p0 v f = (true, q) := by
  unfold CollidesAt
  rw [getVectorFaceIntersection_iff]
  have hsign : f.normal.dot v < 0 ↔ f.normal.dot d < 0 := by
    rw [hv, dot_scale_right]
    constructor
    · intro h
      by_contra hc
      exact absurd h (not_lt.2 (mul_nonneg (le_of_lt hk) (not_lt.1 hc)))
    · intro h
      exact mul_neg_of_pos_of_neg hk h
  have hline : LineMeetsFace p0 v f q ↔ LineMeetsFace p0 d f q := by
    rw [hv]
    exact lineMeetsFace_scale p0 d k hk f q
  rw [hsign, hline]

theorem grazingState_solid (n : GridIndex)
    (h : grazingState._materialGrid.get n.i n.j n.k = some M_SOLID) : n = ⟨0, 1, 1⟩ := by
  obtain ⟨a, b, c⟩ := n
  simp only [grazingState, mkSimulation, Array3d.get] at h
  split at h
  · simp only [Option.some.injEq] at h
    by_cases hc : a = 0 ∧ b = 1 ∧ c = 1
    · obtain ⟨rfl, rfl, rfl⟩ := hc
      rfl
    · simp [grazingMaterial, hc] at h
  · exact absurd h (by simp)

theorem grazing_sub : grazingEnd.sub grazingStart = grazingDirection := by
  simp only [grazingEnd, Vec3.sub, Vec3.add, grazingDirection, grazingStart]
  norm_num

theorem grazing_cell : positionToGridIndex grazingState._dx grazingStart = ⟨0, 2, 1⟩ := by
  have hdx : grazingState._dx = 1 := rfl
  have f1 : ⌊(7 * 10 ^ 30 / (5 * (10 ^ 60 + 1)) : ℚ) * (1 / 1)⌋ = 0 :=
    floor_mul_one_div_one _ 0 (by norm_num) (by norm_num)
  have f2 : ⌊(3 / 2 + 7 * (10 ^ 60 - 1) / (10 * (10 ^ 60 + 1)) : ℚ) * (1 / 1)⌋ = 2 :=
    floor_mul_one_div_one _ 2 (by norm_num) (by norm_num)
  have f3 : ⌊(3 / 2 : ℚ) * (1 / 1)⌋ = 1 :=
    floor_mul_one_div_one _ 1 (by norm_num) (by norm_num)
  simp only [positionToGridIndex, hdx, grazingStart, f1, f2, f3]

theorem grazing_faces (normal : Vec3) (f : CellFace) (hn : normal ∈ faceNormals)
    (hf : _getCellFace grazingState 0 1 1 normal = some f) :
    f.normal = normal ∧
      (normal = ⟨-1, 0, 0⟩ → f = grazingFace) ∧
      (normal = ⟨0, -1, 0⟩ → f = ⟨⟨0, -1, 0⟩, 0, 1, 1, 1, 1, 2⟩) := by
  have hin : _isCellIndexInRange grazingState 0 1 1 = true := by decide
  have hdx : grazingState._dx = 1 := rfl
  simp only [faceNormals, List.mem_cons, List.mem_singleton, List.not_mem_nil, or_false]
    at hn
  unfold _getCellFace gridIndexToCellCenter at hf
  rcases hn with h | h | h | h | h | h <;> subst h <;>
    norm_num [hin, hdx, Vec3.add, Vec3.sub, Vec3.scale] at hf <;> subst hf <;>
    norm_num [grazingFace]

/-- C29 (counterexample): on the sample grid (`dx = 1`, the only solid cell is
`(0, 1, 1)`) the direction from `grazingStart` to `grazingEnd` has length one, so that
normalising leaves it as it is; `grazingStart`, about `(1.4 · 10⁻³⁰, 2.2, 1.5)`, lies in
the cell `(0, 2, 1)`; the face of the solid neighbour `(0, 1, 1)` with normal
`(-1, 0, 0)` has a negative inner product with the direction, and the line meets it at
`(0, 1.5, 1.5)`, a point of the face.  `_findFaceCollision` nevertheless reports no
collision: the inner product, about `-2 · 10⁻³⁰`, is within `10e-30` of zero and
`_getVectorFaceIntersection` rejects the face. -/
theorem findFaceCollision_misses_grazing_line :
    grazingStart ≠ grazingEnd ∧
    (grazingEnd.sub grazingStart).dot (grazingEnd.sub grazingStart) = 1 ∧
    positionToGridIndex grazingState._dx grazingStart = ⟨0, 2, 1⟩ ∧
    IsNeighbourSolidFace grazingState ⟨0, 2, 1⟩ grazingFace ∧
    grazingFace.normal.dot (grazingEnd.sub grazingStart) < 0 ∧
    LineMeetsFace grazingStart (grazingEnd.sub grazingStart) grazingFace ⟨0, 3 / 2, 3 / 2⟩ ∧
    (∀ normalize : Vec3 → Vec3,
      normalize (grazingEnd.sub grazingStart) = grazingEnd.sub grazingStart →
      _findFaceCollision normalize grazingState grazingStart grazingEnd = some none) := by
  have hface : _getCellFace grazingState 0 1 1 ⟨-1, 0, 0⟩ = some grazingFace := by
    obtain ⟨f, hf⟩ := getCellFace_some grazingState 0 1 1 ⟨-1, 0, 0⟩ (by decide)
      (by simp [faceNormals])
    rw [hf, (grazing_faces _ f (by simp [faceNormals]) hf).2.1 rfl]
  refine ⟨?_, ?_, grazing_cell, ?_, ?_, ?_, ?_⟩
  · intro h
    have h2 := grazing_sub
    rw [← h] at h2
    simp only [Vec3.sub, grazingDirection, Vec3.mk.injEq] at h2
    norm_num at h2
  · rw [grazing_sub]
    simp only [grazingDirection, Vec3.dot]
    norm_num
  · refine ⟨⟨0, 1, 1⟩, ?_, by decide, by decide, ⟨-1, 0, 0⟩, by simp [faceNormals], hface⟩
    simp only [IsNeighbour26]
    decide
  · rw [grazing_sub]
    simp only [grazingDirection, grazingFace, Vec3.dot]
    norm_num
  · rw [grazing_sub]
    refine ⟨⟨-(7 / 10), ?_⟩, ?_, ?_⟩
    · simp only [grazingStart, grazingDirection, Vec3.add, Vec3.scale, Vec3.mk.injEq]
      norm_num
    · simp only [grazingFace, Vec3.dot, Vec3.sub]
      norm_num
    · simp only [_isPointOnCellFace, grazingFace]
      norm_num
  · intro normalize hnorm
    obtain ⟨r, hrun, -, hsome⟩ := findFaceCollision_run normalize grazingState grazingStart
      grazingEnd (mkSimulation_wellFormed 3 4 3 1 grazingMaterial []).1
      (by rw [grazing_cell]; decide)
    rw [hrun]
    cases r with
    | none => rfl
    | some b =>
      exfalso
      obtain ⟨f, q⟩ := b
      obtain ⟨hnb, hdot, hhit, -⟩ := hsome f q rfl
      rw [hnorm, grazing_sub] at hdot hhit
      rw [getVectorFaceIntersection_iff] at hhit
      obtain ⟨hguard, ⟨t, ht⟩, hplane, hon⟩ := hhit
      obtain ⟨n, -, -, hsolid, normal, hmem, hf⟩ := hnb
      rw [grazingState_solid n hsolid] at hf
      obtain ⟨hfn, hxm, hym⟩ := grazing_faces normal f hmem hf
      rw [hfn] at hdot hguard
      simp only [faceNormals, List.mem_cons, List.mem_singleton, List.not_mem_nil, or_false]
        at hmem
      rcases hmem with h | h | h | h | h | h
      · subst h
        simp only [grazingDirection, Vec3.dot] at hguard
        norm_num [abs_of_neg] at hguard
      · subst h
        simp only [grazingDirection, Vec3.dot] at hdot
        norm_num at hdot
      · subst h
        rw [hym rfl] at hplane hon
        subst ht
        simp only [_isPointOnCellFace] at hon
        norm_num at hon
        simp only [grazingStart, grazingDirection, Vec3.add, Vec3.scale, Vec3.sub, Vec3.dot]
          at hplane hon
        obtain ⟨-, hx, -⟩ := hon
        linarith
      · subst h
        simp only [grazingDirection, Vec3.dot] at hdot
        norm_num at hdot
      · subst h
        simp only [grazingDirection, Vec3.dot] at hdot
        norm_num at hdot
      · subst h
        simp only [grazingDirection, Vec3.dot] at hdot
        norm_num at hdot

/-- C29 (amended): on a material grid of the declared size, for every `p0` whose cell
is in range and every `p1` such that the normalised direction is a positive multiple of
`p1 - p0`, `_findFaceCollision` returns, and it reports a collision if and only if the
line through `p0` with direction `p1 - p0` meets, at a point lying on the face, at
least one face of an in-range solid 26-neighbour of the cell of `p0` whose normal has a
negative inner product with the direction and an inner product of absolute value at
least `10e-30` with the normalised direction; when it does, the returned point is such
an intersection with the returned face, and no such intersection is closer to `p0`. -/
theorem findFaceCollision_spec (normalize : Vec3 → Vec3) (s : FluidSimulation) (p0 p1 : Vec3)
    (hdims : HasDims s._materialGrid s._i_voxels s._j_voxels s._k_voxels)
    (hin : _isCellIndexInRange s (positionToGridIndex s._dx p0).i
      (positionToGridIndex s._dx p0).j (positionToGridIndex s._dx p0).k = true)
    (hn : ∃ k : ℚ, 0 < k ∧ normalize (p1.sub p0) = Vec3.scale k (p1.sub p0)) :
    ∃ r, _findFaceCollision normalize s p0 p1 = some r ∧
      (r.isSome = true ↔
        ∃ f q, CollidesAt s p0 (p1.sub p0) (normalize (p1.sub p0)) f q) ∧
      ∀ f q, r = some (f, q) →
        CollidesAt s p0 (p1.sub p0) (normalize (p1.sub p0)) f q ∧
        ∀ f' q', CollidesAt s p0 (p1.sub p0) (normalize (p1.sub p0)) f' q' →
          distsq p0 q ≤ distsq p0 q' := by
  obtain ⟨k, hk, hv⟩ := hn
  obtain ⟨r, hrun, hnone, hsome⟩ := findFaceCollision_run normalize s p0 p1 hdims hin
  have hiff := collidesAt_iff s p0 (p1.sub p0) (normalize (p1.sub p0)) k hk hv
  have hbest : ∀ f q, r = some (f, q) →
      CollidesAt s p0 (p1.sub p0) (normalize (p1.sub p0)) f q ∧
      ∀ f' q', CollidesAt s p0 (p1.sub p0) (normalize (p1.sub p0)) f' q' →
        distsq p0 q ≤ distsq p0 q' := by
    intro f q hr
    obtain ⟨h1, h2, h3, h4⟩ := hsome f q hr
    refine ⟨(hiff f q).2 ⟨h1, h2, h3⟩, fun f' q' hc => ?_⟩
    obtain ⟨g1, g2, g3⟩ := (hiff f' q').1 hc
    have := h4 f' g1 g2 (by rw [g3])
    rw [g3] at this
    exact this
  refine ⟨r, hrun, ⟨fun hr => ?_, fun hc => ?_⟩, hbest⟩
  · cases r with
    | none => exact absurd hr (by simp)
    | some b => exact ⟨b.1, b.2, (hbest b.1 b.2 rfl).1⟩
  · obtain ⟨f, q, hc⟩ := hc
    cases r with
    | none =>
      obtain ⟨g1, g2, g3⟩ := (hiff f q).1 hc
      have := hnone rfl f g1 g2
      rw [g3] at this
      exact absurd this (by simp)
    | some b => rfl

theorem findFaceCollision_spec_witness :
    HasDims grazingState._materialGrid grazingState._i_voxels grazingState._j_voxels
      grazingState._k_voxels ∧
    _isCellIndexInRange grazingState
      (positionToGridIndex grazingState._dx ⟨3 / 2, 3 / 2, 3 / 2⟩).i
      (positionToGridIndex grazingState._dx ⟨3 / 2, 3 / 2, 3 / 2⟩).j
      (positionToGridIndex grazingState._dx ⟨3 / 2, 3 / 2, 3 / 2⟩).k = true ∧
    (∃ k : ℚ, 0 < k ∧ (Vec3.mk (1 / 2) (3 / 2) (3 / 2)).sub ⟨3 / 2, 3 / 2, 3 / 2⟩ =
      Vec3.scale k ((Vec3.mk (1 / 2) (3 / 2) (3 / 2)).sub ⟨3 / 2, 3 / 2, 3 / 2⟩)) ∧
    ∃ r, _findFaceCollision (fun v => v) grazingState ⟨3 / 2, 3 / 2, 3 / 2⟩
        ⟨1 / 2, 3 / 2, 3 / 2⟩ = some r ∧
      (r.isSome = true ↔
        ∃ f q, CollidesAt grazingState ⟨3 / 2, 3 / 2, 3 / 2⟩
          ((Vec3.mk (1 / 2) (3 / 2) (3 / 2)).sub ⟨3 / 2, 3 / 2, 3 / 2⟩)
          ((Vec3.mk (1 / 2) (3 / 2) (3 / 2)).sub ⟨3 / 2, 3 / 2, 3 / 2⟩) f q) ∧
      ∀ f q, r = some (f, q) →
        CollidesAt grazingState ⟨3 / 2, 3 / 2, 3 / 2⟩
          ((Vec3.mk (1 / 2) (3 / 2) (3 / 2)).sub ⟨3 / 2, 3 / 2, 3 / 2⟩)
          ((Vec3.mk (1 / 2) (3 / 2) (3 / 2)).sub ⟨3 / 2, 3 / 2, 3 / 2⟩) f q ∧
        ∀ f' q', CollidesAt grazingState ⟨3 / 2, 3 / 2, 3 / 2⟩
            ((Vec3.mk (1 / 2) (3 / 2) (3 / 2)).sub ⟨3 / 2, 3 / 2, 3 / 2⟩)
            ((Vec3.mk (1 / 2) (3 / 2) (3 / 2)).sub ⟨3 / 2, 3 / 2, 3 / 2⟩) f' q' →
          distsq ⟨3 / 2, 3 / 2, 3 / 2⟩ q ≤ distsq ⟨3 / 2, 3 / 2, 3 / 2⟩ q' := by
  have h1 := (mkSimulation_wellFormed 3 4 3 1 grazingMaterial []).1
  have h2 : _isCellIndexInRange grazingState
      (positionToGridIndex grazingState._dx ⟨3 / 2, 3 / 2, 3 / 2⟩).i
      (positionToGridIndex grazingState._dx ⟨3 / 2, 3 / 2, 3 / 2⟩).j
      (positionToGridIndex grazingState._dx ⟨3 / 2, 3 / 2, 3 / 2⟩).k = true := by
    have hdx : grazingState._dx = 1 := rfl
    have f1 : ⌊(3 / 2 : ℚ) * (1 / 1)⌋ = 1 :=
      floor_mul_one_div_one _ 1 (by norm_num) (by norm_num)
    simp only [positionToGridIndex, hdx, f1]
    decide
  have h3 : ∃ k : ℚ, 0 < k ∧ (Vec3.mk (1 / 2) (3 / 2) (3 / 2)).sub ⟨3 / 2, 3 / 2, 3 / 2⟩ =
      Vec3.scale k ((Vec3.mk (1 / 2) (3 / 2) (3 / 2)).sub ⟨3 / 2, 3 / 2, 3 / 2⟩) :=
    ⟨1, by norm_num, by simp [Vec3.scale]⟩
  exact ⟨h1, h2, h3, findFaceCollision_spec (fun v => v) grazingState ⟨3 / 2, 3 / 2, 3 / 2⟩
    ⟨1 / 2, 3 / 2, 3 / 2⟩ h1 h2 h3⟩

theorem ratSqrt_pos (x : ℚ) (hx : 0 < x) : 0 < ratSqrt x := by
  unfold ratSqrt
  have hn : 0 < x.num := Rat.num_pos.2 hx
  have h1 : 0 < Nat.sqrt x.num.toNat := Nat.sqrt_pos.2 (by omega)
  have h2 : 0 < Nat.sqrt x.den := Nat.sqrt_pos.2 x.den_pos
  exact div_pos (by exact_mod_cast h1) (by exact_mod_cast h2)

theorem ratSqrt_mul_self (q : ℚ) (hq : 0 ≤ q) : ratSqrt (q * q) = q := by
  unfold ratSqrt
  rw [Rat.mul_self_num, Rat.mul_self_den]
  have hn : 0 ≤ q.num := Rat.num_nonneg.2 hq
  obtain ⟨n, hn'⟩ := Int.eq_ofNat_of_zero_le hn
  have h1 : (q.num * q.num).toNat = n * n := by
    rw [hn']
    exact_mod_cast Int.toNat_natCast (n * n)
  rw [h1, Nat.sqrt_eq, Nat.sqrt_eq]
  have h2 := Rat.num_div_den q
  rw [hn', Int.cast_natCast] at h2
  exact h2

theorem ratSqrt_four : ratSqrt 4 = 2 := by
  have := ratSqrt_mul_self 2 (by norm_num)
  norm_num at this
  exact this
/-- The preconditioner loop on the sample duct: the value `e` is `4` at both fluid
cells, so the branch `|e| > 10e-9` is taken twice, and both stored values are
`1/sqrt(4) = 1/2`. -/
theorem ductCoefficients_run :
    pivotAt ductCoefficients (VectorCoefficients.new 5 3 3) ⟨1, 1, 1⟩ = 4 ∧
    ∃ P1 P, _calculatePreconditionerVector ratSqrt
        { ductState with _fluidCellIndices := [⟨1, 1, 1⟩] }
        (VectorCoefficients.new 5 3 3) ductCoefficients = some P1 ∧
      pivotAt ductCoefficients P1 ⟨2, 1, 1⟩ = 4 ∧
      _calculatePreconditionerVector ratSqrt ductState (VectorCoefficients.new 5 3 3)
        ductCoefficients = some P ∧
      P.vector.grid 1 1 1 = 1 / 2 ∧ P.vector.grid 2 1 1 = 1 / 2 := by
  have hA : ductCoefficients.HasDims 5 3 3 :=
    ⟨⟨rfl, rfl, rfl⟩, ⟨rfl, rfl, rfl⟩, ⟨rfl, rfl, rfl⟩, ⟨rfl, rfl, rfl⟩⟩
  have hpiv1 : pivotAt ductCoefficients (VectorCoefficients.new 5 3 3) ⟨1, 1, 1⟩ = 4 := by
    simp only [pivotAt, preconditionerPivot, ductCoefficients, VectorCoefficients.new]
    norm_num
  obtain ⟨P1, hs1, hd1, hf1, hv1⟩ := preconditionerStep_spec ratSqrt ductCoefficients
    (VectorCoefficients.new 5 3 3) 5 3 3 hA ⟨rfl, rfl, rfl⟩ ⟨1, 1, 1⟩
    (by simp [NegativeSidesInRange])
  rw [hpiv1, if_pos (by norm_num), ratSqrt_four] at hv1
  have hpiv2 : pivotAt ductCoefficients P1 ⟨2, 1, 1⟩ = 4 := by
    have a1 : P1.vector.grid 1 1 1 = 1 / 2 := hv1
    have a2 : P1.vector.grid 2 0 1 = 0 := by
      rw [hf1 2 0 1 (by simp)]
      rfl
    have a3 : P1.vector.grid 2 1 0 = 0 := by
      rw [hf1 2 1 0 (by simp)]
      rfl
    simp only [pivotAt, preconditionerPivot, ductCoefficients]
    norm_num [a1, a2, a3]
  obtain ⟨P, hs2, hd2, hf2, hv2⟩ := preconditionerStep_spec ratSqrt ductCoefficients
    P1 5 3 3 hA hd1 ⟨2, 1, 1⟩ (by simp [NegativeSidesInRange])
  rw [hpiv2, if_pos (by norm_num), ratSqrt_four] at hv2
  refine ⟨hpiv1, P1, P, ?_, hpiv2, ?_, ?_, hv2⟩
  · rw [calculatePreconditionerVector_eq]
    show List.foldlM _ _ [_] = _
    rw [List.foldlM_cons, hs1]
    rfl
  · rw [calculatePreconditionerVector_eq]
    show List.foldlM _ _ [_, _] = _
    rw [List.foldlM_cons, hs1]
    show List.foldlM (preconditionerStep ratSqrt ductCoefficients) P1 [_] = _
    rw [List.foldlM_cons, hs2]
    rfl
  · rw [hf2 1 1 1 (by simp)]
    exact hv1

theorem calculatePreconditionerVector_sqrt_argument_witness :
    (∀ x : ℚ, 0 < x → 0 < ratSqrt x) ∧
    ductCoefficients.HasDims 5 3 3 ∧ HasDims (VectorCoefficients.new 5 3 3).vector 5 3 3 ∧
    (∀ c ∈ ductState._fluidCellIndices, NegativeSidesInRange 5 3 3 c) ∧
    (∀ c ∈ ductState._fluidCellIndices, 0 ≤ ductCoefficients.diag.grid c.i c.j c.k) ∧
    (∀ x y z, 0 ≤ (VectorCoefficients.new 5 3 3).vector.grid x y z) ∧
    (∃ P, _calculatePreconditionerVector ratSqrt ductState
        (VectorCoefficients.new 5 3 3) ductCoefficients = some P ∧
      (∀ x y z, 0 ≤ P.vector.grid x y z) ∧
      ∀ pre c post, ductState._fluidCellIndices = pre ++ c :: post →
        ∃ Ppre, _calculatePreconditionerVector ratSqrt
            { ductState with _fluidCellIndices := pre }
            (VectorCoefficients.new 5 3 3) ductCoefficients = some Ppre ∧
          1 / 4 * ductCoefficients.diag.grid c.i c.j c.k ≤ pivotAt ductCoefficients Ppre c ∧
          0 ≤ pivotAt ductCoefficients Ppre c ∧
          (|pivotAt ductCoefficients Ppre c| > 1 / 100000000 →
            0 < pivotAt ductCoefficients Ppre c ∧
              ratSqrt (pivotAt ductCoefficients Ppre c) ≠ 0 ∧
              0 < 1 / ratSqrt (pivotAt ductCoefficients Ppre c))) ∧
    (pivotAt ductCoefficients (VectorCoefficients.new 5 3 3) ⟨1, 1, 1⟩ = 4 ∧
      ∃ P1 P, _calculatePreconditionerVector ratSqrt
          { ductState with _fluidCellIndices := [⟨1, 1, 1⟩] }
          (VectorCoefficients.new 5 3 3) ductCoefficients = some P1 ∧
        pivotAt ductCoefficients P1 ⟨2, 1, 1⟩ = 4 ∧
        _calculatePreconditionerVector ratSqrt ductState (VectorCoefficients.new 5 3 3)
          ductCoefficients = some P ∧
        P.vector.grid 1 1 1 = 1 / 2 ∧ P.vector.grid 2 1 1 = 1 / 2) ∧
    |(4 : ℚ)| > 1 / 100000000 ∧ ratSqrt 4 = 2 :=
  have hA : ductCoefficients.HasDims 5 3 3 :=
    ⟨⟨rfl, rfl, rfl⟩, ⟨rfl, rfl, rfl⟩, ⟨rfl, rfl, rfl⟩, ⟨rfl, rfl, rfl⟩⟩
  have hin : ∀ c ∈ ductState._fluidCellIndices, NegativeSidesInRange 5 3 3 c := by
    intro c hc
    have : c = ⟨1, 1, 1⟩ ∨ c = ⟨2, 1, 1⟩ := by simpa [ductState] using hc
    rcases this with h | h <;> subst h <;> simp [NegativeSidesInRange]
  have hdiag : ∀ c ∈ ductState._fluidCellIndices,
      0 ≤ ductCoefficients.diag.grid c.i c.j c.k := by
    intro c hc
    have : c = ⟨1, 1, 1⟩ ∨ c = ⟨2, 1, 1⟩ := by simpa [ductState] using hc
    rcases this with h | h <;> subst h <;> simp [ductCoefficients]
  have hp0 : ∀ x y z, 0 ≤ (VectorCoefficients.new 5 3 3).vector.grid x y z :=
    fun _ _ _ => le_refl _
  ⟨ratSqrt_pos, hA, ⟨rfl, rfl, rfl⟩, hin, hdiag, hp0,
    calculatePreconditionerVector_sqrt_argument ratSqrt ratSqrt_pos
      ductState (VectorCoefficients.new 5 3 3) ductCoefficients 5 3 3 hA
      ⟨rfl, rfl, rfl⟩ hin hdiag hp0, ductCoefficients_run, by norm_num, ratSqrt_four⟩

/-! ## C8 for any commit of the temp arrays -/

theorem extrapolateFluidVelocitiesWith_commit (s : FluidSimulation) :
    extrapolateFluidVelocitiesWith MACVelocityField.commitTemporaryVelocityFieldValues s =
      _extrapolateFluidVelocities s := rfl

theorem commitTemporaryVelocityFieldValues_faceByFace :
    CommitsFaceByFace MACVelocityField.commitTemporaryVelocityFieldValues := by
  intro m W H D hu hv hw htu htv htw
  exact ⟨⟨htu, htv, htw, hu, hv, hw⟩, fun i j k => ⟨Or.inl rfl, Or.inl rfl, Or.inl rfl⟩⟩

/-- One call of `_extrapolateVelocitiesForLayerIndex` with any face-by-face commit
completes and changes only the velocity field; at every face that does not border a
cell of layer `idx` the live value afterwards is `0` or the live value before. -/
theorem extrapolateVelocitiesForLayerIndexWith_spec
    (commit : MACVelocityField → MACVelocityField) (hcommit : CommitsFaceByFace commit)
    (s : FluidSimulation) (idx : Int) (hwf : WellFormed s) :
    ∃ m', extrapolateVelocitiesForLayerIndexWith commit s idx =
        some { s with _MACVelocity := m' } ∧
      WellFormed { s with _MACVelocity := m' } ∧
      (∀ x y z, _isFaceBorderingLayerIndexU s._layerGrid x y z idx = false →
        m'.u.grid x y z = 0 ∨ m'.u.grid x y z = s._MACVelocity.u.grid x y z) ∧
      (∀ x y z, _isFaceBorderingLayerIndexV s._layerGrid x y z idx = false →
        m'.v.grid x y z = 0 ∨ m'.v.grid x y z = s._MACVelocity.v.grid x y z) ∧
      (∀ x y z, _isFaceBorderingLayerIndexW s._layerGrid x y z idx = false →
        m'.w.grid x y z = 0 ∨ m'.w.grid x y z = s._MACVelocity.w.grid x y z) := by
  obtain ⟨hm, hl, hp, hdu, hdv, hdw, ⟨hu1, hu2, hu3⟩, ⟨hv1, hv2, hv3⟩, ⟨hw1, hw2, hw3⟩⟩ := hwf
  obtain ⟨tu, hrunu, u1, u2, u3, hu⟩ := lens_sweep (fun m => m.tempU)
    (fun (m : MACVelocityField) a => { m with tempU := a }) MACVelocityField.setTempU
    (fun _ _ => rfl) (fun _ => rfl) (fun _ _ _ => rfl) setTempU_eq
    s._k_voxels s._j_voxels (s._i_voxels + 1)
    s._MACVelocity.resetTemporaryVelocityField hu1 hu2 hu3
    (fun i j k => _isFaceBorderingLayerIndexU s._layerGrid i j k idx &&
        !_isFaceBorderingLayerIndexU s._layerGrid i j k (idx - 1) &&
        !_isFaceBorderingMaterialU s._materialGrid i j k M_SOLID)
    (fun i j k => some (_getExtrapolatedVelocityForFaceU
      s._MACVelocity.resetTemporaryVelocityField s._layerGrid i j k idx))
    (fun i j k m =>
      if _isFaceBorderingLayerIndexU s._layerGrid i j k idx &&
          !_isFaceBorderingLayerIndexU s._layerGrid i j k (idx - 1) &&
          !_isFaceBorderingMaterialU s._materialGrid i j k M_SOLID then
        m.setTempU i j k (_getExtrapolatedVelocityForFaceU m s._layerGrid i j k idx)
      else pure m)
    (fun i j k g => rfl) (fun _ _ _ _ _ => ⟨_, rfl⟩)
  obtain ⟨tv, hrunv, v1, v2, v3, hv⟩ := lens_sweep (fun m => m.tempV)
    (fun (m : MACVelocityField) a => { m with tempV := a }) MACVelocityField.setTempV
    (fun _ _ => rfl) (fun _ => rfl) (fun _ _ _ => rfl) setTempV_eq
    s._k_voxels (s._j_voxels + 1) s._i_voxels
    { s._MACVelocity.resetTemporaryVelocityField with tempU := tu } hv1 hv2 hv3
    (fun i j k => _isFaceBorderingLayerIndexV s._layerGrid i j k idx &&
        !_isFaceBorderingLayerIndexV s._layerGrid i j k (idx - 1) &&
        !_isFaceBorderingMaterialV s._materialGrid i j k M_SOLID)
    (fun i j k => some (_getExtrapolatedVelocityForFaceV
      s._MACVelocity.resetTemporaryVelocityField s._layerGrid i j k idx))
    (fun i j k m =>
      if _isFaceBorderingLayerIndexV s._layerGrid i j k idx &&
          !_isFaceBorderingLayerIndexV s._layerGrid i j k (idx - 1) &&
          !_isFaceBorderingMaterialV s._materialGrid i j k M_SOLID then
        m.setTempV i j k (_getExtrapolatedVelocityForFaceV m s._layerGrid i j k idx)
      else pure m)
    (fun i j k g => rfl) (fun _ _ _ _ _ => ⟨_, rfl⟩)
  obtain ⟨tw, hrunw, w1, w2, w3, hw⟩ := lens_sweep (fun m => m.tempW)
    (fun (m : MACVelocityField) a => { m with tempW := a }) MACVelocityField.setTempW
    (fun _ _ => rfl) (fun _ => rfl) (fun _ _ _ => rfl) setTempW_eq
    (s._k_voxels + 1) s._j_voxels s._i_voxels
    { s._MACVelocity.resetTemporaryVelocityField with tempU := tu, tempV := tv }
    hw1 hw2 hw3
    (fun i j k => _isFaceBorderingLayerIndexW s._layerGrid i j k idx &&
        !_isFaceBorderingLayerIndexW s._layerGrid i j k (idx - 1) &&
        !_isFaceBorderingMaterialW s._materialGrid i j k M_SOLID)
    (fun i j k => some (_getExtrapolatedVelocityForFaceW
      s._MACVelocity.resetTemporaryVelocityField s._layerGrid i j k idx))
    (fun i j k m =>
      if _isFaceBorderingLayerIndexW s._layerGrid i j k idx &&
          !_isFaceBorderingLayerIndexW s._layerGrid i j k (idx - 1) &&
          !_isFaceBorderingMaterialW s._materialGrid i j k M_SOLID then
        m.setTempW i j k (_getExtrapolatedVelocityForFaceW m s._layerGrid i j k idx)
      else pure m)
    (fun i j k g => rfl) (fun _ _ _ _ _ => ⟨_, rfl⟩)
  obtain ⟨⟨c1, c2, c3, c4, c5, c6⟩, hface⟩ := hcommit
    { s._MACVelocity.resetTemporaryVelocityField with tempU := tu, tempV := tv, tempW := tw }
    s._i_voxels s._j_voxels s._k_voxels hdu hdv hdw ⟨u1, u2, u3⟩ ⟨v1, v2, v3⟩ ⟨w1, w2, w3⟩
  refine ⟨commit { s._MACVelocity.resetTemporaryVelocityField with
      tempU := tu, tempV := tv, tempW := tw }, ?_, ⟨hm, hl, hp, c1, c2, c3, c4, c5, c6⟩,
    ?_, ?_, ?_⟩
  · unfold extrapolateVelocitiesForLayerIndexWith
    simp only [Option.bind_eq_bind]
    rw [hrunu, Option.some_bind, hrunv, Option.some_bind, hrunw]
    rfl
  · intro x y z hb
    rcases (hface x y z).1 with h | h
    · exact Or.inl (h.trans ((hu x y z).2 (fun h => by simp [hb] at h)))
    · exact Or.inr h
  · intro x y z hb
    rcases (hface x y z).2.1 with h | h
    · exact Or.inl (h.trans ((hv x y z).2 (fun h => by simp [hb] at h)))
    · exact Or.inr h
  · intro x y z hb
    rcases (hface x y z).2.2 with h | h
    · exact Or.inl (h.trans ((hw x y z).2 (fun h => by simp [hb] at h)))
    · exact Or.inr h
/-- C8: for every initial velocity field and every face-by-face commit of the temp
arrays (the whole-array commit of the model, or one that copies only the written
faces), `_extrapolateFluidVelocities` completes (on a state whose grids have the
simulation's dimensions and whose fluid cell list holds `M_FLUID` cells), and afterwards
every `U`, `V` or `W` face that borders no `M_FLUID` cell and borders no cell whose layer
value is in `1 … L`, `L = ⌈CFL⌉ + 2`, holds exactly `0`: the reset sweep writes the `0`
and no layer writes the face.  Solid cells keep the layer value `-1`, so the faces
between solid or out-of-range cells are such faces. -/
theorem extrapolateFluidVelocities_zero_outside
    (commit : MACVelocityField → MACVelocityField) (hcommit : CommitsFaceByFace commit)
    (s : FluidSimulation) (hwf : WellFormed s)
    (hcells : ∀ c ∈ s._fluidCellIndices, s._materialGrid.get c.i c.j c.k = some M_FLUID) :
    ∃ s', extrapolateFluidVelocitiesWith commit s = some s' ∧
      s'._materialGrid = s._materialGrid ∧
      (∀ x y z, s'._materialGrid.get x y z = some M_SOLID →
        s'._layerGrid.get x y z = some (-1)) ∧
      ∀ i j k : Int,
        (_isFaceBorderingMaterialU s'._materialGrid i j k M_FLUID = false →
          (∀ l : Int, 1 ≤ l → l ≤ ⌈s._CFLConditionNumber⌉ + 2 →
            _isFaceBorderingLayerIndexU s'._layerGrid i j k l = false) →
          s'._MACVelocity.U i j k = 0) ∧
        (_isFaceBorderingMaterialV s'._materialGrid i j k M_FLUID = false →
          (∀ l : Int, 1 ≤ l → l ≤ ⌈s._CFLConditionNumber⌉ + 2 →
            _isFaceBorderingLayerIndexV s'._layerGrid i j k l = false) →
          s'._MACVelocity.V i j k = 0) ∧
        (_isFaceBorderingMaterialW s'._materialGrid i j k M_FLUID = false →
          (∀ l : Int, 1 ≤ l → l ≤ ⌈s._CFLConditionNumber⌉ + 2 →
            _isFaceBorderingLayerIndexW s'._layerGrid i j k l = false) →
          s'._MACVelocity.W i j k = 0) := by
  obtain ⟨u, v, w, hreset, hdu, hdv, hdw, hzu, hzv, hzw⟩ :=
    resetExtrapolatedFluidVelocities_spec s hwf
  obtain ⟨hm, hl, hp, _, _, _, htu, htv, htw⟩ := hwf
  obtain ⟨lg, hlayers, hI⟩ := updateExtrapolationLayers_run
    { s with _MACVelocity := { s._MACVelocity with u := u, v := v, w := w } }
    hm.1 hm.2.1 hm.2.2 (hl.1.trans hm.1.symm) (hl.2.1.trans hm.2.1.symm)
    (hl.2.2.trans hm.2.2.symm) hcells
  obtain ⟨s', hloop, hwf', hmat, hlg, -, -, -, hz⟩ := forRange_inv
    (⌈s._CFLConditionNumber⌉ + 2 - 1 + 1).toNat
    (fun n st => extrapolateVelocitiesForLayerIndexWith commit st (1 + n))
    { s with _MACVelocity := { s._MACVelocity with u := u, v := v, w := w }
             _layerGrid := lg }
    (fun _ st => WellFormed st ∧ st._materialGrid = s._materialGrid ∧ st._layerGrid = lg ∧
      st._i_voxels = s._i_voxels ∧ st._j_voxels = s._j_voxels ∧
      st._k_voxels = s._k_voxels ∧
      ∀ i j k : Int,
        (st._MACVelocity.u.isIndexInRange i j k = true →
          _isFaceBorderingMaterialU s._materialGrid i j k M_FLUID = false →
          (∀ l : Int, 1 ≤ l → l ≤ ⌈s._CFLConditionNumber⌉ + 2 →
            _isFaceBorderingLayerIndexU lg i j k l = false) →
          st._MACVelocity.u.grid i j k = 0) ∧
        (st._MACVelocity.v.isIndexInRange i j k = true →
          _isFaceBorderingMaterialV s._materialGrid i j k M_FLUID = false →
          (∀ l : Int, 1 ≤ l → l ≤ ⌈s._CFLConditionNumber⌉ + 2 →
            _isFaceBorderingLayerIndexV lg i j k l = false) →
          st._MACVelocity.v.grid i j k = 0) ∧
        (st._MACVelocity.w.isIndexInRange i j k = true →
          _isFaceBorderingMaterialW s._materialGrid i j k M_FLUID = false →
          (∀ l : Int, 1 ≤ l → l ≤ ⌈s._CFLConditionNumber⌉ + 2 →
            _isFaceBorderingLayerIndexW lg i j k l = false) →
          st._MACVelocity.w.grid i j k = 0))
    ⟨⟨hm, ⟨hI.1.trans hm.1, hI.2.1.trans hm.2.1, hI.2.2.1.trans hm.2.2⟩, hp, hdu, hdv, hdw,
        htu, htv, htw⟩, rfl, rfl, rfl, rfl, rfl,
      fun i j k => ⟨fun hin hb _ => hzu i j k hin hb, fun hin hb _ => hzv i j k hin hb,
        fun hin hb _ => hzw i j k hin hb⟩⟩
    (by
      rintro n st hn ⟨hwfst, hmatst, hlgst, hi, hj, hk, hzero⟩
      obtain ⟨m', hrun, hwfm, zu, zv, zw⟩ :=
        extrapolateVelocitiesForLayerIndexWith_spec commit hcommit st (1 + n) hwfst
      have hidx : (1 : Int) + n ≤ ⌈s._CFLConditionNumber⌉ + 2 := by omega
      obtain ⟨-, -, -, ou, ov, ow, -, -, -⟩ := hwfst
      obtain ⟨-, -, -, nu, nv, nw, -, -, -⟩ := id hwfm
      refine ⟨_, hrun, hwfm, hmatst, hlgst, hi, hj, hk, fun i j k => ?_⟩
      obtain ⟨pu, pv, pw⟩ := hzero i j k
      refine ⟨fun hin hb hlay => ?_, fun hin hb hlay => ?_, fun hin hb hlay => ?_⟩
      · rcases zu i j k (by rw [hlgst]; exact hlay _ (by omega) hidx) with h | h
        · exact h
        · rw [h]
          refine pu ?_ hb hlay
          rw [← hin]
          exact inRange_of_dims (nu.1.trans ou.1.symm) (nu.2.1.trans ou.2.1.symm)
            (nu.2.2.trans ou.2.2.symm) i j k |>.symm
      · rcases zv i j k (by rw [hlgst]; exact hlay _ (by omega) hidx) with h | h
        · exact h
        · rw [h]
          refine pv ?_ hb hlay
          rw [← hin]
          exact inRange_of_dims (nv.1.trans ov.1.symm) (nv.2.1.trans ov.2.1.symm)
            (nv.2.2.trans ov.2.2.symm) i j k |>.symm
      · rcases zw i j k (by rw [hlgst]; exact hlay _ (by omega) hidx) with h | h
        · exact h
        · rw [h]
          refine pw ?_ hb hlay
          rw [← hin]
          exact inRange_of_dims (nw.1.trans ow.1.symm) (nw.2.1.trans ow.2.1.symm)
            (nw.2.2.trans ow.2.2.symm) i j k |>.symm)
  refine ⟨s', ?_, hmat, ?_, fun i j k => ?_⟩
  · unfold extrapolateFluidVelocitiesWith forFromTo
    simp only [Option.bind_eq_bind]
    rw [hreset, Option.some_bind, hlayers, Option.some_bind]
    exact hloop
  · intro x y z hsolid
    rw [hmat] at hsolid
    rw [hlg]
    obtain ⟨hin, hval⟩ := get_eq_some hsolid
    have hin' : lg.isIndexInRange x y z = true := by
      rw [inRange_of_dims hI.1 hI.2.1 hI.2.2.1]
      exact hin
    rw [get_of_inRange _ _ _ _ hin', (hI.2.2.2 x y z hin').2.2.2.1 hval]
  · rw [hmat, hlg]
    obtain ⟨zu, zv, zw⟩ := hz i j k
    refine ⟨fun hb hlay => ?_, fun hb hlay => ?_, fun hb hlay => ?_⟩
    · unfold MACVelocityField.U
      split_ifs with hin
      · exact zu hin hb hlay
      · rfl
    · unfold MACVelocityField.V
      split_ifs with hin
      · exact zv hin hb hlay
      · rfl
    · unfold MACVelocityField.W
      split_ifs with hin
      · exact zw hin hb hlay
      · rfl

theorem shellFlowState_wellFormed : WellFormed shellFlowState :=
  ⟨⟨rfl, rfl, rfl⟩, ⟨rfl, rfl, rfl⟩, ⟨rfl, rfl, rfl⟩, ⟨rfl, rfl, rfl⟩, ⟨rfl, rfl, rfl⟩,
    ⟨rfl, rfl, rfl⟩, ⟨rfl, rfl, rfl⟩, ⟨rfl, rfl, rfl⟩, ⟨rfl, rfl, rfl⟩⟩

/-- Witness for C8: on the sample flow the `U` face `(0, 0, 0)` lies between an
out-of-range cell and the solid cell `(0, 0, 0)`; it holds `1` before and `0` after. -/
theorem extrapolateFluidVelocities_zero_outside_witness :
    CommitsFaceByFace MACVelocityField.commitTemporaryVelocityFieldValues ∧
    WellFormed shellFlowState ∧
    (∀ c ∈ shellFlowState._fluidCellIndices,
      shellFlowState._materialGrid.get c.i c.j c.k = some M_FLUID) ∧
    shellFlowState._MACVelocity.U 0 0 0 = 1 ∧
    ∃ s', _extrapolateFluidVelocities shellFlowState = some s' ∧
      s'._materialGrid = shellFlowState._materialGrid ∧
      (∀ x y z, s'._materialGrid.get x y z = some M_SOLID →
        s'._layerGrid.get x y z = some (-1)) ∧
      (∀ i j k : Int,
        (_isFaceBorderingMaterialU s'._materialGrid i j k M_FLUID = false →
          (∀ l : Int, 1 ≤ l → l ≤ ⌈shellFlowState._CFLConditionNumber⌉ + 2 →
            _isFaceBorderingLayerIndexU s'._layerGrid i j k l = false) →
          s'._MACVelocity.U i j k = 0) ∧
        (_isFaceBorderingMaterialV s'._materialGrid i j k M_FLUID = false →
          (∀ l : Int, 1 ≤ l → l ≤ ⌈shellFlowState._CFLConditionNumber⌉ + 2 →
            _isFaceBorderingLayerIndexV s'._layerGrid i j k l = false) →
          s'._MACVelocity.V i j k = 0) ∧
        (_isFaceBorderingMaterialW s'._materialGrid i j k M_FLUID = false →
          (∀ l : Int, 1 ≤ l → l ≤ ⌈shellFlowState._CFLConditionNumber⌉ + 2 →
            _isFaceBorderingLayerIndexW s'._layerGrid i j k l = false) →
          s'._MACVelocity.W i j k = 0)) ∧
      _isFaceBorderingMaterialU s'._materialGrid 0 0 0 M_FLUID = false ∧
      (∀ l : Int, 1 ≤ l → l ≤ ⌈shellFlowState._CFLConditionNumber⌉ + 2 →
        _isFaceBorderingLayerIndexU s'._layerGrid 0 0 0 l = false) ∧
      s'._MACVelocity.U 0 0 0 = 0 := by
  have hcells : ∀ c ∈ shellFlowState._fluidCellIndices,
      shellFlowState._materialGrid.get c.i c.j c.k = some M_FLUID := by
    intro c hc
    have : c = ⟨1, 1, 1⟩ := by simpa [shellFlowState, centreFluidState] using hc
    subst this
    decide
  obtain ⟨s', hrun, hmat, hsolid, hz⟩ := extrapolateFluidVelocities_zero_outside
    MACVelocityField.commitTemporaryVelocityFieldValues
    commitTemporaryVelocityFieldValues_faceByFace shellFlowState shellFlowState_wellFormed
    hcells
  have hb : _isFaceBorderingMaterialU s'._materialGrid 0 0 0 M_FLUID = false := by
    rw [hmat]
    decide
  have hlay : ∀ l : Int, 1 ≤ l → l ≤ ⌈shellFlowState._CFLConditionNumber⌉ + 2 →
      _isFaceBorderingLayerIndexU s'._layerGrid 0 0 0 l = false := by
    intro l hl _
    have hs : s'._materialGrid.get 0 0 0 = some M_SOLID := by
      rw [hmat]
      decide
    obtain ⟨hin, hval⟩ := get_eq_some (hsolid 0 0 0 hs)
    simp only [_isFaceBorderingLayerIndexU, cellHolds, Bool.or_eq_false_iff,
      Bool.and_eq_false_iff, decide_eq_false_iff_not]
    refine ⟨Or.inl ?_, Or.inr ?_⟩
    · simp [Array3d.isIndexInRange]
    · rw [hval]
      omega
  exact ⟨commitTemporaryVelocityFieldValues_faceByFace, shellFlowState_wellFormed, hcells,
    by decide, s', hrun, hmat, hsolid, hz, hb, hlay, (hz 0 0 0).1 hb hlay⟩

/-! ## C12: the substeps of `update` in single precision -/

theorem calculateNextTimeStepFloat_id (s : FluidSimulation) (m : ℚ) :
    _calculateNextTimeStepFloat (fun x => x) s m = _calculateNextTimeStep s m := by
  simp only [_calculateNextTimeStepFloat, _calculateNextTimeStep]

end GridFluidSim3D
